import Mathlib

/-! # space_shooter_3d: game-object lifecycle and collision core

A shallow embedding of `src/main.js`.  The module-level mutable variables of the
script (`score`, `bulletPool`, `activeBullets`, `enemies`, ...) are the fields of
one record `Game`; every function of the script that touches them is a function
`Game → Game`.  Bullets and explosions are JavaScript objects shared by reference
between a pool and an active roster, so they live in a store indexed by an object
identity (`Nat`) and the two arrays hold identities.  Enemies are referenced from
the roster only, so the roster holds the records.

Numbers are exact rationals (`ℚ`); `Date.now()` and the score are integers.
Everything that belongs to the rendering library or to the browser (bounding-box
computation, box intersection, `Math.sin`, `Math.PI`, the field of view, the random
particle velocities) is a field of `Env`, so every theorem holds for all of them.
-/

namespace SpaceShooter

/-! ## Data model -/

/-- A `THREE.Vector3`. -/
structure Vec3 where
  x : ℚ
  y : ℚ
  z : ℚ
deriving DecidableEq

/-- A `THREE.Box3`: `empty` is the box made by `new THREE.Box3()`. -/
inductive Box3 where
  | empty
  | box (min max : Vec3)
deriving DecidableEq

/-- The collaborators outside `main.js`: the rendering library and the browser. -/
structure Env where
  /-- `Math.sin`. -/
  sin : ℚ → ℚ
  /-- `Math.PI`. -/
  pi : ℚ
  /-- `Math.tan(THREE.MathUtils.degToRad(camera.fov / 2))`. -/
  tanHalfFov : ℚ
  /-- `box.setFromObject(bullet)` as a function of the bullet position. -/
  bulletBox : Vec3 → Box3
  /-- `box.setFromObject(enemy)`: type name, position, rotation x and y. -/
  enemyBox : String → Vec3 → ℚ → ℚ → Box3
  /-- `box.setFromObject(playerShip, true)` as a function of the ship position. -/
  playerBox : Vec3 → Box3
  /-- `box.getSize(target)`. -/
  getSize : Box3 → Vec3
  /-- `a.intersectsBox(b)`. -/
  intersectsBox : Box3 → Box3 → Bool
  /-- Random velocity given to particle `j` of the `k`-th explosion ever created. -/
  particleVelocity : Nat → Nat → Vec3

/-- A result of `Math.random()`: a number in `[0, 1)`. -/
structure Draw where
  val : ℚ
  nonneg : 0 ≤ val
  lt_one : val < 1

inductive GameState where
  | start_screen
  | playing
  | game_over
deriving DecidableEq

inductive MovementPattern where
  | straight
  | sine
deriving DecidableEq

/-- An entry of `ENEMY_TYPES` (geometry and material belong to the renderer).  The two
sine parameters are absent on a 'straight' entry and never read for it; they are stored
as 0 there. -/
structure EnemyType where
  name : String
  speed : ℚ
  score : Int
  movementPattern : MovementPattern
  sineFrequency : ℚ
  sineAmplitude : ℚ
deriving DecidableEq

def GRUNT : EnemyType :=
  { name := "GRUNT", speed := 4, score := 10, movementPattern := .straight,
    sineFrequency := 0, sineAmplitude := 0 }

def DODGER : EnemyType :=
  { name := "DODGER", speed := 5, score := 15, movementPattern := .sine,
    sineFrequency := 1 / 2, sineAmplitude := 5 }

/-- The values of `ENEMY_TYPES` in key order (`Object.keys(ENEMY_TYPES)`). -/
def ENEMY_TYPES : List EnemyType := [GRUNT, DODGER]

/-- The player ship: position and `userData`. -/
structure Player where
  position : Vec3
  boundingBox : Box3
  isHit : Bool
  hitTimer : ℚ
deriving DecidableEq

/-- A bullet mesh: `visible`, `position` and `userData`. -/
structure Bullet where
  visible : Bool
  isActive : Bool
  position : Vec3
  boundingBox : Box3
deriving DecidableEq

/-- An enemy mesh: position, rotation and `userData`.  The four sine fields exist only
on 'sine' enemies in the source and are read only for them. -/
structure Enemy where
  type : String
  definition : EnemyType
  speed : ℚ
  scoreValue : Int
  movementPattern : MovementPattern
  sineWaveTime : ℚ
  sineFrequency : ℚ
  sineAmplitude : ℚ
  baseX : ℚ
  isSpawning : Bool
  spawnTimer : ℚ
  position : Vec3
  rotationX : ℚ
  rotationY : ℚ
  boundingBox : Box3
  isHit : Bool
  hitByPlayer : Bool
  hitTimer : ℚ
deriving DecidableEq

/-- One particle mesh of an explosion. -/
structure Particle where
  position : Vec3
  scale : Vec3
  velocity : Vec3
deriving DecidableEq

/-- An explosion group: `visible`, `position` and `userData`. -/
structure Explosion where
  particles : List Particle
  isActive : Bool
  timer : ℚ
  visible : Bool
  position : Vec3
deriving DecidableEq

/-- The module-level state of `main.js`.  `bullets` and `explosions` are the object
stores; `bulletCount` and `explosionCount` count the objects created so far, so the next
object made by `new` gets that identity. -/
structure Game where
  gameState : GameState
  score : Int
  aspect : ℚ
  keysPressed : String → Bool
  playerShip : Player
  lastFireTime : Int
  bullets : Nat → Bullet
  bulletCount : Nat
  bulletPool : List Nat
  activeBullets : List Nat
  enemies : List Enemy
  lastEnemySpawnTime : Int
  explosions : Nat → Explosion
  explosionCount : Nat
  explosionPool : List Nat
  activeExplosions : List Nat

/-! ## Constants -/

def cameraFar : ℚ := 4000
def cameraPositionZ : ℚ := 15
def playerMoveSpeed : ℚ := 8
def playerHitDuration : ℚ := 150
def bulletMoveSpeed : ℚ := 25
def fireRate : Int := 180
def initialPoolSize : Nat := 50
def enemySpawnRate : Int := 1100
def enemyHitDuration : ℚ := 100
def enemySpawnFlashDuration : ℚ := 200
def maxEnemies : Nat := 25
def maxExplosions : Nat := 20
def explosionParticleCount : Nat := 50
def explosionDuration : ℚ := 500

/-! ## Player -/

/-- `updatePlayer(deltaTime)`. -/
def updatePlayer (env : Env) (deltaTime : ℚ) (g : Game) : Game :=
  let moveDistance := playerMoveSpeed * deltaTime
  let p := g.playerShip.position
  let y1 := if g.keysPressed "w" || g.keysPressed "arrowup" then p.y + moveDistance else p.y
  let y2 := if g.keysPressed "s" || g.keysPressed "arrowdown" then y1 - moveDistance else y1
  let x1 := if g.keysPressed "a" || g.keysPressed "arrowleft" then p.x - moveDistance else p.x
  let x2 := if g.keysPressed "d" || g.keysPressed "arrowright" then x1 + moveDistance else x1
  let worldHeight := env.tanHalfFov * cameraPositionZ * 2
  let worldWidth := worldHeight * g.aspect
  let shipSize := env.getSize (env.playerBox { x := x2, y := y2, z := p.z })
  let boundsX := worldWidth / 2 - shipSize.x / 2
  let boundsY := worldHeight / 2 - shipSize.y / 2
  let pos : Vec3 :=
    { x := max (-boundsX) (min boundsX x2), y := max (-boundsY) (min boundsY y2), z := p.z }
  let ship : Player := { g.playerShip with position := pos, boundingBox := env.playerBox pos }
  let ship :=
    if ship.isHit then
      let ship := { ship with hitTimer := ship.hitTimer - deltaTime * 1000 }
      if ship.hitTimer ≤ 0 then { ship with isHit := false } else ship
    else ship
  { g with playerShip := ship }

/-- `playerGotHit()`. -/
def playerGotHit (g : Game) : Game :=
  if !g.playerShip.isHit then
    { g with playerShip := { g.playerShip with isHit := true, hitTimer := playerHitDuration } }
  else g

/-! ## Bullets -/

/-- The object made by `new THREE.Mesh(bulletGeometry, bulletMaterial)` once
`userData.boundingBox = new THREE.Box3()` is set: visible, at the origin, `isActive`
not yet set (falsy). -/
def newBullet : Bullet :=
  { visible := true, isActive := false, position := { x := 0, y := 0, z := 0 },
    boundingBox := Box3.empty }

/-- Write one object of the bullet store. -/
def setBullet (g : Game) (b : Nat) (v : Bullet) : Game :=
  { g with bullets := Function.update g.bullets b v }

/-- The body of the `for` loop of `initializeBulletPool`, run `n` more times. -/
def fillBulletPool : Nat → Game → Game
  | 0, g => g
  | n + 1, g =>
    let b := g.bulletCount
    fillBulletPool n
      { g with
        bullets := Function.update g.bullets b { newBullet with visible := false, isActive := false }
        bulletCount := b + 1
        bulletPool := g.bulletPool ++ [b] }

/-- `initializeBulletPool()`. -/
def initializeBulletPool (g : Game) : Game :=
  fillBulletPool initialPoolSize { g with bulletPool := [] }

/-- `getBulletFromPool()`: the returned bullet (`none` for `null`) and the new state. -/
def getBulletFromPool (g : Game) : Option Nat × Game :=
  let r : Option Nat × Game :=
    if 0 < g.bulletPool.length then
      (g.bulletPool.getLast?, { g with bulletPool := g.bulletPool.dropLast })
    else
      (some g.bulletCount,
        { g with bullets := Function.update g.bullets g.bulletCount newBullet
                 bulletCount := g.bulletCount + 1 })
  match r.1 with
  | some b =>
    let g1 := r.2
    (some b,
      { g1 with
        bullets := Function.update g1.bullets b { g1.bullets b with visible := true, isActive := true }
        activeBullets := g1.activeBullets ++ [b] })
  | none => (none, r.2)

/-- `returnBulletToPool(bullet)`. -/
def returnBulletToPool (b : Nat) (g : Game) : Game :=
  { g with
    activeBullets := g.activeBullets.erase b
    bullets := Function.update g.bullets b
      { g.bullets b with visible := false, isActive := false,
                         position := { x := 0, y := 0, z := -cameraFar * 2 } }
    bulletPool := g.bulletPool ++ [b] }

/-- `fireBullet()`; `now` is the value of `Date.now()`. -/
def fireBullet (now : Int) (g : Game) : Game :=
  if now - g.lastFireTime < fireRate then g
  else
    match getBulletFromPool g with
    | (some b, g1) =>
      { g1 with
        lastFireTime := now
        bullets := Function.update g1.bullets b
          { g1.bullets b with
            position := { x := g1.playerShip.position.x, y := g1.playerShip.position.y,
                          z := g1.playerShip.position.z - 8 / 10 } } }
    | (none, g1) => g1

/-- The `for` loop of `updateBullets` with `i` indices still to visit (`i - 1` down to 0). -/
def updateBulletsLoop (env : Env) (deltaTime : ℚ) : Nat → Game → Game
  | 0, g => g
  | i + 1, g =>
    match g.activeBullets[i]? with
    | none => updateBulletsLoop env deltaTime i g
    | some b =>
      let bullet := g.bullets b
      if !bullet.isActive then
        updateBulletsLoop env deltaTime i (returnBulletToPool b g)
      else
        let pos : Vec3 := { bullet.position with z := bullet.position.z - bulletMoveSpeed * deltaTime }
        let bullet := { bullet with position := pos, boundingBox := env.bulletBox pos }
        let bullet :=
          if bullet.position.z < -cameraFar * (8 / 10) then { bullet with isActive := false }
          else bullet
        updateBulletsLoop env deltaTime i (setBullet g b bullet)

/-- `updateBullets(deltaTime)`. -/
def updateBullets (env : Env) (deltaTime : ℚ) (g : Game) : Game :=
  updateBulletsLoop env deltaTime g.activeBullets.length g

/-! ## Enemies -/

/-- The four `Math.random()` results one call of `spawnEnemy` may read: type, sine start
phase (read for a 'sine' type only), x and y. -/
structure SpawnDraws where
  typeDraw : Draw
  phaseDraw : Draw
  xDraw : Draw
  yDraw : Draw

/-- The type chosen by `enemyTypeKeys[Math.floor(Math.random() * enemyTypeKeys.length)]`;
`none` stands for `undefined`. -/
def selectEnemyType (typeDraw : Draw) : Option EnemyType :=
  ENEMY_TYPES[(⌊typeDraw.val * (ENEMY_TYPES.length : ℚ)⌋).toNat]?

/-- The enemy that `spawnEnemy` builds from `typeDefinition` (blocks "Create Enemy based
on Type" to the last `userData` assignment); `aspect` is the window's width over its
height. -/
def createEnemy (env : Env) (aspect : ℚ) (r : SpawnDraws) (typeDefinition : EnemyType) : Enemy :=
  let isSine : Bool := decide (typeDefinition.movementPattern = MovementPattern.sine)
  let worldHeightSpawn := env.tanHalfFov * 50 * 2
  let worldWidthSpawn := worldHeightSpawn * aspect
  let spawnAreaFactor : ℚ := 4 / 10
  let spawnX := (r.xDraw.val - 1 / 2) * (worldWidthSpawn * spawnAreaFactor)
  let spawnY := (r.yDraw.val - 1 / 2) * (worldHeightSpawn * spawnAreaFactor)
  let spawnZ : ℚ := -100
  { type := typeDefinition.name
    definition := typeDefinition
    speed := typeDefinition.speed
    scoreValue := typeDefinition.score
    movementPattern := typeDefinition.movementPattern
    sineWaveTime := if isSine then r.phaseDraw.val * env.pi * 2 else 0
    sineFrequency := if isSine then typeDefinition.sineFrequency else 0
    sineAmplitude := if isSine then typeDefinition.sineAmplitude else 0
    baseX := if isSine then spawnX else 0
    isSpawning := true
    spawnTimer := enemySpawnFlashDuration
    position := { x := spawnX, y := spawnY, z := spawnZ }
    rotationX := 0
    rotationY := 0
    boundingBox := Box3.empty
    isHit := false
    hitByPlayer := false
    hitTimer := 0 }

/-- `spawnEnemy()`; `now` is the value of `Date.now()`.  With a draw in `[0, 1)` the type
index is 0 or 1, so the lookup never misses; on a miss the script would stop with a
`TypeError` after the assignment to `lastEnemySpawnTime`. -/
def spawnEnemy (env : Env) (now : Int) (r : SpawnDraws) (g : Game) : Game :=
  if now - g.lastEnemySpawnTime < enemySpawnRate || decide (maxEnemies ≤ g.enemies.length) then g
  else
    let g := { g with lastEnemySpawnTime := now }
    match selectEnemyType r.typeDraw with
    | none => g
    | some typeDefinition =>
      { g with enemies := g.enemies ++ [createEnemy env g.aspect r typeDefinition] }

/-- `enemyGotHit(enemy, byPlayer)`. -/
def enemyGotHit (enemy : Enemy) (byPlayer : Bool) : Enemy :=
  if !enemy.isHit && !enemy.isSpawning then
    { enemy with isHit := true, hitByPlayer := byPlayer, hitTimer := enemyHitDuration }
  else enemy

/-! ## Explosions -/

/-- The particles made by the inner `for` loop for the `k`-th explosion created. -/
def newParticles (env : Env) (k : Nat) : List Particle :=
  (List.range explosionParticleCount).map fun j =>
    { position := { x := 0, y := 0, z := 0 }, scale := { x := 1, y := 1, z := 1 },
      velocity := env.particleVelocity k j }

/-- The `THREE.Group` built in `initializeExplosionPool` and `getExplosionFromPool`
before its `visible` flag is touched. -/
def newExplosion (env : Env) (k : Nat) : Explosion :=
  { particles := newParticles env k, isActive := false, timer := 0, visible := true,
    position := { x := 0, y := 0, z := 0 } }

/-- The body of the outer `for` loop of `initializeExplosionPool`, run `n` more times. -/
def fillExplosionPool (env : Env) : Nat → Game → Game
  | 0, g => g
  | n + 1, g =>
    let k := g.explosionCount
    fillExplosionPool env n
      { g with
        explosions := Function.update g.explosions k { newExplosion env k with visible := false }
        explosionCount := k + 1
        explosionPool := g.explosionPool ++ [k] }

/-- `initializeExplosionPool()`. -/
def initializeExplosionPool (env : Env) (g : Game) : Game :=
  fillExplosionPool env (maxExplosions / 2) { g with explosionPool := [] }

/-- `getExplosionFromPool()`: the returned explosion (`none` for `null`) and the new state. -/
def getExplosionFromPool (env : Env) (g : Game) : Option Nat × Game :=
  let r : Option Nat × Game :=
    if 0 < g.explosionPool.length then
      (g.explosionPool.getLast?, { g with explosionPool := g.explosionPool.dropLast })
    else if g.activeExplosions.length < maxExplosions then
      (some g.explosionCount,
        { g with
          explosions := Function.update g.explosions g.explosionCount (newExplosion env g.explosionCount)
          explosionCount := g.explosionCount + 1 })
    else (none, g)
  match r.1 with
  | some e =>
    let g1 := r.2
    let explosion := g1.explosions e
    (some e,
      { g1 with
        explosions := Function.update g1.explosions e
          { explosion with
            visible := true, isActive := true, timer := explosionDuration
            particles := explosion.particles.map fun p =>
              { p with position := { x := 0, y := 0, z := 0 }, scale := { x := 1, y := 1, z := 1 } } }
        activeExplosions := g1.activeExplosions ++ [e] })
  | none => (none, r.2)

/-- `returnExplosionToPool(explosion)`. -/
def returnExplosionToPool (e : Nat) (g : Game) : Game :=
  { g with
    activeExplosions := g.activeExplosions.erase e
    explosions := Function.update g.explosions e
      { g.explosions e with visible := false, isActive := false,
                            position := { x := 0, y := 0, z := -cameraFar * 2 } }
    explosionPool :=
      if g.explosionPool.length < maxExplosions then g.explosionPool ++ [e] else g.explosionPool }

/-- `triggerExplosion(position)`. -/
def triggerExplosion (env : Env) (position : Vec3) (g : Game) : Game :=
  match getExplosionFromPool env g with
  | (some e, g1) =>
    { g1 with explosions := Function.update g1.explosions e { g1.explosions e with position := position } }
  | (none, g1) => g1

/-- The `for` loop of `updateExplosions` with `i` indices still to visit. -/
def updateExplosionsLoop (deltaTime : ℚ) : Nat → Game → Game
  | 0, g => g
  | i + 1, g =>
    match g.activeExplosions[i]? with
    | none => updateExplosionsLoop deltaTime i g
    | some e =>
      let explosion := g.explosions e
      if !explosion.isActive then
        updateExplosionsLoop deltaTime i (returnExplosionToPool e g)
      else
        let explosion : Explosion := { explosion with timer := explosion.timer - deltaTime * 1000 }
        if explosion.timer ≤ 0 then
          updateExplosionsLoop deltaTime i
            { g with explosions := Function.update g.explosions e { explosion with isActive := false } }
        else
          let progress := 1 - explosion.timer / explosionDuration
          let scale := max 0 (1 - progress)
          let explosion : Explosion :=
            { explosion with
              particles := explosion.particles.map fun p =>
                { p with
                  position :=
                    { x := p.position.x + p.velocity.x * (deltaTime * 15)
                      y := p.position.y + p.velocity.y * (deltaTime * 15)
                      z := p.position.z + p.velocity.z * (deltaTime * 15) }
                  scale := { x := scale, y := scale, z := scale } } }
          updateExplosionsLoop deltaTime i
            { g with explosions := Function.update g.explosions e explosion }

/-- `updateExplosions(deltaTime)`. -/
def updateExplosions (deltaTime : ℚ) (g : Game) : Game :=
  updateExplosionsLoop deltaTime g.activeExplosions.length g

/-! ## Enemy update -/

/-- The block "Handle Spawn Flash" of the `updateEnemies` loop body (the opacity and the
material it sets are the renderer's). -/
def spawnFlash (deltaTime : ℚ) (enemy : Enemy) : Enemy :=
  if enemy.isSpawning then
    let enemy := { enemy with spawnTimer := enemy.spawnTimer - deltaTime * 1000 }
    if enemy.spawnTimer ≤ 0 then { enemy with isSpawning := false } else enemy
  else enemy

/-- The statement `enemy.position.z += moveDistanceZ` of the loop body. -/
def moveForward (deltaTime : ℚ) (enemy : Enemy) : Enemy :=
  let moveDistanceZ := enemy.speed * deltaTime
  { enemy with position := { enemy.position with z := enemy.position.z + moveDistanceZ } }

/-- The `if (movementPattern === 'sine' && !isSpawning)` block of the loop body. -/
def sineWeave (env : Env) (deltaTime : ℚ) (enemy : Enemy) : Enemy :=
  if enemy.movementPattern = MovementPattern.sine && !enemy.isSpawning then
    let t := enemy.sineWaveTime + enemy.sineFrequency * deltaTime
    let offsetX := env.sin t * enemy.sineAmplitude
    { enemy with sineWaveTime := t, position := { enemy.position with x := enemy.baseX + offsetX } }
  else enemy

/-- The bounding-box update and the rotation of the loop body, in this order. -/
def boxAndRotate (env : Env) (deltaTime : ℚ) (enemy : Enemy) : Enemy :=
  { enemy with
    boundingBox := env.enemyBox enemy.type enemy.position enemy.rotationX enemy.rotationY
    rotationX := enemy.rotationX + 1 * deltaTime
    rotationY := enemy.rotationY + 1 * deltaTime }

/-- How one pass of the `updateEnemies` loop body leaves an enemy. -/
inductive Removal where
  | keep
  | hitExpired
  | passedCamera
deriving DecidableEq

/-- The block "Hit Effect Timer & Removal Logic" and the passed-the-camera test of the
loop body, without the two global effects (`indicesToRemove.push(i)` and
`triggerExplosion`), which the tag stands for: `hitExpired` is the branch that pushes,
triggers the explosion and continues, `passedCamera` the branch that only pushes. -/
def hitTimerAndRemoval (deltaTime : ℚ) (enemy : Enemy) : Enemy × Removal :=
  if enemy.isHit then
    let enemy := { enemy with hitTimer := enemy.hitTimer - deltaTime * 1000 }
    if enemy.hitTimer ≤ 0 then (enemy, Removal.hitExpired)
    else if enemy.position.z > cameraPositionZ + 10 then (enemy, Removal.passedCamera)
    else (enemy, Removal.keep)
  else if enemy.position.z > cameraPositionZ + 10 then (enemy, Removal.passedCamera)
  else (enemy, Removal.keep)

/-- The body of the first `for` loop of `updateEnemies` for one enemy: its blocks in the
order of the source. -/
def updateEnemy (env : Env) (deltaTime : ℚ) (enemy : Enemy) : Enemy × Removal :=
  hitTimerAndRemoval deltaTime
    (boxAndRotate env deltaTime (sineWeave env deltaTime (moveForward deltaTime (spawnFlash deltaTime enemy))))

/-- The first `for` loop of `updateEnemies` with `i` indices still to visit; the second
component is `indicesToRemove`. -/
def updateEnemiesLoop (env : Env) (deltaTime : ℚ) : Nat → Game × List Nat → Game × List Nat
  | 0, s => s
  | i + 1, (g, indicesToRemove) =>
    match g.enemies[i]? with
    | none => updateEnemiesLoop env deltaTime i (g, indicesToRemove)
    | some enemy =>
      let r := updateEnemy env deltaTime enemy
      let g := { g with enemies := g.enemies.set i r.1 }
      match r.2 with
      | Removal.hitExpired =>
        updateEnemiesLoop env deltaTime i (triggerExplosion env r.1.position g, indicesToRemove ++ [i])
      | Removal.passedCamera => updateEnemiesLoop env deltaTime i (g, indicesToRemove ++ [i])
      | Removal.keep => updateEnemiesLoop env deltaTime i (g, indicesToRemove)

/-- The second `for` loop of `updateEnemies`: `enemies.splice(index, 1)` for every index
of the list that is still in range. -/
def removeEnemies : List Nat → List Enemy → List Enemy
  | [], enemies => enemies
  | index :: rest, enemies => removeEnemies rest (enemies.eraseIdx index)

/-- `updateEnemies(deltaTime)`. -/
def updateEnemies (env : Env) (deltaTime : ℚ) (g : Game) : Game :=
  let s := updateEnemiesLoop env deltaTime g.enemies.length (g, [])
  let sorted := s.2.insertionSort fun a b => b ≤ a
  { s.1 with enemies := removeEnemies sorted s.1.enemies }

/-! ## Collision detection -/

/-- The score added for a shot enemy, `enemy.userData.scoreValue || 10`. -/
def scoreValueOr10 (enemy : Enemy) : Int :=
  if enemy.scoreValue = 0 then 10 else enemy.scoreValue

/-- The inner `for (let j = 0; ...)` loop of the bullet pass for one bullet whose box is
`bulletBox`, from index `j` on, over the enemies from `j` on.  It returns these enemies,
the score, `enemiesHitThisFrame`, and whether the bullet hit (the `break` branch, where
the bullet is marked inactive). -/
def bulletScan (env : Env) (bulletBox : Box3) :
    Nat → List Enemy → Int → List Nat → List Enemy × Int × List Nat × Bool
  | _, [], score, hitThisFrame => ([], score, hitThisFrame, false)
  | j, enemy :: rest, score, hitThisFrame =>
    if enemy.isHit || enemy.isSpawning || hitThisFrame.contains j then
      let r := bulletScan env bulletBox (j + 1) rest score hitThisFrame
      (enemy :: r.1, r.2.1, r.2.2.1, r.2.2.2)
    else if env.intersectsBox bulletBox enemy.boundingBox then
      if !hitThisFrame.contains j then
        (enemyGotHit enemy false :: rest, score + scoreValueOr10 enemy, j :: hitThisFrame, true)
      else (enemy :: rest, score, hitThisFrame, true)
    else
      let r := bulletScan env bulletBox (j + 1) rest score hitThisFrame
      (enemy :: r.1, r.2.1, r.2.2.1, r.2.2.2)

/-- The body of the outer loop of the bullet pass for the bullet `b`; the second component
is `enemiesHitThisFrame`. -/
def bulletVisit (env : Env) (b : Nat) (g : Game) (hitThisFrame : List Nat) : Game × List Nat :=
  let bullet := g.bullets b
  if !bullet.isActive then (g, hitThisFrame)
  else
    let r := bulletScan env bullet.boundingBox 0 g.enemies g.score hitThisFrame
    let g := { g with enemies := r.1, score := r.2.1 }
    let g := if r.2.2.2 then setBullet g b { bullet with isActive := false } else g
    (g, r.2.2.1)

/-- The outer loop of the bullet pass with `i` indices of `activeBullets` still to visit;
the second component is `enemiesHitThisFrame`. -/
def bulletPassLoop (env : Env) : Nat → Game × List Nat → Game × List Nat
  | 0, s => s
  | i + 1, (g, hitThisFrame) =>
    match g.activeBullets[i]? with
    | none => bulletPassLoop env i (g, hitThisFrame)
    | some b => bulletPassLoop env i (bulletVisit env b g hitThisFrame)

/-- The bullet pass of `checkCollisions` (part 1), started with an empty set. -/
def bulletPass (env : Env) (g : Game) : Game × List Nat :=
  bulletPassLoop env g.activeBullets.length (g, [])

/-- The `for` loop of the player pass from index `j` on, over the enemies from `j` on.
The state `g` carries the score and the player; its `enemies` field is not read here and
is written by `checkCollisions` from the first component. -/
def playerScan (env : Env) : Nat → List Enemy → Game → List Nat → List Enemy × Game × List Nat
  | _, [], g, hitThisFrame => ([], g, hitThisFrame)
  | j, enemy :: rest, g, hitThisFrame =>
    if enemy.isHit || enemy.isSpawning || hitThisFrame.contains j then
      let r := playerScan env (j + 1) rest g hitThisFrame
      (enemy :: r.1, r.2.1, r.2.2)
    else if env.intersectsBox g.playerShip.boundingBox enemy.boundingBox then
      let penalty : Int := 25
      let score := g.score - penalty
      let score := if score < 0 then 0 else score
      let g := playerGotHit { g with score := score }
      let r := playerScan env (j + 1) rest g (j :: hitThisFrame)
      (enemyGotHit enemy true :: r.1, r.2.1, r.2.2)
    else
      let r := playerScan env (j + 1) rest g hitThisFrame
      (enemy :: r.1, r.2.1, r.2.2)

/-- The player pass of `checkCollisions` (part 2) after a bullet pass that left the state
`g` and the set `hitThisFrame`. -/
def playerPass (env : Env) (g : Game) (hitThisFrame : List Nat) : Game :=
  if !g.playerShip.isHit then
    let r := playerScan env 0 g.enemies g hitThisFrame
    { r.2.1 with enemies := r.1 }
  else g

/-- `checkCollisions()`. -/
def checkCollisions (env : Env) (g : Game) : Game :=
  let s := bulletPass env g
  playerPass env s.1 s.2

/-! ## Frame loop and initialization -/

/-- What one frame reads from outside: `clock.getDelta()`, the two `Date.now()` values
(in `fireBullet` and in `spawnEnemy`) and the random draws of `spawnEnemy`. -/
structure FrameInput where
  deltaTime : ℚ
  fireNow : Int
  spawnNow : Int
  draws : SpawnDraws

/-- The game logic of `animate()` (the background animation and the render call are the
renderer's). -/
def animate (env : Env) (inp : FrameInput) (g : Game) : Game :=
  if g.gameState ≠ GameState.playing then g
  else
    let g := if g.keysPressed " " then fireBullet inp.fireNow g else g
    let g := updatePlayer env inp.deltaTime g
    let g := updateBullets env inp.deltaTime g
    let g := spawnEnemy env inp.spawnNow inp.draws g
    let g := updateEnemies env inp.deltaTime g
    let g := updateExplosions inp.deltaTime g
    checkCollisions env g

/-- The call `activeBullets.forEach(b => returnBulletToPool(b))`: `n` indices are still to
visit, the next one is `k`; an index past the end of the array, which the callback
shortens, is skipped. -/
def forEachActiveBullet : Nat → Nat → Game → Game
  | 0, _, g => g
  | n + 1, k, g =>
    match g.activeBullets[k]? with
    | none => forEachActiveBullet n (k + 1) g
    | some b => forEachActiveBullet n (k + 1) (returnBulletToPool b g)

/-- The call `activeExplosions.forEach(e => returnExplosionToPool(e))`. -/
def forEachActiveExplosion : Nat → Nat → Game → Game
  | 0, _, g => g
  | n + 1, k, g =>
    match g.activeExplosions[k]? with
    | none => forEachActiveExplosion n (k + 1) g
    | some e => forEachActiveExplosion n (k + 1) (returnExplosionToPool e g)

/-- The first three blocks of `initializeGame()`: "Reset game state variables", "Clear
existing game objects" and "Reset player state". -/
def resetGameObjects (g : Game) : Game :=
  let g := { g with score := 0, lastEnemySpawnTime := 0, lastFireTime := 0,
                    keysPressed := fun _ => false }
  let g := forEachActiveBullet g.activeBullets.length 0 g
  let g := forEachActiveExplosion g.activeExplosions.length 0 g
  let g := { g with enemies := [], activeBullets := [], activeExplosions := [] }
  { g with
    playerShip :=
      { g.playerShip with position := { x := 0, y := 0, z := 0 }, isHit := false, hitTimer := 0 } }

/-- `initializeGame()`: the reset, then "Initialize pools" and the return to the start
screen (the call of `animate()` at its end only renders, the state not being 'playing'). -/
def initializeGame (env : Env) (g : Game) : Game :=
  let g := resetGameObjects g
  let g := initializeBulletPool g
  let g := initializeExplosionPool env g
  { g with gameState := GameState.start_screen }

/-- The state of the module-level variables when the script reaches its last line, the
first call of `initializeGame()`; `aspect` is the window's width over its height. -/
def moduleState (aspect : ℚ) : Game :=
  { gameState := GameState.start_screen
    score := 0
    aspect := aspect
    keysPressed := fun _ => false
    playerShip :=
      { position := { x := 0, y := 0, z := 0 }, boundingBox := Box3.empty, isHit := false,
        hitTimer := 0 }
    lastFireTime := 0
    bullets := fun _ => newBullet
    bulletCount := 0
    bulletPool := []
    activeBullets := []
    enemies := []
    lastEnemySpawnTime := 0
    explosions := fun _ =>
      { particles := [], isActive := false, timer := 0, visible := true,
        position := { x := 0, y := 0, z := 0 } }
    explosionCount := 0
    explosionPool := []
    activeExplosions := [] }

/-- The click handler of the start button. -/
def clickStart (g : Game) : Game :=
  if g.gameState = GameState.start_screen then { g with gameState := GameState.playing } else g

/-- The `toLowerCase()` of the key handlers, on the letters `A` to `Z`; every key name the
script reads (`' '`, `'w'`, `'arrowup'`, ...) is made of these and of characters without case. -/
def toLowerCase (key : String) : String :=
  String.mk (key.data.map Char.toLower)

/-- The `keydown` (`pressed = true`) and `keyup` (`pressed = false`) handlers; `eventKey` is
`event.key`, stored under its lower-case form. -/
def keyEvent (eventKey : String) (pressed : Bool) (g : Game) : Game :=
  let key := toLowerCase eventKey
  { g with keysPressed := Function.update g.keysPressed key pressed }

/-- A change of the window size. -/
def resize (aspect : ℚ) (g : Game) : Game :=
  { g with aspect := aspect }

/-- The states the running script can be in: the first `initializeGame()`, then frames of
`animate`, events of the page, and further calls of `initializeGame()` (restarts). -/
inductive Reachable (env : Env) : Game → Prop where
  | boot (aspect : ℚ) : Reachable env (initializeGame env (moduleState aspect))
  | frame (inp : FrameInput) (g : Game) : Reachable env g → Reachable env (animate env inp g)
  | restart (g : Game) : Reachable env g → Reachable env (initializeGame env g)
  | start (g : Game) : Reachable env g → Reachable env (clickStart g)
  | key (k : String) (pressed : Bool) (g : Game) : Reachable env g → Reachable env (keyEvent k pressed g)
  | resized (aspect : ℚ) (g : Game) : Reachable env g → Reachable env (resize aspect g)

/-! ## Derived notions used in the statements -/

/-- The enemy a frame leaves in the roster, if it leaves it there. -/
def survivor (env : Env) (deltaTime : ℚ) (enemy : Enemy) : Option Enemy :=
  if (updateEnemy env deltaTime enemy).2 = Removal.keep then some (updateEnemy env deltaTime enemy).1
  else none

/-- The indices pushed to `indicesToRemove` while the loop walks down a roster given in
reverse order. -/
def removalIndices (env : Env) (deltaTime : ℚ) : List Enemy → List Nat
  | [] => []
  | enemy :: below =>
    if (updateEnemy env deltaTime enemy).2 = Removal.keep then removalIndices env deltaTime below
    else below.length :: removalIndices env deltaTime below

/-- The enemy after the frames with elapsed times `ds`, in order, for as long as it is in
the roster: the loop body of `updateEnemies` once a frame. -/
def updateEnemyFrames (env : Env) : List ℚ → Enemy → Enemy
  | [], enemy => enemy
  | d :: ds, enemy => updateEnemyFrames env ds (updateEnemy env d enemy).1

/-! ## Example data -/

/-- A cube of half-width `h` around `p`. -/
def cubeAround (h : ℚ) (p : Vec3) : Box3 :=
  Box3.box { x := p.x - h, y := p.y - h, z := p.z - h } { x := p.x + h, y := p.y + h, z := p.z + h }

/-- Box intersection as the rendering library computes it: two boxes meet unless one lies
wholly beyond the other along an axis; the box of `new THREE.Box3()` meets nothing. -/
def boxesIntersect : Box3 → Box3 → Bool
  | Box3.box amin amax, Box3.box bmin bmax =>
    !(decide (bmax.x < amin.x) || decide (amax.x < bmin.x)
      || decide (bmax.y < amin.y) || decide (amax.y < bmin.y)
      || decide (bmax.z < amin.z) || decide (amax.z < bmin.z))
  | _, _ => false

/-- The extent of a box, zero for the empty one. -/
def boxSize : Box3 → Vec3
  | Box3.box bmin bmax => { x := bmax.x - bmin.x, y := bmax.y - bmin.y, z := bmax.z - bmin.z }
  | Box3.empty => { x := 0, y := 0, z := 0 }

/-- An environment for the examples: a 75 degree field of view (`tan 37.5° ≈ 0.767`),
cubes around the position as bounding boxes, and a cubic approximation of the sine. -/
def exampleEnv : Env :=
  { sin := fun t => t - t ^ 3 / 6
    pi := 355 / 113
    tanHalfFov := 767 / 1000
    bulletBox := cubeAround (12 / 100)
    enemyBox := fun name p _ _ => cubeAround (if name = "GRUNT" then 16 / 10 else 14 / 10) p
    playerBox := cubeAround (5 / 4)
    getSize := boxSize
    intersectsBox := boxesIntersect
    particleVelocity := fun _ _ => { x := 0, y := 1 / 10, z := 0 } }

/-- A DODGER past its spawn flash, spawned at `x = 3`. -/
def exampleDodger : Enemy :=
  { type := "DODGER", definition := DODGER, speed := 5, scoreValue := 15,
    movementPattern := MovementPattern.sine, sineWaveTime := 0, sineFrequency := 1 / 2,
    sineAmplitude := 5, baseX := 3, isSpawning := false, spawnTimer := 0,
    position := { x := 3, y := 0, z := -90 }, rotationX := 0, rotationY := 0,
    boundingBox := Box3.empty, isHit := false, hitByPlayer := false, hitTimer := 0 }

/-- A playing state with two bullets in flight (objects 0 and 1), one pooled bullet
(object 2), no enemy and no explosion. -/
def exampleGame : Game :=
  { moduleState (16 / 9) with
    gameState := GameState.playing
    bullets := fun i =>
      if i < 2 then
        { visible := true, isActive := true, position := { x := 0, y := 0, z := -10 },
          boundingBox := cubeAround (12 / 100) { x := 0, y := 0, z := -10 } }
      else
        { visible := false, isActive := false, position := { x := 0, y := 0, z := -8000 },
          boundingBox := Box3.empty }
    bulletCount := 3
    bulletPool := [2]
    activeBullets := [0, 1] }

/-- A state with one running explosion (object 0, three particles that have moved and
shrunk) and an empty explosion pool. -/
def exampleExplosionGame : Game :=
  { exampleGame with
    explosions := fun _ =>
      { particles := List.replicate 3
          { position := { x := 1, y := 2, z := 3 }, scale := { x := 1 / 2, y := 1 / 2, z := 1 / 2 },
            velocity := { x := 0, y := 1 / 10, z := 0 } }
        isActive := true, timer := 250, visible := true, position := { x := 0, y := 0, z := -50 } }
    explosionCount := 1
    explosionPool := []
    activeExplosions := [0] }

/-- What `checkCollisions` can do to one enemy: nothing, or one call of `enemyGotHit`. -/
def HitStep (e e' : Enemy) : Prop :=
  e' = e ∨ ∃ byPlayer : Bool, e' = enemyGotHit e byPlayer

/-- The state of a frame of `animate` just before its call of `spawnEnemy`: after the
fire input, `updatePlayer` and `updateBullets`. -/
def beforeSpawn (env : Env) (inp : FrameInput) (g : Game) : Game :=
  updateBullets env inp.deltaTime
    (updatePlayer env inp.deltaTime (if g.keysPressed " " then fireBullet inp.fireNow g else g))

/-- The state of a frame of `animate` just before its call of `checkCollisions`. -/
def beforeCollisions (env : Env) (inp : FrameInput) (g : Game) : Game :=
  updateExplosions inp.deltaTime
    (updateEnemies env inp.deltaTime (spawnEnemy env inp.spawnNow inp.draws (beforeSpawn env inp g)))

/-- The draw `1/2`. -/
def halfDraw : Draw := { val := 1 / 2, nonneg := by norm_num, lt_one := by norm_num }

/-- The draw `0`. -/
def zeroDraw : Draw := { val := 0, nonneg := le_refl 0, lt_one := by norm_num }

/-- Draws that select GRUNT (index `⌊0 * 2⌋ = 0`) and the centre of the spawn area. -/
def gruntAtCentre : SpawnDraws :=
  { typeDraw := zeroDraw, phaseDraw := zeroDraw, xDraw := halfDraw, yDraw := halfDraw }

/-- A frame of 1/60 s, two seconds after the page was loaded. -/
def exampleFrame : FrameInput :=
  { deltaTime := 1 / 60, fireNow := 2000, spawnNow := 2000, draws := gruntAtCentre }

/-- The state after loading the page, clicking the start button and one frame. -/
def exampleRun : Game :=
  animate exampleEnv exampleFrame (clickStart (initializeGame exampleEnv (moduleState (16 / 9))))

/-- For each enemy of a roster segment that starts at index `j`, whether the player pass
hits it: the enemy is not hit, not spawning, not in `enemiesHitThisFrame`, and its box
intersects the player's box `box`. -/
def playerFlags (env : Env) (box : Box3) (hitThisFrame : List Nat) : Nat → List Enemy → List Bool
  | _, [] => []
  | j, e :: es =>
    (!(e.isHit || e.isSpawning || hitThisFrame.contains j) && env.intersectsBox box e.boundingBox)
      :: playerFlags env box hitThisFrame (j + 1) es

/-- One application of the player-collision branch to the score and the player: the
penalty with the floor at zero, then `playerGotHit()`. -/
def penaltyAndHit (g : Game) : Game :=
  playerGotHit { g with score := if g.score - 25 < 0 then 0 else g.score - 25 }

/-- A GRUNT past its spawn flash at the position `p`, with the box of the example
environment. -/
def exampleGrunt (p : Vec3) : Enemy :=
  { type := "GRUNT", definition := GRUNT, speed := 4, scoreValue := 10,
    movementPattern := MovementPattern.straight, sineWaveTime := 0, sineFrequency := 0,
    sineAmplitude := 0, baseX := 0, isSpawning := false, spawnTimer := 0,
    position := p, rotationX := 0, rotationY := 0,
    boundingBox := cubeAround (16 / 10) p, isHit := false, hitByPlayer := false, hitTimer := 0 }

/-- A playing state with score 60, no bullet in flight, the player at the origin and two
GRUNTs overlapping it. -/
def exampleCrashGame : Game :=
  { moduleState (16 / 9) with
    gameState := GameState.playing
    score := 60
    playerShip :=
      { position := { x := 0, y := 0, z := 0 },
        boundingBox := cubeAround (5 / 4) { x := 0, y := 0, z := 0 }, isHit := false, hitTimer := 0 }
    enemies := [exampleGrunt { x := 0, y := 0, z := 0 }, exampleGrunt { x := 1, y := 0, z := 1 }] }

/-- For each enemy of the roster, whether the player pass of `checkCollisions` started in
`g` hits it: after the bullet pass the enemy is not hit, not spawning, not in
`enemiesHitThisFrame`, and its box intersects the player's. -/
def playerTargets (env : Env) (g : Game) : List Bool :=
  playerFlags env g.playerShip.boundingBox (bulletPass env g).2 0 (bulletPass env g).1.enemies

/-- The type values of an enemy are those of the `ENEMY_TYPES` entry it carries. -/
def TypeFixed (e : Enemy) : Prop :=
  e.definition ∈ ENEMY_TYPES ∧ e.type = e.definition.name ∧ e.speed = e.definition.speed
    ∧ e.scoreValue = e.definition.score ∧ e.movementPattern = e.definition.movementPattern

/-- The enemy `e'` has the type values of `e`. -/
def SameType (e e' : Enemy) : Prop :=
  e'.definition = e.definition ∧ e'.type = e.type ∧ e'.speed = e.speed
    ∧ e'.scoreValue = e.scoreValue ∧ e'.movementPattern = e.movementPattern

/-- A playing state with an empty roster, score 0 and one bullet in flight (object 0) on
the centre line at depth -94. -/
def exampleAmbushGame : Game :=
  { moduleState (16 / 9) with
    gameState := GameState.playing
    bullets := fun _ =>
      { visible := true, isActive := true, position := { x := 0, y := 0, z := -94 },
        boundingBox := cubeAround (12 / 100) { x := 0, y := 0, z := -94 } }
    bulletCount := 1
    activeBullets := [0] }

/-- Draws that select GRUNT and the left edge of the spawn area. -/
def gruntAtLeft : SpawnDraws :=
  { typeDraw := zeroDraw, phaseDraw := zeroDraw, xDraw := zeroDraw, yDraw := halfDraw }

/-- The first playing frame of the example run: 1/60 s, clock at 5000 ms. -/
def firstFrame : FrameInput :=
  { deltaTime := 1 / 60, fireNow := 5000, spawnNow := 5000, draws := gruntAtLeft }

/-- A frame after a stall of the page: 3.4 s elapsed, clock at 8400 ms. -/
def stallFrame : FrameInput :=
  { deltaTime := 34 / 10, fireNow := 8400, spawnNow := 8400, draws := gruntAtCentre }

/-- The state after loading the page, pressing the space bar, clicking the start button
and one frame: one bullet fired, one GRUNT spawned at the left edge. -/
def firingGame : Game :=
  animate exampleEnv firstFrame
    (clickStart (keyEvent " " true (initializeGame exampleEnv (moduleState (16 / 9)))))

/-- A frame of 1/5 s with the clock at 5200 ms: 200 ms after the first shot, too early for
a second spawn. -/
def secondFrame : FrameInput :=
  { deltaTime := 1 / 5, fireNow := 5200, spawnNow := 5200, draws := gruntAtCentre }

/-- The state after one more frame with the space bar held: two bullets in flight
(objects 49 and 48), both active. -/
def twoBulletGame : Game :=
  animate exampleEnv secondFrame firingGame

/-- The score the bullet pass adds between two states of a roster: `scoreValue || 10` for
every enemy (by index) that was not in Hit state before and is in Hit state after. -/
def hitGain (before after : List Enemy) : Int :=
  (List.zipWith (fun e e' => if !e.isHit && e'.isHit then scoreValueOr10 e else 0) before after).sum

/-- What the bullet pass can do to one enemy: nothing, or the one transition into Hit of an
enemy that is neither hit nor spawning, credited to a shot. -/
def ShotStep (e e' : Enemy) : Prop :=
  e' = e ∨ (e.isHit = false ∧ e.isSpawning = false
    ∧ e' = { e with isHit := true, hitByPlayer := false, hitTimer := enemyHitDuration })

/-- The example state with one GRUNT placed where both bullets in flight are. -/
def exampleCrossfireGame : Game :=
  { exampleGame with enemies := [exampleGrunt { x := 0, y := 0, z := -10 }] }

/-- The sum of `scoreValue` over the enemies (by index) that were not in Hit state before
and are in Hit state after. -/
def creditedScore (before after : List Enemy) : Int :=
  (List.zipWith (fun e e' => if !e.isHit && e'.isHit then e.scoreValue else 0) before after).sum

/-- The roster entry `e` with the bounding box `f e` in place of its own if `e` is in the
Spawning state, and `e` itself otherwise. -/
def rebox (f : Enemy → Box3) (e : Enemy) : Enemy :=
  if e.isSpawning then { e with boundingBox := f e } else e

/-- The state never seen together: Spawning and Hit. -/
def SpawningUnhit (e : Enemy) : Prop :=
  e.isSpawning = true → e.isHit = false

/-- A pool and its roster hold distinct objects, no object in both, all of them among the
`count` objects created so far. -/
def PoolSplit (pool active : List Nat) (count : Nat) : Prop :=
  (pool ++ active).Nodup ∧ ∀ b ∈ pool ++ active, b < count

/-- The bullet pool and roster are split, and every pooled bullet is inactive. -/
def BulletInv (g : Game) : Prop :=
  PoolSplit g.bulletPool g.activeBullets g.bulletCount
    ∧ ∀ b ∈ g.bulletPool, (g.bullets b).isActive = false

/-- The explosion pool and roster are split, and every pooled explosion is inactive. -/
def ExplosionInv (g : Game) : Prop :=
  PoolSplit g.explosionPool g.activeExplosions g.explosionCount
    ∧ ∀ e ∈ g.explosionPool, (g.explosions e).isActive = false

/-- The state a frame of `stallFrame` leaves after `firingGame`: the bullet fired in it
(object 48) has hit the GRUNT spawned in it. -/
def hitGame : Game :=
  animate exampleEnv stallFrame firingGame

/-- The player's position after the four key tests of `updatePlayer`, before the clamp. -/
def movedPlayerPosition (deltaTime : ℚ) (g : Game) : Vec3 :=
  let moveDistance := playerMoveSpeed * deltaTime
  let p := g.playerShip.position
  let y1 := if g.keysPressed "w" || g.keysPressed "arrowup" then p.y + moveDistance else p.y
  let y2 := if g.keysPressed "s" || g.keysPressed "arrowdown" then y1 - moveDistance else y1
  let x1 := if g.keysPressed "a" || g.keysPressed "arrowleft" then p.x - moveDistance else p.x
  let x2 := if g.keysPressed "d" || g.keysPressed "arrowright" then x1 + moveDistance else x1
  { x := x2, y := y2, z := p.z }

/-- The `bounds` object of `updatePlayer`: `(bounds.x, bounds.y)`. -/
def playerBounds (env : Env) (deltaTime : ℚ) (g : Game) : ℚ × ℚ :=
  let worldHeight := env.tanHalfFov * cameraPositionZ * 2
  let worldWidth := worldHeight * g.aspect
  let shipSize := env.getSize (env.playerBox (movedPlayerPosition deltaTime g))
  (worldWidth / 2 - shipSize.x / 2, worldHeight / 2 - shipSize.y / 2)

/-- No movement key is held. -/
def noMovementKey (g : Game) : Prop :=
  ∀ k ∈ ["w", "arrowup", "s", "arrowdown", "a", "arrowleft", "d", "arrowright"],
    g.keysPressed k = false

/-- A DODGER in its spawn flash with the whole flash still ahead. -/
def spawningDodger : Enemy :=
  { exampleDodger with isSpawning := true, spawnTimer := enemySpawnFlashDuration }

/-- The positions `triggerExplosion` is called with by the first loop of `updateEnemies`,
in the order of the calls, for a roster given in the order the loop visits it (last entry
first): the position after the move of every enemy whose hit timer expires. -/
def explosionCalls (env : Env) (deltaTime : ℚ) (visited : List Enemy) : List Vec3 :=
  visited.filterMap fun enemy =>
    if (updateEnemy env deltaTime enemy).2 = Removal.hitExpired then
      some (updateEnemy env deltaTime enemy).1.position
    else none

/-- A GRUNT whose hit timer has 10 ms left, one that has reached depth 30, and one in
mid-field, in this order. -/
def exampleRoster : List Enemy :=
  [{ exampleGrunt { x := 0, y := 0, z := -40 } with isHit := true, hitTimer := 10 },
   exampleGrunt { x := 2, y := 0, z := 30 },
   exampleGrunt { x := 4, y := 0, z := -50 }]

/-- A playing state with the player at the origin, one bullet in flight (object 0) at
depth -1 and one GRUNT at depth -1, whose box overlaps both the bullet's and the player's. -/
def exampleDuelGame : Game :=
  { moduleState (16 / 9) with
    gameState := GameState.playing
    playerShip :=
      { position := { x := 0, y := 0, z := 0 },
        boundingBox := cubeAround (5 / 4) { x := 0, y := 0, z := 0 }, isHit := false, hitTimer := 0 }
    bullets := fun _ =>
      { visible := true, isActive := true, position := { x := 0, y := 0, z := -1 },
        boundingBox := cubeAround (12 / 100) { x := 0, y := 0, z := -1 } }
    bulletCount := 1
    activeBullets := [0]
    enemies := [exampleGrunt { x := 0, y := 0, z := -1 }] }

/-! ## `checkCollisions` without the `enemiesHitThisFrame` set

The variant of `checkCollisions` in which every test of `enemiesHitThisFrame` and every
insertion into it is removed; the rest is the source's. -/

/-- The inner loop of the bullet pass without the set. -/
def bulletScanNoSet (env : Env) (bulletBox : Box3) : List Enemy → Int → List Enemy × Int × Bool
  | [], score => ([], score, false)
  | enemy :: rest, score =>
    if enemy.isHit || enemy.isSpawning then
      let r := bulletScanNoSet env bulletBox rest score
      (enemy :: r.1, r.2.1, r.2.2)
    else if env.intersectsBox bulletBox enemy.boundingBox then
      (enemyGotHit enemy false :: rest, score + scoreValueOr10 enemy, true)
    else
      let r := bulletScanNoSet env bulletBox rest score
      (enemy :: r.1, r.2.1, r.2.2)

/-- The body of the outer loop of the bullet pass without the set. -/
def bulletVisitNoSet (env : Env) (b : Nat) (g : Game) : Game :=
  let bullet := g.bullets b
  if !bullet.isActive then g
  else
    let r := bulletScanNoSet env bullet.boundingBox g.enemies g.score
    let g := { g with enemies := r.1, score := r.2.1 }
    if r.2.2 then setBullet g b { bullet with isActive := false } else g

/-- The outer loop of the bullet pass without the set. -/
def bulletPassLoopNoSet (env : Env) : Nat → Game → Game
  | 0, g => g
  | i + 1, g =>
    match g.activeBullets[i]? with
    | none => bulletPassLoopNoSet env i g
    | some b => bulletPassLoopNoSet env i (bulletVisitNoSet env b g)

/-- The loop of the player pass without the set. -/
def playerScanNoSet (env : Env) : List Enemy → Game → List Enemy × Game
  | [], g => ([], g)
  | enemy :: rest, g =>
    if enemy.isHit || enemy.isSpawning then
      let r := playerScanNoSet env rest g
      (enemy :: r.1, r.2)
    else if env.intersectsBox g.playerShip.boundingBox enemy.boundingBox then
      let penalty : Int := 25
      let score := g.score - penalty
      let score := if score < 0 then 0 else score
      let g := playerGotHit { g with score := score }
      let r := playerScanNoSet env rest g
      (enemyGotHit enemy true :: r.1, r.2)
    else
      let r := playerScanNoSet env rest g
      (enemy :: r.1, r.2)

/-- `checkCollisions()` without the set. -/
def checkCollisionsNoSet (env : Env) (g : Game) : Game :=
  let g := bulletPassLoopNoSet env g.activeBullets.length g
  if !g.playerShip.isHit then
    let r := playerScanNoSet env g.enemies g
    { r.2 with enemies := r.1 }
  else g

/-- Every index of the set `hit` that falls on the roster segment `es`, which starts at
index `j`, is the index of an enemy in Hit state. -/
def HitSetOk (j : Nat) (es : List Enemy) (hit : List Nat) : Prop :=
  ∀ (k : Nat) (e : Enemy), es[k]? = some e → j + k ∈ hit → e.isHit = true

/-- How many enemies (by index) were not in Hit state before and are in Hit state after. -/
def hitCount (before after : List Enemy) : Nat :=
  (List.zipWith (fun e e' => !e.isHit && e'.isHit) before after).count true

/-- How many enemies (by index) were not in Hit state before and are in Hit state after
with `hitByPlayer` false. -/
def shotCount (before after : List Enemy) : Nat :=
  (List.zipWith (fun e e' => !e.isHit && e'.isHit && !e'.hitByPlayer) before after).count true

/-- The bullets of the roster that were active before and are inactive after. -/
def consumedBullets (before after : Game) : List Nat :=
  before.activeBullets.filter fun b => (before.bullets b).isActive && !(after.bullets b).isActive

/-- What the player pass can do to one enemy: nothing, or `enemyGotHit(enemy, true)`. -/
def PlayerStep (e e' : Enemy) : Prop :=
  e' = e ∨ e' = enemyGotHit e true

/-- What one pass of the `updateBullets` loop body does to the bullet object it visits:
an inactive bullet is released (the writes of `returnBulletToPool`), an active one is moved,
gets its box recomputed, and is marked inactive once beyond the range. -/
def bulletStep (env : Env) (deltaTime : ℚ) (bullet : Bullet) : Bullet :=
  if !bullet.isActive then
    { bullet with visible := false, isActive := false,
                  position := { x := 0, y := 0, z := -cameraFar * 2 } }
  else
    let pos : Vec3 := { bullet.position with z := bullet.position.z - bulletMoveSpeed * deltaTime }
    let bullet := { bullet with position := pos, boundingBox := env.bulletBox pos }
    if bullet.position.z < -cameraFar * (8 / 10) then { bullet with isActive := false }
    else bullet

/-- What one pass of the `updateExplosions` loop body does to the explosion object it
visits: an inactive explosion is released, an active one has its timer decremented and is
marked inactive when the timer runs out, or else has its particles moved and shrunk. -/
def explosionStep (deltaTime : ℚ) (explosion : Explosion) : Explosion :=
  if !explosion.isActive then
    { explosion with visible := false, isActive := false,
                     position := { x := 0, y := 0, z := -cameraFar * 2 } }
  else
    let explosion : Explosion := { explosion with timer := explosion.timer - deltaTime * 1000 }
    if explosion.timer ≤ 0 then { explosion with isActive := false }
    else
      let progress := 1 - explosion.timer / explosionDuration
      let scale := max 0 (1 - progress)
      { explosion with
        particles := explosion.particles.map fun p =>
          { p with
            position :=
              { x := p.position.x + p.velocity.x * (deltaTime * 15)
                y := p.position.y + p.velocity.y * (deltaTime * 15)
                z := p.position.z + p.velocity.z * (deltaTime * 15) }
            scale := { x := scale, y := scale, z := scale } } }

/-- The pool and the roster of explosions together hold at most `maxExplosions` objects. -/
def ExplosionBound (g : Game) : Prop :=
  g.explosionPool.length + g.activeExplosions.length ≤ maxExplosions

/-- The state of a playing frame after the `fireBullet` step of `animate`. -/
def afterFire (inp : FrameInput) (g : Game) : Game :=
  if g.keysPressed " " then fireBullet inp.fireNow g else g

/-- The states a playing frame of `animate` goes through, one after each of its seven
steps: `fireBullet` (if the space bar is held), `updatePlayer`, `updateBullets`,
`spawnEnemy`, `updateEnemies`, `updateExplosions`, `checkCollisions`. -/
def frameStates (env : Env) (inp : FrameInput) (g : Game) : List Game :=
  let g1 := afterFire inp g
  let g2 := updatePlayer env inp.deltaTime g1
  let g3 := updateBullets env inp.deltaTime g2
  let g4 := spawnEnemy env inp.spawnNow inp.draws g3
  let g5 := updateEnemies env inp.deltaTime g4
  let g6 := updateExplosions inp.deltaTime g5
  [g1, g2, g3, g4, g5, g6, checkCollisions env g6]

/-- The invariant of the two pools: each pool and its roster are split and hold created
objects only, every pooled object is inactive, and the explosions number at most
`maxExplosions`. -/
def PoolsOk (g : Game) : Prop :=
  BulletInv g ∧ ExplosionInv g ∧ ExplosionBound g

/-- No object is in both lists and none occurs twice in either. -/
def NoDuplicates (pool active : List Nat) : Prop :=
  pool.Nodup ∧ active.Nodup ∧ ∀ b ∈ pool, b ∉ active

/-- Every pooled bullet and every pooled explosion is inactive and not in its roster. -/
def PooledInactive (g : Game) : Prop :=
  (∀ b ∈ g.bulletPool, (g.bullets b).isActive = false ∧ b ∉ g.activeBullets)
    ∧ (∀ e ∈ g.explosionPool, (g.explosions e).isActive = false ∧ e ∉ g.activeExplosions)

/-- The example state with the spawning DODGER as its only enemy. -/
def spawningDodgerGame : Game :=
  { exampleGame with enemies := [spawningDodger] }

/-- The entries of a list at the indices 0, 2, 4, ... -/
def evenEntries : List Nat → List Nat
  | [] => []
  | [a] => [a]
  | a :: _ :: rest => a :: evenEntries rest

/-- The entries of a list at the indices 1, 3, 5, ... -/
def oddEntries : List Nat → List Nat
  | [] => []
  | [_] => []
  | _ :: b :: rest => b :: oddEntries rest

/-- A bullet object after the writes of `returnBulletToPool`. -/
def releasedBullet (bullet : Bullet) : Bullet :=
  { bullet with visible := false, isActive := false,
                position := { x := 0, y := 0, z := -cameraFar * 2 } }

/-- An explosion object after the writes of `returnExplosionToPool`. -/
def releasedExplosion (explosion : Explosion) : Explosion :=
  { explosion with visible := false, isActive := false,
                   position := { x := 0, y := 0, z := -cameraFar * 2 } }

/-- The states the script as given can be in: its last line calls `initializeGame()`, the
only call there is, and from then on there are frames of `animate` and events of the page. -/
inductive ScriptReachable (env : Env) : Game → Prop where
  | boot (aspect : ℚ) : ScriptReachable env (initializeGame env (moduleState aspect))
  | frame (inp : FrameInput) (g : Game) :
      ScriptReachable env g → ScriptReachable env (animate env inp g)
  | start (g : Game) : ScriptReachable env g → ScriptReachable env (clickStart g)
  | key (k : String) (pressed : Bool) (g : Game) :
      ScriptReachable env g → ScriptReachable env (keyEvent k pressed g)
  | resized (aspect : ℚ) (g : Game) : ScriptReachable env g → ScriptReachable env (resize aspect g)

/-- Every bullet with `isActive` true is in `activeBullets`. -/
def BulletsTracked (g : Game) : Prop :=
  ∀ b, (g.bullets b).isActive = true → b ∈ g.activeBullets

/-- Every explosion with `isActive` true is in `activeExplosions`. -/
def ExplosionsTracked (g : Game) : Prop :=
  ∀ e, (g.explosions e).isActive = true → e ∈ g.activeExplosions

/-- Every object with `isActive` true is in its active roster and not in its pool. -/
def ActiveInRoster (g : Game) : Prop :=
  (∀ b, (g.bullets b).isActive = true → b ∈ g.activeBullets ∧ b ∉ g.bulletPool)
    ∧ (∀ e, (g.explosions e).isActive = true → e ∈ g.activeExplosions ∧ e ∉ g.explosionPool)

/-- The invariant of the script's states: the pools are in order and every active object
is in its roster. -/
def Tracked (g : Game) : Prop :=
  PoolsOk g ∧ BulletsTracked g ∧ ExplosionsTracked g

/-! # Theorems -/

/-! ## The example states are reachable -/

theorem exampleRun_reachable : Reachable exampleEnv exampleRun :=
  Reachable.frame _ _ (Reachable.start _ (Reachable.boot _))

theorem firingGame_reachable : Reachable exampleEnv firingGame :=
  Reachable.frame _ _ (Reachable.start _ (Reachable.key _ _ _ (Reachable.boot _)))

/-! ## Frame lemmas: what each operation leaves alone -/

theorem getExplosionFromPool_enemies (env : Env) (g : Game) :
    (getExplosionFromPool env g).2.enemies = g.enemies := by
  unfold getExplosionFromPool
  by_cases h1 : 0 < g.explosionPool.length
  · simp only [h1, if_true]
    cases g.explosionPool.getLast? <;> rfl
  · by_cases h2 : g.activeExplosions.length < maxExplosions
    · simp only [h1, h2, if_true, if_false]
    · simp only [h1, h2, if_false]

theorem triggerExplosion_enemies (env : Env) (position : Vec3) (g : Game) :
    (triggerExplosion env position g).enemies = g.enemies := by
  have h := getExplosionFromPool_enemies env g
  unfold triggerExplosion
  rcases hr : getExplosionFromPool env g with ⟨o, g1⟩
  rw [hr] at h
  cases o <;> simpa using h

/-! ## The roster after `updateEnemies` -/

theorem removalIndices_lt (env : Env) (deltaTime : ℚ) (rev : List Enemy) :
    ∀ i ∈ removalIndices env deltaTime rev, i < rev.length := by
  induction rev with
  | nil => simp [removalIndices]
  | cons e r ih =>
    intro i hi
    unfold removalIndices at hi
    split_ifs at hi
    · exact Nat.lt_succ_of_lt (ih i hi)
    · rcases List.mem_cons.mp hi with h | h
      · simp [h]
      · exact Nat.lt_succ_of_lt (ih i h)

theorem removalIndices_sorted (env : Env) (deltaTime : ℚ) (rev : List Enemy) :
    (removalIndices env deltaTime rev).Sorted (fun a b => b ≤ a) := by
  induction rev with
  | nil => simp [removalIndices]
  | cons e r ih =>
    unfold removalIndices
    split_ifs
    · exact ih
    · exact List.sorted_cons.mpr ⟨fun b hb => le_of_lt (removalIndices_lt env deltaTime r b hb), ih⟩

theorem updateEnemiesLoop_spec (env : Env) (deltaTime : ℚ) (rev : List Enemy) :
    ∀ (suf : List Enemy) (g : Game) (rem : List Nat), g.enemies = rev.reverse ++ suf →
      (updateEnemiesLoop env deltaTime rev.length (g, rem)).1.enemies
          = rev.reverse.map (fun e => (updateEnemy env deltaTime e).1) ++ suf
        ∧ (updateEnemiesLoop env deltaTime rev.length (g, rem)).2
          = rem ++ removalIndices env deltaTime rev := by
  induction rev with
  | nil => intro suf g rem h; simpa [updateEnemiesLoop, removalIndices] using h
  | cons e r ih =>
    intro suf g rem h
    have hlen : r.reverse.length = r.length := List.length_reverse r
    have hget : g.enemies[r.length]? = some e := by
      rw [h, List.reverse_cons, List.append_assoc, List.getElem?_append_right (le_of_eq hlen)]
      simp [hlen]
    have hset : g.enemies.set r.length (updateEnemy env deltaTime e).1
        = r.reverse ++ ((updateEnemy env deltaTime e).1 :: suf) := by
      rw [h, List.reverse_cons, List.append_assoc, List.set_append]
      simp [hlen]
    simp only [List.length_cons, updateEnemiesLoop, hget]
    rcases htag : (updateEnemy env deltaTime e).2 with _ | _ | _
    · have := ih ((updateEnemy env deltaTime e).1 :: suf)
        { g with enemies := g.enemies.set r.length (updateEnemy env deltaTime e).1 } rem hset
      simpa [removalIndices, htag] using this
    · have := ih ((updateEnemy env deltaTime e).1 :: suf)
        (triggerExplosion env (updateEnemy env deltaTime e).1.position
          { g with enemies := g.enemies.set r.length (updateEnemy env deltaTime e).1 })
        (rem ++ [r.length]) (by rw [triggerExplosion_enemies]; exact hset)
      simpa [removalIndices, htag] using this
    · have := ih ((updateEnemy env deltaTime e).1 :: suf)
        { g with enemies := g.enemies.set r.length (updateEnemy env deltaTime e).1 }
        (rem ++ [r.length]) hset
      simpa [removalIndices, htag] using this

theorem removeEnemies_spec (env : Env) (deltaTime : ℚ) (rev : List Enemy) :
    ∀ suf : List Enemy,
      removeEnemies (removalIndices env deltaTime rev)
          (rev.reverse.map (fun e => (updateEnemy env deltaTime e).1) ++ suf)
        = rev.reverse.filterMap (survivor env deltaTime) ++ suf := by
  induction rev with
  | nil => intro suf; simp [removeEnemies, removalIndices]
  | cons e r ih =>
    intro suf
    by_cases htag : (updateEnemy env deltaTime e).2 = Removal.keep
    · have := ih ((updateEnemy env deltaTime e).1 :: suf)
      simpa [removalIndices, htag, survivor, List.filterMap_append] using this
    · have hlen : (r.reverse.map (fun e => (updateEnemy env deltaTime e).1)).length = r.length := by
        simp
      have herase : (r.reverse.map (fun e => (updateEnemy env deltaTime e).1)
            ++ ((updateEnemy env deltaTime e).1 :: suf)).eraseIdx r.length
          = r.reverse.map (fun e => (updateEnemy env deltaTime e).1) ++ suf := by
        rw [List.eraseIdx_append_of_length_le (le_of_eq hlen)]
        simp [hlen]
      have := ih suf
      simp only [removalIndices, htag, if_false, removeEnemies, List.reverse_cons, List.map_append,
        List.map_cons, List.map_nil, List.append_assoc, List.singleton_append, herase,
        List.filterMap_append, List.filterMap_cons, List.filterMap_nil, survivor, List.append_nil]
      simpa using this

/-- The roster after `updateEnemies`: every enemy takes one step of the loop body, and
those whose step asks for removal are dropped; the order is kept. -/
theorem updateEnemies_enemies (env : Env) (deltaTime : ℚ) (g : Game) :
    (updateEnemies env deltaTime g).enemies = g.enemies.filterMap (survivor env deltaTime) := by
  have hspec := updateEnemiesLoop_spec env deltaTime g.enemies.reverse [] g [] (by simp)
  have hrem := removeEnemies_spec env deltaTime g.enemies.reverse []
  simp only [List.length_reverse, List.reverse_reverse, List.append_nil, List.nil_append] at hspec hrem
  unfold updateEnemies
  simp only [hspec.1, hspec.2]
  rw [List.Sorted.insertionSort_eq (removalIndices_sorted env deltaTime g.enemies.reverse)]
  exact hrem

/-! ## The loop body of `updateEnemies`, block by block -/

theorem hitTimerAndRemoval_fst (deltaTime : ℚ) (e : Enemy) :
    (hitTimerAndRemoval deltaTime e).1
      = { e with hitTimer := if e.isHit then e.hitTimer - deltaTime * 1000 else e.hitTimer } := by
  rcases e with ⟨_, _, _, _, _, _, _, _, _, _, _, _, _, _, _, isHit, _, _⟩
  cases isHit <;> simp only [hitTimerAndRemoval] <;> split_ifs <;> simp_all

theorem spawnFlash_eq (deltaTime : ℚ) (e : Enemy) :
    spawnFlash deltaTime e
      = { e with
          spawnTimer := if e.isSpawning then e.spawnTimer - deltaTime * 1000 else e.spawnTimer
          isSpawning := e.isSpawning && decide (0 < e.spawnTimer - deltaTime * 1000) } := by
  rcases e with ⟨_, _, _, _, _, _, _, _, _, isSpawning, spawnTimer, _, _, _, _, _, _, _⟩
  cases isSpawning <;> simp only [spawnFlash] <;> split_ifs <;> simp_all

/-! ## Sine weave (C11) -/

theorem spawnFlash_isSpawning (deltaTime : ℚ) (e : Enemy) :
    (spawnFlash deltaTime e).isSpawning
      = (e.isSpawning && decide (0 < e.spawnTimer - deltaTime * 1000)) := by
  rw [spawnFlash_eq]

theorem spawnFlash_fields (deltaTime : ℚ) (e : Enemy) :
    (spawnFlash deltaTime e).movementPattern = e.movementPattern
      ∧ (spawnFlash deltaTime e).sineWaveTime = e.sineWaveTime
      ∧ (spawnFlash deltaTime e).sineFrequency = e.sineFrequency
      ∧ (spawnFlash deltaTime e).sineAmplitude = e.sineAmplitude
      ∧ (spawnFlash deltaTime e).baseX = e.baseX
      ∧ (spawnFlash deltaTime e).position = e.position
      ∧ (spawnFlash deltaTime e).speed = e.speed := by
  rw [spawnFlash_eq]
  exact ⟨rfl, rfl, rfl, rfl, rfl, rfl, rfl⟩

theorem afterFlash_weave (env : Env) (deltaTime : ℚ) (e : Enemy)
    (hs : e.movementPattern = MovementPattern.sine) (hn : e.isSpawning = false) :
    (hitTimerAndRemoval deltaTime
        (boxAndRotate env deltaTime (sineWeave env deltaTime (moveForward deltaTime e)))).1
      = { e with
          sineWaveTime := e.sineWaveTime + e.sineFrequency * deltaTime
          position :=
            { x := e.baseX + env.sin (e.sineWaveTime + e.sineFrequency * deltaTime) * e.sineAmplitude
              y := e.position.y
              z := e.position.z + e.speed * deltaTime }
          boundingBox := env.enemyBox e.type
            { x := e.baseX + env.sin (e.sineWaveTime + e.sineFrequency * deltaTime) * e.sineAmplitude
              y := e.position.y
              z := e.position.z + e.speed * deltaTime } e.rotationX e.rotationY
          rotationX := e.rotationX + 1 * deltaTime
          rotationY := e.rotationY + 1 * deltaTime
          hitTimer := if e.isHit then e.hitTimer - deltaTime * 1000 else e.hitTimer } := by
  rw [hitTimerAndRemoval_fst]
  simp [boxAndRotate, sineWeave, moveForward, hs, hn]

theorem afterFlash_suspended (env : Env) (deltaTime : ℚ) (e : Enemy) (hsp : e.isSpawning = true) :
    (hitTimerAndRemoval deltaTime
        (boxAndRotate env deltaTime (sineWeave env deltaTime (moveForward deltaTime e)))).1
      = { e with
          position := { e.position with z := e.position.z + e.speed * deltaTime }
          boundingBox := env.enemyBox e.type
            { e.position with z := e.position.z + e.speed * deltaTime } e.rotationX e.rotationY
          rotationX := e.rotationX + 1 * deltaTime
          rotationY := e.rotationY + 1 * deltaTime
          hitTimer := if e.isHit then e.hitTimer - deltaTime * 1000 else e.hitTimer } := by
  rw [hitTimerAndRemoval_fst]
  simp [boxAndRotate, sineWeave, moveForward, hsp]

theorem updateEnemy_sine_step (env : Env) (deltaTime : ℚ) (e : Enemy)
    (hs : e.movementPattern = MovementPattern.sine)
    (hn : e.isSpawning = false ∨ e.spawnTimer - deltaTime * 1000 ≤ 0) :
    (updateEnemy env deltaTime e).1.sineWaveTime = e.sineWaveTime + e.sineFrequency * deltaTime
      ∧ (updateEnemy env deltaTime e).1.position.x
          = e.baseX + e.sineAmplitude * env.sin (e.sineWaveTime + e.sineFrequency * deltaTime)
      ∧ (updateEnemy env deltaTime e).1.movementPattern = MovementPattern.sine
      ∧ (updateEnemy env deltaTime e).1.isSpawning = false
      ∧ (updateEnemy env deltaTime e).1.baseX = e.baseX
      ∧ (updateEnemy env deltaTime e).1.sineFrequency = e.sineFrequency
      ∧ (updateEnemy env deltaTime e).1.sineAmplitude = e.sineAmplitude := by
  have hoff : (spawnFlash deltaTime e).isSpawning = false := by
    rw [spawnFlash_isSpawning]
    rcases hn with h | h
    · simp [h]
    · simp [not_lt.mpr h]
  obtain ⟨f1, f2, f3, f4, f5, -, -⟩ := spawnFlash_fields deltaTime e
  rw [updateEnemy, afterFlash_weave env deltaTime _ (f1.trans hs) hoff]
  refine ⟨?_, ?_, ?_, hoff, ?_, ?_, ?_⟩
  · show (spawnFlash deltaTime e).sineWaveTime + (spawnFlash deltaTime e).sineFrequency * deltaTime = _
    rw [f2, f3]
  · show (spawnFlash deltaTime e).baseX
      + env.sin ((spawnFlash deltaTime e).sineWaveTime
          + (spawnFlash deltaTime e).sineFrequency * deltaTime)
        * (spawnFlash deltaTime e).sineAmplitude = _
    rw [f2, f3, f4, f5, mul_comm]
  · exact f1.trans hs
  · exact f5
  · exact f3
  · exact f4

/-- A frame that leaves an enemy in its spawn flash moves it forward only. -/
theorem updateEnemy_suspended (env : Env) (deltaTime : ℚ) (e : Enemy)
    (hsp : e.isSpawning = true) (ht : 0 < e.spawnTimer - deltaTime * 1000) :
    (updateEnemy env deltaTime e).1.isSpawning = true
      ∧ (updateEnemy env deltaTime e).1.sineWaveTime = e.sineWaveTime
      ∧ (updateEnemy env deltaTime e).1.baseX = e.baseX
      ∧ (updateEnemy env deltaTime e).1.position.x = e.position.x
      ∧ (updateEnemy env deltaTime e).1.position.z = e.position.z + e.speed * deltaTime := by
  have hon : (spawnFlash deltaTime e).isSpawning = true := by
    rw [spawnFlash_isSpawning]
    simp [hsp, ht]
  obtain ⟨-, f2, -, -, f5, f6, f7⟩ := spawnFlash_fields deltaTime e
  rw [updateEnemy, afterFlash_suspended env deltaTime _ hon]
  refine ⟨hon, f2, f5, ?_, ?_⟩
  · show (spawnFlash deltaTime e).position.x = _
    rw [f6]
  · show (spawnFlash deltaTime e).position.z + (spawnFlash deltaTime e).speed * deltaTime = _
    rw [f6, f7]

theorem updateEnemyFrames_sine (env : Env) (ds : List ℚ) :
    ∀ e : Enemy, e.movementPattern = MovementPattern.sine → e.isSpawning = false →
      (updateEnemyFrames env ds e).sineWaveTime = e.sineWaveTime + e.sineFrequency * ds.sum
        ∧ (updateEnemyFrames env ds e).baseX = e.baseX
        ∧ (updateEnemyFrames env ds e).sineAmplitude = e.sineAmplitude
        ∧ (ds ≠ [] → (updateEnemyFrames env ds e).position.x
            = e.baseX + e.sineAmplitude * env.sin (e.sineWaveTime + e.sineFrequency * ds.sum)) := by
  induction ds with
  | nil => intro e _ _; simp [updateEnemyFrames]
  | cons d ds ih =>
    intro e hs hn
    obtain ⟨h1, h2, h3, h4, h5, h6, h7⟩ := updateEnemy_sine_step env d e hs (Or.inl hn)
    obtain ⟨i1, i2, i3, i4⟩ := ih (updateEnemy env d e).1 h3 h4
    refine ⟨?_, ?_, ?_, ?_⟩
    · simp only [updateEnemyFrames, i1, h1, h6, List.sum_cons]; ring
    · simp only [updateEnemyFrames, i2, h5]
    · simp only [updateEnemyFrames, i3, h7]
    · intro _
      by_cases hds : ds = []
      · subst hds
        simp only [updateEnemyFrames, h2, List.sum_cons, List.sum_nil, add_zero]
      · simp only [updateEnemyFrames, i4 hds, h1, h5, h6, h7, List.sum_cons]
        congr 3; ring

/-! ## The spawner -/

theorem selectEnemyType_cases (d : Draw) :
    selectEnemyType d = some GRUNT ∨ selectEnemyType d = some DODGER := by
  have h0 : (0 : ℤ) ≤ ⌊d.val * 2⌋ := Int.floor_nonneg.mpr (by linarith [d.nonneg])
  have h1 : ⌊d.val * 2⌋ < 2 := Int.floor_lt.mpr (by push_cast; linarith [d.lt_one])
  have hlen : ((ENEMY_TYPES.length : ℕ) : ℚ) = 2 := by simp [ENEMY_TYPES]
  unfold selectEnemyType
  rw [hlen]
  generalize ⌊d.val * 2⌋ = n at h0 h1
  interval_cases n
  · left; rfl
  · right; rfl

theorem spawnEnemy_refuse (env : Env) (now : Int) (r : SpawnDraws) (g : Game)
    (h : now - g.lastEnemySpawnTime < enemySpawnRate ∨ maxEnemies ≤ g.enemies.length) :
    spawnEnemy env now r g = g := by
  unfold spawnEnemy
  rw [if_pos]
  simpa using h

theorem spawnEnemy_accept (env : Env) (now : Int) (r : SpawnDraws) (g : Game)
    (h : ¬ (now - g.lastEnemySpawnTime < enemySpawnRate ∨ maxEnemies ≤ g.enemies.length)) :
    ∃ td, selectEnemyType r.typeDraw = some td ∧ td ∈ ENEMY_TYPES ∧
      spawnEnemy env now r g
        = { g with lastEnemySpawnTime := now
                   enemies := g.enemies ++ [createEnemy env g.aspect r td] } := by
  have hc : ¬ ((decide (now - g.lastEnemySpawnTime < enemySpawnRate)
      || decide (maxEnemies ≤ g.enemies.length)) = true) := by simpa using h
  unfold spawnEnemy
  rw [if_neg hc]
  rcases selectEnemyType_cases r.typeDraw with ht | ht
  · exact ⟨GRUNT, ht, by simp [ENEMY_TYPES], by simp [ht]⟩
  · exact ⟨DODGER, ht, by simp [ENEMY_TYPES], by simp [ht]⟩

/-- C11 (sine-weave closed form).  For a 'sine' enemy in a frame in which it is not
Spawning when the weave is computed (it was not Spawning, or its spawn flash ends in this
frame), the `updateEnemies` loop body adds `sineFrequency * dt` to `sineWaveTime` and then
sets `x` to `baseX + sineAmplitude * sin(sineWaveTime)`; the stepped enemy is the one
`updateEnemies` leaves in the roster when it is not removed; after the frames `d :: ds`,
the first of which is such a frame, the lateral position is
`baseX + sineAmplitude * sin(phase0 + sineFrequency * (d + sum ds))`.  Here `baseX` and
`phase0` are the values set at spawn: `spawnEnemy` builds a 'sine' enemy with `baseX` equal
to its spawn `x` and the drawn start phase, and a frame that leaves the enemy in its spawn
flash changes neither of them. -/
theorem sine_weave_closed_form (env : Env) (e : Enemy)
    (hs : e.movementPattern = MovementPattern.sine) :
    (∀ dt : ℚ, (e.isSpawning = false ∨ e.spawnTimer - dt * 1000 ≤ 0) →
        (updateEnemy env dt e).1.sineWaveTime = e.sineWaveTime + e.sineFrequency * dt
        ∧ (updateEnemy env dt e).1.position.x
            = e.baseX + e.sineAmplitude * env.sin (e.sineWaveTime + e.sineFrequency * dt))
    ∧ (∀ (g : Game) (dt : ℚ), e ∈ g.enemies → (updateEnemy env dt e).2 = Removal.keep →
        (updateEnemy env dt e).1 ∈ (updateEnemies env dt g).enemies)
    ∧ (∀ (d : ℚ) (ds : List ℚ), (e.isSpawning = false ∨ e.spawnTimer - d * 1000 ≤ 0) →
        (updateEnemyFrames env (d :: ds) e).sineWaveTime
            = e.sineWaveTime + e.sineFrequency * (d :: ds).sum
        ∧ (updateEnemyFrames env (d :: ds) e).position.x
            = e.baseX + e.sineAmplitude
                * env.sin (e.sineWaveTime + e.sineFrequency * (d :: ds).sum))
    ∧ (∀ dt : ℚ, e.isSpawning = true → 0 < e.spawnTimer - dt * 1000 →
        (updateEnemy env dt e).1.sineWaveTime = e.sineWaveTime
        ∧ (updateEnemy env dt e).1.baseX = e.baseX)
    ∧ (∀ (aspect : ℚ) (r : SpawnDraws) (td : EnemyType),
        td.movementPattern = MovementPattern.sine →
          (createEnemy env aspect r td).baseX = (createEnemy env aspect r td).position.x
          ∧ (createEnemy env aspect r td).sineWaveTime = r.phaseDraw.val * env.pi * 2) := by
  refine ⟨fun dt hn => ?_, fun g dt hmem hkeep => ?_, fun d ds hn => ?_, fun dt hsp ht => ?_,
    fun aspect r td htd => ?_⟩
  · obtain ⟨h1, h2, -⟩ := updateEnemy_sine_step env dt e hs hn
    exact ⟨h1, h2⟩
  · rw [updateEnemies_enemies, List.mem_filterMap]
    exact ⟨e, hmem, by simp [survivor, hkeep]⟩
  · obtain ⟨h1, h2, h3, h4, h5, h6, h7⟩ := updateEnemy_sine_step env d e hs hn
    obtain ⟨i1, i2, i3, i4⟩ := updateEnemyFrames_sine env ds (updateEnemy env d e).1 h3 h4
    constructor
    · simp only [updateEnemyFrames, i1, h1, h6, List.sum_cons]; ring
    · by_cases hds : ds = []
      · subst hds
        simp only [updateEnemyFrames, h2, List.sum_cons, List.sum_nil, add_zero]
      · simp only [updateEnemyFrames, i4 hds, h1, h5, h6, h7, List.sum_cons]
        congr 3; ring
  · obtain ⟨-, h2, h3, -⟩ := updateEnemy_suspended env dt e hsp ht
    exact ⟨h2, h3⟩
  · simp [createEnemy, htd]

theorem sine_weave_closed_form_witness :
    exampleDodger.movementPattern = MovementPattern.sine ∧ exampleDodger.isSpawning = false
      ∧ (updateEnemy exampleEnv (1 / 10) exampleDodger).1.position.x = 31199 / 9600
      ∧ (updateEnemyFrames exampleEnv [1 / 10, 1 / 10] exampleDodger).position.x = 4199 / 1200 := by
  have h := sine_weave_closed_form exampleEnv exampleDodger rfl
  refine ⟨rfl, rfl, ?_, ?_⟩
  · rw [(h.1 (1 / 10) (Or.inl rfl)).2]; norm_num [exampleEnv, exampleDodger]
  · rw [(h.2.2.1 (1 / 10) [1 / 10] (Or.inl rfl)).2]; norm_num [exampleEnv, exampleDodger]

/-! ## Bullet pool (C12, C13) -/

theorem getBulletFromPool_of_pool (g : Game) (pool : List Nat) (b : Nat)
    (h : g.bulletPool = pool ++ [b]) :
    getBulletFromPool g
      = (some b,
          { g with
            bulletPool := pool
            bullets := Function.update g.bullets b { g.bullets b with visible := true, isActive := true }
            activeBullets := g.activeBullets ++ [b] }) := by
  unfold getBulletFromPool
  simp [h]

theorem getBulletFromPool_of_empty (g : Game) (h : g.bulletPool = []) :
    getBulletFromPool g
      = (some g.bulletCount,
          { g with
            bullets := Function.update g.bullets g.bulletCount
              { newBullet with visible := true, isActive := true }
            bulletCount := g.bulletCount + 1
            activeBullets := g.activeBullets ++ [g.bulletCount] }) := by
  unfold getBulletFromPool
  simp [h]

/-- C12 (bullet acquire never fails).  In every state `getBulletFromPool` returns a
bullet, never `null`; that bullet is active and visible afterwards and is appended to the
end of `activeBullets`, every other bullet is unchanged; when the pool was not empty the
bullet is the pool's last element and the pool loses exactly that element, otherwise the
bullet is a newly created object and the pool stays empty. -/
theorem getBulletFromPool_never_fails (g : Game) :
    ∃ b : Nat, (getBulletFromPool g).1 = some b
      ∧ ((getBulletFromPool g).2.bullets b).isActive = true
      ∧ ((getBulletFromPool g).2.bullets b).visible = true
      ∧ (getBulletFromPool g).2.activeBullets = g.activeBullets ++ [b]
      ∧ (getBulletFromPool g).2.activeBullets.length = g.activeBullets.length + 1
      ∧ (∀ x : Nat, x ≠ b → (getBulletFromPool g).2.bullets x = g.bullets x)
      ∧ (g.bulletPool ≠ [] →
          g.bulletPool.getLast? = some b ∧ g.bulletPool = (getBulletFromPool g).2.bulletPool ++ [b]
            ∧ (getBulletFromPool g).2.bulletCount = g.bulletCount)
      ∧ (g.bulletPool = [] →
          b = g.bulletCount ∧ (getBulletFromPool g).2.bulletPool = []
            ∧ (getBulletFromPool g).2.bulletCount = g.bulletCount + 1) := by
  by_cases h : g.bulletPool = []
  · refine ⟨g.bulletCount, ?_⟩
    rw [getBulletFromPool_of_empty g h]
    refine ⟨rfl, by simp, by simp, rfl, by simp, ?_, fun hne => absurd h hne, fun _ => ⟨rfl, h, rfl⟩⟩
    intro x hx
    simp [Function.update_noteq hx]
  · obtain ⟨pool, b, hp⟩ : ∃ pool b, g.bulletPool = pool ++ [b] :=
      ⟨g.bulletPool.dropLast, g.bulletPool.getLast h, (List.dropLast_append_getLast h).symm⟩
    refine ⟨b, ?_⟩
    rw [getBulletFromPool_of_pool g pool b hp]
    refine ⟨rfl, by simp, by simp, rfl, by simp, ?_, fun _ => ⟨by simp [hp], hp, rfl⟩,
      fun he => absurd he h⟩
    intro x hx
    simp [Function.update_noteq hx]

/-- C13 (bullet release).  For a bullet `b` of `activeBullets`, `returnBulletToPool(b)`
takes the entry of `b` out of `activeBullets` and keeps the others in order (so `b` is no
longer in a roster without duplicates), sets `isActive` and `visible` to false, moves the
bullet to `(0, 0, -2 * camera.far)`, appends it as the last element of `bulletPool`
whatever the pool's size, and leaves every other bullet unchanged. -/
theorem returnBulletToPool_post (g : Game) (b : Nat) (hb : b ∈ g.activeBullets) :
    (∃ before after : List Nat, g.activeBullets = before ++ b :: after ∧ b ∉ before
        ∧ (returnBulletToPool b g).activeBullets = before ++ after)
      ∧ (returnBulletToPool b g).activeBullets.length + 1 = g.activeBullets.length
      ∧ (g.activeBullets.Nodup → b ∉ (returnBulletToPool b g).activeBullets)
      ∧ ((returnBulletToPool b g).bullets b).isActive = false
      ∧ ((returnBulletToPool b g).bullets b).visible = false
      ∧ ((returnBulletToPool b g).bullets b).position = { x := 0, y := 0, z := -2 * cameraFar }
      ∧ (returnBulletToPool b g).bulletPool = g.bulletPool ++ [b]
      ∧ (∀ x : Nat, x ≠ b → (returnBulletToPool b g).bullets x = g.bullets x) := by
  refine ⟨?_, ?_, ?_, by simp [returnBulletToPool], by simp [returnBulletToPool], ?_, rfl, ?_⟩
  · obtain ⟨before, after, hsplit, hnot⟩ := List.eq_append_cons_of_mem hb
    refine ⟨before, after, hsplit, hnot, ?_⟩
    simp only [returnBulletToPool, hsplit]
    rw [List.erase_append_right _ hnot, List.erase_cons_head]
  · have h1 := List.length_erase_of_mem hb
    have h2 : 0 < g.activeBullets.length := List.length_pos_of_mem hb
    simp only [returnBulletToPool, h1]
    omega
  · intro hnd
    simp only [returnBulletToPool]
    exact fun hmem => (List.Nodup.mem_erase_iff hnd).mp hmem |>.1 rfl
  · simp [returnBulletToPool, neg_mul, mul_comm]
  · intro x hx
    simp [returnBulletToPool, Function.update_noteq hx]

theorem returnBulletToPool_post_witness :
    (1 : Nat) ∈ exampleGame.activeBullets
      ∧ (returnBulletToPool 1 exampleGame).activeBullets = [0]
      ∧ (returnBulletToPool 1 exampleGame).bulletPool = [2, 1]
      ∧ ((returnBulletToPool 1 exampleGame).bullets 1).isActive = false
      ∧ ((returnBulletToPool 1 exampleGame).bullets 1).position = { x := 0, y := 0, z := -2 * cameraFar } := by
  have h := returnBulletToPool_post exampleGame 1 (by simp [exampleGame])
  exact ⟨by simp [exampleGame], by simp [returnBulletToPool, exampleGame], h.2.2.2.2.2.2.1,
    h.2.2.2.1, h.2.2.2.2.2.1⟩

/-! ## Explosion pool (C14) -/

theorem getExplosionFromPool_of_pool (env : Env) (g : Game) (pool : List Nat) (e : Nat)
    (h : g.explosionPool = pool ++ [e]) :
    getExplosionFromPool env g
      = (some e,
          { g with
            explosionPool := pool
            explosions := Function.update g.explosions e
              { g.explosions e with
                visible := true, isActive := true, timer := explosionDuration
                particles := (g.explosions e).particles.map fun p =>
                  { p with position := { x := 0, y := 0, z := 0 }, scale := { x := 1, y := 1, z := 1 } } }
            activeExplosions := g.activeExplosions ++ [e] }) := by
  unfold getExplosionFromPool
  simp [h]

theorem getExplosionFromPool_of_empty (env : Env) (g : Game) (h : g.explosionPool = [])
    (hlt : g.activeExplosions.length < maxExplosions) :
    getExplosionFromPool env g
      = (some g.explosionCount,
          { g with
            explosions := Function.update g.explosions g.explosionCount
              { newExplosion env g.explosionCount with
                visible := true, isActive := true, timer := explosionDuration
                particles := (newExplosion env g.explosionCount).particles.map fun p =>
                  { p with position := { x := 0, y := 0, z := 0 }, scale := { x := 1, y := 1, z := 1 } } }
            explosionCount := g.explosionCount + 1
            activeExplosions := g.activeExplosions ++ [g.explosionCount] }) := by
  unfold getExplosionFromPool
  simp [h, hlt]

theorem getExplosionFromPool_of_full (env : Env) (g : Game) (h : g.explosionPool = [])
    (hge : maxExplosions ≤ g.activeExplosions.length) :
    getExplosionFromPool env g = (none, g) := by
  unfold getExplosionFromPool
  simp [h, Nat.not_lt.mpr hge]

/-- C14 (explosion cap).  `getExplosionFromPool` returns `null` exactly when
`explosionPool` is empty and `activeExplosions` holds `maxExplosions` (20) entries or
more; then it and `triggerExplosion` leave the whole state unchanged; in every other case
it returns an explosion, appended to the end of `activeExplosions`, which
`triggerExplosion` moves to the given position. -/
theorem explosion_cap (env : Env) (g : Game) :
    maxExplosions = 20
      ∧ ((getExplosionFromPool env g).1 = none
          ↔ g.explosionPool = [] ∧ maxExplosions ≤ g.activeExplosions.length)
      ∧ ((getExplosionFromPool env g).1 = none →
          (getExplosionFromPool env g).2 = g ∧ ∀ position, triggerExplosion env position g = g)
      ∧ ((getExplosionFromPool env g).1 ≠ none →
          ∃ e : Nat, (getExplosionFromPool env g).1 = some e
            ∧ (getExplosionFromPool env g).2.activeExplosions = g.activeExplosions ++ [e]
            ∧ ∀ position,
                (triggerExplosion env position g).activeExplosions = g.activeExplosions ++ [e]
                ∧ ((triggerExplosion env position g).explosions e).position = position
                ∧ ((triggerExplosion env position g).explosions e).isActive = true) := by
  refine ⟨rfl, ?_⟩
  by_cases hp : g.explosionPool = []
  · by_cases hlt : g.activeExplosions.length < maxExplosions
    · have hget := getExplosionFromPool_of_empty env g hp hlt
      refine ⟨?_, ?_, ?_⟩
      · simp [hget, hp, hlt]
      · simp [hget]
      · intro _
        refine ⟨g.explosionCount, by rw [hget], by rw [hget], fun position => ?_⟩
        simp [triggerExplosion, hget]
    · have hge : maxExplosions ≤ g.activeExplosions.length := Nat.le_of_not_lt hlt
      have hget := getExplosionFromPool_of_full env g hp hge
      refine ⟨?_, ?_, ?_⟩
      · simp [hget, hp, hge]
      · intro _
        exact ⟨by rw [hget], fun position => by simp [triggerExplosion, hget]⟩
      · simp [hget]
  · obtain ⟨pool, e, hsplit⟩ : ∃ pool e, g.explosionPool = pool ++ [e] :=
      ⟨g.explosionPool.dropLast, g.explosionPool.getLast hp,
        (List.dropLast_append_getLast hp).symm⟩
    have hget := getExplosionFromPool_of_pool env g pool e hsplit
    refine ⟨?_, ?_, ?_⟩
    · simp [hget, hp]
    · simp [hget]
    · intro _
      refine ⟨e, by rw [hget], by rw [hget], fun position => ?_⟩
      simp [triggerExplosion, hget]

/-! ## Release then re-acquire (C15) -/

/-- C15, as the code has it.  Releasing an active explosion `e` and acquiring again
returns an explosion that is active and visible, with `timer = explosionDuration` (500)
and every particle at `(0,0,0)` with scale `(1,1,1)`; it is `e` itself when the pool held
fewer than `maxExplosions` entries.  Releasing an active bullet `b` and acquiring again
returns `b`, active and visible; its position is the release position
`(0, 0, -2 * camera.far)` and its bounding box is the one it had before the release:
`getBulletFromPool` resets neither. -/
theorem release_then_acquire (env : Env) (g : Game) :
    (∀ e ∈ g.activeExplosions,
      ∃ r : Nat, (getExplosionFromPool env (returnExplosionToPool e g)).1 = some r
        ∧ (g.explosionPool.length < maxExplosions → r = e)
        ∧ ((getExplosionFromPool env (returnExplosionToPool e g)).2.explosions r).isActive = true
        ∧ ((getExplosionFromPool env (returnExplosionToPool e g)).2.explosions r).visible = true
        ∧ ((getExplosionFromPool env (returnExplosionToPool e g)).2.explosions r).timer = 500
        ∧ (∀ p ∈ ((getExplosionFromPool env (returnExplosionToPool e g)).2.explosions r).particles,
            p.position = { x := 0, y := 0, z := 0 } ∧ p.scale = { x := 1, y := 1, z := 1 }))
    ∧ (∀ b ∈ g.activeBullets,
        (getBulletFromPool (returnBulletToPool b g)).1 = some b
        ∧ ((getBulletFromPool (returnBulletToPool b g)).2.bullets b).isActive = true
        ∧ ((getBulletFromPool (returnBulletToPool b g)).2.bullets b).visible = true
        ∧ ((getBulletFromPool (returnBulletToPool b g)).2.bullets b).position
            = { x := 0, y := 0, z := -2 * cameraFar }
        ∧ ((getBulletFromPool (returnBulletToPool b g)).2.bullets b).boundingBox
            = (g.bullets b).boundingBox) := by
  constructor
  · intro e _
    by_cases hcap : g.explosionPool.length < maxExplosions
    · have hpool : (returnExplosionToPool e g).explosionPool = g.explosionPool ++ [e] := by
        simp [returnExplosionToPool, hcap]
      rw [getExplosionFromPool_of_pool env _ _ e hpool]
      refine ⟨e, rfl, fun _ => rfl, by simp, by simp, by simp [explosionDuration], ?_⟩
      intro p hp
      simp only [Function.update_same, List.mem_map] at hp
      obtain ⟨q, -, rfl⟩ := hp
      exact ⟨rfl, rfl⟩
    · have hpool : (returnExplosionToPool e g).explosionPool = g.explosionPool := by
        simp [returnExplosionToPool, hcap]
      have hne : g.explosionPool ≠ [] := by
        intro h0
        rw [h0] at hcap
        exact hcap (by simp [maxExplosions])
      have hsplit : (returnExplosionToPool e g).explosionPool
          = g.explosionPool.dropLast ++ [g.explosionPool.getLast hne] := by
        rw [hpool, List.dropLast_append_getLast hne]
      rw [getExplosionFromPool_of_pool env _ _ _ hsplit]
      refine ⟨g.explosionPool.getLast hne, rfl, fun h => absurd h hcap, by simp, by simp,
        by simp [explosionDuration], ?_⟩
      intro p hp
      simp only [Function.update_same, List.mem_map] at hp
      obtain ⟨q, -, rfl⟩ := hp
      exact ⟨rfl, rfl⟩
  · intro b _
    have hpool : (returnBulletToPool b g).bulletPool = g.bulletPool ++ [b] := rfl
    rw [getBulletFromPool_of_pool _ _ b hpool]
    refine ⟨rfl, by simp, by simp, ?_, ?_⟩
    · simp [returnBulletToPool, neg_mul, mul_comm]
    · simp [returnBulletToPool]

theorem release_then_acquire_witness :
    (0 : Nat) ∈ exampleExplosionGame.activeExplosions
      ∧ exampleExplosionGame.explosionPool.length < maxExplosions
      ∧ (1 : Nat) ∈ exampleExplosionGame.activeBullets
      ∧ (∃ r : Nat,
          (getExplosionFromPool exampleEnv (returnExplosionToPool 0 exampleExplosionGame)).1 = some r
          ∧ r = 0
          ∧ ((getExplosionFromPool exampleEnv
                (returnExplosionToPool 0 exampleExplosionGame)).2.explosions r).timer = 500)
      ∧ (getBulletFromPool (returnBulletToPool 1 exampleExplosionGame)).1 = some 1 := by
  have h := release_then_acquire exampleEnv exampleExplosionGame
  have h0 : (0 : Nat) ∈ exampleExplosionGame.activeExplosions := by simp [exampleExplosionGame]
  have h1 : (1 : Nat) ∈ exampleExplosionGame.activeBullets := by
    simp [exampleExplosionGame, exampleGame]
  have hcap : exampleExplosionGame.explosionPool.length < maxExplosions := by
    simp [exampleExplosionGame, maxExplosions]
  obtain ⟨r, hr, hre, -, -, ht, -⟩ := h.1 0 h0
  exact ⟨h0, hcap, h1, ⟨r, hr, hre hcap, ht⟩, (h.2 1 h1).1⟩

/-- C15 as stated fails for bullets.  In the reachable state `firingGame` the bullet in
flight (object 49), released and re-acquired, comes back at the release position
`(0, 0, -8000)` and with the bounding box it had in flight, not at the position and with
the empty box of a newly created bullet. -/
theorem release_then_acquire_bullet_not_reset :
    Reachable exampleEnv firingGame
      ∧ firingGame.activeBullets = [49]
      ∧ (getBulletFromPool (returnBulletToPool 49 firingGame)).1 = some 49
      ∧ ((getBulletFromPool (returnBulletToPool 49 firingGame)).2.bullets 49).isActive = true
      ∧ ((getBulletFromPool (returnBulletToPool 49 firingGame)).2.bullets 49).position
          = { x := 0, y := 0, z := -8000 }
      ∧ ((getBulletFromPool (returnBulletToPool 49 firingGame)).2.bullets 49).position
          ≠ newBullet.position
      ∧ ((getBulletFromPool (returnBulletToPool 49 firingGame)).2.bullets 49).boundingBox
          = (firingGame.bullets 49).boundingBox
      ∧ ((getBulletFromPool (returnBulletToPool 49 firingGame)).2.bullets 49).boundingBox
          ≠ newBullet.boundingBox := by
  refine ⟨firingGame_reachable, ?_, ?_, ?_, ?_, ?_, ?_, ?_⟩ <;> decide!

/-! ## The roster through a frame -/

theorem getBulletFromPool_enemies (g : Game) : (getBulletFromPool g).2.enemies = g.enemies := by
  by_cases h : g.bulletPool = []
  · rw [getBulletFromPool_of_empty g h]
  · rw [getBulletFromPool_of_pool g _ _ (List.dropLast_append_getLast h).symm]

theorem fireBullet_enemies (now : Int) (g : Game) : (fireBullet now g).enemies = g.enemies := by
  have h := getBulletFromPool_enemies g
  unfold fireBullet
  split_ifs
  · rfl
  · rcases hr : getBulletFromPool g with ⟨o, g1⟩
    rw [hr] at h
    cases o <;> simpa using h

theorem updatePlayer_enemies (env : Env) (deltaTime : ℚ) (g : Game) :
    (updatePlayer env deltaTime g).enemies = g.enemies := rfl

theorem updateBulletsLoop_enemies (env : Env) (deltaTime : ℚ) :
    ∀ (i : Nat) (g : Game), (updateBulletsLoop env deltaTime i g).enemies = g.enemies := by
  intro i
  induction i with
  | zero => intro g; rfl
  | succ i ih =>
    intro g
    simp only [updateBulletsLoop]
    split
    · exact ih g
    · split_ifs
      all_goals (rw [ih]; rfl)

theorem updateBullets_enemies (env : Env) (deltaTime : ℚ) (g : Game) :
    (updateBullets env deltaTime g).enemies = g.enemies :=
  updateBulletsLoop_enemies env deltaTime _ g

theorem updateExplosionsLoop_enemies (deltaTime : ℚ) :
    ∀ (i : Nat) (g : Game), (updateExplosionsLoop deltaTime i g).enemies = g.enemies := by
  intro i
  induction i with
  | zero => intro g; rfl
  | succ i ih =>
    intro g
    simp only [updateExplosionsLoop]
    split
    · exact ih g
    · split_ifs
      all_goals first | (rw [ih]; done) | (rw [ih]; rfl)

theorem updateExplosions_enemies (deltaTime : ℚ) (g : Game) :
    (updateExplosions deltaTime g).enemies = g.enemies :=
  updateExplosionsLoop_enemies deltaTime _ g

theorem fillBulletPool_enemies :
    ∀ (n : Nat) (g : Game), (fillBulletPool n g).enemies = g.enemies := by
  intro n
  induction n with
  | zero => intro g; rfl
  | succ n ih => intro g; simp only [fillBulletPool]; rw [ih]

theorem fillExplosionPool_enemies (env : Env) :
    ∀ (n : Nat) (g : Game), (fillExplosionPool env n g).enemies = g.enemies := by
  intro n
  induction n with
  | zero => intro g; rfl
  | succ n ih => intro g; simp only [fillExplosionPool]; rw [ih]

theorem initializeGame_enemies (env : Env) (g : Game) : (initializeGame env g).enemies = [] := by
  simp only [initializeGame, initializeExplosionPool, initializeBulletPool,
    fillExplosionPool_enemies, fillBulletPool_enemies, resetGameObjects]

/-! ### `enemyGotHit` and the two collision passes -/

theorem enemyGotHit_of_isHit (e : Enemy) (byPlayer : Bool) (h : e.isHit = true) :
    enemyGotHit e byPlayer = e := by
  simp [enemyGotHit, h]

theorem enemyGotHit_of_isSpawning (e : Enemy) (byPlayer : Bool) (h : e.isSpawning = true) :
    enemyGotHit e byPlayer = e := by
  simp [enemyGotHit, h]

theorem enemyGotHit_of_normal (e : Enemy) (byPlayer : Bool) (h1 : e.isHit = false)
    (h2 : e.isSpawning = false) :
    enemyGotHit e byPlayer
      = { e with isHit := true, hitByPlayer := byPlayer, hitTimer := enemyHitDuration } := by
  simp [enemyGotHit, h1, h2]

theorem enemyGotHit_twice (e : Enemy) (b1 b2 : Bool) :
    enemyGotHit (enemyGotHit e b1) b2 = enemyGotHit e b1 := by
  by_cases h1 : e.isHit = true
  · rw [enemyGotHit_of_isHit e b1 h1, enemyGotHit_of_isHit e b2 h1]
  · by_cases h2 : e.isSpawning = true
    · rw [enemyGotHit_of_isSpawning e b1 h2, enemyGotHit_of_isSpawning e b2 h2]
    · rw [enemyGotHit_of_normal e b1 (by simpa using h1) (by simpa using h2)]
      exact enemyGotHit_of_isHit _ b2 rfl

theorem hitStep_refl (e : Enemy) : HitStep e e := Or.inl rfl

theorem hitStep_enemyGotHit (e : Enemy) (byPlayer : Bool) : HitStep e (enemyGotHit e byPlayer) :=
  Or.inr ⟨byPlayer, rfl⟩

theorem hitStep_trans {a b c : Enemy} (h1 : HitStep a b) (h2 : HitStep b c) : HitStep a c := by
  rcases h1 with rfl | ⟨b1, rfl⟩
  · exact h2
  · rcases h2 with rfl | ⟨b2, rfl⟩
    · exact Or.inr ⟨b1, rfl⟩
    · exact Or.inr ⟨b1, enemyGotHit_twice a b1 b2⟩

theorem forall2_hitStep_refl : ∀ l : List Enemy, List.Forall₂ HitStep l l
  | [] => List.Forall₂.nil
  | e :: l => List.Forall₂.cons (hitStep_refl e) (forall2_hitStep_refl l)

theorem forall2_hitStep_trans : ∀ {l1 l2 l3 : List Enemy},
    List.Forall₂ HitStep l1 l2 → List.Forall₂ HitStep l2 l3 → List.Forall₂ HitStep l1 l3
  | _, _, _, List.Forall₂.nil, List.Forall₂.nil => List.Forall₂.nil
  | _, _, _, List.Forall₂.cons h1 t1, List.Forall₂.cons h2 t2 =>
    List.Forall₂.cons (hitStep_trans h1 h2) (forall2_hitStep_trans t1 t2)

theorem bulletScan_hitStep (env : Env) (bulletBox : Box3) :
    ∀ (es : List Enemy) (j : Nat) (score : Int) (hit : List Nat),
      List.Forall₂ HitStep es (bulletScan env bulletBox j es score hit).1 := by
  intro es
  induction es with
  | nil => intro j score hit; exact List.Forall₂.nil
  | cons e es ih =>
    intro j score hit
    simp only [bulletScan]
    split_ifs
    · exact List.Forall₂.cons (hitStep_refl e) (ih _ _ _)
    · exact List.Forall₂.cons (hitStep_enemyGotHit e false) (forall2_hitStep_refl es)
    · exact forall2_hitStep_refl _
    · exact List.Forall₂.cons (hitStep_refl e) (ih _ _ _)

theorem bulletVisit_hitStep (env : Env) (b : Nat) (g : Game) (hit : List Nat) :
    List.Forall₂ HitStep g.enemies (bulletVisit env b g hit).1.enemies := by
  simp only [bulletVisit]
  split_ifs
  · exact forall2_hitStep_refl _
  · exact bulletScan_hitStep env _ g.enemies 0 g.score hit
  · exact bulletScan_hitStep env _ g.enemies 0 g.score hit

theorem bulletPassLoop_hitStep (env : Env) :
    ∀ (i : Nat) (g : Game) (hit : List Nat) (es0 : List Enemy),
      List.Forall₂ HitStep es0 g.enemies →
        List.Forall₂ HitStep es0 (bulletPassLoop env i (g, hit)).1.enemies := by
  intro i
  induction i with
  | zero => intro g hit es0 h; exact h
  | succ i ih =>
    intro g hit es0 h
    simp only [bulletPassLoop]
    split
    · exact ih g hit es0 h
    · exact ih _ _ es0 (forall2_hitStep_trans h (bulletVisit_hitStep env _ g hit))

theorem playerScan_hitStep (env : Env) :
    ∀ (es : List Enemy) (j : Nat) (g : Game) (hit : List Nat),
      List.Forall₂ HitStep es (playerScan env j es g hit).1 := by
  intro es
  induction es with
  | nil => intro j g hit; exact List.Forall₂.nil
  | cons e es ih =>
    intro j g hit
    simp only [playerScan]
    split_ifs <;>
      first
        | exact List.Forall₂.cons (hitStep_refl e) (ih _ _ _)
        | exact List.Forall₂.cons (hitStep_enemyGotHit e true) (ih _ _ _)

/-- Every enemy of the roster is, after `checkCollisions`, at the same index and either
untouched or passed once through `enemyGotHit`. -/
theorem checkCollisions_hitStep (env : Env) (g : Game) :
    List.Forall₂ HitStep g.enemies (checkCollisions env g).enemies := by
  have h1 := bulletPassLoop_hitStep env g.activeBullets.length g [] g.enemies
    (forall2_hitStep_refl _)
  simp only [checkCollisions, playerPass, bulletPass]
  split_ifs
  · exact forall2_hitStep_trans h1 (playerScan_hitStep env _ 0 _ _)
  · exact h1

/-! ### One frame -/

theorem animate_of_not_playing (env : Env) (inp : FrameInput) (g : Game)
    (h : g.gameState ≠ GameState.playing) : animate env inp g = g := by
  simp [animate, h]

theorem animate_of_playing (env : Env) (inp : FrameInput) (g : Game)
    (h : g.gameState = GameState.playing) :
    animate env inp g = checkCollisions env (beforeCollisions env inp g) := by
  simp [animate, h, beforeCollisions, beforeSpawn]

theorem beforeSpawn_enemies (env : Env) (inp : FrameInput) (g : Game) :
    (beforeSpawn env inp g).enemies = g.enemies := by
  unfold beforeSpawn
  rw [updateBullets_enemies, updatePlayer_enemies]
  split_ifs
  · exact fireBullet_enemies _ g
  · rfl

theorem beforeCollisions_enemies (env : Env) (inp : FrameInput) (g : Game) :
    (beforeCollisions env inp g).enemies
      = (spawnEnemy env inp.spawnNow inp.draws (beforeSpawn env inp g)).enemies.filterMap
          (survivor env inp.deltaTime) := by
  unfold beforeCollisions
  rw [updateExplosions_enemies, updateEnemies_enemies]

/-- The roster after `spawnEnemy`: unchanged, or one enemy longer when there was room. -/
theorem spawnEnemy_enemies (env : Env) (now : Int) (r : SpawnDraws) (g : Game) :
    (spawnEnemy env now r g).enemies = g.enemies
      ∨ (g.enemies.length < maxEnemies ∧ ∃ td ∈ ENEMY_TYPES,
          (spawnEnemy env now r g).enemies = g.enemies ++ [createEnemy env g.aspect r td]) := by
  by_cases h : now - g.lastEnemySpawnTime < enemySpawnRate ∨ maxEnemies ≤ g.enemies.length
  · left; rw [spawnEnemy_refuse env now r g h]
  · right
    obtain ⟨td, -, hmem, heq⟩ := spawnEnemy_accept env now r g h
    refine ⟨by omega, td, hmem, by rw [heq]⟩

theorem length_filterMap_survivor_le (env : Env) (deltaTime : ℚ) (es : List Enemy) :
    (es.filterMap (survivor env deltaTime)).length ≤ es.length :=
  List.length_filterMap_le _ _

theorem animate_enemies_length_le (env : Env) (inp : FrameInput) (g : Game)
    (h : g.enemies.length ≤ maxEnemies) : (animate env inp g).enemies.length ≤ maxEnemies := by
  by_cases hp : g.gameState = GameState.playing
  · rw [animate_of_playing env inp g hp, ← (checkCollisions_hitStep env _).length_eq,
      beforeCollisions_enemies]
    refine le_trans (length_filterMap_survivor_le _ _ _) ?_
    rcases spawnEnemy_enemies env inp.spawnNow inp.draws (beforeSpawn env inp g) with he | ⟨hl, td, -, he⟩
    · rw [he, beforeSpawn_enemies]; exact h
    · rw [he, List.length_append, List.length_singleton]; omega
  · rw [animate_of_not_playing env inp g hp]; exact h

/-! ## Roster capacity (C16) -/

/-- C16 (the enemy roster is capacity-bounded).  In every state the running script can
reach from the first `initializeGame()` by frames of `animate` with any clock values,
elapsed times and random draws, by page events and by restarts, `enemies.length` is at
most `maxEnemies`, which is 25. -/
theorem enemies_length_le_maxEnemies (env : Env) (g : Game) (h : Reachable env g) :
    g.enemies.length ≤ maxEnemies ∧ maxEnemies = 25 := by
  refine ⟨?_, rfl⟩
  induction h with
  | boot aspect => simp [initializeGame_enemies]
  | frame inp g _ ih => exact animate_enemies_length_le env inp g ih
  | restart g _ _ => simp [initializeGame_enemies]
  | start g _ ih => unfold clickStart; split_ifs <;> exact ih
  | key k pressed g _ ih => exact ih
  | resized aspect g _ ih => exact ih

theorem enemies_length_le_maxEnemies_witness :
    Reachable exampleEnv exampleRun ∧ exampleRun.enemies.length ≤ 25 :=
  ⟨exampleRun_reachable, (enemies_length_le_maxEnemies exampleEnv exampleRun exampleRun_reachable).1⟩

/-! ## Spawner gating (C17) -/

theorem createEnemy_position_bounds (env : Env) (aspect : ℚ) (r : SpawnDraws) (td : EnemyType)
    (hfov : 0 ≤ env.tanHalfFov) (hasp : 0 ≤ aspect) :
    (createEnemy env aspect r td).position.z = -100
      ∧ |(createEnemy env aspect r td).position.x| ≤ 2 / 10 * (env.tanHalfFov * 50 * 2 * aspect)
      ∧ |(createEnemy env aspect r td).position.y| ≤ 2 / 10 * (env.tanHalfFov * 50 * 2) := by
  have hx0 := r.xDraw.nonneg
  have hx1 := r.xDraw.lt_one
  have hy0 := r.yDraw.nonneg
  have hy1 := r.yDraw.lt_one
  have hW : 0 ≤ env.tanHalfFov * aspect := mul_nonneg hfov hasp
  refine ⟨rfl, ?_, ?_⟩
  · simp only [createEnemy]
    rw [abs_le]
    constructor <;> nlinarith
  · simp only [createEnemy]
    rw [abs_le]
    constructor <;> nlinarith

/-- C17 (spawner gating and result).  With a non-negative `tan(fov / 2)` and aspect ratio,
`spawnEnemy` leaves the whole state unchanged exactly when
`now - lastEnemySpawnTime < 1100` or `enemies.length >= 25`; otherwise it sets
`lastEnemySpawnTime = now`, changes nothing else, and appends exactly one enemy, which is
Spawning (`isSpawning` true, `spawnTimer` 200, `isHit` false, `hitByPlayer` false,
`hitTimer` 0), of a type of `ENEMY_TYPES`, at `z = -100` with
`|x| <= 0.2 * worldWidthSpawn` and `|y| <= 0.2 * worldHeightSpawn`, for all draws. -/
theorem spawnEnemy_gating (env : Env) (now : Int) (r : SpawnDraws) (g : Game)
    (hfov : 0 ≤ env.tanHalfFov) (hasp : 0 ≤ g.aspect) :
    (spawnEnemy env now r g = g
        ↔ (now - g.lastEnemySpawnTime < 1100 ∨ 25 ≤ g.enemies.length))
      ∧ (¬ (now - g.lastEnemySpawnTime < 1100 ∨ 25 ≤ g.enemies.length) →
          ∃ e : Enemy,
            spawnEnemy env now r g
                = { g with lastEnemySpawnTime := now, enemies := g.enemies ++ [e] }
              ∧ e.isSpawning = true ∧ e.spawnTimer = 200 ∧ e.isHit = false
              ∧ e.hitByPlayer = false ∧ e.hitTimer = 0
              ∧ e.definition ∈ ENEMY_TYPES
              ∧ e.position.z = -100
              ∧ |e.position.x| ≤ 2 / 10 * (env.tanHalfFov * 50 * 2 * g.aspect)
              ∧ |e.position.y| ≤ 2 / 10 * (env.tanHalfFov * 50 * 2)) := by
  have hacc : ¬ (now - g.lastEnemySpawnTime < 1100 ∨ 25 ≤ g.enemies.length) →
      ∃ td, td ∈ ENEMY_TYPES ∧ spawnEnemy env now r g
        = { g with lastEnemySpawnTime := now
                   enemies := g.enemies ++ [createEnemy env g.aspect r td] } := by
    intro h
    obtain ⟨td, -, hmem, heq⟩ := spawnEnemy_accept env now r g h
    exact ⟨td, hmem, heq⟩
  constructor
  · constructor
    · intro heq
      by_contra hne
      obtain ⟨td, -, hsp⟩ := hacc hne
      have hlen := congrArg (fun s => s.enemies.length) (hsp.symm.trans heq)
      simp at hlen
    · exact spawnEnemy_refuse env now r g
  · intro h
    obtain ⟨td, hmem, hsp⟩ := hacc h
    obtain ⟨hz, hx, hy⟩ := createEnemy_position_bounds env g.aspect r td hfov hasp
    exact ⟨createEnemy env g.aspect r td, hsp, rfl, rfl, rfl, rfl, rfl, hmem, hz, hx, hy⟩

theorem spawnEnemy_gating_witness :
    (0 : ℚ) ≤ exampleEnv.tanHalfFov ∧ (0 : ℚ) ≤ exampleGame.aspect
      ∧ ¬ ((2000 : Int) - exampleGame.lastEnemySpawnTime < 1100 ∨ 25 ≤ exampleGame.enemies.length)
      ∧ spawnEnemy exampleEnv 2000 gruntAtCentre exampleGame ≠ exampleGame
      ∧ spawnEnemy exampleEnv 1000 gruntAtCentre exampleGame = exampleGame := by
  have hfov : (0 : ℚ) ≤ exampleEnv.tanHalfFov := by norm_num [exampleEnv]
  have hasp : (0 : ℚ) ≤ exampleGame.aspect := by norm_num [exampleGame, moduleState]
  have hgo : ¬ ((2000 : Int) - exampleGame.lastEnemySpawnTime < 1100
      ∨ 25 ≤ exampleGame.enemies.length) := by
    simp [exampleGame, moduleState]
  refine ⟨hfov, hasp, hgo, ?_, ?_⟩
  · exact fun h => hgo ((spawnEnemy_gating exampleEnv 2000 gruntAtCentre exampleGame hfov hasp).1.mp h)
  · exact (spawnEnemy_gating exampleEnv 1000 gruntAtCentre exampleGame hfov hasp).1.mpr
      (Or.inl (by simp [exampleGame, moduleState]))

/-! ## The player pass (C18) -/

theorem playerFlags_cons_lt (env : Env) (box : Box3) (x : Nat) :
    ∀ (es : List Enemy) (j : Nat) (hit : List Nat), x < j →
      playerFlags env box (x :: hit) j es = playerFlags env box hit j es := by
  intro es
  induction es with
  | nil => intro j hit _; rfl
  | cons e es ih =>
    intro j hit hx
    have hne : (j == x) = false := by simpa using (Nat.ne_of_gt hx)
    simp only [playerFlags, List.contains_cons, hne, Bool.false_or]
    rw [ih (j + 1) hit (Nat.lt_succ_of_lt hx)]

theorem penaltyAndHit_boundingBox (g : Game) :
    (penaltyAndHit g).playerShip.boundingBox = g.playerShip.boundingBox := by
  unfold penaltyAndHit playerGotHit
  split_ifs <;> rfl

/-- The player pass over a roster segment: the enemies flagged by `playerFlags` go through
`enemyGotHit(enemy, true)`, and the penalty-and-hit branch runs once for each of them. -/
theorem playerScan_spec (env : Env) :
    ∀ (es : List Enemy) (j : Nat) (g : Game) (hit : List Nat),
      (playerScan env j es g hit).1
          = List.zipWith (fun e (b : Bool) => if b then enemyGotHit e true else e) es
              (playerFlags env g.playerShip.boundingBox hit j es)
        ∧ (playerScan env j es g hit).2.1
          = penaltyAndHit^[(playerFlags env g.playerShip.boundingBox hit j es).count true] g := by
  intro es
  induction es with
  | nil => intro j g hit; exact ⟨rfl, rfl⟩
  | cons e es ih =>
    intro j g hit
    by_cases hskip : (e.isHit || e.isSpawning || hit.contains j) = true
    · obtain ⟨h1, h2⟩ := ih (j + 1) g hit
      simp only [playerScan, playerFlags, hskip, if_true, Bool.not_true, Bool.false_and,
        List.zipWith_cons_cons, h1, h2]
      simp
    · by_cases hbox : env.intersectsBox g.playerShip.boundingBox e.boundingBox = true
      · obtain ⟨h1, h2⟩ := ih (j + 1) (penaltyAndHit g) (j :: hit)
        rw [penaltyAndHit_boundingBox, playerFlags_cons_lt env _ j es (j + 1) hit (Nat.lt_succ_self j)]
          at h1 h2
        have hflag : (!(e.isHit || e.isSpawning || hit.contains j)
            && env.intersectsBox g.playerShip.boundingBox e.boundingBox) = true := by
          have hskip' : (e.isHit || e.isSpawning || hit.contains j) = false := by
            simpa only [Bool.not_eq_true] using hskip
          rw [hskip', hbox]
          rfl
        have hcall : playerScan env j (e :: es) g hit
            = (enemyGotHit e true :: (playerScan env (j + 1) es (penaltyAndHit g) (j :: hit)).1,
                (playerScan env (j + 1) es (penaltyAndHit g) (j :: hit)).2.1,
                (playerScan env (j + 1) es (penaltyAndHit g) (j :: hit)).2.2) := by
          simp only [playerScan, hskip, hbox, if_true]
          rfl
        rw [hcall]
        simp only [playerFlags, hflag, List.zipWith_cons_cons, if_true, h1, h2, List.count_cons_self,
          Function.iterate_succ_apply]
        exact ⟨trivial, trivial⟩
      · obtain ⟨h1, h2⟩ := ih (j + 1) g hit
        simp only [Bool.not_eq_true] at hbox
        simp only [playerScan, playerFlags, hskip, hbox, if_false, Bool.and_false,
          List.zipWith_cons_cons, h1, h2]
        simp

theorem penaltyAndHit_score (g : Game) : (penaltyAndHit g).score = max 0 (g.score - 25) := by
  have h : (penaltyAndHit g).score = if g.score - 25 < 0 then 0 else g.score - 25 := by
    unfold penaltyAndHit playerGotHit
    split_ifs <;> rfl
  rw [h, max_def]
  split_ifs <;> omega

theorem penaltyAndHit_iterate_score (g : Game) :
    ∀ k : Nat, 1 ≤ k → (penaltyAndHit^[k] g).score = max 0 (g.score - 25 * k) := by
  intro k
  induction k with
  | zero => intro h; omega
  | succ k ih =>
    intro _
    rw [Function.iterate_succ_apply', penaltyAndHit_score]
    rcases Nat.eq_zero_or_pos k with hk | hk
    · subst hk; simp
    · rw [ih hk]
      push_cast
      simp only [max_def]
      split_ifs <;> omega

theorem penaltyAndHit_of_isHit (g : Game) (h : g.playerShip.isHit = true) :
    (penaltyAndHit g).playerShip = g.playerShip := by
  simp [penaltyAndHit, playerGotHit, h]

theorem penaltyAndHit_iterate_of_isHit :
    ∀ (k : Nat) (g : Game), g.playerShip.isHit = true →
      (penaltyAndHit^[k] g).playerShip = g.playerShip := by
  intro k
  induction k with
  | zero => intro g _; rfl
  | succ k ih =>
    intro g h
    rw [Function.iterate_succ_apply, ih _ (by rw [penaltyAndHit_of_isHit g h]; exact h),
      penaltyAndHit_of_isHit g h]

theorem penaltyAndHit_iterate_player (g : Game) (h : g.playerShip.isHit = false) :
    ∀ k : Nat, 1 ≤ k →
      (penaltyAndHit^[k] g).playerShip
        = { g.playerShip with isHit := true, hitTimer := playerHitDuration } := by
  intro k hk
  obtain ⟨n, rfl⟩ : ∃ n, k = n + 1 := ⟨k - 1, by omega⟩
  have h1 : (penaltyAndHit g).playerShip
      = { g.playerShip with isHit := true, hitTimer := playerHitDuration } := by
    simp [penaltyAndHit, playerGotHit, h]
  rw [Function.iterate_succ_apply, penaltyAndHit_iterate_of_isHit n _ (by rw [h1]), h1]

theorem bulletVisit_playerShip (env : Env) (b : Nat) (g : Game) (hit : List Nat) :
    (bulletVisit env b g hit).1.playerShip = g.playerShip := by
  simp only [bulletVisit]
  split_ifs <;> rfl

theorem bulletPassLoop_playerShip (env : Env) :
    ∀ (i : Nat) (g : Game) (hit : List Nat),
      (bulletPassLoop env i (g, hit)).1.playerShip = g.playerShip := by
  intro i
  induction i with
  | zero => intro g hit; rfl
  | succ i ih =>
    intro g hit
    simp only [bulletPassLoop]
    split
    · exact ih g hit
    · rw [ih, bulletVisit_playerShip]

theorem bulletPass_playerShip (env : Env) (g : Game) :
    (bulletPass env g).1.playerShip = g.playerShip :=
  bulletPassLoop_playerShip env _ g []

theorem playerFlags_length (env : Env) (box : Box3) (hit : List Nat) :
    ∀ (es : List Enemy) (j : Nat), (playerFlags env box hit j es).length = es.length := by
  intro es
  induction es with
  | nil => intro j; rfl
  | cons e es ih => intro j; simp [playerFlags, ih]

theorem playerFlags_getElem? (env : Env) (box : Box3) (hit : List Nat) :
    ∀ (es : List Enemy) (j i : Nat) (e : Enemy), es[i]? = some e →
      (playerFlags env box hit j es)[i]?
        = some (!(e.isHit || e.isSpawning || hit.contains (j + i))
                  && env.intersectsBox box e.boundingBox) := by
  intro es
  induction es with
  | nil => intro j i e h; simp at h
  | cons a es ih =>
    intro j i e h
    cases i with
    | zero =>
      simp only [List.getElem?_cons_zero, Option.some.injEq] at h
      subst h
      simp [playerFlags]
    | succ i =>
      simp only [List.getElem?_cons_succ] at h
      simp only [playerFlags, List.getElem?_cons_succ]
      rw [ih (j + 1) i e h]
      have : j + 1 + i = j + (i + 1) := by omega
      rw [this]

theorem checkCollisions_of_player_ok (env : Env) (g : Game) (hp : g.playerShip.isHit = false) :
    (checkCollisions env g).enemies
        = List.zipWith (fun e (b : Bool) => if b then enemyGotHit e true else e)
            (bulletPass env g).1.enemies (playerTargets env g)
      ∧ (checkCollisions env g).score
        = (penaltyAndHit^[(playerTargets env g).count true] (bulletPass env g).1).score
      ∧ (checkCollisions env g).playerShip
        = (penaltyAndHit^[(playerTargets env g).count true] (bulletPass env g).1).playerShip := by
  have hp1 : (bulletPass env g).1.playerShip.isHit = false := by
    rw [bulletPass_playerShip]; exact hp
  obtain ⟨h1, h2⟩ := playerScan_spec env (bulletPass env g).1.enemies 0 (bulletPass env g).1
    (bulletPass env g).2
  rw [bulletPass_playerShip] at h1 h2
  simp only [checkCollisions, playerPass, hp1, Bool.not_false, if_true, playerTargets]
  rw [h1, h2]
  exact ⟨rfl, rfl, rfl⟩

/-- C18 (several player collisions in one frame).  If the player is not in Hit state when
`checkCollisions` starts and `k >= 1` enemies are, after the bullet pass, not hit, not
spawning, not hit by a bullet in this pass and intersect the player's box (the `true`
entries of `playerTargets`), then the score becomes `max(0, s - 25 * k)` for the score `s`
after the bullet pass, the player is in Hit state with `hitTimer = 150`, each of the `k`
enemies is in Hit state with `hitByPlayer` true and `hitTimer = 100`, and every other
enemy is as the bullet pass left it. -/
theorem player_hits_every_overlapping_enemy (env : Env) (g : Game)
    (hp : g.playerShip.isHit = false) (hk : 1 ≤ (playerTargets env g).count true) :
    (checkCollisions env g).score
        = max 0 ((bulletPass env g).1.score - 25 * ((playerTargets env g).count true : Nat))
      ∧ (checkCollisions env g).playerShip
          = { g.playerShip with isHit := true, hitTimer := 150 }
      ∧ (checkCollisions env g).enemies.length = (bulletPass env g).1.enemies.length
      ∧ (∀ (i : Nat) (e : Enemy), (bulletPass env g).1.enemies[i]? = some e →
          ((playerTargets env g)[i]? = some true ∨ (playerTargets env g)[i]? = some false)
          ∧ ((playerTargets env g)[i]? = some true ↔
              (e.isHit = false ∧ e.isSpawning = false ∧ i ∉ (bulletPass env g).2
                ∧ env.intersectsBox g.playerShip.boundingBox e.boundingBox = true))
          ∧ ((playerTargets env g)[i]? = some true →
              (checkCollisions env g).enemies[i]?
                = some { e with isHit := true, hitByPlayer := true, hitTimer := 100 })
          ∧ ((playerTargets env g)[i]? = some false →
              (checkCollisions env g).enemies[i]? = some e)) := by
  obtain ⟨he, hs, hpl⟩ := checkCollisions_of_player_ok env g hp
  have hp1 : (bulletPass env g).1.playerShip.isHit = false := by
    rw [bulletPass_playerShip]; exact hp
  have hlen : (playerTargets env g).length = (bulletPass env g).1.enemies.length :=
    playerFlags_length env _ _ _ 0
  refine ⟨?_, ?_, ?_, ?_⟩
  · rw [hs, penaltyAndHit_iterate_score _ _ hk]
  · rw [hpl, penaltyAndHit_iterate_player _ hp1 _ hk, bulletPass_playerShip]
    rfl
  · rw [he, List.length_zipWith, hlen, min_self]
  · intro i e hi
    have hflag := playerFlags_getElem? env g.playerShip.boundingBox (bulletPass env g).2
      (bulletPass env g).1.enemies 0 i e hi
    rw [Nat.zero_add] at hflag
    have hget : (checkCollisions env g).enemies[i]?
        = some (if (!(e.isHit || e.isSpawning || (bulletPass env g).2.contains i)
                    && env.intersectsBox g.playerShip.boundingBox e.boundingBox) = true
                then enemyGotHit e true else e) := by
      rw [he, List.getElem?_zipWith, hi]
      unfold playerTargets
      rw [hflag]
    unfold playerTargets
    rw [hflag]
    refine ⟨?_, ?_, ?_, ?_⟩
    · cases (!(e.isHit || e.isSpawning || (bulletPass env g).2.contains i)
          && env.intersectsBox g.playerShip.boundingBox e.boundingBox)
      · right; rfl
      · left; rfl
    · simp [and_assoc]
    · intro h
      have hb := Option.some.inj h
      rw [hget, hb, if_pos rfl]
      have hb' := hb
      simp only [Bool.and_eq_true, Bool.not_eq_true', Bool.or_eq_false_iff] at hb'
      rw [enemyGotHit_of_normal e true hb'.1.1.1 hb'.1.1.2]
      rfl
    · intro h
      have hb := Option.some.inj h
      rw [hget, hb]
      rfl

theorem player_hits_every_overlapping_enemy_witness :
    exampleCrashGame.playerShip.isHit = false
      ∧ (playerTargets exampleEnv exampleCrashGame).count true = 2
      ∧ (bulletPass exampleEnv exampleCrashGame).1.score = 60
      ∧ (checkCollisions exampleEnv exampleCrashGame).score = 10
      ∧ (checkCollisions exampleEnv exampleCrashGame).playerShip.hitTimer = 150 := by
  have hb : bulletPass exampleEnv exampleCrashGame = (exampleCrashGame, []) := rfl
  have hflags : playerTargets exampleEnv exampleCrashGame = [true, true] := by
    simp only [playerTargets, hb]
    simp [playerFlags, exampleCrashGame, exampleGrunt, exampleEnv, boxesIntersect, cubeAround]
    norm_num
  have hk : (playerTargets exampleEnv exampleCrashGame).count true = 2 := by
    rw [hflags]; rfl
  have h := player_hits_every_overlapping_enemy exampleEnv exampleCrashGame rfl (by rw [hk]; decide)
  refine ⟨rfl, hk, rfl, ?_, ?_⟩
  · rw [h.1, hk, hb]; rfl
  · rw [h.2.1]

/-! ## Type values are fixed at spawn (C19) -/

theorem sameType_trans {a b c : Enemy} (h1 : SameType a b) (h2 : SameType b c) : SameType a c :=
  ⟨h2.1.trans h1.1, h2.2.1.trans h1.2.1, h2.2.2.1.trans h1.2.2.1, h2.2.2.2.1.trans h1.2.2.2.1,
    h2.2.2.2.2.trans h1.2.2.2.2⟩

theorem spawnFlash_sameType (deltaTime : ℚ) (e : Enemy) : SameType e (spawnFlash deltaTime e) := by
  rw [spawnFlash_eq]
  exact ⟨rfl, rfl, rfl, rfl, rfl⟩

theorem sineWeave_sameType (env : Env) (deltaTime : ℚ) (e : Enemy) :
    SameType e (sineWeave env deltaTime e) := by
  unfold sineWeave
  split_ifs <;> exact ⟨rfl, rfl, rfl, rfl, rfl⟩

theorem updateEnemy_sameType (env : Env) (deltaTime : ℚ) (e : Enemy) :
    SameType e (updateEnemy env deltaTime e).1 := by
  have h1 := spawnFlash_sameType deltaTime e
  have h2 : SameType (spawnFlash deltaTime e) (moveForward deltaTime (spawnFlash deltaTime e)) :=
    ⟨rfl, rfl, rfl, rfl, rfl⟩
  have h3 := sineWeave_sameType env deltaTime (moveForward deltaTime (spawnFlash deltaTime e))
  have h4 : SameType (sineWeave env deltaTime (moveForward deltaTime (spawnFlash deltaTime e)))
      (updateEnemy env deltaTime e).1 := by
    rw [updateEnemy, hitTimerAndRemoval_fst]
    exact ⟨rfl, rfl, rfl, rfl, rfl⟩
  exact sameType_trans (sameType_trans h1 h2) (sameType_trans h3 h4)

theorem enemyGotHit_sameType (e : Enemy) (byPlayer : Bool) : SameType e (enemyGotHit e byPlayer) := by
  unfold enemyGotHit
  split_ifs <;> exact ⟨rfl, rfl, rfl, rfl, rfl⟩

theorem hitStep_sameType {e e' : Enemy} (h : HitStep e e') : SameType e e' := by
  rcases h with rfl | ⟨b, rfl⟩
  · exact ⟨rfl, rfl, rfl, rfl, rfl⟩
  · exact enemyGotHit_sameType e b

theorem typeFixed_of_sameType {e e' : Enemy} (h : TypeFixed e) (hs : SameType e e') :
    TypeFixed e' := by
  obtain ⟨h1, h2, h3, h4, h5⟩ := h
  obtain ⟨s1, s2, s3, s4, s5⟩ := hs
  exact ⟨s1 ▸ h1, by rw [s2, s1, h2], by rw [s3, s1, h3], by rw [s4, s1, h4], by rw [s5, s1, h5]⟩

theorem createEnemy_typeFixed (env : Env) (aspect : ℚ) (r : SpawnDraws) (td : EnemyType)
    (h : td ∈ ENEMY_TYPES) : TypeFixed (createEnemy env aspect r td) :=
  ⟨h, rfl, rfl, rfl, rfl⟩

theorem forall2_mem_right {R : Enemy → Enemy → Prop} :
    ∀ {l l' : List Enemy}, List.Forall₂ R l l' → ∀ b ∈ l', ∃ a ∈ l, R a b
  | _, _, List.Forall₂.nil, b, hb => by simp at hb
  | _, _, List.Forall₂.cons h t, b, hb => by
    rcases List.mem_cons.mp hb with rfl | hb
    · exact ⟨_, List.mem_cons_self _ _, h⟩
    · obtain ⟨a, ha, hr⟩ := forall2_mem_right t b hb
      exact ⟨a, List.mem_cons_of_mem _ ha, hr⟩

theorem forall2_getElem? {R : Enemy → Enemy → Prop} :
    ∀ {l l' : List Enemy}, List.Forall₂ R l l' → ∀ (i : Nat) (a : Enemy), l[i]? = some a →
      ∃ b, l'[i]? = some b ∧ R a b
  | _, _, List.Forall₂.nil, i, a, h => by simp at h
  | _, _, List.Forall₂.cons h t, i, a, hi => by
    cases i with
    | zero =>
      simp only [List.getElem?_cons_zero, Option.some.injEq] at hi
      subst hi
      exact ⟨_, List.getElem?_cons_zero, h⟩
    | succ i =>
      rw [List.getElem?_cons_succ] at hi
      obtain ⟨b, hb, hr⟩ := forall2_getElem? t i a hi
      exact ⟨b, by rw [List.getElem?_cons_succ]; exact hb, hr⟩

theorem updateEnemies_mem (env : Env) (deltaTime : ℚ) (g : Game) (e' : Enemy)
    (h : e' ∈ (updateEnemies env deltaTime g).enemies) :
    ∃ e ∈ g.enemies, (updateEnemy env deltaTime e).2 = Removal.keep
      ∧ e' = (updateEnemy env deltaTime e).1 := by
  rw [updateEnemies_enemies, List.mem_filterMap] at h
  obtain ⟨e, he, hs⟩ := h
  unfold survivor at hs
  split_ifs at hs with hk
  exact ⟨e, he, hk, (Option.some.inj hs).symm⟩

theorem animate_typeFixed (env : Env) (inp : FrameInput) (g : Game)
    (h : ∀ e ∈ g.enemies, TypeFixed e) : ∀ e ∈ (animate env inp g).enemies, TypeFixed e := by
  by_cases hp : g.gameState = GameState.playing
  · rw [animate_of_playing env inp g hp]
    have hspawn : ∀ e ∈ (spawnEnemy env inp.spawnNow inp.draws (beforeSpawn env inp g)).enemies,
        TypeFixed e := by
      rcases spawnEnemy_enemies env inp.spawnNow inp.draws (beforeSpawn env inp g)
        with he | ⟨-, td, htd, he⟩
      · rw [he, beforeSpawn_enemies]; exact h
      · rw [he, beforeSpawn_enemies]
        intro e hmem
        rcases List.mem_append.mp hmem with hm | hm
        · exact h e hm
        · rw [List.mem_singleton.mp hm]
          exact createEnemy_typeFixed env _ _ td htd
    have hbefore : ∀ e ∈ (beforeCollisions env inp g).enemies, TypeFixed e := by
      rw [beforeCollisions_enemies]
      intro e' hmem
      obtain ⟨e, he, hs⟩ := List.mem_filterMap.mp hmem
      unfold survivor at hs
      split_ifs at hs
      rw [← Option.some.inj hs]
      exact typeFixed_of_sameType (hspawn e he) (updateEnemy_sameType env _ e)
    intro e' hmem
    obtain ⟨e, he, hr⟩ := forall2_mem_right (checkCollisions_hitStep env _) e' hmem
    exact typeFixed_of_sameType (hbefore e he) (hitStep_sameType hr)
  · rw [animate_of_not_playing env inp g hp]; exact h

theorem reachable_typeFixed (env : Env) (g : Game) (h : Reachable env g) :
    ∀ e ∈ g.enemies, TypeFixed e := by
  induction h with
  | boot aspect => simp [initializeGame_enemies]
  | frame inp g _ ih => exact animate_typeFixed env inp g ih
  | restart g _ _ => simp [initializeGame_enemies]
  | start g _ ih => unfold clickStart; split_ifs <;> exact ih
  | key k pressed g _ ih => exact ih
  | resized aspect g _ ih => exact ih

theorem typeFixed_scoreValueOr10 {e : Enemy} (h : TypeFixed e) :
    scoreValueOr10 e = e.definition.score
      ∧ (e.type = "GRUNT" → scoreValueOr10 e = 10)
      ∧ (e.type = "DODGER" → scoreValueOr10 e = 15) := by
  obtain ⟨h1, h2, -, h4, -⟩ := h
  unfold scoreValueOr10
  simp only [ENEMY_TYPES, List.mem_cons, List.mem_singleton, List.not_mem_nil, or_false] at h1
  rcases h1 with hd | hd
  · rw [h4, h2, hd]
    simp [GRUNT]
  · rw [h4, h2, hd]
    simp [DODGER]

theorem bulletScan_score (env : Env) (bulletBox : Box3) :
    ∀ (es : List Enemy) (j : Nat) (score : Int) (hit : List Nat),
      (bulletScan env bulletBox j es score hit).2.1 = score
        ∨ ∃ e ∈ es, e.isHit = false ∧ e.isSpawning = false
            ∧ (bulletScan env bulletBox j es score hit).2.1 = score + scoreValueOr10 e := by
  intro es
  induction es with
  | nil => intro j score hit; exact Or.inl rfl
  | cons e es ih =>
    intro j score hit
    have hrec : (bulletScan env bulletBox (j + 1) es score hit).2.1 = score
        ∨ ∃ a ∈ e :: es, a.isHit = false ∧ a.isSpawning = false
            ∧ (bulletScan env bulletBox (j + 1) es score hit).2.1 = score + scoreValueOr10 a := by
      rcases ih (j + 1) score hit with h | ⟨a, ha, h⟩
      · exact Or.inl h
      · exact Or.inr ⟨a, List.mem_cons_of_mem _ ha, h⟩
    by_cases hskip : (e.isHit || e.isSpawning || hit.contains j) = true
    · simpa only [bulletScan, hskip, if_true] using hrec
    · by_cases hbox : env.intersectsBox bulletBox e.boundingBox = true
      · have hskip' : (e.isHit || e.isSpawning || hit.contains j) = false := by
          simpa only [Bool.not_eq_true] using hskip
        have hc : hit.contains j = false := by
          simp only [Bool.or_eq_false_iff] at hskip'
          exact hskip'.2
        simp only [Bool.or_eq_false_iff] at hskip'
        right
        refine ⟨e, List.mem_cons_self _ _, hskip'.1.1, hskip'.1.2, ?_⟩
        have hmem : j ∉ hit := by simpa using hc
        simp [bulletScan, hskip'.1.1, hskip'.1.2, hmem, hbox]
      · simpa only [bulletScan, hskip, hbox, if_false] using hrec

/-- C19 (type values are fixed at spawn).  Every enemy of a reachable roster carries an
entry of `ENEMY_TYPES` and has that entry's name, speed, score and movement pattern; the
frame operations (`updateEnemies` and its loop body, `enemyGotHit`, `checkCollisions`)
leave these values as they are; so the score a bullet hit adds,
`enemy.userData.scoreValue || 10`, is the type's score: 10 for a GRUNT, 15 for a DODGER. -/
theorem enemy_type_values_fixed (env : Env) (g : Game) (h : Reachable env g) :
    (∀ e ∈ g.enemies,
        e.definition ∈ ENEMY_TYPES ∧ e.type = e.definition.name ∧ e.speed = e.definition.speed
          ∧ e.scoreValue = e.definition.score
          ∧ e.movementPattern = e.definition.movementPattern
          ∧ scoreValueOr10 e = e.definition.score
          ∧ (e.type = "GRUNT" → scoreValueOr10 e = 10)
          ∧ (e.type = "DODGER" → scoreValueOr10 e = 15))
      ∧ (∀ (dt : ℚ) (e : Enemy), SameType e (updateEnemy env dt e).1)
      ∧ (∀ (e : Enemy) (byPlayer : Bool), SameType e (enemyGotHit e byPlayer))
      ∧ (∀ (dt : ℚ), ∀ e' ∈ (updateEnemies env dt g).enemies, ∃ e ∈ g.enemies, SameType e e')
      ∧ (∀ (i : Nat) (e : Enemy), g.enemies[i]? = some e →
          ∃ e', (checkCollisions env g).enemies[i]? = some e' ∧ SameType e e')
      ∧ (∀ (bulletBox : Box3) (hit : List Nat),
          (bulletScan env bulletBox 0 g.enemies g.score hit).2.1 = g.score
            ∨ ∃ e ∈ g.enemies,
                (bulletScan env bulletBox 0 g.enemies g.score hit).2.1
                  = g.score + e.definition.score) := by
  have hfix := reachable_typeFixed env g h
  refine ⟨?_, updateEnemy_sameType env, enemyGotHit_sameType, ?_, ?_, ?_⟩
  · intro e he
    obtain ⟨s1, s2, s3⟩ := typeFixed_scoreValueOr10 (hfix e he)
    obtain ⟨t1, t2, t3, t4, t5⟩ := hfix e he
    exact ⟨t1, t2, t3, t4, t5, s1, s2, s3⟩
  · intro dt e' he'
    obtain ⟨e, he, -, rfl⟩ := updateEnemies_mem env dt g e' he'
    exact ⟨e, he, updateEnemy_sameType env dt e⟩
  · intro i e hi
    obtain ⟨e', he', hr⟩ := forall2_getElem? (checkCollisions_hitStep env g) i e hi
    exact ⟨e', he', hitStep_sameType hr⟩
  · intro bulletBox hit
    rcases bulletScan_score env bulletBox g.enemies 0 g.score hit with hs | ⟨e, he, -, -, hs⟩
    · exact Or.inl hs
    · exact Or.inr ⟨e, he, by rw [hs, (typeFixed_scoreValueOr10 (hfix e he)).1]⟩

theorem enemy_type_values_fixed_witness :
    Reachable exampleEnv exampleRun
      ∧ (∀ e ∈ exampleRun.enemies, e.scoreValue = e.definition.score
          ∧ scoreValueOr10 e = e.definition.score) :=
  ⟨exampleRun_reachable, fun e he =>
    ⟨((enemy_type_values_fixed exampleEnv exampleRun exampleRun_reachable).1 e he).2.2.2.1,
      ((enemy_type_values_fixed exampleEnv exampleRun exampleRun_reachable).1 e he).2.2.2.2.2.1⟩⟩

/-! ## The frame of a spawn (C20) -/

theorem fireBullet_spawnFields (now : Int) (g : Game) :
    (fireBullet now g).lastEnemySpawnTime = g.lastEnemySpawnTime
      ∧ (fireBullet now g).aspect = g.aspect := by
  have h : (getBulletFromPool g).2.lastEnemySpawnTime = g.lastEnemySpawnTime
      ∧ (getBulletFromPool g).2.aspect = g.aspect := by
    by_cases hp : g.bulletPool = []
    · rw [getBulletFromPool_of_empty g hp]; exact ⟨rfl, rfl⟩
    · rw [getBulletFromPool_of_pool g _ _ (List.dropLast_append_getLast hp).symm]; exact ⟨rfl, rfl⟩
  unfold fireBullet
  split_ifs
  · exact ⟨rfl, rfl⟩
  · rcases hr : getBulletFromPool g with ⟨o, g1⟩
    rw [hr] at h
    cases o <;> simpa using h

theorem updateBulletsLoop_spawnFields (env : Env) (deltaTime : ℚ) :
    ∀ (i : Nat) (g : Game),
      (updateBulletsLoop env deltaTime i g).lastEnemySpawnTime = g.lastEnemySpawnTime
        ∧ (updateBulletsLoop env deltaTime i g).aspect = g.aspect := by
  intro i
  induction i with
  | zero => intro g; exact ⟨rfl, rfl⟩
  | succ i ih =>
    intro g
    simp only [updateBulletsLoop]
    split
    · exact ih g
    · split_ifs
      all_goals exact ih _

theorem beforeSpawn_spawnFields (env : Env) (inp : FrameInput) (g : Game) :
    (beforeSpawn env inp g).lastEnemySpawnTime = g.lastEnemySpawnTime
      ∧ (beforeSpawn env inp g).aspect = g.aspect := by
  unfold beforeSpawn updateBullets
  obtain ⟨h1, h2⟩ := updateBulletsLoop_spawnFields env inp.deltaTime
    (updatePlayer env inp.deltaTime (if g.keysPressed " " then fireBullet inp.fireNow g else g)).activeBullets.length
    (updatePlayer env inp.deltaTime (if g.keysPressed " " then fireBullet inp.fireNow g else g))
  rw [h1, h2]
  have h3 : (updatePlayer env inp.deltaTime
      (if g.keysPressed " " then fireBullet inp.fireNow g else g)).lastEnemySpawnTime
        = (if g.keysPressed " " then fireBullet inp.fireNow g else g).lastEnemySpawnTime := rfl
  have h4 : (updatePlayer env inp.deltaTime
      (if g.keysPressed " " then fireBullet inp.fireNow g else g)).aspect
        = (if g.keysPressed " " then fireBullet inp.fireNow g else g).aspect := rfl
  rw [h3, h4]
  split_ifs
  · exact fireBullet_spawnFields _ g
  · exact ⟨rfl, rfl⟩

/-- A newly created enemy after its first pass through the `updateEnemies` loop body in a
frame shorter than the spawn flash (200 ms): still Spawning, not hit, kept in the roster. -/
theorem updateEnemy_createEnemy (env : Env) (aspect : ℚ) (r : SpawnDraws) (td : EnemyType)
    (htd : td ∈ ENEMY_TYPES) (deltaTime : ℚ) (hdt : deltaTime * 1000 < 200) :
    (updateEnemy env deltaTime (createEnemy env aspect r td)).2 = Removal.keep
      ∧ (updateEnemy env deltaTime (createEnemy env aspect r td)).1.isSpawning = true
      ∧ (updateEnemy env deltaTime (createEnemy env aspect r td)).1.spawnTimer
          = 200 - deltaTime * 1000
      ∧ (updateEnemy env deltaTime (createEnemy env aspect r td)).1.isHit = false
      ∧ (updateEnemy env deltaTime (createEnemy env aspect r td)).1.hitByPlayer = false
      ∧ (updateEnemy env deltaTime (createEnemy env aspect r td)).1.hitTimer = 0 := by
  have hflash : spawnFlash deltaTime (createEnemy env aspect r td)
      = { createEnemy env aspect r td with spawnTimer := 200 - deltaTime * 1000 } := by
    rw [spawnFlash_eq]
    have : decide (0 < (createEnemy env aspect r td).spawnTimer - deltaTime * 1000) = true := by
      simp only [createEnemy, enemySpawnFlashDuration, decide_eq_true_eq]
      linarith
    simp only [this]
    rfl
  have hweave : ∀ e : Enemy, e.isSpawning = true → sineWeave env deltaTime e = e := by
    intro e he
    simp [sineWeave, he]
  have hspeed : td.speed ≤ 5 := by
    simp only [ENEMY_TYPES, List.mem_cons, List.mem_singleton, List.not_mem_nil, or_false] at htd
    rcases htd with rfl | rfl <;> norm_num [GRUNT, DODGER]
  have hz : ¬ (-100 + td.speed * deltaTime > cameraPositionZ + 10) := by
    have hs0 : (0 : ℚ) ≤ td.speed := by
      simp only [ENEMY_TYPES, List.mem_cons, List.mem_singleton, List.not_mem_nil, or_false] at htd
      rcases htd with rfl | rfl <;> norm_num [GRUNT, DODGER]
    unfold cameraPositionZ
    by_cases hd : 0 ≤ deltaTime
    · nlinarith
    · nlinarith
  have hstep : updateEnemy env deltaTime (createEnemy env aspect r td)
      = hitTimerAndRemoval deltaTime (boxAndRotate env deltaTime
          (moveForward deltaTime
            { createEnemy env aspect r td with spawnTimer := 200 - deltaTime * 1000 })) := by
    rw [updateEnemy, hflash, hweave _ rfl]
  rw [hstep]
  unfold hitTimerAndRemoval
  have hnh : (boxAndRotate env deltaTime (moveForward deltaTime
      { createEnemy env aspect r td with spawnTimer := 200 - deltaTime * 1000 })).isHit = false := rfl
  have hpz : (boxAndRotate env deltaTime (moveForward deltaTime
      { createEnemy env aspect r td with spawnTimer := 200 - deltaTime * 1000 })).position.z
        = -100 + td.speed * deltaTime := rfl
  simp only [hnh, hpz, if_neg hz, Bool.false_eq_true, if_false]
  refine ⟨?_, ?_, ?_, ?_, ?_, ?_⟩ <;> trivial

/-! ### A Spawning enemy at the end of the roster is invisible to `checkCollisions` -/

theorem bulletScan_cons_skip (env : Env) (bulletBox : Box3) (a : Enemy) (es : List Enemy)
    (j : Nat) (score : Int) (hit : List Nat)
    (h : (a.isHit || a.isSpawning || hit.contains j) = true) :
    bulletScan env bulletBox j (a :: es) score hit
      = (a :: (bulletScan env bulletBox (j + 1) es score hit).1,
          (bulletScan env bulletBox (j + 1) es score hit).2.1,
          (bulletScan env bulletBox (j + 1) es score hit).2.2.1,
          (bulletScan env bulletBox (j + 1) es score hit).2.2.2) := by
  rw [bulletScan, if_pos h]

theorem bulletScan_cons_miss (env : Env) (bulletBox : Box3) (a : Enemy) (es : List Enemy)
    (j : Nat) (score : Int) (hit : List Nat)
    (h : (a.isHit || a.isSpawning || hit.contains j) = false)
    (hbox : env.intersectsBox bulletBox a.boundingBox = false) :
    bulletScan env bulletBox j (a :: es) score hit
      = (a :: (bulletScan env bulletBox (j + 1) es score hit).1,
          (bulletScan env bulletBox (j + 1) es score hit).2.1,
          (bulletScan env bulletBox (j + 1) es score hit).2.2.1,
          (bulletScan env bulletBox (j + 1) es score hit).2.2.2) := by
  rw [bulletScan, if_neg (by rw [h]; exact Bool.false_ne_true),
    if_neg (by rw [hbox]; exact Bool.false_ne_true)]

theorem bulletScan_cons_hit (env : Env) (bulletBox : Box3) (a : Enemy) (es : List Enemy)
    (j : Nat) (score : Int) (hit : List Nat)
    (h : (a.isHit || a.isSpawning || hit.contains j) = false)
    (hbox : env.intersectsBox bulletBox a.boundingBox = true) :
    bulletScan env bulletBox j (a :: es) score hit
      = (enemyGotHit a false :: es, score + scoreValueOr10 a, j :: hit, true) := by
  have hc : hit.contains j = false := by
    simp only [Bool.or_eq_false_iff] at h
    exact h.2
  rw [bulletScan, if_neg (by rw [h]; exact Bool.false_ne_true), if_pos hbox,
    if_pos (by rw [hc]; rfl)]

theorem playerScan_cons_skip (env : Env) (a : Enemy) (es : List Enemy) (j : Nat) (g : Game)
    (hit : List Nat) (h : (a.isHit || a.isSpawning || hit.contains j) = true) :
    playerScan env j (a :: es) g hit
      = (a :: (playerScan env (j + 1) es g hit).1, (playerScan env (j + 1) es g hit).2.1,
          (playerScan env (j + 1) es g hit).2.2) := by
  rw [playerScan, if_pos h]

theorem playerScan_cons_miss (env : Env) (a : Enemy) (es : List Enemy) (j : Nat) (g : Game)
    (hit : List Nat) (h : (a.isHit || a.isSpawning || hit.contains j) = false)
    (hbox : env.intersectsBox g.playerShip.boundingBox a.boundingBox = false) :
    playerScan env j (a :: es) g hit
      = (a :: (playerScan env (j + 1) es g hit).1, (playerScan env (j + 1) es g hit).2.1,
          (playerScan env (j + 1) es g hit).2.2) := by
  rw [playerScan, if_neg (by rw [h]; exact Bool.false_ne_true),
    if_neg (by rw [hbox]; exact Bool.false_ne_true)]

theorem playerScan_cons_hit (env : Env) (a : Enemy) (es : List Enemy) (j : Nat) (g : Game)
    (hit : List Nat) (h : (a.isHit || a.isSpawning || hit.contains j) = false)
    (hbox : env.intersectsBox g.playerShip.boundingBox a.boundingBox = true) :
    playerScan env j (a :: es) g hit
      = (enemyGotHit a true :: (playerScan env (j + 1) es (penaltyAndHit g) (j :: hit)).1,
          (playerScan env (j + 1) es (penaltyAndHit g) (j :: hit)).2.1,
          (playerScan env (j + 1) es (penaltyAndHit g) (j :: hit)).2.2) := by
  rw [playerScan, if_neg (by rw [h]; exact Bool.false_ne_true), if_pos hbox]
  rfl

theorem bulletScan_append_spawning (env : Env) (bulletBox : Box3) (e : Enemy)
    (he : e.isSpawning = true) :
    ∀ (es : List Enemy) (j : Nat) (score : Int) (hit : List Nat),
      bulletScan env bulletBox j (es ++ [e]) score hit
        = ((bulletScan env bulletBox j es score hit).1 ++ [e],
            (bulletScan env bulletBox j es score hit).2.1,
            (bulletScan env bulletBox j es score hit).2.2.1,
            (bulletScan env bulletBox j es score hit).2.2.2) := by
  intro es
  induction es with
  | nil =>
    intro j score hit
    rw [List.nil_append, bulletScan_cons_skip env _ e [] j score hit (by simp [he])]
    rfl
  | cons a es ih =>
    intro j score hit
    rw [List.cons_append]
    cases h : (a.isHit || a.isSpawning || hit.contains j)
    · cases hbox : env.intersectsBox bulletBox a.boundingBox
      · rw [bulletScan_cons_miss env _ a _ j score hit h hbox,
          bulletScan_cons_miss env _ a _ j score hit h hbox, ih]
        rfl
      · rw [bulletScan_cons_hit env _ a _ j score hit h hbox,
          bulletScan_cons_hit env _ a _ j score hit h hbox]
        rfl
    · rw [bulletScan_cons_skip env _ a _ j score hit h, bulletScan_cons_skip env _ a _ j score hit h,
        ih]
      rfl

theorem playerScan_append_spawning (env : Env) (e : Enemy) (he : e.isSpawning = true) :
    ∀ (es : List Enemy) (j : Nat) (g : Game) (hit : List Nat),
      playerScan env j (es ++ [e]) g hit
        = ((playerScan env j es g hit).1 ++ [e], (playerScan env j es g hit).2.1,
            (playerScan env j es g hit).2.2) := by
  intro es
  induction es with
  | nil =>
    intro j g hit
    rw [List.nil_append, playerScan_cons_skip env e [] j g hit (by simp [he])]
    rfl
  | cons a es ih =>
    intro j g hit
    rw [List.cons_append]
    cases h : (a.isHit || a.isSpawning || hit.contains j)
    · cases hbox : env.intersectsBox g.playerShip.boundingBox a.boundingBox
      · rw [playerScan_cons_miss env a _ j g hit h hbox, playerScan_cons_miss env a _ j g hit h hbox,
          ih]
        rfl
      · rw [playerScan_cons_hit env a _ j g hit h hbox, playerScan_cons_hit env a _ j g hit h hbox,
          ih]
        rfl
    · rw [playerScan_cons_skip env a _ j g hit h, playerScan_cons_skip env a _ j g hit h, ih]
      rfl

theorem bulletVisit_append_spawning (env : Env) (e : Enemy) (he : e.isSpawning = true)
    (b : Nat) (g : Game) (hit : List Nat) :
    bulletVisit env b { g with enemies := g.enemies ++ [e] } hit
      = ({ (bulletVisit env b g hit).1 with enemies := (bulletVisit env b g hit).1.enemies ++ [e] },
          (bulletVisit env b g hit).2) := by
  simp only [bulletVisit, bulletScan_append_spawning env _ e he]
  split_ifs <;> rfl

theorem bulletPassLoop_append_spawning (env : Env) (e : Enemy) (he : e.isSpawning = true) :
    ∀ (i : Nat) (g : Game) (hit : List Nat),
      bulletPassLoop env i ({ g with enemies := g.enemies ++ [e] }, hit)
        = ({ (bulletPassLoop env i (g, hit)).1 with
              enemies := (bulletPassLoop env i (g, hit)).1.enemies ++ [e] },
            (bulletPassLoop env i (g, hit)).2) := by
  intro i
  induction i with
  | zero => intro g hit; rfl
  | succ i ih =>
    intro g hit
    simp only [bulletPassLoop]
    split
    · exact ih g hit
    · rw [bulletVisit_append_spawning env e he]
      exact ih _ _

theorem penaltyAndHit_with_enemies (g : Game) (l : List Enemy) :
    penaltyAndHit { g with enemies := l } = { penaltyAndHit g with enemies := l } := by
  unfold penaltyAndHit playerGotHit
  split_ifs <;> rfl

theorem playerScan_with_enemies (env : Env) (l : List Enemy) :
    ∀ (es : List Enemy) (j : Nat) (g : Game) (hit : List Nat),
      playerScan env j es { g with enemies := l } hit
        = ((playerScan env j es g hit).1, { (playerScan env j es g hit).2.1 with enemies := l },
            (playerScan env j es g hit).2.2) := by
  intro es
  induction es with
  | nil => intro j g hit; rfl
  | cons a es ih =>
    intro j g hit
    cases h : (a.isHit || a.isSpawning || hit.contains j)
    · cases hbox : env.intersectsBox g.playerShip.boundingBox a.boundingBox
      · rw [playerScan_cons_miss env a _ j g hit h hbox,
          playerScan_cons_miss env a _ j { g with enemies := l } hit h hbox, ih]
      · rw [playerScan_cons_hit env a _ j g hit h hbox,
          playerScan_cons_hit env a _ j { g with enemies := l } hit h hbox,
          penaltyAndHit_with_enemies, ih]
    · rw [playerScan_cons_skip env a _ j g hit h,
        playerScan_cons_skip env a _ j { g with enemies := l } hit h, ih]

/-- A Spawning enemy at the end of the roster takes no part in `checkCollisions`: the
result is the one for the roster without it, with the enemy put back unchanged. -/
theorem checkCollisions_append_spawning (env : Env) (e : Enemy) (he : e.isSpawning = true)
    (g : Game) :
    checkCollisions env { g with enemies := g.enemies ++ [e] }
      = { checkCollisions env g with enemies := (checkCollisions env g).enemies ++ [e] } := by
  have h := bulletPassLoop_append_spawning env e he g.activeBullets.length g []
  simp only [checkCollisions, bulletPass, playerPass]
  rw [h]
  simp only [playerScan_append_spawning env e he, playerScan_with_enemies]
  split_ifs <;> rfl

/-- C20, as the code has it (spawn-frame invulnerability for frames shorter than the spawn
flash).  In a playing frame with `1000 * deltaTime < 200` in which `spawnEnemy` spawns, the
new enemy is the last of the roster when `checkCollisions` runs, it is still Spawning
there, and `checkCollisions` gives the result it gives for the roster without that enemy,
with the enemy put back unchanged: it is not hit, no score is awarded and no penalty
applied for it, and it stops no bullet. -/
theorem spawn_frame_invulnerable (env : Env) (inp : FrameInput) (g : Game)
    (hp : g.gameState = GameState.playing) (hdt : inp.deltaTime * 1000 < 200)
    (hs : ¬ (inp.spawnNow - g.lastEnemySpawnTime < 1100 ∨ 25 ≤ g.enemies.length)) :
    ∃ td ∈ ENEMY_TYPES, ∃ rest : List Enemy, ∃ e : Enemy,
      (spawnEnemy env inp.spawnNow inp.draws (beforeSpawn env inp g)).enemies
          = g.enemies ++ [createEnemy env g.aspect inp.draws td]
        ∧ e = (updateEnemy env inp.deltaTime (createEnemy env g.aspect inp.draws td)).1
        ∧ (beforeCollisions env inp g).enemies = rest ++ [e]
        ∧ e.isSpawning = true ∧ e.isHit = false ∧ e.hitByPlayer = false ∧ e.hitTimer = 0
        ∧ animate env inp g
            = { checkCollisions env { beforeCollisions env inp g with enemies := rest } with
                enemies :=
                  (checkCollisions env { beforeCollisions env inp g with enemies := rest }).enemies
                    ++ [e] } := by
  obtain ⟨hlast, hasp⟩ := beforeSpawn_spawnFields env inp g
  have hen := beforeSpawn_enemies env inp g
  have hs' : ¬ (inp.spawnNow - (beforeSpawn env inp g).lastEnemySpawnTime < enemySpawnRate
      ∨ maxEnemies ≤ (beforeSpawn env inp g).enemies.length) := by
    rw [hlast, hen]; exact hs
  obtain ⟨td, -, htd, hsp⟩ := spawnEnemy_accept env inp.spawnNow inp.draws _ hs'
  rw [hasp, hen] at hsp
  obtain ⟨hkeep, hspawning, -, hhit, hby, htimer⟩ :=
    updateEnemy_createEnemy env g.aspect inp.draws td htd inp.deltaTime hdt
  have hsurv : survivor env inp.deltaTime (createEnemy env g.aspect inp.draws td)
      = some (updateEnemy env inp.deltaTime (createEnemy env g.aspect inp.draws td)).1 := by
    simp [survivor, hkeep]
  have hroster : (beforeCollisions env inp g).enemies
      = g.enemies.filterMap (survivor env inp.deltaTime)
          ++ [(updateEnemy env inp.deltaTime (createEnemy env g.aspect inp.draws td)).1] := by
    rw [beforeCollisions_enemies, hsp]
    simp [List.filterMap_append, hsurv]
  refine ⟨td, htd, g.enemies.filterMap (survivor env inp.deltaTime), _, by rw [hsp], rfl, hroster,
    hspawning, hhit, hby, htimer, ?_⟩
  rw [animate_of_playing env inp g hp,
    ← checkCollisions_append_spawning env _ hspawning
      { beforeCollisions env inp g with enemies := g.enemies.filterMap (survivor env inp.deltaTime) }]
  have hstate : beforeCollisions env inp g
      = { beforeCollisions env inp g with enemies := (beforeCollisions env inp g).enemies } := rfl
  rw [hstate, hroster]

theorem spawn_frame_invulnerable_witness :
    exampleAmbushGame.gameState = GameState.playing
      ∧ exampleFrame.deltaTime * 1000 < 200
      ∧ ¬ (exampleFrame.spawnNow - exampleAmbushGame.lastEnemySpawnTime < 1100
            ∨ 25 ≤ exampleAmbushGame.enemies.length)
      ∧ ∃ e : Enemy, (animate exampleEnv exampleFrame exampleAmbushGame).enemies = [e]
          ∧ e.isSpawning = true ∧ e.isHit = false := by
  have h1 : exampleAmbushGame.gameState = GameState.playing := rfl
  have h2 : exampleFrame.deltaTime * 1000 < 200 := by norm_num [exampleFrame]
  have h3 : ¬ (exampleFrame.spawnNow - exampleAmbushGame.lastEnemySpawnTime < 1100
      ∨ 25 ≤ exampleAmbushGame.enemies.length) := by
    simp [exampleFrame, exampleAmbushGame, moduleState]
  obtain ⟨td, -, rest, e, -, -, hroster, hsp, hhit, -, -, hres⟩ :=
    spawn_frame_invulnerable exampleEnv exampleFrame exampleAmbushGame h1 h2 h3
  have hlen : (beforeCollisions exampleEnv exampleFrame exampleAmbushGame).enemies.length = 1 := by
    decide!
  have hrest : rest = [] := by
    rw [hroster, List.length_append, List.length_singleton] at hlen
    exact List.length_eq_zero.mp (by omega)
  subst hrest
  refine ⟨h1, h2, h3, e, ?_, hsp, hhit⟩
  rw [hres]
  have hcc := (checkCollisions_hitStep exampleEnv
    { beforeCollisions exampleEnv exampleFrame exampleAmbushGame with enemies := [] }).length_eq
  simp only [List.length_nil] at hcc
  rw [List.length_eq_zero.mp hcc.symm]
  rfl

/-- C20 as stated fails for a long frame.  In the reachable state `firingGame` (one GRUNT
in the roster, score 0) a frame with `deltaTime = 3.4` s spawns a second GRUNT, which is
Spawning after `spawnEnemy`, has used up its spawn flash when `checkCollisions` runs, and
is hit by a bullet there: it is in Hit state and 10 points are scored in the frame in
which it was spawned. -/
theorem spawn_frame_hit_in_long_frame :
    Reachable exampleEnv firingGame
      ∧ firingGame.gameState = GameState.playing
      ∧ firingGame.score = 0
      ∧ firingGame.enemies.map (fun e => (e.type, e.isSpawning, e.isHit))
          = [("GRUNT", true, false)]
      ∧ (spawnEnemy exampleEnv stallFrame.spawnNow stallFrame.draws
            (beforeSpawn exampleEnv stallFrame firingGame)).enemies.map
          (fun e => (e.type, e.isSpawning, e.isHit))
          = [("GRUNT", true, false), ("GRUNT", true, false)]
      ∧ (beforeCollisions exampleEnv stallFrame firingGame).enemies.map
          (fun e => (e.type, e.isSpawning, e.isHit))
          = [("GRUNT", false, false), ("GRUNT", false, false)]
      ∧ (animate exampleEnv stallFrame firingGame).enemies.map
          (fun e => (e.type, e.isSpawning, e.isHit))
          = [("GRUNT", false, false), ("GRUNT", false, true)]
      ∧ (animate exampleEnv stallFrame firingGame).score = 10 := by
  refine ⟨firingGame_reachable, ?_, ?_, ?_, ?_, ?_, ?_, ?_⟩ <;> decide!

/-! ## Straight-line motion (C10) -/

theorem updateEnemy_straight_step (env : Env) (deltaTime : ℚ) (e : Enemy)
    (hs : e.movementPattern = MovementPattern.straight) :
    (updateEnemy env deltaTime e).1.position
        = { e.position with z := e.position.z + e.speed * deltaTime }
      ∧ (updateEnemy env deltaTime e).1.speed = e.speed
      ∧ (updateEnemy env deltaTime e).1.movementPattern = MovementPattern.straight := by
  obtain ⟨f1, -, -, -, -, f6, f7⟩ := spawnFlash_fields deltaTime e
  have hweave : sineWeave env deltaTime (moveForward deltaTime (spawnFlash deltaTime e))
      = moveForward deltaTime (spawnFlash deltaTime e) := by
    have : (moveForward deltaTime (spawnFlash deltaTime e)).movementPattern
        = MovementPattern.straight := f1.trans hs
    simp [sineWeave, this]
  rw [updateEnemy, hweave, hitTimerAndRemoval_fst]
  refine ⟨?_, f7, f1.trans hs⟩
  show ({ (spawnFlash deltaTime e).position with
          z := (spawnFlash deltaTime e).position.z + (spawnFlash deltaTime e).speed * deltaTime } : Vec3)
      = _
  rw [f6, f7]

theorem updateEnemyFrames_straight (env : Env) (ds : List ℚ) :
    ∀ e : Enemy, e.movementPattern = MovementPattern.straight →
      (updateEnemyFrames env ds e).position
          = { e.position with z := e.position.z + e.speed * ds.sum }
        ∧ (updateEnemyFrames env ds e).speed = e.speed := by
  induction ds with
  | nil => intro e _; simp [updateEnemyFrames]
  | cons d ds ih =>
    intro e hs
    obtain ⟨h1, h2, h3⟩ := updateEnemy_straight_step env d e hs
    obtain ⟨i1, i2⟩ := ih (updateEnemy env d e).1 h3
    refine ⟨?_, ?_⟩
    · simp only [updateEnemyFrames, i1, h1, h2, List.sum_cons]
      congr 1
      ring
    · simp only [updateEnemyFrames, i2, h2]

/-- C10 (straight-line enemy motion).  For a 'straight' enemy and frame times `ds`, during
which it stays in the roster (Spawning, Normal or Hit), the loop body of `updateEnemies`
leaves `x` and `y` unchanged and the depth is `z + speed * (sum of ds)` in exact
arithmetic: `-100 + 4 * (sum of ds)` for an enemy at depth -100 with speed 4, which is what
`spawnEnemy` builds for the GRUNT type.  The stepped enemy is the one `updateEnemies`
leaves in the roster when it is not removed. -/
theorem straight_line_motion (env : Env) (e : Enemy)
    (hs : e.movementPattern = MovementPattern.straight) :
    (∀ ds : List ℚ,
        (updateEnemyFrames env ds e).position.x = e.position.x
        ∧ (updateEnemyFrames env ds e).position.y = e.position.y
        ∧ (updateEnemyFrames env ds e).position.z = e.position.z + e.speed * ds.sum
        ∧ (e.position.z = -100 → e.speed = 4 →
            (updateEnemyFrames env ds e).position.z = -100 + 4 * ds.sum))
      ∧ (∀ (g : Game) (dt : ℚ), e ∈ g.enemies → (updateEnemy env dt e).2 = Removal.keep →
          (updateEnemy env dt e).1 ∈ (updateEnemies env dt g).enemies)
      ∧ (∀ (aspect : ℚ) (r : SpawnDraws),
          (createEnemy env aspect r GRUNT).movementPattern = MovementPattern.straight
          ∧ (createEnemy env aspect r GRUNT).position.z = -100
          ∧ (createEnemy env aspect r GRUNT).speed = 4) := by
  refine ⟨fun ds => ?_, fun g dt hmem hkeep => ?_, fun aspect r => ⟨rfl, rfl, rfl⟩⟩
  · obtain ⟨h1, -⟩ := updateEnemyFrames_straight env ds e hs
    refine ⟨by rw [h1], by rw [h1], by rw [h1], fun hz hv => ?_⟩
    rw [h1]
    show e.position.z + e.speed * ds.sum = _
    rw [hz, hv]
  · rw [updateEnemies_enemies, List.mem_filterMap]
    exact ⟨e, hmem, by simp [survivor, hkeep]⟩

theorem straight_line_motion_witness :
    (exampleGrunt { x := 2, y := 1, z := -100 }).movementPattern = MovementPattern.straight
      ∧ (updateEnemyFrames exampleEnv [1 / 2, 1 / 4, 1 / 4]
            (exampleGrunt { x := 2, y := 1, z := -100 })).position
          = { x := 2, y := 1, z := -96 } := by
  have h := (straight_line_motion exampleEnv (exampleGrunt { x := 2, y := 1, z := -100 }) rfl).1
    [1 / 2, 1 / 4, 1 / 4]
  refine ⟨rfl, ?_⟩
  have hz := h.2.2.2 rfl rfl
  have hx := h.1
  have hy := h.2.1
  rcases hp : (updateEnemyFrames exampleEnv [1 / 2, 1 / 4, 1 / 4]
      (exampleGrunt { x := 2, y := 1, z := -100 })).position with ⟨px, py, pz⟩
  rw [hp] at hx hy hz
  simp only [exampleGrunt] at hx hy
  simp only at hz
  rw [hx, hy, hz]
  norm_num

/-! ## Hit triggers (C5) and fire rate (C7) -/

theorem playerGotHit_of_isHit (g : Game) (h : g.playerShip.isHit = true) : playerGotHit g = g := by
  simp [playerGotHit, h]

theorem playerGotHit_isHit (g : Game) : (playerGotHit g).playerShip.isHit = true := by
  unfold playerGotHit
  split_ifs with h
  · rfl
  · simpa using h

/-- C5 (the hit triggers are idempotent).  `enemyGotHit` on an enemy whose `isHit` is
true returns the enemy unchanged (so `hitTimer`, `isHit` and `hitByPlayer` are unchanged)
for either `byPlayer` argument; `playerGotHit` while the player's `isHit` is true leaves
the state unchanged; applying either trigger twice in a row equals applying it once. -/
theorem hit_triggers_idempotent (e : Enemy) (g : Game) :
    (e.isHit = true → ∀ byPlayer : Bool,
        enemyGotHit e byPlayer = e
        ∧ (enemyGotHit e byPlayer).hitTimer = e.hitTimer
        ∧ (enemyGotHit e byPlayer).isHit = e.isHit
        ∧ (enemyGotHit e byPlayer).hitByPlayer = e.hitByPlayer)
      ∧ (g.playerShip.isHit = true →
          playerGotHit g = g
          ∧ (playerGotHit g).playerShip.hitTimer = g.playerShip.hitTimer
          ∧ (playerGotHit g).playerShip.isHit = g.playerShip.isHit)
      ∧ (∀ b1 b2 : Bool, enemyGotHit (enemyGotHit e b1) b2 = enemyGotHit e b1)
      ∧ playerGotHit (playerGotHit g) = playerGotHit g := by
  refine ⟨fun h b => ?_, fun h => ?_, enemyGotHit_twice e, ?_⟩
  · rw [enemyGotHit_of_isHit e b h]
    exact ⟨rfl, rfl, rfl, rfl⟩
  · rw [playerGotHit_of_isHit g h]
    exact ⟨rfl, rfl, rfl⟩
  · exact playerGotHit_of_isHit _ (playerGotHit_isHit g)

theorem hit_triggers_idempotent_witness :
    (enemyGotHit (exampleGrunt { x := 0, y := 0, z := 0 }) false).isHit = true
      ∧ enemyGotHit (enemyGotHit (exampleGrunt { x := 0, y := 0, z := 0 }) false) true
          = enemyGotHit (exampleGrunt { x := 0, y := 0, z := 0 }) false
      ∧ (enemyGotHit (enemyGotHit (exampleGrunt { x := 0, y := 0, z := 0 }) false) true).hitByPlayer
          = false :=
  ⟨rfl,
    ((hit_triggers_idempotent (enemyGotHit (exampleGrunt { x := 0, y := 0, z := 0 }) false)
      exampleGame).1 rfl true).1,
    rfl⟩

theorem getBulletFromPool_some (g : Game) :
    ∃ b : Nat, (getBulletFromPool g).1 = some b
      ∧ ((getBulletFromPool g).2.bullets b).isActive = true
      ∧ ((getBulletFromPool g).2.bullets b).visible = true
      ∧ (getBulletFromPool g).2.activeBullets = g.activeBullets ++ [b]
      ∧ (∀ x : Nat, x ≠ b → (getBulletFromPool g).2.bullets x = g.bullets x)
      ∧ (getBulletFromPool g).2.playerShip = g.playerShip := by
  by_cases h : g.bulletPool = []
  · rw [getBulletFromPool_of_empty g h]
    refine ⟨g.bulletCount, rfl, by simp, by simp, rfl, fun x hx => ?_, rfl⟩
    simp [Function.update_noteq hx]
  · rw [getBulletFromPool_of_pool g _ _ (List.dropLast_append_getLast h).symm]
    refine ⟨g.bulletPool.getLast h, rfl, by simp, by simp, rfl, fun x hx => ?_, rfl⟩
    simp [Function.update_noteq hx]

theorem fireBullet_of_ready (now : Int) (g : Game) (h : ¬ (now - g.lastFireTime < fireRate)) :
    ∃ b : Nat, (getBulletFromPool g).1 = some b
      ∧ fireBullet now g
          = { (getBulletFromPool g).2 with
              lastFireTime := now
              bullets := Function.update (getBulletFromPool g).2.bullets b
                { (getBulletFromPool g).2.bullets b with
                  position := { x := g.playerShip.position.x, y := g.playerShip.position.y,
                                z := g.playerShip.position.z - 8 / 10 } } } := by
  obtain ⟨b, hb, -, -, -, -, hship⟩ := getBulletFromPool_some g
  refine ⟨b, hb, ?_⟩
  unfold fireBullet
  rw [if_neg h]
  rcases hr : getBulletFromPool g with ⟨o, g1⟩
  rw [hr] at hb hship
  simp only at hb hship
  subst hb
  simp only [hship]

/-- C7 (fire-rate limiting).  With `now - lastFireTime < 180`, `fireBullet` leaves the
whole state unchanged: no new active projectile.  Otherwise it adds exactly one bullet to
the end of `activeBullets`, active and visible, placed at
`(player.x, player.y, player.z - 0.8)`, sets `lastFireTime = now`, and leaves every other
bullet unchanged. -/
theorem fire_rate_limit (now : Int) (g : Game) :
    (now - g.lastFireTime < 180 → fireBullet now g = g)
      ∧ (¬ (now - g.lastFireTime < 180) →
          ∃ b : Nat,
            (fireBullet now g).activeBullets = g.activeBullets ++ [b]
            ∧ ((fireBullet now g).bullets b).position
                = { x := g.playerShip.position.x, y := g.playerShip.position.y,
                    z := g.playerShip.position.z - 8 / 10 }
            ∧ ((fireBullet now g).bullets b).isActive = true
            ∧ ((fireBullet now g).bullets b).visible = true
            ∧ (fireBullet now g).lastFireTime = now
            ∧ (∀ x : Nat, x ≠ b → (fireBullet now g).bullets x = g.bullets x)) := by
  constructor
  · intro h
    have h' : now - g.lastFireTime < fireRate := h
    unfold fireBullet
    rw [if_pos h']
  · intro h
    obtain ⟨b, hb, hfire⟩ := fireBullet_of_ready now g h
    obtain ⟨b', hb', hact, hvis, hroster, hothers, -⟩ := getBulletFromPool_some g
    have hbb : b' = b := Option.some.inj (hb'.symm.trans hb)
    subst hbb
    refine ⟨b', ?_, ?_, ?_, ?_, ?_, ?_⟩
    · rw [hfire]; exact hroster
    · rw [hfire]; simp
    · rw [hfire]; simpa using hact
    · rw [hfire]; simpa using hvis
    · rw [hfire]
    · intro x hx
      rw [hfire]
      simp only [Function.update_noteq hx]
      exact hothers x hx

theorem fire_rate_limit_witness :
    (100 : Int) - exampleGame.lastFireTime < 180
      ∧ fireBullet 100 exampleGame = exampleGame
      ∧ ¬ ((200 : Int) - exampleGame.lastFireTime < 180)
      ∧ (fireBullet 200 exampleGame).activeBullets = [0, 1, 2]
      ∧ (fireBullet 200 exampleGame).lastFireTime = 200 := by
  have h1 : (100 : Int) - exampleGame.lastFireTime < 180 := by decide
  have h2 : ¬ ((200 : Int) - exampleGame.lastFireTime < 180) := by decide
  refine ⟨h1, (fire_rate_limit 100 exampleGame).1 h1, h2, by decide!, ?_⟩
  obtain ⟨b, -, -, -, -, hlast, -⟩ := (fire_rate_limit 200 exampleGame).2 h2
  exact hlast

/-! ## Frame equations: the fields an operation can write -/

theorem getBulletFromPool_frame (g : Game) :
    (getBulletFromPool g).2
      = { g with
          bullets := (getBulletFromPool g).2.bullets
          bulletCount := (getBulletFromPool g).2.bulletCount
          bulletPool := (getBulletFromPool g).2.bulletPool
          activeBullets := (getBulletFromPool g).2.activeBullets } := by
  by_cases h : g.bulletPool = []
  · rw [getBulletFromPool_of_empty g h]
  · rw [getBulletFromPool_of_pool g _ _ (List.dropLast_append_getLast h).symm]

theorem fireBullet_frame (now : Int) (g : Game) :
    fireBullet now g
      = { g with
          lastFireTime := (fireBullet now g).lastFireTime
          bullets := (fireBullet now g).bullets
          bulletCount := (fireBullet now g).bulletCount
          bulletPool := (fireBullet now g).bulletPool
          activeBullets := (fireBullet now g).activeBullets } := by
  by_cases h : now - g.lastFireTime < fireRate
  · have : fireBullet now g = g := by unfold fireBullet; rw [if_pos h]
    rw [this]
  · obtain ⟨b, -, hfire⟩ := fireBullet_of_ready now g h
    have hf := getBulletFromPool_frame g
    rw [hfire]
    conv_lhs => rw [hf]

theorem updateBulletsLoop_frame (env : Env) (deltaTime : ℚ) :
    ∀ (i : Nat) (g : Game),
      updateBulletsLoop env deltaTime i g
        = { g with
            bullets := (updateBulletsLoop env deltaTime i g).bullets
            bulletPool := (updateBulletsLoop env deltaTime i g).bulletPool
            activeBullets := (updateBulletsLoop env deltaTime i g).activeBullets } := by
  intro i
  induction i with
  | zero => intro g; rfl
  | succ i ih =>
    intro g
    simp only [updateBulletsLoop]
    split
    · exact ih g
    · split_ifs
      all_goals (conv_lhs => rw [ih]); rfl

theorem updateBullets_frame (env : Env) (deltaTime : ℚ) (g : Game) :
    updateBullets env deltaTime g
      = { g with
          bullets := (updateBullets env deltaTime g).bullets
          bulletPool := (updateBullets env deltaTime g).bulletPool
          activeBullets := (updateBullets env deltaTime g).activeBullets } :=
  updateBulletsLoop_frame env deltaTime _ g

theorem forEachActiveBullet_frame :
    ∀ (n k : Nat) (g : Game),
      forEachActiveBullet n k g
        = { g with
            bullets := (forEachActiveBullet n k g).bullets
            bulletPool := (forEachActiveBullet n k g).bulletPool
            activeBullets := (forEachActiveBullet n k g).activeBullets } := by
  intro n
  induction n with
  | zero => intro k g; rfl
  | succ n ih =>
    intro k g
    simp only [forEachActiveBullet]
    split
    · exact ih _ g
    · conv_lhs => rw [ih]
      rfl

theorem forEachActiveExplosion_frame :
    ∀ (n k : Nat) (g : Game),
      forEachActiveExplosion n k g
        = { g with
            explosions := (forEachActiveExplosion n k g).explosions
            explosionPool := (forEachActiveExplosion n k g).explosionPool
            activeExplosions := (forEachActiveExplosion n k g).activeExplosions } := by
  intro n
  induction n with
  | zero => intro k g; rfl
  | succ n ih =>
    intro k g
    simp only [forEachActiveExplosion]
    split
    · exact ih _ g
    · conv_lhs => rw [ih]
      rfl

theorem fillBulletPool_frame :
    ∀ (n : Nat) (g : Game),
      fillBulletPool n g
        = { g with
            bullets := (fillBulletPool n g).bullets
            bulletCount := (fillBulletPool n g).bulletCount
            bulletPool := (fillBulletPool n g).bulletPool } := by
  intro n
  induction n with
  | zero => intro g; rfl
  | succ n ih =>
    intro g
    simp only [fillBulletPool]
    conv_lhs => rw [ih]

theorem fillExplosionPool_frame (env : Env) :
    ∀ (n : Nat) (g : Game),
      fillExplosionPool env n g
        = { g with
            explosions := (fillExplosionPool env n g).explosions
            explosionCount := (fillExplosionPool env n g).explosionCount
            explosionPool := (fillExplosionPool env n g).explosionPool } := by
  intro n
  induction n with
  | zero => intro g; rfl
  | succ n ih =>
    intro g
    simp only [fillExplosionPool]
    conv_lhs => rw [ih]

theorem getExplosionFromPool_frame (env : Env) (g : Game) :
    (getExplosionFromPool env g).2
      = { g with
          explosions := (getExplosionFromPool env g).2.explosions
          explosionCount := (getExplosionFromPool env g).2.explosionCount
          explosionPool := (getExplosionFromPool env g).2.explosionPool
          activeExplosions := (getExplosionFromPool env g).2.activeExplosions } := by
  by_cases hp : g.explosionPool = []
  · by_cases hlt : g.activeExplosions.length < maxExplosions
    · rw [getExplosionFromPool_of_empty env g hp hlt]
    · rw [getExplosionFromPool_of_full env g hp (Nat.le_of_not_lt hlt)]
  · rw [getExplosionFromPool_of_pool env g _ _ (List.dropLast_append_getLast hp).symm]

theorem triggerExplosion_frame (env : Env) (position : Vec3) (g : Game) :
    triggerExplosion env position g
      = { g with
          explosions := (triggerExplosion env position g).explosions
          explosionCount := (triggerExplosion env position g).explosionCount
          explosionPool := (triggerExplosion env position g).explosionPool
          activeExplosions := (triggerExplosion env position g).activeExplosions } := by
  have hf := getExplosionFromPool_frame env g
  unfold triggerExplosion
  rcases hr : getExplosionFromPool env g with ⟨o, g1⟩
  rw [hr] at hf
  simp only at hf
  cases o
  · simp only
    conv_lhs => rw [hf]
  · simp only
    conv_lhs => rw [hf]

theorem updateExplosionsLoop_frame (deltaTime : ℚ) :
    ∀ (i : Nat) (g : Game),
      updateExplosionsLoop deltaTime i g
        = { g with
            explosions := (updateExplosionsLoop deltaTime i g).explosions
            explosionPool := (updateExplosionsLoop deltaTime i g).explosionPool
            activeExplosions := (updateExplosionsLoop deltaTime i g).activeExplosions } := by
  intro i
  induction i with
  | zero => intro g; rfl
  | succ i ih =>
    intro g
    simp only [updateExplosionsLoop]
    split
    · exact ih g
    · split_ifs
      all_goals (conv_lhs => rw [ih])
      all_goals rfl

theorem updateExplosions_frame (deltaTime : ℚ) (g : Game) :
    updateExplosions deltaTime g
      = { g with
          explosions := (updateExplosions deltaTime g).explosions
          explosionPool := (updateExplosions deltaTime g).explosionPool
          activeExplosions := (updateExplosions deltaTime g).activeExplosions } :=
  updateExplosionsLoop_frame deltaTime _ g

/-! ## Pool initialization and restart (C9) -/

theorem fillBulletPool_spec :
    ∀ (n : Nat) (g : Game),
      (fillBulletPool n g).bulletPool = g.bulletPool ++ List.range' g.bulletCount n
        ∧ (fillBulletPool n g).bulletCount = g.bulletCount + n
        ∧ (∀ b : Nat, (fillBulletPool n g).bullets b
            = if g.bulletCount ≤ b ∧ b < g.bulletCount + n then
                { newBullet with visible := false, isActive := false }
              else g.bullets b) := by
  intro n
  induction n with
  | zero =>
    intro g
    refine ⟨by simp [fillBulletPool], rfl, fun b => ?_⟩
    rw [if_neg (by omega)]
    rfl
  | succ n ih =>
    intro g
    obtain ⟨h1, h2, h3⟩ := ih
      { g with
        bullets := Function.update g.bullets g.bulletCount
          { newBullet with visible := false, isActive := false }
        bulletCount := g.bulletCount + 1
        bulletPool := g.bulletPool ++ [g.bulletCount] }
    dsimp only at h1 h2 h3
    simp only [fillBulletPool]
    refine ⟨?_, ?_, fun b => ?_⟩
    · rw [h1, List.range'_succ, List.append_assoc]
      rfl
    · rw [h2]; omega
    · rw [h3]
      by_cases hb : b = g.bulletCount
      · subst hb
        rw [if_neg (by omega), if_pos (by omega)]
        simp
      · by_cases hr : g.bulletCount + 1 ≤ b ∧ b < g.bulletCount + 1 + n
        · rw [if_pos hr, if_pos (by omega)]
        · rw [if_neg hr, if_neg (by omega)]
          simp [Function.update_noteq hb]

theorem fillExplosionPool_spec (env : Env) :
    ∀ (n : Nat) (g : Game),
      (fillExplosionPool env n g).explosionPool = g.explosionPool ++ List.range' g.explosionCount n
        ∧ (fillExplosionPool env n g).explosionCount = g.explosionCount + n
        ∧ (∀ e : Nat, (fillExplosionPool env n g).explosions e
            = if g.explosionCount ≤ e ∧ e < g.explosionCount + n then
                { newExplosion env e with visible := false }
              else g.explosions e) := by
  intro n
  induction n with
  | zero =>
    intro g
    refine ⟨by simp [fillExplosionPool], rfl, fun e => ?_⟩
    rw [if_neg (by omega)]
    rfl
  | succ n ih =>
    intro g
    obtain ⟨h1, h2, h3⟩ := ih
      { g with
        explosions := Function.update g.explosions g.explosionCount
          { newExplosion env g.explosionCount with visible := false }
        explosionCount := g.explosionCount + 1
        explosionPool := g.explosionPool ++ [g.explosionCount] }
    dsimp only at h1 h2 h3
    simp only [fillExplosionPool]
    refine ⟨?_, ?_, fun e => ?_⟩
    · rw [h1, List.range'_succ, List.append_assoc]
      rfl
    · rw [h2]; omega
    · rw [h3]
      by_cases he : e = g.explosionCount
      · subst he
        rw [if_neg (by omega), if_pos (by omega)]
        simp
      · by_cases hr : g.explosionCount + 1 ≤ e ∧ e < g.explosionCount + 1 + n
        · rw [if_pos hr, if_pos (by omega)]
        · rw [if_neg hr, if_neg (by omega)]
          simp [Function.update_noteq he]

theorem resetGameObjects_fields (g : Game) :
    (resetGameObjects g).activeBullets = [] ∧ (resetGameObjects g).activeExplosions = []
      ∧ (resetGameObjects g).enemies = [] ∧ (resetGameObjects g).score = 0
      ∧ (resetGameObjects g).lastFireTime = 0 ∧ (resetGameObjects g).lastEnemySpawnTime = 0
      ∧ (resetGameObjects g).playerShip
          = { g.playerShip with position := { x := 0, y := 0, z := 0 }, isHit := false,
                                hitTimer := 0 }
      ∧ (resetGameObjects g).bulletCount = g.bulletCount
      ∧ (resetGameObjects g).explosionCount = g.explosionCount
      ∧ (resetGameObjects g).aspect = g.aspect := by
  refine ⟨rfl, rfl, rfl, ?_, ?_, ?_, ?_, ?_, ?_, ?_⟩
  all_goals
    simp only [resetGameObjects]
    rw [forEachActiveExplosion_frame, forEachActiveBullet_frame]

theorem initializeBulletPool_spec (g : Game) :
    (initializeBulletPool g).bulletPool = List.range' g.bulletCount initialPoolSize
      ∧ (initializeBulletPool g).bulletCount = g.bulletCount + initialPoolSize
      ∧ (∀ b : Nat, (initializeBulletPool g).bullets b
          = if g.bulletCount ≤ b ∧ b < g.bulletCount + initialPoolSize then
              { newBullet with visible := false, isActive := false }
            else g.bullets b)
      ∧ (initializeBulletPool g).activeBullets = g.activeBullets
      ∧ (initializeBulletPool g).activeExplosions = g.activeExplosions
      ∧ (initializeBulletPool g).enemies = g.enemies
      ∧ (initializeBulletPool g).score = g.score
      ∧ (initializeBulletPool g).lastFireTime = g.lastFireTime
      ∧ (initializeBulletPool g).lastEnemySpawnTime = g.lastEnemySpawnTime
      ∧ (initializeBulletPool g).playerShip = g.playerShip
      ∧ (initializeBulletPool g).explosionCount = g.explosionCount
      ∧ (initializeBulletPool g).explosions = g.explosions
      ∧ (initializeBulletPool g).explosionPool = g.explosionPool := by
  obtain ⟨h1, h2, h3⟩ := fillBulletPool_spec initialPoolSize { g with bulletPool := [] }
  refine ⟨by simpa using h1, h2, h3, ?_, ?_, ?_, ?_, ?_, ?_, ?_, ?_, ?_, ?_⟩
  all_goals
    unfold initializeBulletPool
    rw [fillBulletPool_frame]

theorem initializeExplosionPool_spec (env : Env) (g : Game) :
    (initializeExplosionPool env g).explosionPool
        = List.range' g.explosionCount (maxExplosions / 2)
      ∧ (initializeExplosionPool env g).explosionCount = g.explosionCount + maxExplosions / 2
      ∧ (∀ e : Nat, (initializeExplosionPool env g).explosions e
          = if g.explosionCount ≤ e ∧ e < g.explosionCount + maxExplosions / 2 then
              { newExplosion env e with visible := false }
            else g.explosions e)
      ∧ (initializeExplosionPool env g).activeBullets = g.activeBullets
      ∧ (initializeExplosionPool env g).activeExplosions = g.activeExplosions
      ∧ (initializeExplosionPool env g).enemies = g.enemies
      ∧ (initializeExplosionPool env g).score = g.score
      ∧ (initializeExplosionPool env g).lastFireTime = g.lastFireTime
      ∧ (initializeExplosionPool env g).lastEnemySpawnTime = g.lastEnemySpawnTime
      ∧ (initializeExplosionPool env g).playerShip = g.playerShip
      ∧ (initializeExplosionPool env g).bulletCount = g.bulletCount
      ∧ (initializeExplosionPool env g).bullets = g.bullets
      ∧ (initializeExplosionPool env g).bulletPool = g.bulletPool := by
  obtain ⟨h1, h2, h3⟩ := fillExplosionPool_spec env (maxExplosions / 2)
    { g with explosionPool := [] }
  refine ⟨by simpa using h1, h2, h3, ?_, ?_, ?_, ?_, ?_, ?_, ?_, ?_, ?_, ?_⟩
  all_goals
    unfold initializeExplosionPool
    rw [fillExplosionPool_frame]

theorem initializeGame_unfold (env : Env) (g : Game) :
    initializeGame env g
      = { initializeExplosionPool env (initializeBulletPool (resetGameObjects g)) with
          gameState := GameState.start_screen } := rfl

/-- C9 (restart resets the simulation state).  After `initializeGame`, whatever the state
before: the three rosters are empty, the score and both time stamps are 0, the player is
at `(0,0,0)` with `isHit` false and `hitTimer` 0, `gameState` is 'start_screen',
`bulletPool` holds exactly 50 distinct bullets, all inactive and invisible, and
`explosionPool` holds exactly `maxExplosions / 2 = 10` distinct explosions, all inactive,
invisible and of 50 particles each. -/
theorem restart_resets (env : Env) (g : Game) :
    (initializeGame env g).activeBullets = []
      ∧ (initializeGame env g).activeExplosions = []
      ∧ (initializeGame env g).enemies = []
      ∧ (initializeGame env g).score = 0
      ∧ (initializeGame env g).lastFireTime = 0
      ∧ (initializeGame env g).lastEnemySpawnTime = 0
      ∧ (initializeGame env g).playerShip.position = { x := 0, y := 0, z := 0 }
      ∧ (initializeGame env g).playerShip.isHit = false
      ∧ (initializeGame env g).playerShip.hitTimer = 0
      ∧ (initializeGame env g).gameState = GameState.start_screen
      ∧ (initializeGame env g).bulletPool.length = 50
      ∧ (initializeGame env g).bulletPool.Nodup
      ∧ (∀ b ∈ (initializeGame env g).bulletPool,
          ((initializeGame env g).bullets b).isActive = false
          ∧ ((initializeGame env g).bullets b).visible = false)
      ∧ (initializeGame env g).explosionPool.length = 10
      ∧ (initializeGame env g).explosionPool.Nodup
      ∧ (∀ e ∈ (initializeGame env g).explosionPool,
          ((initializeGame env g).explosions e).isActive = false
          ∧ ((initializeGame env g).explosions e).visible = false
          ∧ ((initializeGame env g).explosions e).particles.length = 50) := by
  obtain ⟨r1, r2, r3, r4, r5, r6, r7, r8, r9, -⟩ := resetGameObjects_fields g
  obtain ⟨b1, b2, b3, b4, b5, b6, b7, b8, b9, b10, b11, b12, b13⟩ :=
    initializeBulletPool_spec (resetGameObjects g)
  obtain ⟨e1, e2, e3, e4, e5, e6, e7, e8, e9, e10, e11, e12, e13⟩ :=
    initializeExplosionPool_spec env (initializeBulletPool (resetGameObjects g))
  rw [initializeGame_unfold]
  dsimp only
  refine ⟨by rw [e4, b4, r1], by rw [e5, b5, r2], by rw [e6, b6, r3], by rw [e7, b7, r4],
    by rw [e8, b8, r5], by rw [e9, b9, r6], by rw [e10, b10, r7], by rw [e10, b10, r7],
    by rw [e10, b10, r7], rfl, ?_, ?_, ?_, ?_, ?_, ?_⟩
  · rw [e13, b1, List.length_range']
    rfl
  · rw [e13, b1]
    exact List.nodup_range' _ _
  · intro b hb
    rw [e13, b1, List.mem_range'_1] at hb
    rw [e12, b3, if_pos hb]
    exact ⟨rfl, rfl⟩
  · rw [e1, List.length_range']
    rfl
  · rw [e1]
    exact List.nodup_range' _ _
  · intro e he
    rw [e1, List.mem_range'_1] at he
    rw [e3, if_pos he]
    refine ⟨rfl, rfl, ?_⟩
    simp [newExplosion, newParticles, explosionParticleCount]

/-! ## Restart and the live bullets (C8) -/

theorem twoBulletGame_reachable : Reachable exampleEnv twoBulletGame :=
  Reachable.frame _ _ firingGame_reachable

/-- C8 as stated does not hold of `initializeGame` for every state.  In the state
`twoBulletGame` two bullets are in flight, both active.
`activeBullets.forEach(b => returnBulletToPool(b))` releases the first (object 49); the
release shortens the array, so index 1 is then past its end and the second bullet
(object 48) is never released: after `initializeGame` it is still active and visible at its
place and in no roster or pool.  (The script itself calls `initializeGame` once, at load,
with empty rosters.) -/
theorem restart_skips_every_second_bullet :
    Reachable exampleEnv twoBulletGame
      ∧ twoBulletGame.activeBullets = [49, 48]
      ∧ (twoBulletGame.bullets 49).isActive = true
      ∧ (twoBulletGame.bullets 48).isActive = true
      ∧ ((initializeGame exampleEnv twoBulletGame).bullets 49).isActive = false
      ∧ ((initializeGame exampleEnv twoBulletGame).bullets 49).position
          = { x := 0, y := 0, z := -8000 }
      ∧ ((initializeGame exampleEnv twoBulletGame).bullets 48).isActive = true
      ∧ ((initializeGame exampleEnv twoBulletGame).bullets 48).visible = true
      ∧ ((initializeGame exampleEnv twoBulletGame).bullets 48).position
          = { x := 0, y := 0, z := -29 / 5 }
      ∧ (48 : Nat) ∉ (initializeGame exampleEnv twoBulletGame).bulletPool
      ∧ (initializeGame exampleEnv twoBulletGame).activeBullets = [] := by
  refine ⟨twoBulletGame_reachable, ?_, ?_, ?_, ?_, ?_, ?_, ?_, ?_, ?_, ?_⟩ <;> decide!

/-! ## Frame equations for the enemy update and the collision passes -/

theorem spawnEnemy_frame (env : Env) (now : Int) (r : SpawnDraws) (g : Game) :
    spawnEnemy env now r g
      = { g with
          enemies := (spawnEnemy env now r g).enemies
          lastEnemySpawnTime := (spawnEnemy env now r g).lastEnemySpawnTime } := by
  by_cases h : now - g.lastEnemySpawnTime < enemySpawnRate ∨ maxEnemies ≤ g.enemies.length
  · rw [spawnEnemy_refuse env now r g h]
  · obtain ⟨td, -, -, heq⟩ := spawnEnemy_accept env now r g h
    rw [heq]

theorem updateEnemiesLoop_frame (env : Env) (deltaTime : ℚ) :
    ∀ (i : Nat) (g : Game) (rem : List Nat),
      (updateEnemiesLoop env deltaTime i (g, rem)).1
        = { g with
            enemies := (updateEnemiesLoop env deltaTime i (g, rem)).1.enemies
            explosions := (updateEnemiesLoop env deltaTime i (g, rem)).1.explosions
            explosionCount := (updateEnemiesLoop env deltaTime i (g, rem)).1.explosionCount
            explosionPool := (updateEnemiesLoop env deltaTime i (g, rem)).1.explosionPool
            activeExplosions := (updateEnemiesLoop env deltaTime i (g, rem)).1.activeExplosions } := by
  intro i
  induction i with
  | zero => intro g rem; rfl
  | succ i ih =>
    intro g rem
    simp only [updateEnemiesLoop]
    split
    · exact ih g rem
    · split
      · conv_lhs => rw [ih]
        rw [triggerExplosion_frame]
      · conv_lhs => rw [ih]
      · conv_lhs => rw [ih]

theorem updateEnemies_frame (env : Env) (deltaTime : ℚ) (g : Game) :
    updateEnemies env deltaTime g
      = { g with
          enemies := (updateEnemies env deltaTime g).enemies
          explosions := (updateEnemies env deltaTime g).explosions
          explosionCount := (updateEnemies env deltaTime g).explosionCount
          explosionPool := (updateEnemies env deltaTime g).explosionPool
          activeExplosions := (updateEnemies env deltaTime g).activeExplosions } := by
  unfold updateEnemies
  simp only
  conv_lhs => rw [updateEnemiesLoop_frame]

theorem bulletVisit_frame (env : Env) (b : Nat) (g : Game) (hit : List Nat) :
    (bulletVisit env b g hit).1
      = { g with
          score := (bulletVisit env b g hit).1.score
          enemies := (bulletVisit env b g hit).1.enemies
          bullets := (bulletVisit env b g hit).1.bullets } := by
  simp only [bulletVisit]
  split_ifs <;> rfl

theorem bulletPassLoop_frame (env : Env) :
    ∀ (i : Nat) (g : Game) (hit : List Nat),
      ∃ (score : Int) (enemies : List Enemy) (bullets : Nat → Bullet),
        (bulletPassLoop env i (g, hit)).1
          = { g with score := score, enemies := enemies, bullets := bullets } := by
  intro i
  induction i with
  | zero => intro g hit; exact ⟨g.score, g.enemies, g.bullets, rfl⟩
  | succ i ih =>
    intro g hit
    simp only [bulletPassLoop]
    split
    · exact ih g hit
    · rename_i b _
      have hpair : bulletVisit env b g hit
          = ({ g with
                score := (bulletVisit env b g hit).1.score
                enemies := (bulletVisit env b g hit).1.enemies
                bullets := (bulletVisit env b g hit).1.bullets }, (bulletVisit env b g hit).2) :=
        Prod.ext (bulletVisit_frame env b g hit) rfl
      rw [hpair]
      obtain ⟨s2, e2, b2, h2⟩ := ih
        { g with
          score := (bulletVisit env b g hit).1.score
          enemies := (bulletVisit env b g hit).1.enemies
          bullets := (bulletVisit env b g hit).1.bullets } (bulletVisit env b g hit).2
      rw [h2]
      exact ⟨s2, e2, b2, rfl⟩

theorem penaltyAndHit_iterate_frame :
    ∀ (k : Nat) (g : Game),
      ∃ (score : Int) (ship : Player),
        penaltyAndHit^[k] g = { g with score := score, playerShip := ship } := by
  intro k
  induction k with
  | zero => intro g; exact ⟨g.score, g.playerShip, rfl⟩
  | succ k ih =>
    intro g
    rw [Function.iterate_succ_apply]
    have h1 : ∃ (score : Int) (ship : Player),
        penaltyAndHit g = { g with score := score, playerShip := ship } := by
      unfold penaltyAndHit playerGotHit
      split_ifs <;> exact ⟨_, _, rfl⟩
    obtain ⟨s1, p1, h1⟩ := h1
    rw [h1]
    obtain ⟨s2, p2, h2⟩ := ih { g with score := s1, playerShip := p1 }
    rw [h2]
    exact ⟨s2, p2, rfl⟩

theorem checkCollisions_frame (env : Env) (g : Game) :
    ∃ (score : Int) (enemies : List Enemy) (bullets : Nat → Bullet) (ship : Player),
      checkCollisions env g
        = { g with score := score, enemies := enemies, bullets := bullets, playerShip := ship } := by
  obtain ⟨s1, e1, b1, h1⟩ := bulletPassLoop_frame env g.activeBullets.length g []
  simp only [checkCollisions, playerPass, bulletPass]
  split_ifs
  · rw [(playerScan_spec env _ 0 _ _).2]
    obtain ⟨s2, p2, h2⟩ := penaltyAndHit_iterate_frame
      ((playerFlags env (bulletPassLoop env g.activeBullets.length (g, [])).1.playerShip.boundingBox
        (bulletPassLoop env g.activeBullets.length (g, [])).2 0
        (bulletPassLoop env g.activeBullets.length (g, [])).1.enemies).count true)
      (bulletPassLoop env g.activeBullets.length (g, [])).1
    rw [h2, h1]
    exact ⟨_, _, _, _, rfl⟩
  · rw [h1]
    exact ⟨_, _, _, _, rfl⟩

/-! ### Reading an unwritten field after an operation -/

theorem fireBullet_proj {α : Type} (proj : Game → α)
    (hp : ∀ (x : Game) v1 v2 v3 v4 v5,
      proj { x with lastFireTime := v1, bullets := v2, bulletCount := v3, bulletPool := v4,
                    activeBullets := v5 } = proj x)
    (now : Int) (g : Game) : proj (fireBullet now g) = proj g := by
  rw [fireBullet_frame]; exact hp _ _ _ _ _ _

theorem updateBullets_proj {α : Type} (proj : Game → α)
    (hp : ∀ (x : Game) v1 v2 v3,
      proj { x with bullets := v1, bulletPool := v2, activeBullets := v3 } = proj x)
    (env : Env) (deltaTime : ℚ) (g : Game) : proj (updateBullets env deltaTime g) = proj g := by
  rw [updateBullets_frame]; exact hp _ _ _ _

theorem spawnEnemy_proj {α : Type} (proj : Game → α)
    (hp : ∀ (x : Game) v1 v2, proj { x with enemies := v1, lastEnemySpawnTime := v2 } = proj x)
    (env : Env) (now : Int) (r : SpawnDraws) (g : Game) :
    proj (spawnEnemy env now r g) = proj g := by
  rw [spawnEnemy_frame]; exact hp _ _ _

theorem updateEnemies_proj {α : Type} (proj : Game → α)
    (hp : ∀ (x : Game) v1 v2 v3 v4 v5,
      proj { x with enemies := v1, explosions := v2, explosionCount := v3, explosionPool := v4,
                    activeExplosions := v5 } = proj x)
    (env : Env) (deltaTime : ℚ) (g : Game) : proj (updateEnemies env deltaTime g) = proj g := by
  rw [updateEnemies_frame]; exact hp _ _ _ _ _ _

theorem updateExplosions_proj {α : Type} (proj : Game → α)
    (hp : ∀ (x : Game) v1 v2 v3,
      proj { x with explosions := v1, explosionPool := v2, activeExplosions := v3 } = proj x)
    (deltaTime : ℚ) (g : Game) : proj (updateExplosions deltaTime g) = proj g := by
  rw [updateExplosions_frame]; exact hp _ _ _ _

theorem checkCollisions_proj {α : Type} (proj : Game → α)
    (hp : ∀ (x : Game) v1 v2 v3 v4,
      proj { x with score := v1, enemies := v2, bullets := v3, playerShip := v4 } = proj x)
    (env : Env) (g : Game) : proj (checkCollisions env g) = proj g := by
  obtain ⟨s, e, b, p, h⟩ := checkCollisions_frame env g
  rw [h]; exact hp _ _ _ _ _

theorem bulletPass_proj {α : Type} (proj : Game → α)
    (hp : ∀ (x : Game) v1 v2 v3, proj { x with score := v1, enemies := v2, bullets := v3 } = proj x)
    (env : Env) (g : Game) : proj (bulletPass env g).1 = proj g := by
  obtain ⟨s, e, b, h⟩ := bulletPassLoop_frame env g.activeBullets.length g []
  unfold bulletPass
  rw [h]; exact hp _ _ _ _

theorem beforeSpawn_proj {α : Type} (proj : Game → α)
    (hp : ∀ (x : Game) v0 v1 v2 v3 v4 v5,
      proj { x with playerShip := v0, lastFireTime := v1, bullets := v2, bulletCount := v3,
                    bulletPool := v4, activeBullets := v5 } = proj x)
    (env : Env) (inp : FrameInput) (g : Game) : proj (beforeSpawn env inp g) = proj g := by
  unfold beforeSpawn
  rw [updateBullets_proj proj (fun x v1 v2 v3 => hp x x.playerShip x.lastFireTime v1 x.bulletCount v2 v3)]
  have hplayer : ∀ x : Game, proj (updatePlayer env inp.deltaTime x) = proj x := fun x =>
    hp x (updatePlayer env inp.deltaTime x).playerShip x.lastFireTime x.bullets x.bulletCount
      x.bulletPool x.activeBullets
  rw [hplayer]
  split_ifs
  · exact fireBullet_proj proj (fun x v1 v2 v3 v4 v5 => hp x x.playerShip v1 v2 v3 v4 v5) _ g
  · rfl

theorem beforeCollisions_proj {α : Type} (proj : Game → α)
    (hp : ∀ (x : Game) v0 v1 v2 v3 v4 v5 w1 w2 w3 w4 w5 w6,
      proj { x with playerShip := v0, lastFireTime := v1, bullets := v2, bulletCount := v3,
                    bulletPool := v4, activeBullets := v5, enemies := w1,
                    lastEnemySpawnTime := w2, explosions := w3, explosionCount := w4,
                    explosionPool := w5, activeExplosions := w6 } = proj x)
    (env : Env) (inp : FrameInput) (g : Game) : proj (beforeCollisions env inp g) = proj g := by
  unfold beforeCollisions
  rw [updateExplosions_proj proj (fun x v1 v2 v3 =>
      hp x x.playerShip x.lastFireTime x.bullets x.bulletCount x.bulletPool x.activeBullets
        x.enemies x.lastEnemySpawnTime v1 x.explosionCount v2 v3),
    updateEnemies_proj proj (fun x v1 v2 v3 v4 v5 =>
      hp x x.playerShip x.lastFireTime x.bullets x.bulletCount x.bulletPool x.activeBullets
        v1 x.lastEnemySpawnTime v2 v3 v4 v5),
    spawnEnemy_proj proj (fun x v1 v2 =>
      hp x x.playerShip x.lastFireTime x.bullets x.bulletCount x.bulletPool x.activeBullets
        v1 v2 x.explosions x.explosionCount x.explosionPool x.activeExplosions),
    beforeSpawn_proj proj (fun x v0 v1 v2 v3 v4 v5 =>
      hp x v0 v1 v2 v3 v4 v5 x.enemies x.lastEnemySpawnTime x.explosions x.explosionCount
        x.explosionPool x.activeExplosions)]

/-! ## Single credit per enemy (C6) -/

theorem hitGain_self : ∀ l : List Enemy, hitGain l l = 0 := by
  intro l
  induction l with
  | nil => rfl
  | cons e l ih =>
    unfold hitGain at ih ⊢
    simp only [List.zipWith_cons_cons, List.sum_cons, ih, add_zero]
    cases e.isHit <;> rfl

theorem hitGain_cons (e e' : Enemy) (l l' : List Enemy) :
    hitGain (e :: l) (e' :: l')
      = (if !e.isHit && e'.isHit then scoreValueOr10 e else 0) + hitGain l l' := by
  simp [hitGain]

theorem shotStep_refl (e : Enemy) : ShotStep e e := Or.inl rfl

theorem shotStep_trans {a b c : Enemy} (h1 : ShotStep a b) (h2 : ShotStep b c) : ShotStep a c := by
  rcases h1 with rfl | ⟨ha, hs, rfl⟩
  · exact h2
  · rcases h2 with rfl | ⟨hb, -, -⟩
    · exact Or.inr ⟨ha, hs, rfl⟩
    · simp at hb

theorem forall2_shotStep_refl : ∀ l : List Enemy, List.Forall₂ ShotStep l l
  | [] => List.Forall₂.nil
  | e :: l => List.Forall₂.cons (shotStep_refl e) (forall2_shotStep_refl l)

theorem forall2_shotStep_trans : ∀ {l1 l2 l3 : List Enemy},
    List.Forall₂ ShotStep l1 l2 → List.Forall₂ ShotStep l2 l3 → List.Forall₂ ShotStep l1 l3
  | _, _, _, List.Forall₂.nil, List.Forall₂.nil => List.Forall₂.nil
  | _, _, _, List.Forall₂.cons h1 t1, List.Forall₂.cons h2 t2 =>
    List.Forall₂.cons (shotStep_trans h1 h2) (forall2_shotStep_trans t1 t2)

theorem hitGain_trans : ∀ {l1 l2 l3 : List Enemy},
    List.Forall₂ ShotStep l1 l2 → List.Forall₂ ShotStep l2 l3 →
      hitGain l1 l3 = hitGain l1 l2 + hitGain l2 l3
  | _, _, _, List.Forall₂.nil, List.Forall₂.nil => rfl
  | _, _, _, List.Forall₂.cons (a := a) (b := b) h1 t1, List.Forall₂.cons (b := c) h2 t2 => by
    rw [hitGain_cons, hitGain_cons, hitGain_cons, hitGain_trans t1 t2]
    have hhead : (if !a.isHit && c.isHit then scoreValueOr10 a else 0)
        = (if !a.isHit && b.isHit then scoreValueOr10 a else 0)
          + (if !b.isHit && c.isHit then scoreValueOr10 b else 0) := by
      rcases h1 with rfl | ⟨ha, -, rfl⟩
      · cases hb : b.isHit <;> simp
      · rcases h2 with rfl | ⟨hb, -, -⟩
        · simp [ha]
        · simp at hb
    rw [hhead]
    ring

theorem bulletScan_shot (env : Env) (bulletBox : Box3) :
    ∀ (es : List Enemy) (j : Nat) (score : Int) (hit : List Nat),
      List.Forall₂ ShotStep es (bulletScan env bulletBox j es score hit).1
        ∧ (bulletScan env bulletBox j es score hit).2.1
            = score + hitGain es (bulletScan env bulletBox j es score hit).1 := by
  intro es
  induction es with
  | nil => intro j score hit; exact ⟨List.Forall₂.nil, by simp [bulletScan, hitGain]⟩
  | cons a es ih =>
    intro j score hit
    obtain ⟨i1, i2⟩ := ih (j + 1) score hit
    have hself : (if !a.isHit && a.isHit then scoreValueOr10 a else 0) = 0 := by
      cases a.isHit <;> rfl
    cases h : (a.isHit || a.isSpawning || hit.contains j)
    · cases hbox : env.intersectsBox bulletBox a.boundingBox
      · rw [bulletScan_cons_miss env _ a _ j score hit h hbox]
        refine ⟨List.Forall₂.cons (shotStep_refl a) i1, ?_⟩
        show _ = score + hitGain (a :: es) (a :: _)
        rw [hitGain_cons, hself, zero_add]
        exact i2
      · rw [bulletScan_cons_hit env _ a _ j score hit h hbox]
        simp only [Bool.or_eq_false_iff] at h
        have hn := enemyGotHit_of_normal a false h.1.1 h.1.2
        refine ⟨List.Forall₂.cons (Or.inr ⟨h.1.1, h.1.2, hn⟩) (forall2_shotStep_refl es), ?_⟩
        show score + scoreValueOr10 a = score + hitGain (a :: es) (enemyGotHit a false :: es)
        rw [hitGain_cons, hitGain_self, hn]
        simp [h.1.1]
    · rw [bulletScan_cons_skip env _ a _ j score hit h]
      refine ⟨List.Forall₂.cons (shotStep_refl a) i1, ?_⟩
      show _ = score + hitGain (a :: es) (a :: _)
      rw [hitGain_cons, hself, zero_add]
      exact i2

theorem bulletVisit_shot (env : Env) (b : Nat) (g : Game) (hit : List Nat) :
    List.Forall₂ ShotStep g.enemies (bulletVisit env b g hit).1.enemies
      ∧ (bulletVisit env b g hit).1.score
          = g.score + hitGain g.enemies (bulletVisit env b g hit).1.enemies := by
  obtain ⟨h1, h2⟩ := bulletScan_shot env (g.bullets b).boundingBox g.enemies 0 g.score hit
  simp only [bulletVisit]
  split_ifs
  · exact ⟨forall2_shotStep_refl _, by rw [hitGain_self, add_zero]⟩
  · exact ⟨h1, h2⟩
  · exact ⟨h1, h2⟩

theorem bulletPassLoop_shot (env : Env) :
    ∀ (i : Nat) (g : Game) (hit : List Nat),
      List.Forall₂ ShotStep g.enemies (bulletPassLoop env i (g, hit)).1.enemies
        ∧ (bulletPassLoop env i (g, hit)).1.score
            = g.score + hitGain g.enemies (bulletPassLoop env i (g, hit)).1.enemies := by
  intro i
  induction i with
  | zero => intro g hit; exact ⟨forall2_shotStep_refl _, by simp [bulletPassLoop, hitGain_self]⟩
  | succ i ih =>
    intro g hit
    simp only [bulletPassLoop]
    split
    · exact ih g hit
    · rename_i b _
      obtain ⟨v1, v2⟩ := bulletVisit_shot env b g hit
      obtain ⟨i1, i2⟩ := ih (bulletVisit env b g hit).1 (bulletVisit env b g hit).2
      refine ⟨forall2_shotStep_trans v1 i1, ?_⟩
      rw [hitGain_trans v1 i1, i2, v2]
      ring

theorem hitGain_eq_creditedScore : ∀ {l1 l2 : List Enemy},
    List.Forall₂ ShotStep l1 l2 → (∀ e ∈ l1, e.scoreValue ≠ 0) →
      hitGain l1 l2 = creditedScore l1 l2
  | _, _, List.Forall₂.nil, _ => rfl
  | _, _, List.Forall₂.cons (a := a) (b := b) _ t, h => by
    have ih := hitGain_eq_creditedScore t (fun e he => h e (List.mem_cons_of_mem _ he))
    have ha : scoreValueOr10 a = a.scoreValue := by
      unfold scoreValueOr10
      rw [if_neg (h a (List.mem_cons_self _ _))]
    rw [hitGain_cons, ih, ha]
    simp [creditedScore]

/-- C6: single credit per enemy.  In the bullet pass of `checkCollisions`, whatever the
active bullets and their overlaps, every enemy is afterwards either untouched or has made
the one transition into Hit (`isHit` true, `hitByPlayer` false, `hitTimer` 100) from a state
that was neither hit nor spawning; and for a roster whose enemies carry a non-zero
`scoreValue` the score after the pass is the score before plus the sum of `scoreValue`
over the enemies that entered Hit in the pass, each counted once. -/
theorem single_credit_per_enemy (env : Env) (g : Game)
    (hval : ∀ e ∈ g.enemies, e.scoreValue ≠ 0) :
    List.Forall₂ ShotStep g.enemies (bulletPass env g).1.enemies
      ∧ (bulletPass env g).1.score
          = g.score + creditedScore g.enemies (bulletPass env g).1.enemies := by
  obtain ⟨h1, h2⟩ := bulletPassLoop_shot env g.activeBullets.length g []
  refine ⟨h1, ?_⟩
  have h3 := hitGain_eq_creditedScore h1 hval
  exact h2.trans (congrArg (fun t => g.score + t) h3)

/-- Two bullets overlap the one GRUNT of the example: the pass adds its 10 points once and
uses up one bullet (the last of the roster, visited first), the other stays in flight. -/
theorem single_credit_per_enemy_witness :
    (∀ e ∈ exampleCrossfireGame.enemies, e.scoreValue ≠ 0)
      ∧ (bulletPass exampleEnv exampleCrossfireGame).1.score
          = exampleCrossfireGame.score
            + creditedScore exampleCrossfireGame.enemies
                (bulletPass exampleEnv exampleCrossfireGame).1.enemies
      ∧ (checkCollisions exampleEnv exampleCrossfireGame).score = 10
      ∧ ((checkCollisions exampleEnv exampleCrossfireGame).bullets 1).isActive = false
      ∧ ((checkCollisions exampleEnv exampleCrossfireGame).bullets 0).isActive = true :=
  ⟨by decide!,
   (single_credit_per_enemy exampleEnv exampleCrossfireGame (by decide!)).2,
   by decide!, by decide!, by decide!⟩

/-! ## The score is never negative (C3) -/

theorem beforeCollisions_typeFixed (env : Env) (inp : FrameInput) (g : Game)
    (h : ∀ e ∈ g.enemies, TypeFixed e) :
    ∀ e ∈ (beforeCollisions env inp g).enemies, TypeFixed e := by
  have hspawn : ∀ e ∈ (spawnEnemy env inp.spawnNow inp.draws (beforeSpawn env inp g)).enemies,
      TypeFixed e := by
    rcases spawnEnemy_enemies env inp.spawnNow inp.draws (beforeSpawn env inp g)
      with he | ⟨-, td, htd, he⟩
    · rw [he, beforeSpawn_enemies]; exact h
    · rw [he, beforeSpawn_enemies]
      intro e hmem
      rcases List.mem_append.mp hmem with hm | hm
      · exact h e hm
      · rw [List.mem_singleton.mp hm]
        exact createEnemy_typeFixed env _ _ td htd
  rw [beforeCollisions_enemies]
  intro e' hmem
  obtain ⟨e, he, hs⟩ := List.mem_filterMap.mp hmem
  unfold survivor at hs
  split_ifs at hs
  rw [← Option.some.inj hs]
  exact typeFixed_of_sameType (hspawn e he) (updateEnemy_sameType env _ e)

theorem typeFixed_scoreValueOr10_pos {e : Enemy} (h : TypeFixed e) : 0 < scoreValueOr10 e := by
  obtain ⟨h1, h2, -, h4, -⟩ := h
  unfold scoreValueOr10
  simp only [ENEMY_TYPES, List.mem_cons, List.mem_singleton, List.not_mem_nil, or_false] at h1
  rcases h1 with hd | hd
  · rw [h4, hd]
    simp [GRUNT]
  · rw [h4, hd]
    simp [DODGER]

theorem hitGain_nonneg : ∀ (l1 l2 : List Enemy), (∀ e ∈ l1, 0 ≤ scoreValueOr10 e) →
    0 ≤ hitGain l1 l2
  | [], _, _ => by simp [hitGain]
  | _ :: _, [], _ => by simp [hitGain]
  | a :: l1, b :: l2, h => by
    rw [hitGain_cons]
    have ih := hitGain_nonneg l1 l2 (fun e he => h e (List.mem_cons_of_mem _ he))
    have ha := h a (List.mem_cons_self _ _)
    split_ifs <;> omega

theorem bulletPass_score_ge (env : Env) (g : Game) (h : ∀ e ∈ g.enemies, TypeFixed e) :
    g.score ≤ (bulletPass env g).1.score := by
  obtain ⟨-, h2⟩ := bulletPassLoop_shot env g.activeBullets.length g []
  have h3 := hitGain_nonneg g.enemies (bulletPass env g).1.enemies
    (fun e he => le_of_lt (typeFixed_scoreValueOr10_pos (h e he)))
  have h4 : (bulletPass env g).1.score
      = g.score + hitGain g.enemies (bulletPass env g).1.enemies := h2
  omega

theorem penaltyAndHit_iterate_nonneg (g : Game) (h : 0 ≤ g.score) :
    ∀ k : Nat, 0 ≤ (penaltyAndHit^[k] g).score := by
  intro k
  rcases Nat.eq_zero_or_pos k with hk | hk
  · subst hk; exact h
  · rw [penaltyAndHit_iterate_score g k hk]
    exact le_max_left _ _

theorem playerPass_score_nonneg (env : Env) (g : Game) (hit : List Nat) (h : 0 ≤ g.score) :
    0 ≤ (playerPass env g hit).score := by
  unfold playerPass
  split_ifs
  · show 0 ≤ (playerScan env 0 g.enemies g hit).2.1.score
    rw [(playerScan_spec env g.enemies 0 g hit).2]
    exact penaltyAndHit_iterate_nonneg g h _
  · exact h

theorem checkCollisions_score_nonneg (env : Env) (g : Game) (h : ∀ e ∈ g.enemies, TypeFixed e)
    (hs : 0 ≤ g.score) : 0 ≤ (checkCollisions env g).score := by
  unfold checkCollisions
  exact playerPass_score_nonneg env _ _ (le_trans hs (bulletPass_score_ge env g h))

theorem beforeCollisions_score (env : Env) (inp : FrameInput) (g : Game) :
    (beforeCollisions env inp g).score = g.score :=
  beforeCollisions_proj Game.score (fun _ _ _ _ _ _ _ _ _ _ _ _ _ => rfl) env inp g

theorem initializeGame_score (env : Env) (g : Game) : (initializeGame env g).score = 0 := by
  rw [initializeGame_unfold]
  show (initializeExplosionPool env (initializeBulletPool (resetGameObjects g))).score = 0
  rw [(initializeExplosionPool_spec env _).2.2.2.2.2.2.1, (initializeBulletPool_spec _).2.2.2.2.2.2.1]
  exact (resetGameObjects_fields g).2.2.2.1

theorem animate_score_nonneg (env : Env) (inp : FrameInput) (g : Game)
    (h : ∀ e ∈ g.enemies, TypeFixed e) (hs : 0 ≤ g.score) : 0 ≤ (animate env inp g).score := by
  by_cases hp : g.gameState = GameState.playing
  · rw [animate_of_playing env inp g hp]
    apply checkCollisions_score_nonneg env _ (beforeCollisions_typeFixed env inp g h)
    rw [beforeCollisions_score]
    exact hs
  · rw [animate_of_not_playing env inp g hp]; exact hs

theorem reachable_score_nonneg (env : Env) (g : Game) (h : Reachable env g) : 0 ≤ g.score := by
  induction h with
  | boot aspect => rw [initializeGame_score]
  | frame inp g hg ih => exact animate_score_nonneg env inp g (reachable_typeFixed env g hg) ih
  | restart g _ _ => rw [initializeGame_score]
  | start g _ ih => unfold clickStart; split_ifs <;> exact ih
  | key k pressed g _ ih => exact ih
  | resized aspect g _ ih => exact ih

/-- C3: the score is never negative.  In every state reachable from `initializeGame` by
frames, page events and restarts, `score ≥ 0`; and in a run of `checkCollisions` whose
player is not in Hit state, the player pass applies to the state left by the bullet pass
one `penaltyAndHit` per enemy it hits, each of which replaces the score by
`max 0 (score - 25)`. -/
theorem score_never_negative (env : Env) (g : Game) (h : Reachable env g) :
    0 ≤ g.score
      ∧ (∀ x : Game, (penaltyAndHit x).score = max 0 (x.score - 25))
      ∧ (g.playerShip.isHit = false →
          (checkCollisions env g).score
            = (penaltyAndHit^[(playerTargets env g).count true] (bulletPass env g).1).score) :=
  ⟨reachable_score_nonneg env g h, penaltyAndHit_score,
   fun hp => (checkCollisions_of_player_ok env g hp).2.1⟩

/-- The example run ends in a reachable state, with a score that is not negative. -/
theorem score_never_negative_witness :
    Reachable exampleEnv exampleRun ∧ 0 ≤ exampleRun.score :=
  ⟨exampleRun_reachable, (score_never_negative exampleEnv exampleRun exampleRun_reachable).1⟩

/-! ## Spawn invulnerability (C4) -/

theorem rebox_of_not_spawning (f : Enemy → Box3) (e : Enemy) (h : e.isSpawning = false) :
    rebox f e = e := by
  simp [rebox, h]

theorem rebox_isSpawning (f : Enemy → Box3) (e : Enemy) :
    (rebox f e).isSpawning = e.isSpawning := by
  unfold rebox
  split_ifs <;> rfl

theorem enemyGotHit_isSpawning (e : Enemy) (byPlayer : Bool) :
    (enemyGotHit e byPlayer).isSpawning = e.isSpawning := by
  unfold enemyGotHit
  split_ifs <;> rfl

theorem bulletScan_rebox (env : Env) (bulletBox : Box3) (f : Enemy → Box3) :
    ∀ (es : List Enemy) (j : Nat) (score : Int) (hit : List Nat),
      bulletScan env bulletBox j (es.map (rebox f)) score hit
        = ((bulletScan env bulletBox j es score hit).1.map (rebox f),
            (bulletScan env bulletBox j es score hit).2.1,
            (bulletScan env bulletBox j es score hit).2.2.1,
            (bulletScan env bulletBox j es score hit).2.2.2) := by
  intro es
  induction es with
  | nil => intro j score hit; rfl
  | cons a es ih =>
    intro j score hit
    rw [List.map_cons]
    cases hs : a.isSpawning
    · rw [rebox_of_not_spawning f a hs]
      cases h : (a.isHit || a.isSpawning || hit.contains j)
      · cases hbox : env.intersectsBox bulletBox a.boundingBox
        · rw [bulletScan_cons_miss env _ a _ j score hit h hbox,
            bulletScan_cons_miss env _ a _ j score hit h hbox, ih]
          simp only [List.map_cons, rebox_of_not_spawning f a hs]
        · rw [bulletScan_cons_hit env _ a _ j score hit h hbox,
            bulletScan_cons_hit env _ a _ j score hit h hbox]
          simp only [List.map_cons]
          rw [rebox_of_not_spawning f (enemyGotHit a false)
            (by rw [enemyGotHit_isSpawning]; exact hs)]
      · rw [bulletScan_cons_skip env _ a _ j score hit h,
          bulletScan_cons_skip env _ a _ j score hit h, ih]
        simp only [List.map_cons, rebox_of_not_spawning f a hs]
    · rw [bulletScan_cons_skip env _ (rebox f a) _ j score hit
          (by rw [rebox_isSpawning, hs]; simp),
        bulletScan_cons_skip env _ a _ j score hit (by rw [hs]; simp), ih]
      simp only [List.map_cons]

theorem playerScan_rebox (env : Env) (f : Enemy → Box3) :
    ∀ (es : List Enemy) (j : Nat) (g : Game) (hit : List Nat),
      playerScan env j (es.map (rebox f)) g hit
        = ((playerScan env j es g hit).1.map (rebox f), (playerScan env j es g hit).2.1,
            (playerScan env j es g hit).2.2) := by
  intro es
  induction es with
  | nil => intro j g hit; rfl
  | cons a es ih =>
    intro j g hit
    rw [List.map_cons]
    cases hs : a.isSpawning
    · rw [rebox_of_not_spawning f a hs]
      cases h : (a.isHit || a.isSpawning || hit.contains j)
      · cases hbox : env.intersectsBox g.playerShip.boundingBox a.boundingBox
        · rw [playerScan_cons_miss env a _ j g hit h hbox,
            playerScan_cons_miss env a _ j g hit h hbox, ih]
          simp only [List.map_cons, rebox_of_not_spawning f a hs]
        · rw [playerScan_cons_hit env a _ j g hit h hbox,
            playerScan_cons_hit env a _ j g hit h hbox, ih]
          simp only [List.map_cons]
          rw [rebox_of_not_spawning f (enemyGotHit a true)
            (by rw [enemyGotHit_isSpawning]; exact hs)]
      · rw [playerScan_cons_skip env a _ j g hit h, playerScan_cons_skip env a _ j g hit h, ih]
        simp only [List.map_cons, rebox_of_not_spawning f a hs]
    · rw [playerScan_cons_skip env (rebox f a) _ j g hit (by rw [rebox_isSpawning, hs]; simp),
        playerScan_cons_skip env a _ j g hit (by rw [hs]; simp), ih]
      simp only [List.map_cons]

theorem bulletVisit_rebox (env : Env) (f : Enemy → Box3) (b : Nat) (g : Game) (hit : List Nat) :
    bulletVisit env b { g with enemies := g.enemies.map (rebox f) } hit
      = ({ (bulletVisit env b g hit).1 with
            enemies := (bulletVisit env b g hit).1.enemies.map (rebox f) },
          (bulletVisit env b g hit).2) := by
  simp only [bulletVisit, bulletScan_rebox env _ f]
  split_ifs <;> rfl

theorem bulletPassLoop_rebox (env : Env) (f : Enemy → Box3) :
    ∀ (i : Nat) (g : Game) (hit : List Nat),
      bulletPassLoop env i ({ g with enemies := g.enemies.map (rebox f) }, hit)
        = ({ (bulletPassLoop env i (g, hit)).1 with
              enemies := (bulletPassLoop env i (g, hit)).1.enemies.map (rebox f) },
            (bulletPassLoop env i (g, hit)).2) := by
  intro i
  induction i with
  | zero => intro g hit; rfl
  | succ i ih =>
    intro g hit
    simp only [bulletPassLoop]
    split
    · exact ih g hit
    · rw [bulletVisit_rebox env f]
      exact ih _ _

theorem checkCollisions_rebox (env : Env) (f : Enemy → Box3) (g : Game) :
    checkCollisions env { g with enemies := g.enemies.map (rebox f) }
      = { checkCollisions env g with enemies := (checkCollisions env g).enemies.map (rebox f) } := by
  have h := bulletPassLoop_rebox env f g.activeBullets.length g []
  simp only [checkCollisions, bulletPass, playerPass]
  rw [h]
  simp only [playerScan_rebox env f, playerScan_with_enemies]
  split_ifs <;> rfl

theorem hitStep_of_isSpawning {e e' : Enemy} (h : HitStep e e') (hs : e.isSpawning = true) :
    e' = e := by
  rcases h with rfl | ⟨b, rfl⟩
  · rfl
  · exact enemyGotHit_of_isSpawning e b hs

theorem hitStep_spawningUnhit {e e' : Enemy} (h : HitStep e e') (hu : SpawningUnhit e) :
    SpawningUnhit e' := by
  rcases h with rfl | ⟨b, rfl⟩
  · exact hu
  · intro hs
    rw [enemyGotHit_isSpawning] at hs
    rw [enemyGotHit_of_isSpawning e b hs]
    exact hu hs

theorem updateEnemy_flags (env : Env) (deltaTime : ℚ) (e : Enemy) :
    (updateEnemy env deltaTime e).1.isHit = e.isHit
      ∧ ((updateEnemy env deltaTime e).1.isSpawning = true → e.isSpawning = true) := by
  have h4 : (updateEnemy env deltaTime e).1.isHit
        = (sineWeave env deltaTime (moveForward deltaTime (spawnFlash deltaTime e))).isHit
      ∧ (updateEnemy env deltaTime e).1.isSpawning
        = (sineWeave env deltaTime (moveForward deltaTime (spawnFlash deltaTime e))).isSpawning := by
    rw [updateEnemy, hitTimerAndRemoval_fst]
    exact ⟨rfl, rfl⟩
  have h3 : ∀ x : Enemy, (sineWeave env deltaTime x).isHit = x.isHit
      ∧ (sineWeave env deltaTime x).isSpawning = x.isSpawning := by
    intro x
    unfold sineWeave
    split_ifs <;> exact ⟨rfl, rfl⟩
  have h1 : (spawnFlash deltaTime e).isHit = e.isHit := by
    rw [spawnFlash_eq]
  rw [h4.1, h4.2, (h3 _).1, (h3 _).2]
  refine ⟨h1, ?_⟩
  intro hs
  have hs1 : (spawnFlash deltaTime e).isSpawning = true := hs
  rw [spawnFlash_isSpawning] at hs1
  simp only [Bool.and_eq_true] at hs1
  exact hs1.1

theorem createEnemy_spawningUnhit (env : Env) (aspect : ℚ) (r : SpawnDraws) (td : EnemyType) :
    SpawningUnhit (createEnemy env aspect r td) := fun _ => rfl

theorem animate_spawningUnhit (env : Env) (inp : FrameInput) (g : Game)
    (h : ∀ e ∈ g.enemies, SpawningUnhit e) :
    ∀ e ∈ (animate env inp g).enemies, SpawningUnhit e := by
  by_cases hp : g.gameState = GameState.playing
  · rw [animate_of_playing env inp g hp]
    have hspawn : ∀ e ∈ (spawnEnemy env inp.spawnNow inp.draws (beforeSpawn env inp g)).enemies,
        SpawningUnhit e := by
      rcases spawnEnemy_enemies env inp.spawnNow inp.draws (beforeSpawn env inp g)
        with he | ⟨-, td, htd, he⟩
      · rw [he, beforeSpawn_enemies]; exact h
      · rw [he, beforeSpawn_enemies]
        intro e hmem
        rcases List.mem_append.mp hmem with hm | hm
        · exact h e hm
        · rw [List.mem_singleton.mp hm]
          exact createEnemy_spawningUnhit env _ _ td
    have hbefore : ∀ e ∈ (beforeCollisions env inp g).enemies, SpawningUnhit e := by
      rw [beforeCollisions_enemies]
      intro e' hmem
      obtain ⟨e, he, hs⟩ := List.mem_filterMap.mp hmem
      unfold survivor at hs
      split_ifs at hs
      rw [← Option.some.inj hs]
      intro hsp
      rw [(updateEnemy_flags env _ e).1]
      exact hspawn e he ((updateEnemy_flags env _ e).2 hsp)
    intro e' hmem
    obtain ⟨e, he, hr⟩ := forall2_mem_right (checkCollisions_hitStep env _) e' hmem
    exact hitStep_spawningUnhit hr (hbefore e he)
  · rw [animate_of_not_playing env inp g hp]; exact h

theorem reachable_spawningUnhit (env : Env) (g : Game) (h : Reachable env g) :
    ∀ e ∈ g.enemies, SpawningUnhit e := by
  induction h with
  | boot aspect => simp [initializeGame_enemies]
  | frame inp g _ ih => exact animate_spawningUnhit env inp g ih
  | restart g _ _ => simp [initializeGame_enemies]
  | start g _ ih => unfold clickStart; split_ifs <;> exact ih
  | key k pressed g _ ih => exact ih
  | resized aspect g _ ih => exact ih

/-- C4: spawn invulnerability.  `enemyGotHit` with either `byPlayer` value returns a
Spawning enemy unchanged; `checkCollisions`, for every roster, bullets and player, leaves
every Spawning enemy of the roster exactly as it was (its `isHit` and `hitTimer` with it),
and its whole result does not depend on the bounding boxes of the Spawning enemies: with
any other boxes in their place the score, the player, the bullets and the other enemies
come out the same.  In every reachable state no enemy is Spawning and Hit together. -/
theorem spawn_invulnerability (env : Env) (g : Game) :
    (∀ (e : Enemy) (byPlayer : Bool), e.isSpawning = true → enemyGotHit e byPlayer = e)
      ∧ List.Forall₂ (fun e e' => e.isSpawning = true → e' = e)
          g.enemies (checkCollisions env g).enemies
      ∧ (∀ f : Enemy → Box3,
          checkCollisions env { g with enemies := g.enemies.map (rebox f) }
            = { checkCollisions env g with
                enemies := (checkCollisions env g).enemies.map (rebox f) })
      ∧ (Reachable env g → ∀ e ∈ g.enemies, ¬ (e.isSpawning = true ∧ e.isHit = true)) := by
  refine ⟨fun e b hs => enemyGotHit_of_isSpawning e b hs, ?_, fun f => checkCollisions_rebox env f g, ?_⟩
  · exact List.Forall₂.imp (fun _ _ h hs => hitStep_of_isSpawning h hs)
      (checkCollisions_hitStep env g)
  · intro hr e he hboth
    have := reachable_spawningUnhit env g hr e he hboth.1
    rw [this] at hboth
    exact Bool.false_ne_true hboth.2

/-- The example run is reachable, so none of its enemies is Spawning and Hit together. -/
theorem spawn_invulnerability_witness :
    Reachable exampleEnv exampleRun
      ∧ ∀ e ∈ exampleRun.enemies, ¬ (e.isSpawning = true ∧ e.isHit = true) :=
  ⟨exampleRun_reachable, (spawn_invulnerability exampleEnv exampleRun).2.2.2 exampleRun_reachable⟩

/-! ## Player clamping (C27) -/

theorem updatePlayer_position (env : Env) (deltaTime : ℚ) (g : Game) :
    (updatePlayer env deltaTime g).playerShip.position
      = { x := max (-(playerBounds env deltaTime g).1)
                (min (playerBounds env deltaTime g).1 (movedPlayerPosition deltaTime g).x)
          y := max (-(playerBounds env deltaTime g).2)
                (min (playerBounds env deltaTime g).2 (movedPlayerPosition deltaTime g).y)
          z := g.playerShip.position.z } := by
  have hpos : ∀ (ship : Player) (d : ℚ),
      (if ship.isHit then
          (if ship.hitTimer - d ≤ 0 then
            { ship with hitTimer := ship.hitTimer - d, isHit := false }
          else { ship with hitTimer := ship.hitTimer - d })
        else ship).position = ship.position := by
    intro ship d
    split_ifs <;> rfl
  exact hpos _ _

theorem movedPlayerPosition_of_noKey (deltaTime : ℚ) (g : Game) (h : noMovementKey g) :
    movedPlayerPosition deltaTime g = g.playerShip.position := by
  have hw := h "w" (by simp)
  have h1 := h "arrowup" (by simp)
  have hs := h "s" (by simp)
  have h2 := h "arrowdown" (by simp)
  have ha := h "a" (by simp)
  have h3 := h "arrowleft" (by simp)
  have hd := h "d" (by simp)
  have h4 := h "arrowright" (by simp)
  simp [movedPlayerPosition, hw, h1, hs, h2, ha, h3, hd, h4]

/-- C27: player clamping.  With `bounds.x ≥ 0` and `bounds.y ≥ 0` (the `bounds` object
`updatePlayer` computes from the field of view, the aspect ratio and the ship's size), for
every key state and elapsed time the player's `x` after `updatePlayer` lies in
`[-bounds.x, bounds.x]`, its `y` in `[-bounds.y, bounds.y]` and its `z` is unchanged; and
with no movement key held a position inside the rectangle is left unchanged. -/
theorem player_clamped (env : Env) (deltaTime : ℚ) (g : Game)
    (hx : 0 ≤ (playerBounds env deltaTime g).1) (hy : 0 ≤ (playerBounds env deltaTime g).2) :
    (-(playerBounds env deltaTime g).1 ≤ (updatePlayer env deltaTime g).playerShip.position.x
        ∧ (updatePlayer env deltaTime g).playerShip.position.x ≤ (playerBounds env deltaTime g).1)
      ∧ (-(playerBounds env deltaTime g).2 ≤ (updatePlayer env deltaTime g).playerShip.position.y
        ∧ (updatePlayer env deltaTime g).playerShip.position.y ≤ (playerBounds env deltaTime g).2)
      ∧ (updatePlayer env deltaTime g).playerShip.position.z = g.playerShip.position.z
      ∧ (noMovementKey g →
          -(playerBounds env deltaTime g).1 ≤ g.playerShip.position.x →
          g.playerShip.position.x ≤ (playerBounds env deltaTime g).1 →
          -(playerBounds env deltaTime g).2 ≤ g.playerShip.position.y →
          g.playerShip.position.y ≤ (playerBounds env deltaTime g).2 →
          (updatePlayer env deltaTime g).playerShip.position = g.playerShip.position) := by
  rw [updatePlayer_position]
  refine ⟨⟨le_max_left _ _, max_le (by linarith) (min_le_left _ _)⟩,
    ⟨le_max_left _ _, max_le (by linarith) (min_le_left _ _)⟩, rfl, ?_⟩
  intro hk h1 h2 h3 h4
  rw [movedPlayerPosition_of_noKey deltaTime g hk]
  rw [min_eq_right h2, max_eq_right h1, min_eq_right h4, max_eq_right h3]

/-- The player of the example at the origin with the "d" key held for a frame of 10 s:
the move of 80 to the right is clamped to `bounds.x`. -/
theorem player_clamped_witness :
    0 ≤ (playerBounds exampleEnv 10 (keyEvent "d" true exampleCrashGame)).1
      ∧ 0 ≤ (playerBounds exampleEnv 10 (keyEvent "d" true exampleCrashGame)).2
      ∧ (updatePlayer exampleEnv 10 (keyEvent "d" true exampleCrashGame)).playerShip.position.x
          ≤ (playerBounds exampleEnv 10 (keyEvent "d" true exampleCrashGame)).1 :=
  ⟨by decide!, by decide!,
   (player_clamped exampleEnv 10 (keyEvent "d" true exampleCrashGame) (by decide!) (by decide!)).1.2⟩

/-! ## Enemy removal (C21) -/

theorem triggerExplosion_with_enemies (env : Env) (position : Vec3) (g : Game) (l : List Enemy) :
    triggerExplosion env position { g with enemies := l }
      = { triggerExplosion env position g with enemies := l } := by
  by_cases hp : g.explosionPool = []
  · by_cases hlt : g.activeExplosions.length < maxExplosions
    · unfold triggerExplosion
      rw [getExplosionFromPool_of_empty env g hp hlt,
        getExplosionFromPool_of_empty env { g with enemies := l } hp hlt]
    · unfold triggerExplosion
      rw [getExplosionFromPool_of_full env g hp (Nat.le_of_not_lt hlt),
        getExplosionFromPool_of_full env { g with enemies := l } hp (Nat.le_of_not_lt hlt)]
  · have h := (List.dropLast_append_getLast hp).symm
    unfold triggerExplosion
    rw [getExplosionFromPool_of_pool env g _ _ h,
      getExplosionFromPool_of_pool env { g with enemies := l } _ _ h]

theorem explosionCalls_cons (env : Env) (deltaTime : ℚ) (e : Enemy) (r : List Enemy) :
    explosionCalls env deltaTime (e :: r)
      = if (updateEnemy env deltaTime e).2 = Removal.hitExpired then
          (updateEnemy env deltaTime e).1.position :: explosionCalls env deltaTime r
        else explosionCalls env deltaTime r := by
  unfold explosionCalls
  rw [List.filterMap_cons]
  split_ifs <;> rfl

theorem foldl_triggerExplosion_with_enemies (env : Env) (l : List Enemy) :
    ∀ (ps : List Vec3) (g : Game),
      ps.foldl (fun s p => triggerExplosion env p s) { g with enemies := l }
        = { ps.foldl (fun s p => triggerExplosion env p s) g with enemies := l } := by
  intro ps
  induction ps with
  | nil => intro g; rfl
  | cons p ps ih =>
    intro g
    rw [List.foldl_cons, List.foldl_cons, triggerExplosion_with_enemies, ih]

theorem updateEnemiesLoop_state (env : Env) (deltaTime : ℚ) (rev : List Enemy) :
    ∀ (suf : List Enemy) (g : Game) (rem : List Nat), g.enemies = rev.reverse ++ suf →
      (updateEnemiesLoop env deltaTime rev.length (g, rem)).1
        = { (explosionCalls env deltaTime rev).foldl (fun s p => triggerExplosion env p s) g with
            enemies := rev.reverse.map (fun e => (updateEnemy env deltaTime e).1) ++ suf } := by
  induction rev with
  | nil =>
    intro suf g rem h
    have h1 : suf = g.enemies := by rw [h]; rfl
    subst h1
    rfl
  | cons e r ih =>
    intro suf g rem h
    have hlen : r.reverse.length = r.length := List.length_reverse r
    have hget : g.enemies[r.length]? = some e := by
      rw [h, List.reverse_cons, List.append_assoc, List.getElem?_append_right (le_of_eq hlen)]
      simp [hlen]
    have hset : g.enemies.set r.length (updateEnemy env deltaTime e).1
        = r.reverse ++ ((updateEnemy env deltaTime e).1 :: suf) := by
      rw [h, List.reverse_cons, List.append_assoc, List.set_append]
      simp [hlen]
    have hmap : (e :: r).reverse.map (fun e => (updateEnemy env deltaTime e).1) ++ suf
        = r.reverse.map (fun e => (updateEnemy env deltaTime e).1)
            ++ ((updateEnemy env deltaTime e).1 :: suf) := by
      simp
    rw [hmap, explosionCalls_cons]
    simp only [List.length_cons, updateEnemiesLoop, hget]
    rcases htag : (updateEnemy env deltaTime e).2 with _ | _ | _
    · have := ih ((updateEnemy env deltaTime e).1 :: suf)
        { g with enemies := g.enemies.set r.length (updateEnemy env deltaTime e).1 } rem hset
      simp only [reduceCtorEq, if_false]
      rw [this, foldl_triggerExplosion_with_enemies]
    · have := ih ((updateEnemy env deltaTime e).1 :: suf)
        (triggerExplosion env (updateEnemy env deltaTime e).1.position
          { g with enemies := g.enemies.set r.length (updateEnemy env deltaTime e).1 })
        (rem ++ [r.length]) (by rw [triggerExplosion_enemies]; exact hset)
      simp only [if_true, List.foldl_cons]
      rw [this, triggerExplosion_with_enemies, foldl_triggerExplosion_with_enemies]
    · have := ih ((updateEnemy env deltaTime e).1 :: suf)
        { g with enemies := g.enemies.set r.length (updateEnemy env deltaTime e).1 }
        (rem ++ [r.length]) hset
      simp only [reduceCtorEq, if_false]
      rw [this, foldl_triggerExplosion_with_enemies]

theorem hitTimerAndRemoval_snd (deltaTime : ℚ) (e : Enemy) :
    (hitTimerAndRemoval deltaTime e).2
      = if e.isHit = true ∧ e.hitTimer - deltaTime * 1000 ≤ 0 then Removal.hitExpired
        else if e.position.z > cameraPositionZ + 10 then Removal.passedCamera
        else Removal.keep := by
  rcases e with ⟨_, _, _, _, _, _, _, _, _, _, _, _, _, _, _, isHit, _, _⟩
  cases isHit <;> simp only [hitTimerAndRemoval] <;> split_ifs <;> simp_all

theorem sineWeave_fields (env : Env) (deltaTime : ℚ) (e : Enemy) :
    (sineWeave env deltaTime e).isHit = e.isHit
      ∧ (sineWeave env deltaTime e).hitTimer = e.hitTimer
      ∧ (sineWeave env deltaTime e).position.z = e.position.z
      ∧ (sineWeave env deltaTime e).position.y = e.position.y := by
  unfold sineWeave
  split_ifs <;> exact ⟨rfl, rfl, rfl, rfl⟩

theorem updateEnemy_tag (env : Env) (deltaTime : ℚ) (e : Enemy) :
    (updateEnemy env deltaTime e).2
      = if e.isHit = true ∧ e.hitTimer - deltaTime * 1000 ≤ 0 then Removal.hitExpired
        else if e.position.z + e.speed * deltaTime > cameraPositionZ + 10 then Removal.passedCamera
        else Removal.keep := by
  obtain ⟨s1, s2, s3, -⟩ := sineWeave_fields env deltaTime (moveForward deltaTime (spawnFlash deltaTime e))
  have f1 : (spawnFlash deltaTime e).isHit = e.isHit ∧ (spawnFlash deltaTime e).hitTimer = e.hitTimer
      ∧ (spawnFlash deltaTime e).position = e.position ∧ (spawnFlash deltaTime e).speed = e.speed := by
    rw [spawnFlash_eq]
    exact ⟨rfl, rfl, rfl, rfl⟩
  have m1 : (boxAndRotate env deltaTime
      (sineWeave env deltaTime (moveForward deltaTime (spawnFlash deltaTime e)))).isHit = e.isHit :=
    s1.trans f1.1
  have m2 : (boxAndRotate env deltaTime
      (sineWeave env deltaTime (moveForward deltaTime (spawnFlash deltaTime e)))).hitTimer
        = e.hitTimer := s2.trans f1.2.1
  have m3 : (boxAndRotate env deltaTime
      (sineWeave env deltaTime (moveForward deltaTime (spawnFlash deltaTime e)))).position.z
        = e.position.z + e.speed * deltaTime := by
    refine s3.trans ?_
    show (spawnFlash deltaTime e).position.z + (spawnFlash deltaTime e).speed * deltaTime = _
    rw [f1.2.2.1, f1.2.2.2]
  rw [updateEnemy, hitTimerAndRemoval_snd, m1, m2, m3]

theorem updateEnemy_position_z (env : Env) (deltaTime : ℚ) (e : Enemy) :
    (updateEnemy env deltaTime e).1.position.z = e.position.z + e.speed * deltaTime := by
  obtain ⟨-, -, s3, -⟩ := sineWeave_fields env deltaTime (moveForward deltaTime (spawnFlash deltaTime e))
  have f1 : (spawnFlash deltaTime e).position = e.position ∧ (spawnFlash deltaTime e).speed = e.speed := by
    rw [spawnFlash_eq]
    exact ⟨rfl, rfl⟩
  rw [updateEnemy, hitTimerAndRemoval_fst]
  refine Eq.trans ?_ (s3.trans ?_)
  · rfl
  · show (spawnFlash deltaTime e).position.z + (spawnFlash deltaTime e).speed * deltaTime = _
    rw [f1.1, f1.2]

theorem updateEnemies_state (env : Env) (deltaTime : ℚ) (g : Game) :
    updateEnemies env deltaTime g
      = { (explosionCalls env deltaTime g.enemies.reverse).foldl
            (fun s p => triggerExplosion env p s) g with
          enemies := g.enemies.filterMap (survivor env deltaTime) } := by
  have hst := updateEnemiesLoop_state env deltaTime g.enemies.reverse [] g [] (by simp)
  have henemies := updateEnemies_enemies env deltaTime g
  simp only [List.length_reverse] at hst
  rw [← henemies]
  unfold updateEnemies
  simp only
  rw [hst]

/-- C21: enemy removal.  After `updateEnemies(dt)` the roster is the previous roster in
the same order, every enemy one step of the loop body further, without exactly the enemies
for which `isHit` and `hitTimer - 1000 * dt ≤ 0`, or `z + speed * dt > camera.position.z + 10`;
the rest of the state is the one reached by calling `triggerExplosion` once for each enemy
removed by hit-timer expiry, in the order of the loop (last roster entry first), at that
enemy's position after the move, and not for the enemies removed for passing the camera. -/
theorem enemy_removal (env : Env) (deltaTime : ℚ) (g : Game) :
    updateEnemies env deltaTime g
        = { (explosionCalls env deltaTime g.enemies.reverse).foldl
              (fun s p => triggerExplosion env p s) g with
            enemies := g.enemies.filterMap (survivor env deltaTime) }
      ∧ (∀ e : Enemy,
          (survivor env deltaTime e = none ↔
            (e.isHit = true ∧ e.hitTimer - 1000 * deltaTime ≤ 0)
              ∨ e.position.z + e.speed * deltaTime > cameraPositionZ + 10)
          ∧ (survivor env deltaTime e ≠ none →
              survivor env deltaTime e = some (updateEnemy env deltaTime e).1)
          ∧ ((updateEnemy env deltaTime e).2 = Removal.hitExpired ↔
              (e.isHit = true ∧ e.hitTimer - 1000 * deltaTime ≤ 0))
          ∧ (updateEnemy env deltaTime e).1.position.z = e.position.z + e.speed * deltaTime) := by
  have htag : ∀ e : Enemy, (updateEnemy env deltaTime e).2
      = if e.isHit = true ∧ e.hitTimer - 1000 * deltaTime ≤ 0 then Removal.hitExpired
        else if e.position.z + e.speed * deltaTime > cameraPositionZ + 10 then Removal.passedCamera
        else Removal.keep := by
    intro e
    rw [updateEnemy_tag, mul_comm 1000 deltaTime]
  refine ⟨updateEnemies_state env deltaTime g,
    fun e => ⟨?_, ?_, ?_, updateEnemy_position_z env deltaTime e⟩⟩
  · unfold survivor
    rw [htag]
    by_cases h1 : e.isHit = true ∧ e.hitTimer - 1000 * deltaTime ≤ 0
    · rw [if_pos h1, if_neg (by decide)]
      exact ⟨fun _ => Or.inl h1, fun _ => rfl⟩
    · rw [if_neg h1]
      by_cases h2 : e.position.z + e.speed * deltaTime > cameraPositionZ + 10
      · rw [if_pos h2, if_neg (by decide)]
        exact ⟨fun _ => Or.inr h2, fun _ => rfl⟩
      · rw [if_neg h2, if_pos rfl]
        constructor
        · intro h; cases h
        · rintro (h | h)
          · exact absurd h h1
          · exact absurd h h2
  · unfold survivor
    split_ifs
    · intro _; rfl
    · intro h; exact absurd rfl h
  · rw [htag]
    by_cases h1 : e.isHit = true ∧ e.hitTimer - 1000 * deltaTime ≤ 0
    · rw [if_pos h1]
      exact ⟨fun _ => h1, fun _ => rfl⟩
    · rw [if_neg h1]
      constructor
      · intro h
        split_ifs at h
      · intro h; exact absurd h h1

/-- The example roster after a frame of 1/60 s: the first GRUNT (hit timer 10 ms) and the
second (depth 30) are gone, the third is kept, and the one explosion is asked for at the
first GRUNT's position after its move. -/
theorem enemy_removal_witness :
    updateEnemies exampleEnv (1 / 60) { exampleGame with enemies := exampleRoster }
        = { (explosionCalls exampleEnv (1 / 60) exampleRoster.reverse).foldl
              (fun s p => triggerExplosion exampleEnv p s)
              { exampleGame with enemies := exampleRoster } with
            enemies := exampleRoster.filterMap (survivor exampleEnv (1 / 60)) }
      ∧ (exampleRoster.filterMap (survivor exampleEnv (1 / 60))).length = 1
      ∧ explosionCalls exampleEnv (1 / 60) exampleRoster.reverse
          = [{ x := 0, y := 0, z := -40 + 4 * (1 / 60) }] :=
  ⟨(enemy_removal exampleEnv (1 / 60) { exampleGame with enemies := exampleRoster }).1,
   by decide!, by decide!⟩

/-! ## Bullets before the player (C28) -/

theorem shotStep_of_entered {e e1 : Enemy} (h : ShotStep e e1) (hn : e.isHit = false)
    (h1 : e1.isHit = true) :
    e.isSpawning = false
      ∧ e1 = { e with isHit := true, hitByPlayer := false, hitTimer := enemyHitDuration } := by
  rcases h with rfl | ⟨-, hs, rfl⟩
  · rw [hn] at h1; cases h1
  · exact ⟨hs, rfl⟩

theorem playerPass_of_player_hit (env : Env) (g : Game) (hit : List Nat)
    (hp : g.playerShip.isHit = true) : playerPass env g hit = g := by
  simp [playerPass, hp]

theorem checkCollisions_keeps_hit (env : Env) (g : Game) (i : Nat) (e1 : Enemy)
    (h1 : (bulletPass env g).1.enemies[i]? = some e1) (hhit : e1.isHit = true) :
    (checkCollisions env g).enemies[i]? = some e1
      ∧ (g.playerShip.isHit = false → (playerTargets env g)[i]? = some false) := by
  have hflag : (playerTargets env g)[i]? = some false := by
    unfold playerTargets
    rw [playerFlags_getElem? env _ _ _ 0 i e1 h1, hhit]
    rfl
  refine ⟨?_, fun _ => hflag⟩
  cases hp : g.playerShip.isHit
  · rw [(checkCollisions_of_player_ok env g hp).1, List.getElem?_zipWith, h1, hflag]
    rfl
  · have hp1 : (bulletPass env g).1.playerShip.isHit = true := by
      rw [bulletPass_playerShip]; exact hp
    unfold checkCollisions
    rw [playerPass_of_player_hit env _ _ hp1]
    exact h1

/-- C28: bullets take priority over the player.  If the enemy at index `i` is not in Hit
state before `checkCollisions` and is in Hit state after the bullet pass (a bullet hit it),
then, whatever its box and the player's, it was not Spawning, it ends the run with `isHit`
true, `hitByPlayer` false and `hitTimer` 100, its `scoreValue || 10` is the summand of index
`i` in the score the bullet pass adds, and the player pass does not count it among the
enemies it hits: with the player not in Hit state, the score and the player after the run
are the ones after the bullet pass with one penalty per enemy the player pass hits, of
which this enemy is none. -/
theorem bullets_before_player (env : Env) (g : Game) (i : Nat) (e e1 : Enemy)
    (h0 : g.enemies[i]? = some e) (hn : e.isHit = false)
    (h1 : (bulletPass env g).1.enemies[i]? = some e1) (hhit : e1.isHit = true) :
    e.isSpawning = false
      ∧ (checkCollisions env g).enemies[i]?
          = some { e with isHit := true, hitByPlayer := false, hitTimer := 100 }
      ∧ (bulletPass env g).1.score
          = g.score + (List.zipWith (fun a a' => if !a.isHit && a'.isHit then scoreValueOr10 a else 0)
              g.enemies (bulletPass env g).1.enemies).sum
      ∧ (List.zipWith (fun a a' => if !a.isHit && a'.isHit then scoreValueOr10 a else 0)
            g.enemies (bulletPass env g).1.enemies)[i]? = some (scoreValueOr10 e)
      ∧ (g.playerShip.isHit = false →
          (playerTargets env g)[i]? = some false
            ∧ (checkCollisions env g).score
                = (penaltyAndHit^[(playerTargets env g).count true] (bulletPass env g).1).score
            ∧ (checkCollisions env g).playerShip
                = (penaltyAndHit^[(playerTargets env g).count true] (bulletPass env g).1).playerShip)
      ∧ (g.playerShip.isHit = true →
          (checkCollisions env g).score = (bulletPass env g).1.score
            ∧ (checkCollisions env g).playerShip = g.playerShip) := by
  obtain ⟨hshot, hscore⟩ := bulletPassLoop_shot env g.activeBullets.length g []
  obtain ⟨e1', he1', hstep⟩ := forall2_getElem? hshot i e h0
  have hsame : e1' = e1 := Option.some.inj (he1'.symm.trans h1)
  subst hsame
  obtain ⟨hsp, heq⟩ := shotStep_of_entered hstep hn hhit
  obtain ⟨hk, hflag⟩ := checkCollisions_keeps_hit env g i e1' h1 hhit
  refine ⟨hsp, ?_, hscore, ?_, ?_, ?_⟩
  · rw [hk, heq]; rfl
  · rw [List.getElem?_zipWith, h0, h1]
    simp [hn, hhit]
  · intro hp
    exact ⟨hflag hp, (checkCollisions_of_player_ok env g hp).2⟩
  · intro hp
    have hp1 : (bulletPass env g).1.playerShip.isHit = true := by
      rw [bulletPass_playerShip]; exact hp
    unfold checkCollisions
    rw [playerPass_of_player_hit env _ _ hp1]
    exact ⟨rfl, bulletPass_playerShip env g⟩

/-- The GRUNT of the example overlaps the bullet and the player: the run credits it to
the shot, the score goes from 0 to 10 and the player is not hit. -/
theorem bullets_before_player_witness :
    (checkCollisions exampleEnv exampleDuelGame).enemies[0]?
        = some { exampleGrunt { x := 0, y := 0, z := -1 } with
                 isHit := true, hitByPlayer := false, hitTimer := 100 }
      ∧ (checkCollisions exampleEnv exampleDuelGame).score = 10
      ∧ (checkCollisions exampleEnv exampleDuelGame).playerShip.isHit = false
      ∧ exampleEnv.intersectsBox exampleDuelGame.playerShip.boundingBox
          (exampleGrunt { x := 0, y := 0, z := -1 }).boundingBox = true :=
  ⟨(bullets_before_player exampleEnv exampleDuelGame 0 (exampleGrunt { x := 0, y := 0, z := -1 })
      { exampleGrunt { x := 0, y := 0, z := -1 } with
        isHit := true, hitByPlayer := false, hitTimer := 100 }
      rfl rfl (by decide!) rfl).2.1,
   by decide!, by decide!, by decide!⟩

/-! ## The set `enemiesHitThisFrame` is redundant (C30) -/

theorem hitSetOk_nil (j : Nat) (es : List Enemy) : HitSetOk j es [] := by
  intro k e _ h
  simp at h

theorem hitSetOk_tail {j : Nat} {a : Enemy} {es : List Enemy} {hit : List Nat}
    (h : HitSetOk j (a :: es) hit) : HitSetOk (j + 1) es hit := by
  intro k e hk hm
  refine h (k + 1) e (by rw [List.getElem?_cons_succ]; exact hk) ?_
  have : j + (k + 1) = j + 1 + k := by omega
  rw [this]; exact hm

theorem hitSetOk_head {j : Nat} {a : Enemy} {es : List Enemy} {hit : List Nat}
    (h : HitSetOk j (a :: es) hit) (hm : j ∈ hit) : a.isHit = true :=
  h 0 a List.getElem?_cons_zero hm

theorem skip_test_eq {j : Nat} {a : Enemy} {es : List Enemy} {hit : List Nat}
    (h : HitSetOk j (a :: es) hit) :
    (a.isHit || a.isSpawning || hit.contains j) = (a.isHit || a.isSpawning) := by
  cases hc : hit.contains j
  · simp
  · have hm : j ∈ hit := by simpa using hc
    rw [hitSetOk_head h hm]
    rfl

theorem enemyGotHit_isHit_of_normal (a : Enemy) (byPlayer : Bool)
    (h : (a.isHit || a.isSpawning) = false) : (enemyGotHit a byPlayer).isHit = true := by
  simp only [Bool.or_eq_false_iff] at h
  rw [enemyGotHit_of_normal a byPlayer h.1 h.2]

theorem bulletScan_noSet (env : Env) (bulletBox : Box3) :
    ∀ (es : List Enemy) (j : Nat) (score : Int) (hit : List Nat), HitSetOk j es hit →
      (bulletScan env bulletBox j es score hit).1 = (bulletScanNoSet env bulletBox es score).1
        ∧ (bulletScan env bulletBox j es score hit).2.1 = (bulletScanNoSet env bulletBox es score).2.1
        ∧ (bulletScan env bulletBox j es score hit).2.2.2
            = (bulletScanNoSet env bulletBox es score).2.2
        ∧ HitSetOk j (bulletScan env bulletBox j es score hit).1
            (bulletScan env bulletBox j es score hit).2.2.1
        ∧ ∀ m ∈ (bulletScan env bulletBox j es score hit).2.2.1, m ∈ hit ∨ j ≤ m := by
  intro es
  induction es with
  | nil =>
    intro j score hit h
    exact ⟨rfl, rfl, rfl, h, fun m hm => Or.inl hm⟩
  | cons a es ih =>
    intro j score hit h
    obtain ⟨i1, i2, i3, i4, i5⟩ := ih (j + 1) score hit (hitSetOk_tail h)
    have hrec : HitSetOk j (a :: (bulletScan env bulletBox (j + 1) es score hit).1)
        (bulletScan env bulletBox (j + 1) es score hit).2.2.1 := by
      intro k e hk hm
      cases k with
      | zero =>
        simp only [List.getElem?_cons_zero, Option.some.injEq] at hk
        subst hk
        rcases i5 j hm with h5 | h5
        · exact hitSetOk_head h h5
        · omega
      | succ k =>
        rw [List.getElem?_cons_succ] at hk
        refine i4 k e hk ?_
        have : j + 1 + k = j + (k + 1) := by omega
        rw [this]; exact hm
    have hmem : ∀ m ∈ (bulletScan env bulletBox (j + 1) es score hit).2.2.1, m ∈ hit ∨ j ≤ m := by
      intro m hm
      rcases i5 m hm with h5 | h5
      · exact Or.inl h5
      · exact Or.inr (by omega)
    have htest := skip_test_eq h
    cases hs : (a.isHit || a.isSpawning)
    · have hs3 : (a.isHit || a.isSpawning || hit.contains j) = false := by rw [htest, hs]
      cases hbox : env.intersectsBox bulletBox a.boundingBox
      · have hN : bulletScanNoSet env bulletBox (a :: es) score
            = (a :: (bulletScanNoSet env bulletBox es score).1,
                (bulletScanNoSet env bulletBox es score).2.1,
                (bulletScanNoSet env bulletBox es score).2.2) := by
          rw [bulletScanNoSet, if_neg (by rw [hs]; exact Bool.false_ne_true),
            if_neg (by rw [hbox]; exact Bool.false_ne_true)]
        rw [bulletScan_cons_miss env _ a _ j score hit hs3 hbox, hN]
        exact ⟨by rw [i1], i2, i3, hrec, hmem⟩
      · have hN : bulletScanNoSet env bulletBox (a :: es) score
            = (enemyGotHit a false :: es, score + scoreValueOr10 a, true) := by
          rw [bulletScanNoSet, if_neg (by rw [hs]; exact Bool.false_ne_true), if_pos hbox]
        rw [bulletScan_cons_hit env _ a _ j score hit hs3 hbox, hN]
        refine ⟨rfl, rfl, rfl, ?_, ?_⟩
        · intro k e hk hm
          cases k with
          | zero =>
            simp only [List.getElem?_cons_zero, Option.some.injEq] at hk
            subst hk
            exact enemyGotHit_isHit_of_normal a false hs
          | succ k =>
            rw [List.getElem?_cons_succ] at hk
            rcases List.mem_cons.mp hm with h6 | h6
            · omega
            · exact h (k + 1) e (by rw [List.getElem?_cons_succ]; exact hk) h6
        · intro m hm
          rcases List.mem_cons.mp hm with h6 | h6
          · exact Or.inr (le_of_eq h6.symm)
          · exact Or.inl h6
    · have hs3 : (a.isHit || a.isSpawning || hit.contains j) = true := by rw [htest, hs]
      have hN : bulletScanNoSet env bulletBox (a :: es) score
          = (a :: (bulletScanNoSet env bulletBox es score).1,
              (bulletScanNoSet env bulletBox es score).2.1,
              (bulletScanNoSet env bulletBox es score).2.2) := by
        rw [bulletScanNoSet, if_pos hs]
      rw [bulletScan_cons_skip env _ a _ j score hit hs3, hN]
      exact ⟨by rw [i1], i2, i3, hrec, hmem⟩

theorem bulletVisit_noSet (env : Env) (b : Nat) (g : Game) (hit : List Nat)
    (h : HitSetOk 0 g.enemies hit) :
    (bulletVisit env b g hit).1 = bulletVisitNoSet env b g
      ∧ HitSetOk 0 (bulletVisit env b g hit).1.enemies (bulletVisit env b g hit).2 := by
  obtain ⟨h1, h2, h3, h4, -⟩ := bulletScan_noSet env (g.bullets b).boundingBox g.enemies 0 g.score hit h
  simp only [bulletVisit, bulletVisitNoSet]
  split_ifs with ha hb hc hc
  · exact ⟨rfl, h⟩
  · exact ⟨by rw [h1, h2], h4⟩
  · rw [h3] at hb; exact absurd hb hc
  · rw [h3] at hb; exact absurd hc hb
  · exact ⟨by rw [h1, h2], h4⟩

theorem bulletPassLoop_noSet (env : Env) :
    ∀ (i : Nat) (g : Game) (hit : List Nat), HitSetOk 0 g.enemies hit →
      (bulletPassLoop env i (g, hit)).1 = bulletPassLoopNoSet env i g
        ∧ HitSetOk 0 (bulletPassLoop env i (g, hit)).1.enemies (bulletPassLoop env i (g, hit)).2 := by
  intro i
  induction i with
  | zero => intro g hit h; exact ⟨rfl, h⟩
  | succ i ih =>
    intro g hit h
    simp only [bulletPassLoop, bulletPassLoopNoSet]
    split
    · exact ih g hit h
    · rename_i b _
      obtain ⟨v1, v2⟩ := bulletVisit_noSet env b g hit h
      rw [← v1]
      exact ih _ _ v2

theorem playerScan_noSet (env : Env) :
    ∀ (es : List Enemy) (j : Nat) (g : Game) (hit : List Nat), HitSetOk j es hit →
      (playerScan env j es g hit).1 = (playerScanNoSet env es g).1
        ∧ (playerScan env j es g hit).2.1 = (playerScanNoSet env es g).2 := by
  intro es
  induction es with
  | nil => intro j g hit _; exact ⟨rfl, rfl⟩
  | cons a es ih =>
    intro j g hit h
    have htest := skip_test_eq h
    cases hs : (a.isHit || a.isSpawning)
    · have hs3 : (a.isHit || a.isSpawning || hit.contains j) = false := by rw [htest, hs]
      cases hbox : env.intersectsBox g.playerShip.boundingBox a.boundingBox
      · obtain ⟨i1, i2⟩ := ih (j + 1) g hit (hitSetOk_tail h)
        have hN : playerScanNoSet env (a :: es) g
            = (a :: (playerScanNoSet env es g).1, (playerScanNoSet env es g).2) := by
          rw [playerScanNoSet, if_neg (by rw [hs]; exact Bool.false_ne_true),
            if_neg (by rw [hbox]; exact Bool.false_ne_true)]
        rw [playerScan_cons_miss env a _ j g hit hs3 hbox, hN]
        exact ⟨by rw [i1], i2⟩
      · have hnext : HitSetOk (j + 1) es (j :: hit) := by
          intro k e hk hm
          rcases List.mem_cons.mp hm with h6 | h6
          · omega
          · exact hitSetOk_tail h k e hk h6
        obtain ⟨i1, i2⟩ := ih (j + 1) (penaltyAndHit g) (j :: hit) hnext
        have hN : playerScanNoSet env (a :: es) g
            = (enemyGotHit a true :: (playerScanNoSet env es (penaltyAndHit g)).1,
                (playerScanNoSet env es (penaltyAndHit g)).2) := by
          rw [playerScanNoSet, if_neg (by rw [hs]; exact Bool.false_ne_true), if_pos hbox]
          rfl
        rw [playerScan_cons_hit env a _ j g hit hs3 hbox, hN]
        exact ⟨by rw [i1], i2⟩
    · obtain ⟨i1, i2⟩ := ih (j + 1) g hit (hitSetOk_tail h)
      have hs3 : (a.isHit || a.isSpawning || hit.contains j) = true := by rw [htest, hs]
      have hN : playerScanNoSet env (a :: es) g
          = (a :: (playerScanNoSet env es g).1, (playerScanNoSet env es g).2) := by
        rw [playerScanNoSet, if_pos hs]
      rw [playerScan_cons_skip env a _ j g hit hs3, hN]
      exact ⟨by rw [i1], i2⟩

/-- C30: the set `enemiesHitThisFrame` is redundant.  For every input state,
`checkCollisions` returns the state (score, bullets, enemies, player and all the rest) that
the variant without any test of the set and without any insertion into it returns; and in
the source's own inner loop, whenever the skip test lets an enemy through, the re-check of
the set before the credit succeeds. -/
theorem hit_set_redundant (env : Env) (g : Game) :
    checkCollisions env g = checkCollisionsNoSet env g
      ∧ ∀ (bulletBox : Box3) (a : Enemy) (es : List Enemy) (j : Nat) (score : Int) (hit : List Nat),
          (a.isHit || a.isSpawning || hit.contains j) = false →
          env.intersectsBox bulletBox a.boundingBox = true →
            bulletScan env bulletBox j (a :: es) score hit
              = (enemyGotHit a false :: es, score + scoreValueOr10 a, j :: hit, true) := by
  refine ⟨?_, fun bulletBox a es j score hit h hbox =>
    bulletScan_cons_hit env bulletBox a es j score hit h hbox⟩
  obtain ⟨h1, h2⟩ := bulletPassLoop_noSet env g.activeBullets.length g [] (hitSetOk_nil 0 g.enemies)
  obtain ⟨p1, p2⟩ := playerScan_noSet env (bulletPass env g).1.enemies 0 (bulletPass env g).1
    (bulletPass env g).2 h2
  have hb : (bulletPass env g).1 = bulletPassLoopNoSet env g.activeBullets.length g := h1
  simp only [checkCollisions, checkCollisionsNoSet, playerPass]
  rw [p1, p2, hb]

/-! ## One bullet, one enemy (C25) -/

theorem hitCount_cons (e e' : Enemy) (l l' : List Enemy) :
    hitCount (e :: l) (e' :: l') = (if !e.isHit && e'.isHit then 1 else 0) + hitCount l l' := by
  unfold hitCount
  rw [List.zipWith_cons_cons, List.count_cons]
  cases (!e.isHit && e'.isHit) <;> simp [Nat.add_comm]

theorem hitCount_self : ∀ l : List Enemy, hitCount l l = 0
  | [] => rfl
  | e :: l => by
    rw [hitCount_cons, hitCount_self l]
    cases e.isHit <;> rfl

theorem hitCount_trans : ∀ {l1 l2 l3 : List Enemy},
    List.Forall₂ ShotStep l1 l2 → List.Forall₂ ShotStep l2 l3 →
      hitCount l1 l3 = hitCount l1 l2 + hitCount l2 l3
  | _, _, _, List.Forall₂.nil, List.Forall₂.nil => rfl
  | _, _, _, List.Forall₂.cons (a := a) (b := b) h1 t1, List.Forall₂.cons (b := c) h2 t2 => by
    rw [hitCount_cons, hitCount_cons, hitCount_cons, hitCount_trans t1 t2]
    have hhead : (if !a.isHit && c.isHit then 1 else 0)
        = (if !a.isHit && b.isHit then 1 else 0) + (if !b.isHit && c.isHit then 1 else 0) := by
      rcases h1 with rfl | ⟨ha, -, rfl⟩
      · cases hb : b.isHit <;> simp
      · rcases h2 with rfl | ⟨hb, -, -⟩
        · simp [ha]
        · simp at hb
    rw [hhead]
    omega

theorem bulletScan_hitCount (env : Env) (bulletBox : Box3) :
    ∀ (es : List Enemy) (j : Nat) (score : Int) (hit : List Nat),
      hitCount es (bulletScan env bulletBox j es score hit).1
        = if (bulletScan env bulletBox j es score hit).2.2.2 then 1 else 0 := by
  intro es
  induction es with
  | nil => intro j score hit; rfl
  | cons a es ih =>
    intro j score hit
    have hself : (if !a.isHit && a.isHit then 1 else 0) = 0 := by
      cases a.isHit <;> rfl
    cases h : (a.isHit || a.isSpawning || hit.contains j)
    · cases hbox : env.intersectsBox bulletBox a.boundingBox
      · rw [bulletScan_cons_miss env _ a _ j score hit h hbox]
        show hitCount (a :: es) (a :: _) = _
        rw [hitCount_cons, hself, zero_add]
        exact ih (j + 1) score hit
      · rw [bulletScan_cons_hit env _ a _ j score hit h hbox]
        simp only [Bool.or_eq_false_iff] at h
        show hitCount (a :: es) (enemyGotHit a false :: es) = _
        rw [hitCount_cons, hitCount_self, enemyGotHit_of_normal a false h.1.1 h.1.2]
        simp [h.1.1]
    · rw [bulletScan_cons_skip env _ a _ j score hit h]
      show hitCount (a :: es) (a :: _) = _
      rw [hitCount_cons, hself, zero_add]
      exact ih (j + 1) score hit

theorem bulletVisit_of_inactive (env : Env) (b : Nat) (g : Game) (hit : List Nat)
    (ha : (g.bullets b).isActive = false) : bulletVisit env b g hit = (g, hit) := by
  simp [bulletVisit, ha]

theorem bulletVisit_of_miss (env : Env) (b : Nat) (g : Game) (hit : List Nat)
    (ha : (g.bullets b).isActive = true)
    (hf : (bulletScan env (g.bullets b).boundingBox 0 g.enemies g.score hit).2.2.2 = false) :
    bulletVisit env b g hit
      = ({ g with
            enemies := (bulletScan env (g.bullets b).boundingBox 0 g.enemies g.score hit).1
            score := (bulletScan env (g.bullets b).boundingBox 0 g.enemies g.score hit).2.1 },
          (bulletScan env (g.bullets b).boundingBox 0 g.enemies g.score hit).2.2.1) := by
  simp [bulletVisit, ha, hf]

theorem bulletVisit_of_hit (env : Env) (b : Nat) (g : Game) (hit : List Nat)
    (ha : (g.bullets b).isActive = true)
    (hf : (bulletScan env (g.bullets b).boundingBox 0 g.enemies g.score hit).2.2.2 = true) :
    bulletVisit env b g hit
      = ({ g with
            enemies := (bulletScan env (g.bullets b).boundingBox 0 g.enemies g.score hit).1
            score := (bulletScan env (g.bullets b).boundingBox 0 g.enemies g.score hit).2.1
            bullets := Function.update g.bullets b { g.bullets b with isActive := false } },
          (bulletScan env (g.bullets b).boundingBox 0 g.enemies g.score hit).2.2.1) := by
  simp [bulletVisit, ha, hf, setBullet]

theorem bulletVisit_consumed (env : Env) (b : Nat) (g : Game) (hit : List Nat) :
    (bulletVisit env b g hit).1.activeBullets = g.activeBullets
      ∧ (∀ x, x ≠ b → (bulletVisit env b g hit).1.bullets x = g.bullets x)
      ∧ ((bulletVisit env b g hit).1.bullets b = g.bullets b
          ∨ (bulletVisit env b g hit).1.bullets b = { g.bullets b with isActive := false })
      ∧ hitCount g.enemies (bulletVisit env b g hit).1.enemies
          = if (g.bullets b).isActive && !((bulletVisit env b g hit).1.bullets b).isActive
            then 1 else 0 := by
  have hc := bulletScan_hitCount env (g.bullets b).boundingBox g.enemies 0 g.score hit
  cases ha : (g.bullets b).isActive
  · rw [bulletVisit_of_inactive env b g hit ha]
    refine ⟨rfl, fun _ _ => rfl, Or.inl rfl, ?_⟩
    rw [hitCount_self]
    rfl
  · cases hf : (bulletScan env (g.bullets b).boundingBox 0 g.enemies g.score hit).2.2.2
    · rw [bulletVisit_of_miss env b g hit ha hf]
      rw [hf] at hc
      refine ⟨rfl, fun _ _ => rfl, Or.inl rfl, ?_⟩
      show hitCount g.enemies _ = if true && !(g.bullets b).isActive then 1 else 0
      rw [ha]
      exact hc
    · rw [bulletVisit_of_hit env b g hit ha hf]
      rw [hf] at hc
      refine ⟨rfl, ?_, ?_, ?_⟩
      · intro x hx
        exact Function.update_noteq hx _ _
      · right
        exact Function.update_same _ _ _
      · show hitCount g.enemies _
          = if true && !(Function.update g.bullets b { g.bullets b with isActive := false } b).isActive
            then 1 else 0
        rw [Function.update_same]
        exact hc

theorem take_succ_of_getElem? {l : List Nat} {i b : Nat} (h : l[i]? = some b) :
    l.take (i + 1) = l.take i ++ [b] := by
  rw [List.take_succ, h]
  rfl

theorem not_mem_take_of_nodup {l : List Nat} {i b : Nat} (hnd : l.Nodup) (h : l[i]? = some b) :
    b ∉ l.take i := by
  have h1 : (l.take i ++ [b]).Nodup := by
    rw [← take_succ_of_getElem? h]
    exact hnd.sublist (List.take_sublist _ _)
  intro hmem
  exact (List.nodup_append.mp h1).2.2 hmem (List.mem_singleton_self b)

theorem bulletPassLoop_consumed (env : Env) :
    ∀ (i : Nat) (g : Game) (hit : List Nat), g.activeBullets.Nodup →
      (bulletPassLoop env i (g, hit)).1.activeBullets = g.activeBullets
        ∧ (∀ x, x ∉ g.activeBullets.take i →
            (bulletPassLoop env i (g, hit)).1.bullets x = g.bullets x)
        ∧ (∀ x, (bulletPassLoop env i (g, hit)).1.bullets x = g.bullets x
            ∨ (bulletPassLoop env i (g, hit)).1.bullets x = { g.bullets x with isActive := false })
        ∧ hitCount g.enemies (bulletPassLoop env i (g, hit)).1.enemies
            = ((g.activeBullets.take i).filter fun x =>
                (g.bullets x).isActive
                  && !((bulletPassLoop env i (g, hit)).1.bullets x).isActive).length := by
  intro i
  induction i with
  | zero =>
    intro g hit _
    refine ⟨rfl, fun _ _ => rfl, fun _ => Or.inl rfl, ?_⟩
    show hitCount g.enemies g.enemies = _
    rw [hitCount_self]
    rfl
  | succ i ih =>
    intro g hit hnd
    cases hget : g.activeBullets[i]? with
    | none =>
      have hloop : bulletPassLoop env (i + 1) (g, hit) = bulletPassLoop env i (g, hit) := by
        simp only [bulletPassLoop, hget]
      have htake : g.activeBullets.take (i + 1) = g.activeBullets.take i := by
        rw [List.take_succ, hget]
        simp
      rw [hloop, htake]
      exact ih g hit hnd
    | some b =>
      have hloop : bulletPassLoop env (i + 1) (g, hit)
          = bulletPassLoop env i ((bulletVisit env b g hit).1, (bulletVisit env b g hit).2) := by
        simp only [bulletPassLoop, hget]
      obtain ⟨v1, v2, v3, v4⟩ := bulletVisit_consumed env b g hit
      obtain ⟨i1, i2, i3, i4⟩ := ih (bulletVisit env b g hit).1 (bulletVisit env b g hit).2
        (by rw [v1]; exact hnd)
      have hb : b ∉ g.activeBullets.take i := not_mem_take_of_nodup hnd hget
      have hshot1 := (bulletVisit_shot env b g hit).1
      have hshot2 := (bulletPassLoop_shot env i (bulletVisit env b g hit).1
        (bulletVisit env b g hit).2).1
      rw [hloop, take_succ_of_getElem? hget]
      rw [v1] at i2 i4
      refine ⟨i1.trans v1, ?_, ?_, ?_⟩
      · intro x hx
        rw [List.mem_append, not_or] at hx
        rw [i2 x hx.1]
        exact v2 x (fun h => hx.2 (by rw [h]; exact List.mem_singleton_self b))
      · intro x
        by_cases hxb : x = b
        · subst hxb
          rw [i2 x hb]
          exact v3
        · rcases i3 x with h | h
          · left; rw [h, v2 x hxb]
          · right; rw [h, v2 x hxb]
      · rw [hitCount_trans hshot1 hshot2, v4, i4, List.filter_append, List.length_append,
          Nat.add_comm]
        congr 1
        · congr 1
          apply List.filter_congr
          intro x hx
          have hxb : x ≠ b := fun h => hb (by rw [← h]; exact hx)
          rw [v2 x hxb]
        · simp only [List.filter_cons, List.filter_nil]
          rw [i2 b hb]
          split_ifs <;> rfl

theorem playerScan_playerStep (env : Env) :
    ∀ (es : List Enemy) (j : Nat) (g : Game) (hit : List Nat),
      List.Forall₂ PlayerStep es (playerScan env j es g hit).1 := by
  intro es
  induction es with
  | nil => intro j g hit; exact List.Forall₂.nil
  | cons a es ih =>
    intro j g hit
    cases h : (a.isHit || a.isSpawning || hit.contains j)
    · cases hbox : env.intersectsBox g.playerShip.boundingBox a.boundingBox
      · rw [playerScan_cons_miss env a _ j g hit h hbox]
        exact List.Forall₂.cons (Or.inl rfl) (ih _ _ _)
      · rw [playerScan_cons_hit env a _ j g hit h hbox]
        exact List.Forall₂.cons (Or.inr rfl) (ih _ _ _)
    · rw [playerScan_cons_skip env a _ j g hit h]
      exact List.Forall₂.cons (Or.inl rfl) (ih _ _ _)

theorem forall2_playerStep_refl : ∀ l : List Enemy, List.Forall₂ PlayerStep l l
  | [] => List.Forall₂.nil
  | _ :: l => List.Forall₂.cons (Or.inl rfl) (forall2_playerStep_refl l)

theorem playerPass_playerStep (env : Env) (g : Game) (hit : List Nat) :
    List.Forall₂ PlayerStep g.enemies (playerPass env g hit).enemies
      ∧ (playerPass env g hit).bullets = g.bullets
      ∧ (playerPass env g hit).activeBullets = g.activeBullets := by
  unfold playerPass
  split_ifs
  · refine ⟨playerScan_playerStep env g.enemies 0 g hit, ?_, ?_⟩
    · show (playerScan env 0 g.enemies g hit).2.1.bullets = g.bullets
      rw [(playerScan_spec env g.enemies 0 g hit).2]
      obtain ⟨s, p, h⟩ := penaltyAndHit_iterate_frame
        ((playerFlags env g.playerShip.boundingBox hit 0 g.enemies).count true) g
      rw [h]
    · show (playerScan env 0 g.enemies g hit).2.1.activeBullets = g.activeBullets
      rw [(playerScan_spec env g.enemies 0 g hit).2]
      obtain ⟨s, p, h⟩ := penaltyAndHit_iterate_frame
        ((playerFlags env g.playerShip.boundingBox hit 0 g.enemies).count true) g
      rw [h]
  · exact ⟨forall2_playerStep_refl _, rfl, rfl⟩

theorem shotCount_cons (e e' : Enemy) (l l' : List Enemy) :
    shotCount (e :: l) (e' :: l')
      = (if !e.isHit && e'.isHit && !e'.hitByPlayer then 1 else 0) + shotCount l l' := by
  unfold shotCount
  rw [List.zipWith_cons_cons, List.count_cons]
  cases (!e.isHit && e'.isHit && !e'.hitByPlayer) <;> simp [Nat.add_comm]

theorem shot_then_player_head {a b c : Enemy} (h1 : ShotStep a b) (h2 : PlayerStep b c) :
    (!a.isHit && c.isHit && !c.hitByPlayer) = (!a.isHit && b.isHit) := by
  have hself : ∀ x : Enemy, (!x.isHit && x.isHit && !x.hitByPlayer) = (!x.isHit && x.isHit) := by
    intro x
    cases x.isHit <;> rfl
  rcases h1 with rfl | ⟨ha, hs, rfl⟩
  · rcases h2 with rfl | rfl
    · exact hself _
    · cases hh : b.isHit
      · cases hsp : b.isSpawning
        · rw [enemyGotHit_of_normal b true hh hsp]
          rfl
        · rw [enemyGotHit_of_isSpawning b true hsp, hh]
          rfl
      · rw [enemyGotHit_of_isHit b true hh]
        rfl
  · have hc : c = { a with isHit := true, hitByPlayer := false, hitTimer := enemyHitDuration } := by
      rcases h2 with rfl | rfl
      · rfl
      · exact enemyGotHit_of_isHit _ true rfl
    rw [hc, ha]
    rfl

theorem shotCount_of_steps : ∀ {l1 l2 l3 : List Enemy},
    List.Forall₂ ShotStep l1 l2 → List.Forall₂ PlayerStep l2 l3 → shotCount l1 l3 = hitCount l1 l2
  | _, _, _, List.Forall₂.nil, List.Forall₂.nil => rfl
  | _, _, _, List.Forall₂.cons h1 t1, List.Forall₂.cons h2 t2 => by
    rw [shotCount_cons, hitCount_cons, shotCount_of_steps t1 t2, shot_then_player_head h1 h2]

theorem checkCollisions_bullets (env : Env) (g : Game) :
    (checkCollisions env g).bullets = (bulletPass env g).1.bullets :=
  (playerPass_playerStep env _ _).2.1

/-- C25: one bullet, one enemy.  One visit of the bullet pass makes at most one enemy
enter Hit, exactly one if it turns the visited bullet from active to inactive and none
otherwise, and touches no other bullet.  For a roster without repetition, the bullets of
`activeBullets` that are active before `checkCollisions` and inactive after it are as many
as the enemies that are not in Hit state before and are in Hit state with `hitByPlayer`
false after; every bullet keeps all its fields but `isActive`, and bullets outside the
roster are untouched. -/
theorem one_bullet_one_enemy (env : Env) (g : Game) (hnd : g.activeBullets.Nodup) :
    (∀ (b : Nat) (hit : List Nat),
        hitCount g.enemies (bulletVisit env b g hit).1.enemies
            = (if (g.bullets b).isActive && !((bulletVisit env b g hit).1.bullets b).isActive
                then 1 else 0)
          ∧ ∀ x, x ≠ b → (bulletVisit env b g hit).1.bullets x = g.bullets x)
      ∧ (consumedBullets g (checkCollisions env g)).length
          = shotCount g.enemies (checkCollisions env g).enemies
      ∧ (∀ x, (checkCollisions env g).bullets x = g.bullets x
            ∨ (checkCollisions env g).bullets x = { g.bullets x with isActive := false })
      ∧ (∀ x, x ∉ g.activeBullets → (checkCollisions env g).bullets x = g.bullets x) := by
  obtain ⟨-, c2, c3, c4⟩ := bulletPassLoop_consumed env g.activeBullets.length g [] hnd
  have hshot := (bulletPassLoop_shot env g.activeBullets.length g []).1
  have hplayer := (playerPass_playerStep env (bulletPass env g).1 (bulletPass env g).2).1
  rw [List.take_length] at c2 c4
  refine ⟨fun b hit => ⟨(bulletVisit_consumed env b g hit).2.2.2,
    (bulletVisit_consumed env b g hit).2.1⟩, ?_, ?_, ?_⟩
  · have h1 : shotCount g.enemies (checkCollisions env g).enemies
        = hitCount g.enemies (bulletPass env g).1.enemies := shotCount_of_steps hshot hplayer
    rw [h1]
    unfold consumedBullets
    rw [checkCollisions_bullets]
    exact c4.symm
  · intro x
    rw [checkCollisions_bullets]
    exact c3 x
  · intro x hx
    rw [checkCollisions_bullets]
    exact c2 x hx

/-- Two bullets overlap the one GRUNT of the example: the roster has no repetition, one
bullet (object 1, the last of the roster) is consumed, one enemy enters Hit by a shot, and
the other bullet stays active. -/
theorem one_bullet_one_enemy_witness :
    exampleCrossfireGame.activeBullets.Nodup
      ∧ (consumedBullets exampleCrossfireGame
            (checkCollisions exampleEnv exampleCrossfireGame)).length
          = shotCount exampleCrossfireGame.enemies
              (checkCollisions exampleEnv exampleCrossfireGame).enemies
      ∧ consumedBullets exampleCrossfireGame (checkCollisions exampleEnv exampleCrossfireGame) = [1]
      ∧ ((checkCollisions exampleEnv exampleCrossfireGame).bullets 0).isActive = true :=
  ⟨by decide,
   (one_bullet_one_enemy exampleEnv exampleCrossfireGame (by decide)).2.1,
   by decide!, by decide!⟩

/-! ## The bullet and explosion update loops (C22, C23) -/

theorem updateBulletsLoop_succ_none (env : Env) (deltaTime : ℚ) (i : Nat) (g : Game)
    (hget : g.activeBullets[i]? = none) :
    updateBulletsLoop env deltaTime (i + 1) g = updateBulletsLoop env deltaTime i g := by
  simp only [updateBulletsLoop, hget]

theorem updateBulletsLoop_succ_inactive (env : Env) (deltaTime : ℚ) (i : Nat) (g : Game) (b : Nat)
    (hget : g.activeBullets[i]? = some b) (ha : (g.bullets b).isActive = false) :
    updateBulletsLoop env deltaTime (i + 1) g
      = updateBulletsLoop env deltaTime i (returnBulletToPool b g) := by
  simp only [updateBulletsLoop, hget, ha, Bool.not_false, if_true]

theorem updateBulletsLoop_succ_active (env : Env) (deltaTime : ℚ) (i : Nat) (g : Game) (b : Nat)
    (hget : g.activeBullets[i]? = some b) (ha : (g.bullets b).isActive = true) :
    updateBulletsLoop env deltaTime (i + 1) g
      = updateBulletsLoop env deltaTime i (setBullet g b (bulletStep env deltaTime (g.bullets b))) := by
  simp only [updateBulletsLoop, hget, ha, Bool.not_true, Bool.false_eq_true, if_false, bulletStep]

theorem bulletStep_of_inactive (env : Env) (deltaTime : ℚ) (bullet : Bullet)
    (ha : bullet.isActive = false) :
    bulletStep env deltaTime bullet
      = { bullet with visible := false, isActive := false,
                      position := { x := 0, y := 0, z := -cameraFar * 2 } } := by
  simp [bulletStep, ha]

theorem updateBulletsLoop_spec (env : Env) (deltaTime : ℚ) (rev : List Nat) :
    ∀ (suf : List Nat) (g : Game), g.activeBullets = rev.reverse ++ suf →
      (rev.reverse ++ suf).Nodup →
      (updateBulletsLoop env deltaTime rev.length g).activeBullets
          = rev.reverse.filter (fun b => (g.bullets b).isActive) ++ suf
        ∧ (updateBulletsLoop env deltaTime rev.length g).bulletPool
          = g.bulletPool ++ rev.filter (fun b => !(g.bullets b).isActive)
        ∧ ∀ b, (updateBulletsLoop env deltaTime rev.length g).bullets b
            = if b ∈ rev then bulletStep env deltaTime (g.bullets b) else g.bullets b := by
  induction rev with
  | nil =>
    intro suf g h _
    refine ⟨?_, ?_, ?_⟩
    · simpa [updateBulletsLoop] using h
    · simp [updateBulletsLoop]
    · intro b; simp [updateBulletsLoop]
  | cons e r ih =>
    intro suf g h hnd
    have hlen : r.reverse.length = r.length := List.length_reverse r
    have hlist : (e :: r).reverse ++ suf = r.reverse ++ (e :: suf) := by simp
    rw [hlist] at h hnd
    have hget : g.activeBullets[r.length]? = some e := by
      rw [h, List.getElem?_append_right (le_of_eq hlen)]
      simp [hlen]
    have he_not : e ∉ r.reverse := by
      intro hmem
      exact (List.nodup_append.mp hnd).2.2 hmem (List.mem_cons_self _ _)
    have he_r : e ∉ r := fun hmem => he_not (List.mem_reverse.mpr hmem)
    have hne : ∀ x ∈ r, x ≠ e := fun x hx hxe => he_r (hxe ▸ hx)
    have hnd1 : (r.reverse ++ suf).Nodup :=
      hnd.sublist (List.Sublist.append_left (List.sublist_cons_self e suf) _)
    rw [List.length_cons]
    cases ha : (g.bullets e).isActive
    · rw [updateBulletsLoop_succ_inactive env deltaTime _ g e hget ha]
      have hact : (returnBulletToPool e g).activeBullets = r.reverse ++ suf := by
        show g.activeBullets.erase e = _
        rw [h, List.erase_append_right _ he_not, List.erase_cons_head]
      have hbul : ∀ x, x ≠ e → (returnBulletToPool e g).bullets x = g.bullets x := by
        intro x hx
        exact Function.update_noteq hx _ _
      obtain ⟨i1, i2, i3⟩ := ih suf (returnBulletToPool e g) hact hnd1
      refine ⟨?_, ?_, ?_⟩
      · rw [i1, List.reverse_cons, List.filter_append]
        have hf : List.filter (fun b => (g.bullets b).isActive) [e] = [] := by
          simp [ha]
        rw [hf, List.append_nil]
        congr 1
        apply List.filter_congr
        intro x hx
        rw [hbul x (hne x (List.mem_reverse.mp hx))]
      · rw [i2]
        show g.bulletPool ++ [e] ++ _ = _
        rw [List.append_assoc, List.filter_cons, ha]
        simp only [Bool.not_false, if_true, List.singleton_append]
        congr 2
        apply List.filter_congr
        intro x hx
        rw [hbul x (hne x hx)]
      · intro b
        rw [i3 b]
        by_cases hb : b ∈ r
        · rw [if_pos hb, if_pos (List.mem_cons_of_mem _ hb), hbul b (hne b hb)]
        · rw [if_neg hb]
          by_cases hbe : b = e
          · subst hbe
            rw [if_pos (List.mem_cons_self _ _), bulletStep_of_inactive env deltaTime _ ha]
            exact Function.update_same _ _ _
          · rw [if_neg (by simp [hbe, hb]), hbul b hbe]
    · rw [updateBulletsLoop_succ_active env deltaTime _ g e hget ha]
      have hbul : ∀ x, x ≠ e →
          (setBullet g e (bulletStep env deltaTime (g.bullets e))).bullets x = g.bullets x := by
        intro x hx
        exact Function.update_noteq hx _ _
      obtain ⟨i1, i2, i3⟩ := ih (e :: suf) (setBullet g e (bulletStep env deltaTime (g.bullets e)))
        h hnd
      refine ⟨?_, ?_, ?_⟩
      · rw [i1, List.reverse_cons, List.filter_append]
        have hf : List.filter (fun b => (g.bullets b).isActive) [e] = [e] := by
          simp [ha]
        rw [hf, List.append_assoc, List.singleton_append]
        congr 1
        apply List.filter_congr
        intro x hx
        rw [hbul x (hne x (List.mem_reverse.mp hx))]
      · rw [i2]
        show g.bulletPool ++ _ = _
        rw [List.filter_cons, ha]
        simp only [Bool.not_true, Bool.false_eq_true, if_false]
        congr 1
        apply List.filter_congr
        intro x hx
        rw [hbul x (hne x hx)]
      · intro b
        rw [i3 b]
        by_cases hb : b ∈ r
        · rw [if_pos hb, if_pos (List.mem_cons_of_mem _ hb), hbul b (hne b hb)]
        · rw [if_neg hb]
          by_cases hbe : b = e
          · subst hbe
            rw [if_pos (List.mem_cons_self _ _)]
            exact Function.update_same _ _ _
          · rw [if_neg (by simp [hbe, hb]), hbul b hbe]

theorem updateBullets_spec (env : Env) (deltaTime : ℚ) (g : Game) (hnd : g.activeBullets.Nodup) :
    (updateBullets env deltaTime g).activeBullets
        = g.activeBullets.filter (fun b => (g.bullets b).isActive)
      ∧ (updateBullets env deltaTime g).bulletPool
        = g.bulletPool ++ g.activeBullets.reverse.filter (fun b => !(g.bullets b).isActive)
      ∧ ∀ b, (updateBullets env deltaTime g).bullets b
          = if b ∈ g.activeBullets then bulletStep env deltaTime (g.bullets b) else g.bullets b := by
  have h := updateBulletsLoop_spec env deltaTime g.activeBullets.reverse [] g (by simp)
    (by simpa using hnd)
  simp only [List.length_reverse, List.reverse_reverse, List.append_nil, List.mem_reverse] at h
  exact h

theorem updateExplosionsLoop_succ_inactive (deltaTime : ℚ) (i : Nat) (g : Game) (e : Nat)
    (hget : g.activeExplosions[i]? = some e) (ha : (g.explosions e).isActive = false) :
    updateExplosionsLoop deltaTime (i + 1) g
      = updateExplosionsLoop deltaTime i (returnExplosionToPool e g) := by
  simp only [updateExplosionsLoop, hget, ha, Bool.not_false, if_true]

theorem updateExplosionsLoop_succ_active (deltaTime : ℚ) (i : Nat) (g : Game) (e : Nat)
    (hget : g.activeExplosions[i]? = some e) (ha : (g.explosions e).isActive = true) :
    updateExplosionsLoop deltaTime (i + 1) g
      = updateExplosionsLoop deltaTime i
          { g with explosions := Function.update g.explosions e
                                   (explosionStep deltaTime (g.explosions e)) } := by
  simp only [updateExplosionsLoop, hget, ha, Bool.not_true, Bool.false_eq_true, if_false,
    explosionStep]
  split_ifs <;> rfl

theorem explosionStep_of_inactive (deltaTime : ℚ) (explosion : Explosion)
    (ha : explosion.isActive = false) :
    explosionStep deltaTime explosion
      = { explosion with visible := false, isActive := false,
                         position := { x := 0, y := 0, z := -cameraFar * 2 } } := by
  simp [explosionStep, ha]

theorem updateExplosionsLoop_spec (deltaTime : ℚ) (rev : List Nat) :
    ∀ (suf : List Nat) (g : Game), g.activeExplosions = rev.reverse ++ suf →
      (rev.reverse ++ suf).Nodup →
      g.explosionPool.length + rev.length ≤ maxExplosions →
      (updateExplosionsLoop deltaTime rev.length g).activeExplosions
          = rev.reverse.filter (fun e => (g.explosions e).isActive) ++ suf
        ∧ (updateExplosionsLoop deltaTime rev.length g).explosionPool
          = g.explosionPool ++ rev.filter (fun e => !(g.explosions e).isActive)
        ∧ ∀ x, (updateExplosionsLoop deltaTime rev.length g).explosions x
            = if x ∈ rev then explosionStep deltaTime (g.explosions x) else g.explosions x := by
  induction rev with
  | nil =>
    intro suf g h _ _
    refine ⟨?_, ?_, ?_⟩
    · simpa [updateExplosionsLoop] using h
    · simp [updateExplosionsLoop]
    · intro b; simp [updateExplosionsLoop]
  | cons e r ih =>
    intro suf g h hnd hcap
    have hlen : r.reverse.length = r.length := List.length_reverse r
    have hlist : (e :: r).reverse ++ suf = r.reverse ++ (e :: suf) := by simp
    rw [hlist] at h hnd
    have hget : g.activeExplosions[r.length]? = some e := by
      rw [h, List.getElem?_append_right (le_of_eq hlen)]
      simp [hlen]
    have he_not : e ∉ r.reverse := by
      intro hmem
      exact (List.nodup_append.mp hnd).2.2 hmem (List.mem_cons_self _ _)
    have he_r : e ∉ r := fun hmem => he_not (List.mem_reverse.mpr hmem)
    have hne : ∀ x ∈ r, x ≠ e := fun x hx hxe => he_r (hxe ▸ hx)
    have hnd1 : (r.reverse ++ suf).Nodup :=
      hnd.sublist (List.Sublist.append_left (List.sublist_cons_self e suf) _)
    rw [List.length_cons] at hcap ⊢
    cases ha : (g.explosions e).isActive
    · rw [updateExplosionsLoop_succ_inactive deltaTime _ g e hget ha]
      have hroom : g.explosionPool.length < maxExplosions := by omega
      have hact : (returnExplosionToPool e g).activeExplosions = r.reverse ++ suf := by
        show g.activeExplosions.erase e = _
        rw [h, List.erase_append_right _ he_not, List.erase_cons_head]
      have hpool : (returnExplosionToPool e g).explosionPool = g.explosionPool ++ [e] := by
        show (if g.explosionPool.length < maxExplosions then g.explosionPool ++ [e]
          else g.explosionPool) = _
        rw [if_pos hroom]
      have hbul : ∀ x, x ≠ e → (returnExplosionToPool e g).explosions x = g.explosions x := by
        intro x hx
        exact Function.update_noteq hx _ _
      obtain ⟨i1, i2, i3⟩ := ih suf (returnExplosionToPool e g) hact hnd1
        (by rw [hpool, List.length_append, List.length_singleton]; omega)
      refine ⟨?_, ?_, ?_⟩
      · rw [i1, List.reverse_cons, List.filter_append]
        have hf : List.filter (fun b => (g.explosions b).isActive) [e] = [] := by
          simp [ha]
        rw [hf, List.append_nil]
        congr 1
        apply List.filter_congr
        intro x hx
        rw [hbul x (hne x (List.mem_reverse.mp hx))]
      · rw [i2, hpool, List.append_assoc, List.filter_cons, ha]
        simp only [Bool.not_false, if_true, List.singleton_append]
        congr 2
        apply List.filter_congr
        intro x hx
        rw [hbul x (hne x hx)]
      · intro b
        rw [i3 b]
        by_cases hb : b ∈ r
        · rw [if_pos hb, if_pos (List.mem_cons_of_mem _ hb), hbul b (hne b hb)]
        · rw [if_neg hb]
          by_cases hbe : b = e
          · subst hbe
            rw [if_pos (List.mem_cons_self _ _), explosionStep_of_inactive deltaTime _ ha]
            exact Function.update_same _ _ _
          · rw [if_neg (by simp [hbe, hb]), hbul b hbe]
    · rw [updateExplosionsLoop_succ_active deltaTime _ g e hget ha]
      have hbul : ∀ x, x ≠ e →
          (Function.update g.explosions e (explosionStep deltaTime (g.explosions e))) x
            = g.explosions x := by
        intro x hx
        exact Function.update_noteq hx _ _
      obtain ⟨i1, i2, i3⟩ := ih (e :: suf)
        { g with explosions := Function.update g.explosions e
                                 (explosionStep deltaTime (g.explosions e)) }
        h hnd (by show g.explosionPool.length + r.length ≤ maxExplosions; omega)
      refine ⟨?_, ?_, ?_⟩
      · rw [i1, List.reverse_cons, List.filter_append]
        have hf : List.filter (fun b => (g.explosions b).isActive) [e] = [e] := by
          simp [ha]
        rw [hf, List.append_assoc, List.singleton_append]
        congr 1
        apply List.filter_congr
        intro x hx
        show (Function.update g.explosions e _ x).isActive = _
        rw [hbul x (hne x (List.mem_reverse.mp hx))]
      · rw [i2]
        show g.explosionPool ++ _ = _
        rw [List.filter_cons, ha]
        simp only [Bool.not_true, Bool.false_eq_true, if_false]
        congr 1
        apply List.filter_congr
        intro x hx
        show (!(Function.update g.explosions e _ x).isActive) = _
        rw [hbul x (hne x hx)]
      · intro b
        rw [i3 b]
        by_cases hb : b ∈ r
        · rw [if_pos hb, if_pos (List.mem_cons_of_mem _ hb)]
          show explosionStep deltaTime (Function.update g.explosions e _ b) = _
          rw [hbul b (hne b hb)]
        · rw [if_neg hb]
          by_cases hbe : b = e
          · subst hbe
            rw [if_pos (List.mem_cons_self _ _)]
            exact Function.update_same _ _ _
          · rw [if_neg (by simp [hbe, hb])]
            exact hbul b hbe

theorem updateExplosions_spec (deltaTime : ℚ) (g : Game) (hnd : g.activeExplosions.Nodup)
    (hcap : g.explosionPool.length + g.activeExplosions.length ≤ maxExplosions) :
    (updateExplosions deltaTime g).activeExplosions
        = g.activeExplosions.filter (fun e => (g.explosions e).isActive)
      ∧ (updateExplosions deltaTime g).explosionPool
        = g.explosionPool ++ g.activeExplosions.reverse.filter (fun e => !(g.explosions e).isActive)
      ∧ ∀ x, (updateExplosions deltaTime g).explosions x
          = if x ∈ g.activeExplosions then explosionStep deltaTime (g.explosions x)
            else g.explosions x := by
  have h := updateExplosionsLoop_spec deltaTime g.activeExplosions.reverse [] g (by simp)
    (by simpa using hnd) (by simpa using hcap)
  simp only [List.length_reverse, List.reverse_reverse, List.append_nil, List.mem_reverse] at h
  exact h

/-! ## Pools and rosters (C1, C2) -/

theorem poolSplit_pop {pool active : List Nat} {count b : Nat} (h : PoolSplit pool active count)
    (hb : pool.getLast? = some b) :
    PoolSplit pool.dropLast (active ++ [b]) count ∧ b ∉ pool.dropLast := by
  have hpool : pool.dropLast ++ [b] = pool := List.dropLast_append_getLast? b (by rw [hb]; rfl)
  have hperm : List.Perm (pool.dropLast ++ (active ++ [b])) (pool ++ active) := by
    nth_rewrite 2 [← hpool]
    rw [List.append_assoc]
    exact List.Perm.append_left _ List.perm_append_comm
  refine ⟨⟨hperm.nodup_iff.mpr h.1, fun x hx => h.2 x (hperm.mem_iff.mp hx)⟩, ?_⟩
  have hn : (pool.dropLast ++ [b]).Nodup := by
    rw [hpool]; exact (List.nodup_append.mp h.1).1
  intro hmem
  exact (List.nodup_append.mp hn).2.2 hmem (List.mem_singleton_self b)

theorem poolSplit_fresh {pool active : List Nat} {count : Nat} (h : PoolSplit pool active count) :
    PoolSplit pool (active ++ [count]) (count + 1) := by
  constructor
  · rw [← List.append_assoc]
    refine List.Nodup.append h.1 (List.nodup_singleton _) ?_
    intro x hx hx1
    rw [List.mem_singleton.mp hx1] at hx
    exact lt_irrefl _ (h.2 _ hx)
  · intro x hx
    rw [← List.append_assoc, List.mem_append] at hx
    rcases hx with hx | hx
    · exact Nat.lt_succ_of_lt (h.2 x hx)
    · rw [List.mem_singleton.mp hx]; exact Nat.lt_succ_self _

theorem poolSplit_release {pool active : List Nat} {count b : Nat} (h : PoolSplit pool active count)
    (hb : b ∈ active) : PoolSplit (pool ++ [b]) (active.erase b) count := by
  have hperm : List.Perm (pool ++ [b] ++ active.erase b) (pool ++ active) := by
    rw [List.append_assoc]
    exact List.Perm.append_left _ (List.perm_cons_erase hb).symm
  exact ⟨hperm.nodup_iff.mpr h.1, fun x hx => h.2 x (hperm.mem_iff.mp hx)⟩

theorem poolSplit_erase {pool active : List Nat} {count : Nat} (b : Nat)
    (h : PoolSplit pool active count) : PoolSplit pool (active.erase b) count := by
  have hsub : List.Sublist (pool ++ active.erase b) (pool ++ active) :=
    List.Sublist.append_left (List.erase_sublist b active) pool
  exact ⟨h.1.sublist hsub, fun x hx => h.2 x (hsub.subset hx)⟩

theorem poolSplit_not_mem_pool {pool active : List Nat} {count b : Nat}
    (h : PoolSplit pool active count) (hb : b ∈ active) : b ∉ pool :=
  fun hp => (List.nodup_append.mp h.1).2.2 hp hb

/-! ### The bullet pool and roster through every operation -/

theorem bulletInv_of_fields (g g' : Game) (h1 : g'.bulletPool = g.bulletPool)
    (h2 : g'.activeBullets = g.activeBullets) (h3 : g'.bulletCount = g.bulletCount)
    (h4 : ∀ b ∈ g.bulletPool, (g'.bullets b).isActive = true → (g.bullets b).isActive = true)
    (h : BulletInv g) : BulletInv g' := by
  unfold BulletInv at h ⊢
  rw [h1, h2, h3]
  refine ⟨h.1, fun b hb => ?_⟩
  cases hx : (g'.bullets b).isActive
  · rfl
  · have h5 := h.2 b hb
    rw [h4 b hb hx] at h5
    cases h5

theorem bulletInv_of_view {g g' : Game}
    (hv : (g'.bulletPool, g'.activeBullets, g'.bulletCount, g'.bullets)
        = (g.bulletPool, g.activeBullets, g.bulletCount, g.bullets))
    (h : BulletInv g) : BulletInv g' := by
  simp only [Prod.mk.injEq] at hv
  obtain ⟨h1, h2, h3, h4⟩ := hv
  exact bulletInv_of_fields g g' h1 h2 h3 (fun b _ hb => by rw [← h4]; exact hb) h

theorem getBulletFromPool_bulletInv (g : Game) (h : BulletInv g) :
    BulletInv (getBulletFromPool g).2 := by
  by_cases hp : g.bulletPool = []
  · rw [getBulletFromPool_of_empty g hp]
    unfold BulletInv at h ⊢
    refine ⟨poolSplit_fresh h.1, ?_⟩
    intro b hb
    have hb' : b ∈ g.bulletPool := hb
    rw [hp] at hb'
    cases hb'
  · have hlast := (List.dropLast_append_getLast hp).symm
    rw [getBulletFromPool_of_pool g _ _ hlast]
    unfold BulletInv at h ⊢
    have hget : g.bulletPool.getLast? = some (g.bulletPool.getLast hp) :=
      List.getLast?_eq_getLast _ hp
    obtain ⟨hs, hnot⟩ := poolSplit_pop h.1 hget
    refine ⟨hs, ?_⟩
    intro b hb
    have hb' : b ∈ g.bulletPool.dropLast := hb
    have hne : b ≠ g.bulletPool.getLast hp := fun heq => hnot (heq ▸ hb')
    show (Function.update g.bullets _ _ b).isActive = false
    rw [Function.update_noteq hne]
    exact h.2 b (List.dropLast_subset _ hb')

theorem returnBulletToPool_bulletInv (b : Nat) (g : Game) (h : BulletInv g)
    (hb : b ∈ g.activeBullets) : BulletInv (returnBulletToPool b g) := by
  unfold BulletInv at h ⊢
  refine ⟨poolSplit_release h.1 hb, ?_⟩
  intro x hx
  have hx' : x ∈ g.bulletPool ++ [b] := hx
  show (Function.update g.bullets b _ x).isActive = false
  by_cases hxb : x = b
  · subst hxb
    rw [Function.update_same]
  · rw [Function.update_noteq hxb]
    rcases List.mem_append.mp hx' with h1 | h1
    · exact h.2 x h1
    · exact absurd (List.mem_singleton.mp h1) hxb

theorem fireBullet_bulletInv (now : Int) (g : Game) (h : BulletInv g) :
    BulletInv (fireBullet now g) := by
  by_cases hr : now - g.lastFireTime < fireRate
  · have : fireBullet now g = g := by unfold fireBullet; rw [if_pos hr]
    rw [this]; exact h
  · obtain ⟨b, -, hfire⟩ := fireBullet_of_ready now g hr
    rw [hfire]
    refine bulletInv_of_fields (getBulletFromPool g).2 _ rfl rfl rfl ?_ (getBulletFromPool_bulletInv g h)
    intro x _ hx
    have hx' : (Function.update (getBulletFromPool g).2.bullets b
        { (getBulletFromPool g).2.bullets b with
          position := { x := g.playerShip.position.x, y := g.playerShip.position.y,
                        z := g.playerShip.position.z - 8 / 10 } } x).isActive = true := hx
    by_cases hxb : x = b
    · subst hxb
      rw [Function.update_same] at hx'
      exact hx'
    · rw [Function.update_noteq hxb] at hx'
      exact hx'

theorem bulletStep_isActive (env : Env) (deltaTime : ℚ) (bullet : Bullet)
    (h : (bulletStep env deltaTime bullet).isActive = true) : bullet.isActive = true := by
  unfold bulletStep at h
  cases ha : bullet.isActive
  · rw [ha] at h
    simp at h
  · rfl

theorem updateBullets_bulletCount (env : Env) (deltaTime : ℚ) (g : Game) :
    (updateBullets env deltaTime g).bulletCount = g.bulletCount :=
  updateBullets_proj Game.bulletCount (fun _ _ _ _ => rfl) env deltaTime g

theorem updateBullets_bulletInv (env : Env) (deltaTime : ℚ) (g : Game) (h : BulletInv g) :
    BulletInv (updateBullets env deltaTime g) := by
  have hnd : g.activeBullets.Nodup := (List.nodup_append.mp h.1.1).2.1
  obtain ⟨s1, s2, s3⟩ := updateBullets_spec env deltaTime g hnd
  unfold BulletInv at h ⊢
  rw [s1, s2, updateBullets_bulletCount]
  have hperm : List.Perm
      (g.bulletPool ++ g.activeBullets.reverse.filter (fun b => !(g.bullets b).isActive)
        ++ g.activeBullets.filter (fun b => (g.bullets b).isActive))
      (g.bulletPool ++ g.activeBullets) := by
    rw [List.append_assoc]
    refine List.Perm.append_left _ ?_
    have h1 : List.Perm (g.activeBullets.reverse.filter (fun b => !(g.bullets b).isActive))
        (g.activeBullets.filter (fun b => !(g.bullets b).isActive)) :=
      (List.reverse_perm _).filter _
    refine (List.Perm.append_right _ h1).trans ?_
    refine List.perm_append_comm.trans ?_
    exact List.filter_append_perm _ _
  refine ⟨⟨hperm.nodup_iff.mpr h.1.1, fun x hx => h.1.2 x (hperm.mem_iff.mp hx)⟩, ?_⟩
  intro x hx
  rw [s3 x]
  rcases List.mem_append.mp hx with h1 | h1
  · have hxa : x ∉ g.activeBullets := fun hm => (List.nodup_append.mp h.1.1).2.2 h1 hm
    rw [if_neg hxa]
    exact h.2 x h1
  · obtain ⟨hm, hin⟩ := List.mem_filter.mp h1
    rw [if_pos (List.mem_reverse.mp hm)]
    cases hs : (bulletStep env deltaTime (g.bullets x)).isActive
    · rfl
    · rw [bulletStep_isActive env deltaTime _ hs] at hin
      simp at hin

theorem checkCollisions_bulletInv (env : Env) (g : Game) (h : BulletInv g) :
    BulletInv (checkCollisions env g) := by
  have hnd : g.activeBullets.Nodup := (List.nodup_append.mp h.1.1).2.1
  obtain ⟨-, -, c3, -⟩ := bulletPassLoop_consumed env g.activeBullets.length g [] hnd
  refine bulletInv_of_fields g _
    (checkCollisions_proj Game.bulletPool (fun _ _ _ _ _ => rfl) env g)
    (checkCollisions_proj Game.activeBullets (fun _ _ _ _ _ => rfl) env g)
    (checkCollisions_proj Game.bulletCount (fun _ _ _ _ _ => rfl) env g) ?_ h
  intro x _ hx
  rw [checkCollisions_bullets] at hx
  rcases c3 x with h1 | h1
  · have h2 : (bulletPass env g).1.bullets x = g.bullets x := h1
    rw [h2] at hx; exact hx
  · have h2 : (bulletPass env g).1.bullets x = { g.bullets x with isActive := false } := h1
    rw [h2] at hx
    cases hx

theorem initializeGame_bulletInv (env : Env) (g : Game) : BulletInv (initializeGame env g) := by
  obtain ⟨-, -, -, e4, -, -, -, -, -, -, e11, e12, e13⟩ :=
    initializeExplosionPool_spec env (initializeBulletPool (resetGameObjects g))
  obtain ⟨b1, b2, b3, b4, -⟩ := initializeBulletPool_spec (resetGameObjects g)
  have r1 := (resetGameObjects_fields g).1
  have hbase : BulletInv (initializeBulletPool (resetGameObjects g)) := by
    unfold BulletInv PoolSplit
    rw [b1, b4, b2, r1, List.append_nil]
    refine ⟨⟨List.nodup_range' _ _, ?_⟩, ?_⟩
    · intro b hb
      rw [List.mem_range'_1] at hb
      exact hb.2
    · intro b hb
      rw [List.mem_range'_1] at hb
      rw [b3 b, if_pos hb]
  rw [initializeGame_unfold]
  exact bulletInv_of_fields (initializeBulletPool (resetGameObjects g)) _ e13 e4 e11
    (fun b _ hb => by
      have hb' : ((initializeExplosionPool env (initializeBulletPool (resetGameObjects g))).bullets
          b).isActive = true := hb
      rw [e12] at hb'
      exact hb') hbase

/-! ### The explosion pool and roster through every operation -/

theorem explosionInv_of_fields (g g' : Game) (h1 : g'.explosionPool = g.explosionPool)
    (h2 : g'.activeExplosions = g.activeExplosions) (h3 : g'.explosionCount = g.explosionCount)
    (h4 : ∀ e ∈ g.explosionPool, (g'.explosions e).isActive = true → (g.explosions e).isActive = true)
    (h : ExplosionInv g ∧ ExplosionBound g) : ExplosionInv g' ∧ ExplosionBound g' := by
  unfold ExplosionInv ExplosionBound at h ⊢
  rw [h1, h2, h3]
  refine ⟨⟨h.1.1, fun b hb => ?_⟩, h.2⟩
  cases hx : (g'.explosions b).isActive
  · rfl
  · have h5 := h.1.2 b hb
    rw [h4 b hb hx] at h5
    cases h5

theorem explosionInv_of_view {g g' : Game}
    (hv : (g'.explosionPool, g'.activeExplosions, g'.explosionCount, g'.explosions)
        = (g.explosionPool, g.activeExplosions, g.explosionCount, g.explosions))
    (h : ExplosionInv g ∧ ExplosionBound g) : ExplosionInv g' ∧ ExplosionBound g' := by
  simp only [Prod.mk.injEq] at hv
  obtain ⟨h1, h2, h3, h4⟩ := hv
  exact explosionInv_of_fields g g' h1 h2 h3 (fun b _ hb => by rw [← h4]; exact hb) h

theorem getExplosionFromPool_explosionInv (env : Env) (g : Game)
    (h : ExplosionInv g ∧ ExplosionBound g) :
    ExplosionInv (getExplosionFromPool env g).2 ∧ ExplosionBound (getExplosionFromPool env g).2 := by
  by_cases hp : g.explosionPool = []
  · by_cases hlt : g.activeExplosions.length < maxExplosions
    · rw [getExplosionFromPool_of_empty env g hp hlt]
      unfold ExplosionInv ExplosionBound at h ⊢
      refine ⟨⟨poolSplit_fresh h.1.1, ?_⟩, ?_⟩
      · intro b hb
        have hb' : b ∈ g.explosionPool := hb
        rw [hp] at hb'
        cases hb'
      · show g.explosionPool.length + (g.activeExplosions ++ [g.explosionCount]).length
          ≤ maxExplosions
        rw [hp, List.length_append]
        simp only [List.length_nil, List.length_singleton]
        omega
    · rw [getExplosionFromPool_of_full env g hp (Nat.le_of_not_lt hlt)]
      exact h
  · have hlast := (List.dropLast_append_getLast hp).symm
    rw [getExplosionFromPool_of_pool env g _ _ hlast]
    unfold ExplosionInv ExplosionBound at h ⊢
    have hget : g.explosionPool.getLast? = some (g.explosionPool.getLast hp) :=
      List.getLast?_eq_getLast _ hp
    obtain ⟨hs, hnot⟩ := poolSplit_pop h.1.1 hget
    refine ⟨⟨hs, ?_⟩, ?_⟩
    · intro b hb
      have hb' : b ∈ g.explosionPool.dropLast := hb
      have hne : b ≠ g.explosionPool.getLast hp := fun heq => hnot (heq ▸ hb')
      show (Function.update g.explosions _ _ b).isActive = false
      rw [Function.update_noteq hne]
      exact h.1.2 b (List.dropLast_subset _ hb')
    · show g.explosionPool.dropLast.length + (g.activeExplosions ++ [_]).length ≤ maxExplosions
      have hl : g.explosionPool.length = g.explosionPool.dropLast.length + 1 := by
        conv_lhs => rw [hlast]
        simp
      rw [List.length_append, List.length_singleton]
      omega

theorem returnExplosionToPool_explosionInv (e : Nat) (g : Game)
    (h : ExplosionInv g ∧ ExplosionBound g) (he : e ∈ g.activeExplosions) :
    (ExplosionInv (returnExplosionToPool e g) ∧ ExplosionBound (returnExplosionToPool e g))
      ∧ (returnExplosionToPool e g).explosionPool = g.explosionPool ++ [e] := by
  unfold ExplosionInv ExplosionBound at h
  have hpos : 0 < g.activeExplosions.length := List.length_pos_of_mem he
  have hroom : g.explosionPool.length < maxExplosions := by omega
  have hpool : (returnExplosionToPool e g).explosionPool = g.explosionPool ++ [e] := by
    show (if g.explosionPool.length < maxExplosions then g.explosionPool ++ [e]
      else g.explosionPool) = _
    rw [if_pos hroom]
  refine ⟨?_, hpool⟩
  unfold ExplosionInv ExplosionBound
  rw [hpool]
  refine ⟨⟨poolSplit_release h.1.1 he, ?_⟩, ?_⟩
  · intro x hx
    show (Function.update g.explosions e _ x).isActive = false
    by_cases hxb : x = e
    · subst hxb
      rw [Function.update_same]
    · rw [Function.update_noteq hxb]
      rcases List.mem_append.mp hx with h1 | h1
      · exact h.1.2 x h1
      · exact absurd (List.mem_singleton.mp h1) hxb
  · show (g.explosionPool ++ [e]).length + (g.activeExplosions.erase e).length ≤ maxExplosions
    rw [List.length_append, List.length_singleton, List.length_erase_of_mem he]
    omega

theorem triggerExplosion_explosionInv (env : Env) (position : Vec3) (g : Game)
    (h : ExplosionInv g ∧ ExplosionBound g) :
    ExplosionInv (triggerExplosion env position g)
      ∧ ExplosionBound (triggerExplosion env position g) := by
  have hget := getExplosionFromPool_explosionInv env g h
  unfold triggerExplosion
  rcases hr : getExplosionFromPool env g with ⟨o, g1⟩
  rw [hr] at hget
  cases o with
  | none => exact hget
  | some e =>
    refine explosionInv_of_fields g1 _ rfl rfl rfl ?_ hget
    intro x _ hx
    have hx' : (Function.update g1.explosions e { g1.explosions e with position := position }
        x).isActive = true := hx
    by_cases hxe : x = e
    · subst hxe
      rw [Function.update_same] at hx'
      exact hx'
    · rw [Function.update_noteq hxe] at hx'
      exact hx'

theorem foldl_triggerExplosion_explosionInv (env : Env) :
    ∀ (ps : List Vec3) (g : Game), ExplosionInv g ∧ ExplosionBound g →
      ExplosionInv (ps.foldl (fun s p => triggerExplosion env p s) g)
        ∧ ExplosionBound (ps.foldl (fun s p => triggerExplosion env p s) g) := by
  intro ps
  induction ps with
  | nil => intro g h; exact h
  | cons p ps ih =>
    intro g h
    rw [List.foldl_cons]
    exact ih _ (triggerExplosion_explosionInv env p g h)

theorem updateEnemies_explosionInv (env : Env) (deltaTime : ℚ) (g : Game)
    (h : ExplosionInv g ∧ ExplosionBound g) :
    ExplosionInv (updateEnemies env deltaTime g) ∧ ExplosionBound (updateEnemies env deltaTime g) := by
  rw [updateEnemies_state]
  exact explosionInv_of_view rfl (foldl_triggerExplosion_explosionInv env _ g h)

theorem explosionStep_isActive (deltaTime : ℚ) (explosion : Explosion)
    (h : (explosionStep deltaTime explosion).isActive = true) : explosion.isActive = true := by
  cases ha : explosion.isActive
  · rw [explosionStep_of_inactive deltaTime explosion ha] at h
    cases h
  · rfl

theorem updateExplosions_explosionCount (deltaTime : ℚ) (g : Game) :
    (updateExplosions deltaTime g).explosionCount = g.explosionCount :=
  updateExplosions_proj Game.explosionCount (fun _ _ _ _ => rfl) deltaTime g

theorem updateExplosions_explosionInv (deltaTime : ℚ) (g : Game)
    (h : ExplosionInv g ∧ ExplosionBound g) :
    ExplosionInv (updateExplosions deltaTime g) ∧ ExplosionBound (updateExplosions deltaTime g) := by
  have hnd : g.activeExplosions.Nodup := (List.nodup_append.mp h.1.1.1).2.1
  obtain ⟨s1, s2, s3⟩ := updateExplosions_spec deltaTime g hnd h.2
  unfold ExplosionInv ExplosionBound at h ⊢
  rw [s1, s2, updateExplosions_explosionCount]
  have hperm : List.Perm
      (g.explosionPool ++ g.activeExplosions.reverse.filter (fun b => !(g.explosions b).isActive)
        ++ g.activeExplosions.filter (fun b => (g.explosions b).isActive))
      (g.explosionPool ++ g.activeExplosions) := by
    rw [List.append_assoc]
    refine List.Perm.append_left _ ?_
    have h1 : List.Perm (g.activeExplosions.reverse.filter (fun b => !(g.explosions b).isActive))
        (g.activeExplosions.filter (fun b => !(g.explosions b).isActive)) :=
      (List.reverse_perm _).filter _
    refine (List.Perm.append_right _ h1).trans ?_
    refine List.perm_append_comm.trans ?_
    exact List.filter_append_perm _ _
  refine ⟨⟨⟨hperm.nodup_iff.mpr h.1.1.1, fun x hx => h.1.1.2 x (hperm.mem_iff.mp hx)⟩, ?_⟩, ?_⟩
  · intro x hx
    rw [s3 x]
    rcases List.mem_append.mp hx with h1 | h1
    · have hxa : x ∉ g.activeExplosions := fun hm => (List.nodup_append.mp h.1.1.1).2.2 h1 hm
      rw [if_neg hxa]
      exact h.1.2 x h1
    · obtain ⟨hm, hin⟩ := List.mem_filter.mp h1
      rw [if_pos (List.mem_reverse.mp hm)]
      cases hs : (explosionStep deltaTime (g.explosions x)).isActive
      · rfl
      · rw [explosionStep_isActive deltaTime _ hs] at hin
        simp at hin
  · rw [← List.length_append, hperm.length_eq, List.length_append]
    exact h.2

theorem initializeGame_explosionInv (env : Env) (g : Game) :
    ExplosionInv (initializeGame env g) ∧ ExplosionBound (initializeGame env g) := by
  obtain ⟨e1, e2, e3, -, e5, -⟩ :=
    initializeExplosionPool_spec env (initializeBulletPool (resetGameObjects g))
  obtain ⟨-, -, -, -, b5, -⟩ := initializeBulletPool_spec (resetGameObjects g)
  have r2 := (resetGameObjects_fields g).2.1
  have hbase : ExplosionInv (initializeExplosionPool env (initializeBulletPool (resetGameObjects g)))
      ∧ ExplosionBound (initializeExplosionPool env (initializeBulletPool (resetGameObjects g))) := by
    unfold ExplosionInv ExplosionBound PoolSplit
    rw [e1, e5, e2, b5, r2, List.append_nil]
    refine ⟨⟨⟨List.nodup_range' _ _, ?_⟩, ?_⟩, ?_⟩
    · intro b hb
      rw [List.mem_range'_1] at hb
      exact hb.2
    · intro b hb
      rw [List.mem_range'_1] at hb
      rw [e3 b, if_pos hb]
      rfl
    · simp [maxExplosions]
  rw [initializeGame_unfold]
  exact explosionInv_of_view rfl hbase

/-! ### The pool invariant through a frame and over every reachable state -/

theorem poolsOk_of_views {g g' : Game}
    (hb : (g'.bulletPool, g'.activeBullets, g'.bulletCount, g'.bullets)
        = (g.bulletPool, g.activeBullets, g.bulletCount, g.bullets))
    (he : (g'.explosionPool, g'.activeExplosions, g'.explosionCount, g'.explosions)
        = (g.explosionPool, g.activeExplosions, g.explosionCount, g.explosions))
    (h : PoolsOk g) : PoolsOk g' :=
  ⟨bulletInv_of_view hb h.1, explosionInv_of_view he h.2⟩

theorem fireBullet_poolsOk (now : Int) (g : Game) (h : PoolsOk g) : PoolsOk (fireBullet now g) :=
  ⟨fireBullet_bulletInv now g h.1,
   explosionInv_of_view
    (fireBullet_proj (fun x => (x.explosionPool, x.activeExplosions, x.explosionCount, x.explosions))
      (fun _ _ _ _ _ _ => rfl) now g) h.2⟩

theorem afterFire_poolsOk (inp : FrameInput) (g : Game) (h : PoolsOk g) :
    PoolsOk (afterFire inp g) := by
  unfold afterFire
  split_ifs
  · exact fireBullet_poolsOk _ g h
  · exact h

theorem updatePlayer_poolsOk (env : Env) (deltaTime : ℚ) (g : Game) (h : PoolsOk g) :
    PoolsOk (updatePlayer env deltaTime g) :=
  poolsOk_of_views rfl rfl h

theorem updateBullets_poolsOk (env : Env) (deltaTime : ℚ) (g : Game) (h : PoolsOk g) :
    PoolsOk (updateBullets env deltaTime g) :=
  ⟨updateBullets_bulletInv env deltaTime g h.1,
   explosionInv_of_view
    (updateBullets_proj (fun x => (x.explosionPool, x.activeExplosions, x.explosionCount, x.explosions))
      (fun _ _ _ _ => rfl) env deltaTime g) h.2⟩

theorem spawnEnemy_poolsOk (env : Env) (now : Int) (r : SpawnDraws) (g : Game) (h : PoolsOk g) :
    PoolsOk (spawnEnemy env now r g) :=
  poolsOk_of_views
    (spawnEnemy_proj (fun x => (x.bulletPool, x.activeBullets, x.bulletCount, x.bullets))
      (fun _ _ _ => rfl) env now r g)
    (spawnEnemy_proj (fun x => (x.explosionPool, x.activeExplosions, x.explosionCount, x.explosions))
      (fun _ _ _ => rfl) env now r g) h

theorem updateEnemies_poolsOk (env : Env) (deltaTime : ℚ) (g : Game) (h : PoolsOk g) :
    PoolsOk (updateEnemies env deltaTime g) :=
  ⟨bulletInv_of_view
    (updateEnemies_proj (fun x => (x.bulletPool, x.activeBullets, x.bulletCount, x.bullets))
      (fun _ _ _ _ _ _ => rfl) env deltaTime g) h.1,
   updateEnemies_explosionInv env deltaTime g h.2⟩

theorem updateExplosions_poolsOk (deltaTime : ℚ) (g : Game) (h : PoolsOk g) :
    PoolsOk (updateExplosions deltaTime g) :=
  ⟨bulletInv_of_view
    (updateExplosions_proj (fun x => (x.bulletPool, x.activeBullets, x.bulletCount, x.bullets))
      (fun _ _ _ _ => rfl) deltaTime g) h.1,
   updateExplosions_explosionInv deltaTime g h.2⟩

theorem checkCollisions_poolsOk (env : Env) (g : Game) (h : PoolsOk g) :
    PoolsOk (checkCollisions env g) :=
  ⟨checkCollisions_bulletInv env g h.1,
   explosionInv_of_view
    (checkCollisions_proj
      (fun x => (x.explosionPool, x.activeExplosions, x.explosionCount, x.explosions))
      (fun _ _ _ _ _ => rfl) env g) h.2⟩

theorem initializeGame_poolsOk (env : Env) (g : Game) : PoolsOk (initializeGame env g) :=
  ⟨initializeGame_bulletInv env g, initializeGame_explosionInv env g⟩

theorem frameStates_poolsOk (env : Env) (inp : FrameInput) (g : Game) (h : PoolsOk g) :
    ∀ s ∈ frameStates env inp g, PoolsOk s := by
  have h1 := afterFire_poolsOk inp g h
  have h2 := updatePlayer_poolsOk env inp.deltaTime _ h1
  have h3 := updateBullets_poolsOk env inp.deltaTime _ h2
  have h4 := spawnEnemy_poolsOk env inp.spawnNow inp.draws _ h3
  have h5 := updateEnemies_poolsOk env inp.deltaTime _ h4
  have h6 := updateExplosions_poolsOk inp.deltaTime _ h5
  have h7 := checkCollisions_poolsOk env _ h6
  intro s hs
  simp only [frameStates, List.mem_cons, List.mem_singleton, List.not_mem_nil, or_false] at hs
  rcases hs with rfl | rfl | rfl | rfl | rfl | rfl | rfl
  · exact h1
  · exact h2
  · exact h3
  · exact h4
  · exact h5
  · exact h6
  · exact h7

theorem animate_eq_last_frameState (env : Env) (inp : FrameInput) (g : Game)
    (hp : g.gameState = GameState.playing) :
    (frameStates env inp g).getLast? = some (animate env inp g) := by
  simp [frameStates, animate, hp, afterFire]

theorem animate_poolsOk (env : Env) (inp : FrameInput) (g : Game) (h : PoolsOk g) :
    PoolsOk (animate env inp g) := by
  by_cases hp : g.gameState = GameState.playing
  · have hmem : animate env inp g ∈ frameStates env inp g := by
      simp [frameStates, animate, hp, afterFire]
    exact frameStates_poolsOk env inp g h _ hmem
  · rw [animate_of_not_playing env inp g hp]; exact h

theorem reachable_poolsOk (env : Env) (g : Game) (h : Reachable env g) : PoolsOk g := by
  induction h with
  | boot aspect => exact initializeGame_poolsOk env _
  | frame inp g _ ih => exact animate_poolsOk env inp g ih
  | restart g _ _ => exact initializeGame_poolsOk env _
  | start g _ ih =>
    unfold clickStart
    split_ifs
    · exact poolsOk_of_views rfl rfl ih
    · exact ih
  | key k pressed g _ ih => exact poolsOk_of_views rfl rfl ih
  | resized aspect g _ ih => exact poolsOk_of_views rfl rfl ih

/-! ## No duplicates between pools and rosters (C1) -/

theorem noDuplicates_of_poolSplit {pool active : List Nat} {count : Nat}
    (h : PoolSplit pool active count) : NoDuplicates pool active :=
  ⟨(List.nodup_append.mp h.1).1, (List.nodup_append.mp h.1).2.1,
   fun _ hb ha => (List.nodup_append.mp h.1).2.2 hb ha⟩

theorem hitGame_reachable : Reachable exampleEnv hitGame :=
  Reachable.frame _ _ firingGame_reachable

/-- C1: no entity is duplicated between a pool and its roster.  In every state reachable
from `initializeGame` by frames, page events and restarts, and in the state after each of
the seven steps of a frame started there, no bullet is in both `bulletPool` and
`activeBullets` and none occurs twice in either list, and likewise for `explosionPool` and
`activeExplosions`. -/
theorem pools_never_duplicate (env : Env) (g : Game) (h : Reachable env g) :
    (NoDuplicates g.bulletPool g.activeBullets
        ∧ NoDuplicates g.explosionPool g.activeExplosions)
      ∧ ∀ (inp : FrameInput), ∀ s ∈ frameStates env inp g,
          NoDuplicates s.bulletPool s.activeBullets
            ∧ NoDuplicates s.explosionPool s.activeExplosions := by
  have hg := reachable_poolsOk env g h
  refine ⟨⟨noDuplicates_of_poolSplit hg.1.1, noDuplicates_of_poolSplit hg.2.1.1⟩, ?_⟩
  intro inp s hs
  have h1 := frameStates_poolsOk env inp g hg s hs
  exact ⟨noDuplicates_of_poolSplit h1.1.1, noDuplicates_of_poolSplit h1.2.1.1⟩

/-- The example state with two bullets in flight is reachable: its pool and roster of
bullets have no object in common and no repetition. -/
theorem pools_never_duplicate_witness :
    Reachable exampleEnv twoBulletGame
      ∧ NoDuplicates twoBulletGame.bulletPool twoBulletGame.activeBullets :=
  ⟨twoBulletGame_reachable, (pools_never_duplicate exampleEnv twoBulletGame twoBulletGame_reachable).1.1⟩

/-! ## Pooled objects are inactive (C2) -/

theorem pooledInactive_of_poolsOk {g : Game} (h : PoolsOk g) : PooledInactive g :=
  ⟨fun b hb => ⟨h.1.2 b hb, (noDuplicates_of_poolSplit h.1.1).2.2 b hb⟩,
   fun e he => ⟨h.2.1.2 e he, (noDuplicates_of_poolSplit h.2.1.1).2.2 e he⟩⟩

theorem getBulletFromPool_poolsOk (g : Game) (h : PoolsOk g) : PoolsOk (getBulletFromPool g).2 := by
  refine ⟨getBulletFromPool_bulletInv g h.1, explosionInv_of_view ?_ h.2⟩
  rw [getBulletFromPool_frame]

theorem getExplosionFromPool_poolsOk (env : Env) (g : Game) (h : PoolsOk g) :
    PoolsOk (getExplosionFromPool env g).2 := by
  refine ⟨bulletInv_of_view ?_ h.1, getExplosionFromPool_explosionInv env g h.2⟩
  rw [getExplosionFromPool_frame]

theorem returnBulletToPool_poolsOk (b : Nat) (g : Game) (h : PoolsOk g) (hb : b ∈ g.activeBullets) :
    PoolsOk (returnBulletToPool b g) :=
  ⟨returnBulletToPool_bulletInv b g h.1 hb, explosionInv_of_view rfl h.2⟩

theorem returnExplosionToPool_poolsOk (e : Nat) (g : Game) (h : PoolsOk g)
    (he : e ∈ g.activeExplosions) : PoolsOk (returnExplosionToPool e g) :=
  ⟨bulletInv_of_view rfl h.1, (returnExplosionToPool_explosionInv e g h.2 he).1⟩

/-! ## Explosion population bound (C29) -/

theorem forEachActiveExplosion_poolsOk :
    ∀ (n k : Nat) (g : Game), PoolsOk g → PoolsOk (forEachActiveExplosion n k g) := by
  intro n
  induction n with
  | zero => intro k g h; exact h
  | succ n ih =>
    intro k g h
    simp only [forEachActiveExplosion]
    split
    · exact ih _ g h
    · rename_i e he
      exact ih _ _ (returnExplosionToPool_poolsOk e g h (List.getElem?_mem he))

/-- C29: explosion population bound.  In every state reachable from `initializeGame` by
frames, page events and restarts, and after each step of a frame started there,
`explosionPool.length + activeExplosions.length ≤ maxExplosions = 20`, so
`activeExplosions` never holds more than 20; and whenever `returnExplosionToPool` is called
for an entry of the roster in a state in which the bound and the split of pool and roster
hold, the pool has room, the explosion is pushed to it (the pool-full branch is not taken)
and the bound and the split hold again; `updateExplosions` pools every explosion it
releases, and the `forEach` of a restart keeps the bound and the split. -/
theorem explosion_population_bound (env : Env) (g : Game) (h : Reachable env g) :
    maxExplosions = 20
      ∧ g.explosionPool.length + g.activeExplosions.length ≤ maxExplosions
      ∧ g.activeExplosions.length ≤ 20
      ∧ (∀ (inp : FrameInput), ∀ s ∈ g :: frameStates env inp g,
          s.explosionPool.length + s.activeExplosions.length ≤ maxExplosions
            ∧ ∀ deltaTime : ℚ, (updateExplosions deltaTime s).explosionPool
                = s.explosionPool
                  ++ s.activeExplosions.reverse.filter (fun e => !(s.explosions e).isActive))
      ∧ (∀ s : Game, PoolsOk s → ∀ e ∈ s.activeExplosions,
          s.explosionPool.length < maxExplosions
            ∧ (returnExplosionToPool e s).explosionPool = s.explosionPool ++ [e]
            ∧ PoolsOk (returnExplosionToPool e s))
      ∧ (∀ (n k : Nat) (s : Game), PoolsOk s → PoolsOk (forEachActiveExplosion n k s)) := by
  have hg := reachable_poolsOk env g h
  have hb : g.explosionPool.length + g.activeExplosions.length ≤ maxExplosions := hg.2.2
  refine ⟨rfl, hb, ?_, ?_, ?_, forEachActiveExplosion_poolsOk⟩
  · have : maxExplosions = 20 := rfl
    omega
  · intro inp s hs
    have hs' : PoolsOk s := by
      rcases List.mem_cons.mp hs with rfl | h1
      · exact hg
      · exact frameStates_poolsOk env inp g hg s h1
    refine ⟨hs'.2.2, fun deltaTime => ?_⟩
    exact (updateExplosions_spec deltaTime s (noDuplicates_of_poolSplit hs'.2.1.1).2.1 hs'.2.2).2.1
  · intro s hs e he
    have hpos : 0 < s.activeExplosions.length := List.length_pos_of_mem he
    have hbound : s.explosionPool.length + s.activeExplosions.length ≤ maxExplosions := hs.2.2
    exact ⟨by omega, (returnExplosionToPool_explosionInv e s hs.2 he).2,
      returnExplosionToPool_poolsOk e s hs he⟩

/-- The example state with two bullets in flight is reachable: its explosions number at
most 20. -/
theorem explosion_population_bound_witness :
    Reachable exampleEnv twoBulletGame
      ∧ twoBulletGame.explosionPool.length + twoBulletGame.activeExplosions.length ≤ maxExplosions :=
  ⟨twoBulletGame_reachable,
   (explosion_population_bound exampleEnv twoBulletGame twoBulletGame_reachable).2.1⟩

/-! ## Bullet motion and lazy release (C22, C23) -/

theorem bulletStep_of_active (env : Env) (deltaTime : ℚ) (bullet : Bullet)
    (ha : bullet.isActive = true) :
    (bulletStep env deltaTime bullet).position
        = { x := bullet.position.x, y := bullet.position.y,
            z := bullet.position.z - bulletMoveSpeed * deltaTime }
      ∧ (bulletStep env deltaTime bullet).boundingBox
          = env.bulletBox (bulletStep env deltaTime bullet).position
      ∧ (bulletStep env deltaTime bullet).visible = bullet.visible
      ∧ ((bulletStep env deltaTime bullet).isActive = false
          ↔ bullet.position.z - bulletMoveSpeed * deltaTime < -cameraFar * (8 / 10)) := by
  unfold bulletStep
  rw [ha]
  simp only [Bool.not_true, Bool.false_eq_true, if_false]
  split_ifs with h
  · exact ⟨rfl, rfl, rfl, fun _ => h, fun _ => rfl⟩
  · exact ⟨rfl, rfl, rfl, fun h1 => h1.elim, fun h1 => absurd h1 h⟩

/-- C22: bullet motion and off-screen test.  For a roster without repetition and a bullet
in it with `isActive` true, `updateBullets(dt)` decreases the bullet's `z` by `25 * dt`,
leaves `x` and `y` unchanged, recomputes the bounding box from the new position, keeps the
bullet in `activeBullets` for this frame, and sets `isActive` to false if and only if the new
`z` is below `-0.8 * camera.far`. -/
theorem bullet_motion (env : Env) (deltaTime : ℚ) (g : Game) (b : Nat)
    (hnd : g.activeBullets.Nodup) (hb : b ∈ g.activeBullets)
    (ha : (g.bullets b).isActive = true) :
    ((updateBullets env deltaTime g).bullets b).position
        = { x := (g.bullets b).position.x, y := (g.bullets b).position.y,
            z := (g.bullets b).position.z - 25 * deltaTime }
      ∧ b ∈ (updateBullets env deltaTime g).activeBullets
      ∧ (((updateBullets env deltaTime g).bullets b).isActive = false
          ↔ (g.bullets b).position.z - 25 * deltaTime < -(8 / 10) * 4000)
      ∧ (((updateBullets env deltaTime g).bullets b).isActive = true
          ↔ ¬ ((g.bullets b).position.z - 25 * deltaTime < -(8 / 10) * 4000))
      ∧ ((updateBullets env deltaTime g).bullets b).boundingBox
          = env.bulletBox ((updateBullets env deltaTime g).bullets b).position
      ∧ (b ∉ g.bulletPool → b ∉ (updateBullets env deltaTime g).bulletPool) := by
  obtain ⟨s1, s2, s3⟩ := updateBullets_spec env deltaTime g hnd
  obtain ⟨p1, p2, -, p4⟩ := bulletStep_of_active env deltaTime (g.bullets b) ha
  have hs : (updateBullets env deltaTime g).bullets b = bulletStep env deltaTime (g.bullets b) := by
    rw [s3 b, if_pos hb]
  have hc : -cameraFar * (8 / 10) = -(8 / 10) * 4000 := by
    unfold cameraFar; ring
  have hspeed : bulletMoveSpeed = 25 := rfl
  rw [hs]
  rw [hspeed] at p1 p4
  rw [hc] at p4
  refine ⟨p1, ?_, p4, ?_, p2, ?_⟩
  · rw [s1]
    exact List.mem_filter.mpr ⟨hb, ha⟩
  · rw [← p4]
    cases (bulletStep env deltaTime (g.bullets b)).isActive <;> simp
  · intro hpool hmem
    rw [s2] at hmem
    rcases List.mem_append.mp hmem with h1 | h1
    · exact hpool h1
    · have := (List.mem_filter.mp h1).2
      rw [ha] at this
      cases this

/-- The two bullets of the example, at depth -10, after a frame of 1/60 s: bullet 0 is at
depth -10 - 25/60, still in the roster, and still active. -/
theorem bullet_motion_witness :
    ((updateBullets exampleEnv (1 / 60) exampleGame).bullets 0).position
        = { x := 0, y := 0, z := -10 - 25 * (1 / 60) }
      ∧ 0 ∈ (updateBullets exampleEnv (1 / 60) exampleGame).activeBullets
      ∧ ((updateBullets exampleEnv (1 / 60) exampleGame).bullets 0).isActive = true :=
  ⟨(bullet_motion exampleEnv (1 / 60) exampleGame 0 (by decide) (by decide) rfl).1,
   (bullet_motion exampleEnv (1 / 60) exampleGame 0 (by decide) (by decide) rfl).2.1,
   by decide!⟩

/-- C23: lazy release.  For rosters without repetition (and explosions within their
bound), `updateBullets` takes out of `activeBullets` exactly the bullets that had `isActive`
false at its start, keeps the others in their order, and appends the released ones to
`bulletPool`, marked inactive and invisible; `updateExplosions` does the same for
explosions.  `checkCollisions` and the steps of a frame after `updateBullets` leave
`activeBullets` and `bulletPool` as they are, so a bullet deactivated by a hit or by the
off-screen test stays in the roster until the next `updateBullets`; meanwhile the bullet
pass skips it: its visit changes nothing. -/
theorem lazy_release (env : Env) (deltaTime : ℚ) (g : Game)
    (hb : g.activeBullets.Nodup) (he : g.activeExplosions.Nodup)
    (hcap : g.explosionPool.length + g.activeExplosions.length ≤ maxExplosions) :
    ((updateBullets env deltaTime g).activeBullets
          = g.activeBullets.filter (fun b => (g.bullets b).isActive)
        ∧ (updateBullets env deltaTime g).bulletPool
          = g.bulletPool ++ g.activeBullets.reverse.filter (fun b => !(g.bullets b).isActive)
        ∧ ∀ b ∈ g.activeBullets, (g.bullets b).isActive = false →
            ((updateBullets env deltaTime g).bullets b).isActive = false
              ∧ ((updateBullets env deltaTime g).bullets b).visible = false)
      ∧ ((updateExplosions deltaTime g).activeExplosions
          = g.activeExplosions.filter (fun e => (g.explosions e).isActive)
        ∧ (updateExplosions deltaTime g).explosionPool
          = g.explosionPool
            ++ g.activeExplosions.reverse.filter (fun e => !(g.explosions e).isActive)
        ∧ ∀ e ∈ g.activeExplosions, (g.explosions e).isActive = false →
            ((updateExplosions deltaTime g).explosions e).isActive = false
              ∧ ((updateExplosions deltaTime g).explosions e).visible = false)
      ∧ ((checkCollisions env g).activeBullets = g.activeBullets
        ∧ (checkCollisions env g).bulletPool = g.bulletPool)
      ∧ (∀ (inp : FrameInput),
          (checkCollisions env (beforeCollisions env inp g)).activeBullets
              = (beforeSpawn env inp g).activeBullets
            ∧ (checkCollisions env (beforeCollisions env inp g)).bulletPool
              = (beforeSpawn env inp g).bulletPool)
      ∧ (∀ (b : Nat) (hit : List Nat) (s : Game), (s.bullets b).isActive = false →
          bulletVisit env b s hit = (s, hit)) := by
  obtain ⟨s1, s2, s3⟩ := updateBullets_spec env deltaTime g hb
  obtain ⟨x1, x2, x3⟩ := updateExplosions_spec deltaTime g he hcap
  refine ⟨⟨s1, s2, ?_⟩, ⟨x1, x2, ?_⟩, ⟨?_, ?_⟩, ?_, ?_⟩
  · intro b hmem ha
    rw [s3 b, if_pos hmem, bulletStep_of_inactive env deltaTime _ ha]
    exact ⟨rfl, rfl⟩
  · intro e hmem ha
    rw [x3 e, if_pos hmem, explosionStep_of_inactive deltaTime _ ha]
    exact ⟨rfl, rfl⟩
  · exact checkCollisions_proj Game.activeBullets (fun _ _ _ _ _ => rfl) env g
  · exact checkCollisions_proj Game.bulletPool (fun _ _ _ _ _ => rfl) env g
  · intro inp
    have hv : ∀ s : Game,
        ((checkCollisions env (updateExplosions inp.deltaTime (updateEnemies env inp.deltaTime
            (spawnEnemy env inp.spawnNow inp.draws s)))).activeBullets,
          (checkCollisions env (updateExplosions inp.deltaTime (updateEnemies env inp.deltaTime
            (spawnEnemy env inp.spawnNow inp.draws s)))).bulletPool)
          = (s.activeBullets, s.bulletPool) := by
      intro s
      rw [checkCollisions_proj (fun x => (x.activeBullets, x.bulletPool)) (fun _ _ _ _ _ => rfl),
        updateExplosions_proj (fun x => (x.activeBullets, x.bulletPool)) (fun _ _ _ _ => rfl),
        updateEnemies_proj (fun x => (x.activeBullets, x.bulletPool)) (fun _ _ _ _ _ _ => rfl),
        spawnEnemy_proj (fun x => (x.activeBullets, x.bulletPool)) (fun _ _ _ => rfl)]
    have h1 := hv (beforeSpawn env inp g)
    simp only [Prod.mk.injEq] at h1
    exact h1
  · intro b hit s ha
    exact bulletVisit_of_inactive env b s hit ha

/-- In the reachable state `hitGame` bullet 48 is in the roster with `isActive` false (it
hit an enemy in `checkCollisions`); the next `updateBullets` moves it, and only it, to the
pool. -/
theorem lazy_release_witness :
    (updateBullets exampleEnv (1 / 60) hitGame).activeBullets
        = hitGame.activeBullets.filter (fun b => (hitGame.bullets b).isActive)
      ∧ hitGame.activeBullets = [49, 48]
      ∧ (hitGame.bullets 48).isActive = false
      ∧ (updateBullets exampleEnv (1 / 60) hitGame).activeBullets = [49]
      ∧ (updateBullets exampleEnv (1 / 60) hitGame).bulletPool = hitGame.bulletPool ++ [48] :=
  ⟨(lazy_release exampleEnv (1 / 60) hitGame (by decide!) (by decide!) (by decide!)).1.1,
   by decide!, by decide!, by decide!, by decide!⟩

/-! ## Bounding volumes are current when collisions are tested (C26) -/

theorem updatePlayer_boundingBox (env : Env) (deltaTime : ℚ) (g : Game) :
    (updatePlayer env deltaTime g).playerShip.boundingBox
      = env.playerBox (updatePlayer env deltaTime g).playerShip.position := by
  have hbox : ∀ (ship : Player) (d : ℚ),
      (if ship.isHit then
          (if ship.hitTimer - d ≤ 0 then
            { ship with hitTimer := ship.hitTimer - d, isHit := false }
          else { ship with hitTimer := ship.hitTimer - d })
        else ship).boundingBox = ship.boundingBox := by
    intro ship d
    split_ifs <;> rfl
  rw [updatePlayer_position]
  exact hbox _ _

theorem updateEnemy_boundingBox (env : Env) (deltaTime : ℚ) (e : Enemy) :
    (updateEnemy env deltaTime e).1.boundingBox
      = env.enemyBox (updateEnemy env deltaTime e).1.type (updateEnemy env deltaTime e).1.position
          ((updateEnemy env deltaTime e).1.rotationX - 1 * deltaTime)
          ((updateEnemy env deltaTime e).1.rotationY - 1 * deltaTime) := by
  rw [updateEnemy, hitTimerAndRemoval_fst]
  simp only [boxAndRotate, add_sub_cancel_right]

theorem beforeCollisions_bullets (env : Env) (inp : FrameInput) (g : Game) :
    (beforeCollisions env inp g).bullets = (beforeSpawn env inp g).bullets
      ∧ (beforeCollisions env inp g).activeBullets = (beforeSpawn env inp g).activeBullets
      ∧ (beforeCollisions env inp g).playerShip = (beforeSpawn env inp g).playerShip := by
  have e1 := updateExplosions_proj (fun x => (x.bullets, x.activeBullets, x.playerShip))
    (fun _ _ _ _ => rfl) inp.deltaTime
    (updateEnemies env inp.deltaTime (spawnEnemy env inp.spawnNow inp.draws (beforeSpawn env inp g)))
  have e2 := updateEnemies_proj (fun x => (x.bullets, x.activeBullets, x.playerShip))
    (fun _ _ _ _ _ _ => rfl) env inp.deltaTime
    (spawnEnemy env inp.spawnNow inp.draws (beforeSpawn env inp g))
  have e3 := spawnEnemy_proj (fun x => (x.bullets, x.activeBullets, x.playerShip))
    (fun _ _ _ => rfl) env inp.spawnNow inp.draws (beforeSpawn env inp g)
  have hv := e1.trans (e2.trans e3)
  simp only [Prod.mk.injEq] at hv
  exact hv

/-- C26: bounding volumes are current when collisions are tested.  In a playing frame
started in a reachable state, in the state in which `checkCollisions` runs: every bullet
of `activeBullets` (active or not, fired in this frame or before) has the box computed
from its present position; every enemy of the roster (spawned in this frame or before) has
the box computed from its present position, with the rotation it had before the rotation
step that follows the box update in the same loop pass; and the player has the box
computed from the clamped position. -/
theorem boxes_current_at_collision (env : Env) (inp : FrameInput) (g : Game)
    (h : Reachable env g) (hp : g.gameState = GameState.playing) :
    animate env inp g = checkCollisions env (beforeCollisions env inp g)
      ∧ (∀ b ∈ (beforeCollisions env inp g).activeBullets,
          ((beforeCollisions env inp g).bullets b).boundingBox
            = env.bulletBox ((beforeCollisions env inp g).bullets b).position)
      ∧ (∀ e ∈ (beforeCollisions env inp g).enemies,
          e.boundingBox
            = env.enemyBox e.type e.position (e.rotationX - 1 * inp.deltaTime)
                (e.rotationY - 1 * inp.deltaTime))
      ∧ (beforeCollisions env inp g).playerShip.boundingBox
          = env.playerBox (beforeCollisions env inp g).playerShip.position := by
  have hg := reachable_poolsOk env g h
  have h2 : PoolsOk (updatePlayer env inp.deltaTime (afterFire inp g)) :=
    updatePlayer_poolsOk env inp.deltaTime _ (afterFire_poolsOk inp g hg)
  have hnd := (noDuplicates_of_poolSplit h2.1.1).2.1
  obtain ⟨s1, -, s3⟩ := updateBullets_spec env inp.deltaTime _ hnd
  obtain ⟨c1, c2, c3⟩ := beforeCollisions_bullets env inp g
  have hbs : beforeSpawn env inp g
      = updateBullets env inp.deltaTime (updatePlayer env inp.deltaTime (afterFire inp g)) := rfl
  refine ⟨animate_of_playing env inp g hp, ?_, ?_, ?_⟩
  · intro b hb
    rw [c2, hbs, s1] at hb
    obtain ⟨hmem, hact⟩ := List.mem_filter.mp hb
    rw [c1, hbs, s3 b, if_pos hmem]
    exact (bulletStep_of_active env inp.deltaTime _ hact).2.1
  · intro e he
    rw [beforeCollisions_enemies] at he
    obtain ⟨e0, -, hs⟩ := List.mem_filterMap.mp he
    unfold survivor at hs
    split_ifs at hs
    rw [← Option.some.inj hs]
    exact updateEnemy_boundingBox env inp.deltaTime e0
  · rw [c3, hbs]
    have hship : (updateBullets env inp.deltaTime
        (updatePlayer env inp.deltaTime (afterFire inp g))).playerShip
          = (updatePlayer env inp.deltaTime (afterFire inp g)).playerShip :=
      updateBullets_proj Game.playerShip (fun _ _ _ _ => rfl) env inp.deltaTime _
    rw [hship]
    exact updatePlayer_boundingBox env inp.deltaTime _

/-- The frame `secondFrame` started in the reachable playing state `firingGame`: each of
the two bullets in flight when `checkCollisions` runs has the box of its position. -/
theorem boxes_current_at_collision_witness :
    Reachable exampleEnv firingGame ∧ firingGame.gameState = GameState.playing
      ∧ (beforeCollisions exampleEnv secondFrame firingGame).activeBullets = [49, 48]
      ∧ ∀ b ∈ (beforeCollisions exampleEnv secondFrame firingGame).activeBullets,
          ((beforeCollisions exampleEnv secondFrame firingGame).bullets b).boundingBox
            = exampleEnv.bulletBox
                ((beforeCollisions exampleEnv secondFrame firingGame).bullets b).position :=
  ⟨firingGame_reachable, by decide!, by decide!,
   (boxes_current_at_collision exampleEnv secondFrame firingGame firingGame_reachable
      (by decide!)).2.1⟩

/-! ## Sine motion and the spawn flash (C24) -/

/-- C24: sine motion is suspended during the spawn flash.  `updateEnemies(dt)` leaves in the
roster, in order, the step of every enemy it does not remove, and nothing else.  For a
'sine' enemy in the Spawning state that step, with `spawnTimer - 1000 * dt > 0`, keeps it
Spawning and leaves `x` and `sineWaveTime` unchanged while `z` advances by `speed * dt`;
with `spawnTimer - 1000 * dt ≤ 0` the same call ends the flash and takes the first step of
the weave.  The enemy is removed by the call only if it is hit with an expired hit timer or
passes the camera; otherwise its step is an entry of the roster after the call. -/
theorem sine_suspended_while_spawning (env : Env) (deltaTime : ℚ) (e : Enemy)
    (hs : e.movementPattern = MovementPattern.sine) (hsp : e.isSpawning = true) :
    (0 < e.spawnTimer - 1000 * deltaTime →
        (updateEnemy env deltaTime e).1.isSpawning = true
          ∧ (updateEnemy env deltaTime e).1.position.x = e.position.x
          ∧ (updateEnemy env deltaTime e).1.sineWaveTime = e.sineWaveTime
          ∧ (updateEnemy env deltaTime e).1.position.z = e.position.z + e.speed * deltaTime)
      ∧ (e.spawnTimer - 1000 * deltaTime ≤ 0 →
        (updateEnemy env deltaTime e).1.isSpawning = false
          ∧ (updateEnemy env deltaTime e).1.sineWaveTime
              = e.sineWaveTime + e.sineFrequency * deltaTime
          ∧ (updateEnemy env deltaTime e).1.position.x
              = e.baseX + e.sineAmplitude * env.sin (e.sineWaveTime + e.sineFrequency * deltaTime))
      ∧ (∀ g : Game,
          (updateEnemies env deltaTime g).enemies = g.enemies.filterMap (survivor env deltaTime))
      ∧ (survivor env deltaTime e = some (updateEnemy env deltaTime e).1
          ↔ ¬ ((e.isHit = true ∧ e.hitTimer - 1000 * deltaTime ≤ 0)
                ∨ e.position.z + e.speed * deltaTime > cameraPositionZ + 10))
      ∧ (∀ g : Game, e ∈ g.enemies →
          ¬ ((e.isHit = true ∧ e.hitTimer - 1000 * deltaTime ≤ 0)
                ∨ e.position.z + e.speed * deltaTime > cameraPositionZ + 10) →
          (updateEnemy env deltaTime e).1 ∈ (updateEnemies env deltaTime g).enemies)
      ∧ (∀ (pre post : List Enemy) (g : Game), g.enemies = pre ++ e :: post →
          ¬ ((e.isHit = true ∧ e.hitTimer - 1000 * deltaTime ≤ 0)
                ∨ e.position.z + e.speed * deltaTime > cameraPositionZ + 10) →
          (updateEnemies env deltaTime g).enemies
            = pre.filterMap (survivor env deltaTime)
                ++ (updateEnemy env deltaTime e).1 :: post.filterMap (survivor env deltaTime)) := by
  have htag : (updateEnemy env deltaTime e).2
      = if e.isHit = true ∧ e.hitTimer - 1000 * deltaTime ≤ 0 then Removal.hitExpired
        else if e.position.z + e.speed * deltaTime > cameraPositionZ + 10 then Removal.passedCamera
        else Removal.keep := by
    rw [updateEnemy_tag, mul_comm 1000 deltaTime]
  have hsurv : survivor env deltaTime e = some (updateEnemy env deltaTime e).1
      ↔ ¬ ((e.isHit = true ∧ e.hitTimer - 1000 * deltaTime ≤ 0)
            ∨ e.position.z + e.speed * deltaTime > cameraPositionZ + 10) := by
    unfold survivor
    rw [htag]
    by_cases h1 : e.isHit = true ∧ e.hitTimer - 1000 * deltaTime ≤ 0
    · rw [if_pos h1, if_neg (by decide)]
      exact ⟨fun h => Option.noConfusion h, fun h => absurd (Or.inl h1) h⟩
    · rw [if_neg h1]
      by_cases h2 : e.position.z + e.speed * deltaTime > cameraPositionZ + 10
      · rw [if_pos h2, if_neg (by decide)]
        exact ⟨fun h => Option.noConfusion h, fun h => absurd (Or.inr h2) h⟩
      · rw [if_neg h2, if_pos rfl]
        refine ⟨fun _ h => ?_, fun _ => rfl⟩
        rcases h with h | h
        · exact h1 h
        · exact h2 h
  refine ⟨?_, ?_, fun g => updateEnemies_enemies env deltaTime g, hsurv, ?_, ?_⟩
  · intro ht
    obtain ⟨h1, h2, -, h4, h5⟩ := updateEnemy_suspended env deltaTime e hsp (by rw [mul_comm]; exact ht)
    exact ⟨h1, h4, h2, h5⟩
  · intro ht
    obtain ⟨h1, h2, -, h4, -⟩ := updateEnemy_sine_step env deltaTime e hs
      (Or.inr (by rw [mul_comm]; exact ht))
    exact ⟨h4, h1, h2⟩
  · intro g hmem hkeep
    rw [updateEnemies_enemies, List.mem_filterMap]
    exact ⟨e, hmem, hsurv.mpr hkeep⟩
  · intro pre post g hg hkeep
    rw [updateEnemies_enemies, hg, List.filterMap_append, List.filterMap_cons, hsurv.mpr hkeep]

/-- A DODGER with the whole 200 ms flash ahead, alone in the roster, in a frame of 1/60 s:
after `updateEnemies` the roster holds it, still Spawning at `x = 3` with `sineWaveTime` 0,
moved from depth -90 to -90 + 5/60. -/
theorem sine_suspended_while_spawning_witness :
    ((updateEnemy exampleEnv (1 / 60) spawningDodger).1.isSpawning = true
      ∧ (updateEnemy exampleEnv (1 / 60) spawningDodger).1.position.x = 3
      ∧ (updateEnemy exampleEnv (1 / 60) spawningDodger).1.sineWaveTime = 0
      ∧ (updateEnemy exampleEnv (1 / 60) spawningDodger).1.position.z = -90 + 5 * (1 / 60))
      ∧ (updateEnemies exampleEnv (1 / 60) spawningDodgerGame).enemies
          = [(updateEnemy exampleEnv (1 / 60) spawningDodger).1]
      ∧ (updateEnemies exampleEnv (1 / 60) spawningDodgerGame).enemies.map
            (fun a => (a.isSpawning, a.position.x, a.sineWaveTime, a.position.z))
          = [(true, 3, 0, -90 + 5 * (1 / 60))] :=
  ⟨(sine_suspended_while_spawning exampleEnv (1 / 60) spawningDodger rfl rfl).1
      (by norm_num [spawningDodger, enemySpawnFlashDuration]),
   (sine_suspended_while_spawning exampleEnv (1 / 60) spawningDodger rfl rfl).2.2.2.2.2
      [] [] spawningDodgerGame rfl (by decide!),
   by decide!⟩

/-! ## What a restart releases (C8) -/

theorem evenEntries_subset : ∀ (l : List Nat) (x : Nat), x ∈ evenEntries l → x ∈ l
  | [], _, h => h
  | [_], _, h => h
  | a :: b :: t, x, h => by
    rcases List.mem_cons.mp h with h1 | h1
    · rw [h1]; exact List.mem_cons_self _ _
    · exact List.mem_cons_of_mem _ (List.mem_cons_of_mem _ (evenEntries_subset t x h1))

theorem getElem?_evenEntries : ∀ (l : List Nat) (j : Nat), (evenEntries l)[j]? = l[2 * j]?
  | [], j => by simp [evenEntries]
  | [a], j => by
    cases j with
    | zero => simp [evenEntries]
    | succ j =>
      have : 2 * (j + 1) = (2 * j + 1) + 1 := by ring
      simp [evenEntries, this]
  | a :: b :: t, j => by
    cases j with
    | zero => simp [evenEntries]
    | succ j =>
      have : 2 * (j + 1) = (2 * j + 1) + 1 := by ring
      rw [this]
      simp only [evenEntries, List.getElem?_cons_succ]
      exact getElem?_evenEntries t j

theorem mem_evenEntries_iff_of_nodup (l : List Nat) (hnd : l.Nodup) (i b : Nat)
    (hi : l[i]? = some b) : b ∈ evenEntries l ↔ i % 2 = 0 := by
  constructor
  · intro hmem
    obtain ⟨j, hj⟩ := List.mem_iff_getElem?.mp hmem
    rw [getElem?_evenEntries] at hj
    have hlt1 : i < l.length := (List.getElem?_eq_some_iff.mp hi).1
    have hlt2 : 2 * j < l.length := (List.getElem?_eq_some_iff.mp hj).1
    have h1 : l[i] = b := (List.getElem?_eq_some_iff.mp hi).2
    have h2 : l[2 * j] = b := (List.getElem?_eq_some_iff.mp hj).2
    have : i = 2 * j := (List.Nodup.getElem_inj_iff hnd).mp (h1.trans h2.symm)
    omega
  · intro hpar
    have hj : (evenEntries l)[i / 2]? = some b := by
      rw [getElem?_evenEntries]
      have : 2 * (i / 2) = i := by omega
      rw [this]; exact hi
    exact List.mem_iff_getElem?.mpr ⟨i / 2, hj⟩

theorem forEachActiveBullet_of_ge :
    ∀ (n k : Nat) (g : Game), g.activeBullets.length ≤ k → forEachActiveBullet n k g = g := by
  intro n
  induction n with
  | zero => intro k g _; rfl
  | succ n ih =>
    intro k g h
    have hnone : g.activeBullets[k]? = none := List.getElem?_eq_none h
    simp only [forEachActiveBullet, hnone]
    exact ih (k + 1) g (by omega)

theorem forEachActiveBullet_spec :
    ∀ (n : Nat) (pre rest : List Nat) (g : Game), g.activeBullets = pre ++ rest →
      (pre ++ rest).Nodup → rest.length ≤ n →
      (forEachActiveBullet n pre.length g).activeBullets = pre ++ oddEntries rest
        ∧ (forEachActiveBullet n pre.length g).bulletPool = g.bulletPool ++ evenEntries rest
        ∧ ∀ x, (forEachActiveBullet n pre.length g).bullets x
            = if x ∈ evenEntries rest then releasedBullet (g.bullets x) else g.bullets x := by
  intro n
  induction n with
  | zero =>
    intro pre rest g h _ hn
    have hr : rest = [] := List.length_eq_zero.mp (Nat.le_zero.mp hn)
    subst hr
    refine ⟨by simpa [forEachActiveBullet, oddEntries] using h, by simp [forEachActiveBullet, evenEntries],
      fun x => by simp [forEachActiveBullet, evenEntries]⟩
  | succ n ih =>
    intro pre rest g h hnd hn
    match rest, h, hnd, hn with
    | [], h, _, _ =>
      rw [forEachActiveBullet_of_ge (n + 1) pre.length g (by rw [h]; simp)]
      exact ⟨by simpa [oddEntries] using h, by simp [evenEntries], fun x => by simp [evenEntries]⟩
    | [a], h, hnd, _ =>
      have hget : g.activeBullets[pre.length]? = some a := by
        rw [h, List.getElem?_append_right (le_refl _)]
        simp
      have ha : a ∉ pre := fun hm =>
        (List.nodup_append.mp hnd).2.2 hm (List.mem_singleton_self a)
      have hact : (returnBulletToPool a g).activeBullets = pre := by
        show g.activeBullets.erase a = _
        rw [h, List.erase_append_right _ ha]
        simp
      simp only [forEachActiveBullet, hget]
      rw [forEachActiveBullet_of_ge n (pre.length + 1) _ (by rw [hact]; omega)]
      refine ⟨by rw [hact]; simp [oddEntries], rfl, ?_⟩
      intro x
      show Function.update g.bullets a _ x = _
      by_cases hx : x = a
      · subst hx
        simp [evenEntries, releasedBullet]
      · rw [Function.update_noteq hx]
        simp [evenEntries, hx]
    | a :: b :: t, h, hnd, hn =>
      have hget : g.activeBullets[pre.length]? = some a := by
        rw [h, List.getElem?_append_right (le_refl _)]
        simp
      have ha : a ∉ pre := fun hm =>
        (List.nodup_append.mp hnd).2.2 hm (List.mem_cons_self a _)
      have hat : a ∉ t := by
        have h1 := (List.nodup_append.mp hnd).2.1
        have h2 := (List.nodup_cons.mp h1).1
        exact fun hm => h2 (List.mem_cons_of_mem _ hm)
      have hact : (returnBulletToPool a g).activeBullets = (pre ++ [b]) ++ t := by
        show g.activeBullets.erase a = _
        rw [h, List.erase_append_right _ ha]
        simp
      have hnd1 : ((pre ++ [b]) ++ t).Nodup := by
        have hsub : List.Sublist ((pre ++ [b]) ++ t) (pre ++ a :: b :: t) := by
          rw [List.append_assoc]
          exact List.Sublist.append_left (List.sublist_cons_self a (b :: t)) pre
        exact hnd.sublist hsub
      have hlen : (pre ++ [b]).length = pre.length + 1 := by simp
      obtain ⟨i1, i2, i3⟩ := ih (pre ++ [b]) t (returnBulletToPool a g) hact hnd1
        (by simp only [List.length_cons] at hn; omega)
      rw [hlen] at i1 i2 i3
      simp only [forEachActiveBullet, hget]
      refine ⟨?_, ?_, ?_⟩
      · rw [i1]
        simp [oddEntries]
      · rw [i2]
        show g.bulletPool ++ [a] ++ evenEntries t = _
        simp [evenEntries]
      · intro x
        rw [i3 x]
        have hrel : (returnBulletToPool a g).bullets
            = Function.update g.bullets a (releasedBullet (g.bullets a)) := rfl
        rw [hrel]
        by_cases hx : x = a
        · subst hx
          have hne : x ∉ evenEntries t := fun hm => hat (evenEntries_subset t x hm)
          rw [if_neg hne, Function.update_same]
          simp [evenEntries]
        · rw [Function.update_noteq hx]
          simp [evenEntries, hx]

theorem forEachActiveExplosion_of_ge :
    ∀ (n k : Nat) (g : Game), g.activeExplosions.length ≤ k → forEachActiveExplosion n k g = g := by
  intro n
  induction n with
  | zero => intro k g _; rfl
  | succ n ih =>
    intro k g h
    have hnone : g.activeExplosions[k]? = none := List.getElem?_eq_none h
    simp only [forEachActiveExplosion, hnone]
    exact ih (k + 1) g (by omega)

theorem forEachActiveExplosion_spec :
    ∀ (n : Nat) (pre rest : List Nat) (g : Game), g.activeExplosions = pre ++ rest →
      (pre ++ rest).Nodup → rest.length ≤ n →
      (forEachActiveExplosion n pre.length g).activeExplosions = pre ++ oddEntries rest
        ∧ ∀ x, (forEachActiveExplosion n pre.length g).explosions x
            = if x ∈ evenEntries rest then releasedExplosion (g.explosions x)
              else g.explosions x := by
  intro n
  induction n with
  | zero =>
    intro pre rest g h _ hn
    have hr : rest = [] := List.length_eq_zero.mp (Nat.le_zero.mp hn)
    subst hr
    exact ⟨by simpa [forEachActiveExplosion, oddEntries] using h,
      fun x => by simp [forEachActiveExplosion, evenEntries]⟩
  | succ n ih =>
    intro pre rest g h hnd hn
    match rest, h, hnd, hn with
    | [], h, _, _ =>
      rw [forEachActiveExplosion_of_ge (n + 1) pre.length g (by rw [h]; simp)]
      exact ⟨by simpa [oddEntries] using h, fun x => by simp [evenEntries]⟩
    | [a], h, hnd, _ =>
      have hget : g.activeExplosions[pre.length]? = some a := by
        rw [h, List.getElem?_append_right (le_refl _)]
        simp
      have ha : a ∉ pre := fun hm =>
        (List.nodup_append.mp hnd).2.2 hm (List.mem_singleton_self a)
      have hact : (returnExplosionToPool a g).activeExplosions = pre := by
        show g.activeExplosions.erase a = _
        rw [h, List.erase_append_right _ ha]
        simp
      simp only [forEachActiveExplosion, hget]
      rw [forEachActiveExplosion_of_ge n (pre.length + 1) _ (by rw [hact]; omega)]
      refine ⟨by rw [hact]; simp [oddEntries], ?_⟩
      intro x
      show Function.update g.explosions a _ x = _
      by_cases hx : x = a
      · subst hx
        simp [evenEntries, releasedExplosion]
      · rw [Function.update_noteq hx]
        simp [evenEntries, hx]
    | a :: b :: t, h, hnd, hn =>
      have hget : g.activeExplosions[pre.length]? = some a := by
        rw [h, List.getElem?_append_right (le_refl _)]
        simp
      have ha : a ∉ pre := fun hm =>
        (List.nodup_append.mp hnd).2.2 hm (List.mem_cons_self a _)
      have hat : a ∉ t := by
        have h1 := (List.nodup_append.mp hnd).2.1
        have h2 := (List.nodup_cons.mp h1).1
        exact fun hm => h2 (List.mem_cons_of_mem _ hm)
      have hact : (returnExplosionToPool a g).activeExplosions = (pre ++ [b]) ++ t := by
        show g.activeExplosions.erase a = _
        rw [h, List.erase_append_right _ ha]
        simp
      have hnd1 : ((pre ++ [b]) ++ t).Nodup := by
        have hsub : List.Sublist ((pre ++ [b]) ++ t) (pre ++ a :: b :: t) := by
          rw [List.append_assoc]
          exact List.Sublist.append_left (List.sublist_cons_self a (b :: t)) pre
        exact hnd.sublist hsub
      have hlen : (pre ++ [b]).length = pre.length + 1 := by simp
      obtain ⟨i1, i3⟩ := ih (pre ++ [b]) t (returnExplosionToPool a g) hact hnd1
        (by simp only [List.length_cons] at hn; omega)
      rw [hlen] at i1 i3
      simp only [forEachActiveExplosion, hget]
      refine ⟨?_, ?_⟩
      · rw [i1]
        simp [oddEntries]
      · intro x
        rw [i3 x]
        have hrel : (returnExplosionToPool a g).explosions
            = Function.update g.explosions a (releasedExplosion (g.explosions a)) := rfl
        rw [hrel]
        by_cases hx : x = a
        · subst hx
          have hne : x ∉ evenEntries t := fun hm => hat (evenEntries_subset t x hm)
          rw [if_neg hne, Function.update_same]
          simp [evenEntries]
        · rw [Function.update_noteq hx]
          simp [evenEntries, hx]

theorem forEachActiveBullet_explosionFields (n k : Nat) (g : Game) :
    (forEachActiveBullet n k g).activeExplosions = g.activeExplosions
      ∧ (forEachActiveBullet n k g).explosions = g.explosions := by
  rw [forEachActiveBullet_frame]
  exact ⟨rfl, rfl⟩

theorem forEachActiveExplosion_bullets (n k : Nat) (g : Game) :
    (forEachActiveExplosion n k g).bullets = g.bullets := by
  rw [forEachActiveExplosion_frame]

theorem resetGameObjects_bullets (g : Game) (hnd : g.activeBullets.Nodup) :
    ∀ x, (resetGameObjects g).bullets x
      = if x ∈ evenEntries g.activeBullets then releasedBullet (g.bullets x) else g.bullets x := by
  intro x
  have h := (forEachActiveBullet_spec g.activeBullets.length [] g.activeBullets
    { g with score := 0, lastEnemySpawnTime := 0, lastFireTime := 0,
             keysPressed := fun _ => false } rfl hnd (le_refl _)).2.2 x
  have hr : (resetGameObjects g).bullets
      = (forEachActiveBullet g.activeBullets.length 0
          { g with score := 0, lastEnemySpawnTime := 0, lastFireTime := 0,
                   keysPressed := fun _ => false }).bullets := by
    simp only [resetGameObjects]
    rw [forEachActiveExplosion_bullets]
  rw [hr]
  exact h

theorem resetGameObjects_explosions (g : Game) (hnd : g.activeExplosions.Nodup) :
    ∀ x, (resetGameObjects g).explosions x
      = if x ∈ evenEntries g.activeExplosions then releasedExplosion (g.explosions x)
        else g.explosions x := by
  intro x
  obtain ⟨f1, f2⟩ := forEachActiveBullet_explosionFields g.activeBullets.length 0
    { g with score := 0, lastEnemySpawnTime := 0, lastFireTime := 0,
             keysPressed := fun _ => false }
  have h := (forEachActiveExplosion_spec g.activeExplosions.length [] g.activeExplosions
    (forEachActiveBullet g.activeBullets.length 0
      { g with score := 0, lastEnemySpawnTime := 0, lastFireTime := 0,
               keysPressed := fun _ => false }) f1 hnd (le_refl _)).2 x
  rw [f2] at h
  have hr : (resetGameObjects g).explosions
      = (forEachActiveExplosion g.activeExplosions.length 0
          (forEachActiveBullet g.activeBullets.length 0
            { g with score := 0, lastEnemySpawnTime := 0, lastFireTime := 0,
                     keysPressed := fun _ => false })).explosions := by
    simp only [resetGameObjects]
    rw [f1]
  rw [hr]
  exact h

theorem initializeGame_bullets_of_lt (env : Env) (g : Game) (x : Nat) (hx : x < g.bulletCount) :
    (initializeGame env g).bullets x = (resetGameObjects g).bullets x := by
  obtain ⟨-, -, -, -, -, -, -, -, -, -, -, e12, -⟩ :=
    initializeExplosionPool_spec env (initializeBulletPool (resetGameObjects g))
  obtain ⟨-, -, b3, -⟩ := initializeBulletPool_spec (resetGameObjects g)
  have hc : (resetGameObjects g).bulletCount = g.bulletCount :=
    (resetGameObjects_fields g).2.2.2.2.2.2.2.1
  rw [initializeGame_unfold]
  show (initializeExplosionPool env (initializeBulletPool (resetGameObjects g))).bullets x = _
  rw [e12, b3 x, hc, if_neg (by omega)]

theorem initializeGame_explosions_of_lt (env : Env) (g : Game) (x : Nat)
    (hx : x < g.explosionCount) :
    (initializeGame env g).explosions x = (resetGameObjects g).explosions x := by
  obtain ⟨-, -, e3, -⟩ :=
    initializeExplosionPool_spec env (initializeBulletPool (resetGameObjects g))
  obtain ⟨-, -, -, -, -, -, -, -, -, -, b11, b12, -⟩ := initializeBulletPool_spec (resetGameObjects g)
  have hc : (resetGameObjects g).explosionCount = g.explosionCount :=
    (resetGameObjects_fields g).2.2.2.2.2.2.2.2.1
  rw [initializeGame_unfold]
  show (initializeExplosionPool env (initializeBulletPool (resetGameObjects g))).explosions x = _
  rw [e3 x, b11, hc, if_neg (by omega), b12]

/-- C8, as the code has it.  For rosters without repetition whose entries are created
objects, `initializeGame` releases the bullets at the indices 0, 2, 4, ... of `activeBullets`
and the explosions at the indices 0, 2, 4, ... of `activeExplosions` (`isActive` false,
`visible` false, position `(0, 0, -2 * camera.far)`, the other fields kept) and leaves the
objects at the indices 1, 3, 5, ... exactly as they were: the `forEach` skips them since each
release shortens the array it iterates.  So with at most one entry in a roster every entry
of it is released. -/
theorem restart_releases_even_entries (env : Env) (g : Game)
    (hb : g.activeBullets.Nodup) (he : g.activeExplosions.Nodup)
    (hcb : ∀ b ∈ g.activeBullets, b < g.bulletCount)
    (hce : ∀ e ∈ g.activeExplosions, e < g.explosionCount) :
    (∀ (i b : Nat), g.activeBullets[i]? = some b →
        (i % 2 = 0 → (initializeGame env g).bullets b = releasedBullet (g.bullets b))
          ∧ (i % 2 = 1 → (initializeGame env g).bullets b = g.bullets b))
      ∧ (∀ (i e : Nat), g.activeExplosions[i]? = some e →
        (i % 2 = 0 → (initializeGame env g).explosions e = releasedExplosion (g.explosions e))
          ∧ (i % 2 = 1 → (initializeGame env g).explosions e = g.explosions e))
      ∧ (g.activeBullets.length ≤ 1 → ∀ b ∈ g.activeBullets,
          (initializeGame env g).bullets b = releasedBullet (g.bullets b))
      ∧ (g.activeExplosions.length ≤ 1 → ∀ e ∈ g.activeExplosions,
          (initializeGame env g).explosions e = releasedExplosion (g.explosions e))
      ∧ (∀ bullet : Bullet, (releasedBullet bullet).isActive = false
          ∧ (releasedBullet bullet).visible = false
          ∧ (releasedBullet bullet).position = { x := 0, y := 0, z := -2 * cameraFar })
      ∧ (∀ explosion : Explosion, (releasedExplosion explosion).isActive = false
          ∧ (releasedExplosion explosion).visible = false
          ∧ (releasedExplosion explosion).position = { x := 0, y := 0, z := -2 * cameraFar }) := by
  have hbul : ∀ (i b : Nat), g.activeBullets[i]? = some b →
      (i % 2 = 0 → (initializeGame env g).bullets b = releasedBullet (g.bullets b))
        ∧ (i % 2 = 1 → (initializeGame env g).bullets b = g.bullets b) := by
    intro i b hi
    have hmem : b ∈ g.activeBullets := List.getElem?_mem hi
    have hiff := mem_evenEntries_iff_of_nodup g.activeBullets hb i b hi
    rw [initializeGame_bullets_of_lt env g b (hcb b hmem), resetGameObjects_bullets g hb b]
    constructor
    · intro hpar
      rw [if_pos (hiff.mpr hpar)]
    · intro hpar
      rw [if_neg (fun hm => by have := hiff.mp hm; omega)]
  have hexp : ∀ (i e : Nat), g.activeExplosions[i]? = some e →
      (i % 2 = 0 → (initializeGame env g).explosions e = releasedExplosion (g.explosions e))
        ∧ (i % 2 = 1 → (initializeGame env g).explosions e = g.explosions e) := by
    intro i e hi
    have hmem : e ∈ g.activeExplosions := List.getElem?_mem hi
    have hiff := mem_evenEntries_iff_of_nodup g.activeExplosions he i e hi
    rw [initializeGame_explosions_of_lt env g e (hce e hmem), resetGameObjects_explosions g he e]
    constructor
    · intro hpar
      rw [if_pos (hiff.mpr hpar)]
    · intro hpar
      rw [if_neg (fun hm => by have := hiff.mp hm; omega)]
  have hfar : (-cameraFar * 2 : ℚ) = -2 * cameraFar := by ring
  refine ⟨hbul, hexp, ?_, ?_, ?_, ?_⟩
  · intro hlen b hmem
    obtain ⟨i, hi⟩ := List.mem_iff_getElem?.mp hmem
    have hlt : i < g.activeBullets.length := (List.getElem?_eq_some_iff.mp hi).1
    exact (hbul i b hi).1 (by omega)
  · intro hlen e hmem
    obtain ⟨i, hi⟩ := List.mem_iff_getElem?.mp hmem
    have hlt : i < g.activeExplosions.length := (List.getElem?_eq_some_iff.mp hi).1
    exact (hexp i e hi).1 (by omega)
  · intro bullet
    refine ⟨rfl, rfl, ?_⟩
    show ({ x := 0, y := 0, z := -cameraFar * 2 } : Vec3) = _
    rw [hfar]
  · intro explosion
    refine ⟨rfl, rfl, ?_⟩
    show ({ x := 0, y := 0, z := -cameraFar * 2 } : Vec3) = _
    rw [hfar]

/-- The state `firingGame` has one bullet in flight (object 49): a restart releases it. -/
theorem restart_releases_even_entries_witness :
    firingGame.activeBullets = [49]
      ∧ ((initializeGame exampleEnv firingGame).bullets 49
          = releasedBullet (firingGame.bullets 49))
      ∧ ((initializeGame exampleEnv firingGame).bullets 49).isActive = false
      ∧ ((initializeGame exampleEnv firingGame).bullets 49).visible = false
      ∧ ((initializeGame exampleEnv firingGame).bullets 49).position
          = { x := 0, y := 0, z := -8000 } :=
  ⟨by decide!,
   (restart_releases_even_entries exampleEnv firingGame (by decide!) (by decide!) (by decide!)
      (by decide!)).2.2.1 (by decide!) 49 (by decide!),
   by decide!, by decide!, by decide!⟩

/-! ## Active objects are in their roster (C2) -/

theorem scriptReachable_reachable (env : Env) (g : Game) (h : ScriptReachable env g) :
    Reachable env g := by
  induction h with
  | boot aspect => exact Reachable.boot aspect
  | frame inp g _ ih => exact Reachable.frame inp g ih
  | start g _ ih => exact Reachable.start g ih
  | key k pressed g _ ih => exact Reachable.key k pressed g ih
  | resized aspect g _ ih => exact Reachable.resized aspect g ih

theorem bulletsTracked_of_view {g g' : Game}
    (hv : (g'.activeBullets, g'.bullets) = (g.activeBullets, g.bullets))
    (h : BulletsTracked g) : BulletsTracked g' := by
  simp only [Prod.mk.injEq] at hv
  intro b hb
  rw [hv.1]
  rw [hv.2] at hb
  exact h b hb

theorem explosionsTracked_of_view {g g' : Game}
    (hv : (g'.activeExplosions, g'.explosions) = (g.activeExplosions, g.explosions))
    (h : ExplosionsTracked g) : ExplosionsTracked g' := by
  simp only [Prod.mk.injEq] at hv
  intro b hb
  rw [hv.1]
  rw [hv.2] at hb
  exact h b hb

theorem getBulletFromPool_bulletsTracked (g : Game) (h : BulletsTracked g) :
    BulletsTracked (getBulletFromPool g).2 := by
  by_cases hp : g.bulletPool = []
  · rw [getBulletFromPool_of_empty g hp]
    intro x hx
    show x ∈ g.activeBullets ++ [g.bulletCount]
    by_cases hxe : x = g.bulletCount
    · rw [hxe]; simp
    · have hx' : (Function.update g.bullets g.bulletCount
          { newBullet with visible := true, isActive := true } x).isActive = true := hx
      rw [Function.update_noteq hxe] at hx'
      exact List.mem_append_left _ (h x hx')
  · have hlast := (List.dropLast_append_getLast hp).symm
    rw [getBulletFromPool_of_pool g _ _ hlast]
    intro x hx
    show x ∈ g.activeBullets ++ [g.bulletPool.getLast hp]
    by_cases hxe : x = g.bulletPool.getLast hp
    · rw [hxe]; simp
    · have hx' : (Function.update g.bullets (g.bulletPool.getLast hp)
          { g.bullets (g.bulletPool.getLast hp) with visible := true, isActive := true }
          x).isActive = true := hx
      rw [Function.update_noteq hxe] at hx'
      exact List.mem_append_left _ (h x hx')

theorem returnBulletToPool_bulletsTracked (b : Nat) (g : Game) (h : BulletsTracked g) :
    BulletsTracked (returnBulletToPool b g) := by
  intro x hx
  show x ∈ g.activeBullets.erase b
  have hx' : (Function.update g.bullets b (releasedBullet (g.bullets b)) x).isActive = true := hx
  by_cases hxb : x = b
  · subst hxb
    rw [Function.update_same] at hx'
    cases hx'
  · rw [Function.update_noteq hxb] at hx'
    exact (List.mem_erase_of_ne hxb).mpr (h x hx')

theorem fireBullet_bulletsTracked (now : Int) (g : Game) (h : BulletsTracked g) :
    BulletsTracked (fireBullet now g) := by
  by_cases hr : now - g.lastFireTime < fireRate
  · have : fireBullet now g = g := by unfold fireBullet; rw [if_pos hr]
    rw [this]; exact h
  · obtain ⟨b, -, hfire⟩ := fireBullet_of_ready now g hr
    have hget := getBulletFromPool_bulletsTracked g h
    rw [hfire]
    intro x hx
    show x ∈ (getBulletFromPool g).2.activeBullets
    have hx' : (Function.update (getBulletFromPool g).2.bullets b
        { (getBulletFromPool g).2.bullets b with
          position := { x := g.playerShip.position.x, y := g.playerShip.position.y,
                        z := g.playerShip.position.z - 8 / 10 } } x).isActive = true := hx
    by_cases hxb : x = b
    · subst hxb
      rw [Function.update_same] at hx'
      exact hget x hx'
    · rw [Function.update_noteq hxb] at hx'
      exact hget x hx'

theorem updateBullets_bulletsTracked (env : Env) (deltaTime : ℚ) (g : Game)
    (hnd : g.activeBullets.Nodup) (h : BulletsTracked g) :
    BulletsTracked (updateBullets env deltaTime g) := by
  obtain ⟨s1, -, s3⟩ := updateBullets_spec env deltaTime g hnd
  intro x hx
  rw [s1]
  rw [s3 x] at hx
  by_cases hm : x ∈ g.activeBullets
  · rw [if_pos hm] at hx
    exact List.mem_filter.mpr ⟨hm, bulletStep_isActive env deltaTime _ hx⟩
  · rw [if_neg hm] at hx
    exact absurd (h x hx) hm

theorem checkCollisions_bulletsTracked (env : Env) (g : Game) (hnd : g.activeBullets.Nodup)
    (h : BulletsTracked g) : BulletsTracked (checkCollisions env g) := by
  obtain ⟨-, -, c3, -⟩ := bulletPassLoop_consumed env g.activeBullets.length g [] hnd
  intro x hx
  rw [checkCollisions_proj Game.activeBullets (fun _ _ _ _ _ => rfl) env g]
  rw [checkCollisions_bullets] at hx
  rcases c3 x with h1 | h1
  · have h2 : (bulletPass env g).1.bullets x = g.bullets x := h1
    rw [h2] at hx; exact h x hx
  · have h2 : (bulletPass env g).1.bullets x = { g.bullets x with isActive := false } := h1
    rw [h2] at hx
    cases hx

theorem getExplosionFromPool_explosionsTracked (env : Env) (g : Game) (h : ExplosionsTracked g) :
    ExplosionsTracked (getExplosionFromPool env g).2 := by
  by_cases hp : g.explosionPool = []
  · by_cases hlt : g.activeExplosions.length < maxExplosions
    · rw [getExplosionFromPool_of_empty env g hp hlt]
      intro x hx
      show x ∈ g.activeExplosions ++ [g.explosionCount]
      by_cases hxe : x = g.explosionCount
      · rw [hxe]; simp
      · have hx' : (Function.update g.explosions g.explosionCount _ x).isActive = true := hx
        rw [Function.update_noteq hxe] at hx'
        exact List.mem_append_left _ (h x hx')
    · rw [getExplosionFromPool_of_full env g hp (Nat.le_of_not_lt hlt)]
      exact h
  · have hlast := (List.dropLast_append_getLast hp).symm
    rw [getExplosionFromPool_of_pool env g _ _ hlast]
    intro x hx
    show x ∈ g.activeExplosions ++ [g.explosionPool.getLast hp]
    by_cases hxe : x = g.explosionPool.getLast hp
    · rw [hxe]; simp
    · have hx' : (Function.update g.explosions (g.explosionPool.getLast hp) _ x).isActive
          = true := hx
      rw [Function.update_noteq hxe] at hx'
      exact List.mem_append_left _ (h x hx')

theorem returnExplosionToPool_explosionsTracked (e : Nat) (g : Game) (h : ExplosionsTracked g) :
    ExplosionsTracked (returnExplosionToPool e g) := by
  intro x hx
  show x ∈ g.activeExplosions.erase e
  have hx' : (Function.update g.explosions e (releasedExplosion (g.explosions e)) x).isActive
      = true := hx
  by_cases hxb : x = e
  · subst hxb
    rw [Function.update_same] at hx'
    cases hx'
  · rw [Function.update_noteq hxb] at hx'
    exact (List.mem_erase_of_ne hxb).mpr (h x hx')

theorem triggerExplosion_explosionsTracked (env : Env) (position : Vec3) (g : Game)
    (h : ExplosionsTracked g) : ExplosionsTracked (triggerExplosion env position g) := by
  have hget := getExplosionFromPool_explosionsTracked env g h
  unfold triggerExplosion
  rcases hr : getExplosionFromPool env g with ⟨o, g1⟩
  rw [hr] at hget
  cases o with
  | none => exact hget
  | some e =>
    intro x hx
    show x ∈ g1.activeExplosions
    have hx' : (Function.update g1.explosions e { g1.explosions e with position := position }
        x).isActive = true := hx
    by_cases hxe : x = e
    · subst hxe
      rw [Function.update_same] at hx'
      exact hget x hx'
    · rw [Function.update_noteq hxe] at hx'
      exact hget x hx'

theorem foldl_triggerExplosion_explosionsTracked (env : Env) :
    ∀ (ps : List Vec3) (g : Game), ExplosionsTracked g →
      ExplosionsTracked (ps.foldl (fun s p => triggerExplosion env p s) g) := by
  intro ps
  induction ps with
  | nil => intro g h; exact h
  | cons p ps ih =>
    intro g h
    rw [List.foldl_cons]
    exact ih _ (triggerExplosion_explosionsTracked env p g h)

theorem updateEnemies_explosionsTracked (env : Env) (deltaTime : ℚ) (g : Game)
    (h : ExplosionsTracked g) : ExplosionsTracked (updateEnemies env deltaTime g) := by
  rw [updateEnemies_state]
  exact explosionsTracked_of_view rfl (foldl_triggerExplosion_explosionsTracked env _ g h)

theorem updateExplosions_explosionsTracked (deltaTime : ℚ) (g : Game)
    (hnd : g.activeExplosions.Nodup)
    (hcap : g.explosionPool.length + g.activeExplosions.length ≤ maxExplosions)
    (h : ExplosionsTracked g) : ExplosionsTracked (updateExplosions deltaTime g) := by
  obtain ⟨s1, -, s3⟩ := updateExplosions_spec deltaTime g hnd hcap
  intro x hx
  rw [s1]
  rw [s3 x] at hx
  by_cases hm : x ∈ g.activeExplosions
  · rw [if_pos hm] at hx
    exact List.mem_filter.mpr ⟨hm, explosionStep_isActive deltaTime _ hx⟩
  · rw [if_neg hm] at hx
    exact absurd (h x hx) hm

/-! ### Through a frame and over the states of the script -/

theorem tracked_of_views {g g' : Game}
    (hb : (g'.bulletPool, g'.activeBullets, g'.bulletCount, g'.bullets)
        = (g.bulletPool, g.activeBullets, g.bulletCount, g.bullets))
    (he : (g'.explosionPool, g'.activeExplosions, g'.explosionCount, g'.explosions)
        = (g.explosionPool, g.activeExplosions, g.explosionCount, g.explosions))
    (h : Tracked g) : Tracked g' := by
  refine ⟨poolsOk_of_views hb he h.1, bulletsTracked_of_view ?_ h.2.1,
    explosionsTracked_of_view ?_ h.2.2⟩
  · simp only [Prod.mk.injEq] at hb ⊢
    exact ⟨hb.2.1, hb.2.2.2⟩
  · simp only [Prod.mk.injEq] at he ⊢
    exact ⟨he.2.1, he.2.2.2⟩

theorem fireBullet_tracked (now : Int) (g : Game) (h : Tracked g) : Tracked (fireBullet now g) :=
  ⟨fireBullet_poolsOk now g h.1, fireBullet_bulletsTracked now g h.2.1,
   explosionsTracked_of_view
    (fireBullet_proj (fun x => (x.activeExplosions, x.explosions)) (fun _ _ _ _ _ _ => rfl) now g)
    h.2.2⟩

theorem afterFire_tracked (inp : FrameInput) (g : Game) (h : Tracked g) :
    Tracked (afterFire inp g) := by
  unfold afterFire
  split_ifs
  · exact fireBullet_tracked _ g h
  · exact h

theorem updatePlayer_tracked (env : Env) (deltaTime : ℚ) (g : Game) (h : Tracked g) :
    Tracked (updatePlayer env deltaTime g) :=
  tracked_of_views rfl rfl h

theorem updateBullets_tracked (env : Env) (deltaTime : ℚ) (g : Game) (h : Tracked g) :
    Tracked (updateBullets env deltaTime g) :=
  ⟨updateBullets_poolsOk env deltaTime g h.1,
   updateBullets_bulletsTracked env deltaTime g (noDuplicates_of_poolSplit h.1.1.1).2.1 h.2.1,
   explosionsTracked_of_view
    (updateBullets_proj (fun x => (x.activeExplosions, x.explosions)) (fun _ _ _ _ => rfl)
      env deltaTime g) h.2.2⟩

theorem spawnEnemy_tracked (env : Env) (now : Int) (r : SpawnDraws) (g : Game) (h : Tracked g) :
    Tracked (spawnEnemy env now r g) :=
  tracked_of_views
    (spawnEnemy_proj (fun x => (x.bulletPool, x.activeBullets, x.bulletCount, x.bullets))
      (fun _ _ _ => rfl) env now r g)
    (spawnEnemy_proj (fun x => (x.explosionPool, x.activeExplosions, x.explosionCount, x.explosions))
      (fun _ _ _ => rfl) env now r g) h

theorem updateEnemies_tracked (env : Env) (deltaTime : ℚ) (g : Game) (h : Tracked g) :
    Tracked (updateEnemies env deltaTime g) :=
  ⟨updateEnemies_poolsOk env deltaTime g h.1,
   bulletsTracked_of_view
    (updateEnemies_proj (fun x => (x.activeBullets, x.bullets)) (fun _ _ _ _ _ _ => rfl)
      env deltaTime g) h.2.1,
   updateEnemies_explosionsTracked env deltaTime g h.2.2⟩

theorem updateExplosions_tracked (deltaTime : ℚ) (g : Game) (h : Tracked g) :
    Tracked (updateExplosions deltaTime g) :=
  ⟨updateExplosions_poolsOk deltaTime g h.1,
   bulletsTracked_of_view
    (updateExplosions_proj (fun x => (x.activeBullets, x.bullets)) (fun _ _ _ _ => rfl)
      deltaTime g) h.2.1,
   updateExplosions_explosionsTracked deltaTime g (noDuplicates_of_poolSplit h.1.2.1.1).2.1
    h.1.2.2 h.2.2⟩

theorem checkCollisions_tracked (env : Env) (g : Game) (h : Tracked g) :
    Tracked (checkCollisions env g) :=
  ⟨checkCollisions_poolsOk env g h.1,
   checkCollisions_bulletsTracked env g (noDuplicates_of_poolSplit h.1.1.1).2.1 h.2.1,
   explosionsTracked_of_view
    (checkCollisions_proj (fun x => (x.activeExplosions, x.explosions)) (fun _ _ _ _ _ => rfl)
      env g) h.2.2⟩

theorem frameStates_tracked (env : Env) (inp : FrameInput) (g : Game) (h : Tracked g) :
    ∀ s ∈ frameStates env inp g, Tracked s := by
  have h1 := afterFire_tracked inp g h
  have h2 := updatePlayer_tracked env inp.deltaTime _ h1
  have h3 := updateBullets_tracked env inp.deltaTime _ h2
  have h4 := spawnEnemy_tracked env inp.spawnNow inp.draws _ h3
  have h5 := updateEnemies_tracked env inp.deltaTime _ h4
  have h6 := updateExplosions_tracked inp.deltaTime _ h5
  have h7 := checkCollisions_tracked env _ h6
  intro s hs
  simp only [frameStates, List.mem_cons, List.mem_singleton, List.not_mem_nil, or_false] at hs
  rcases hs with rfl | rfl | rfl | rfl | rfl | rfl | rfl
  · exact h1
  · exact h2
  · exact h3
  · exact h4
  · exact h5
  · exact h6
  · exact h7

theorem animate_tracked (env : Env) (inp : FrameInput) (g : Game) (h : Tracked g) :
    Tracked (animate env inp g) := by
  by_cases hp : g.gameState = GameState.playing
  · have hmem : animate env inp g ∈ frameStates env inp g := by
      simp [frameStates, animate, hp, afterFire]
    exact frameStates_tracked env inp g h _ hmem
  · rw [animate_of_not_playing env inp g hp]; exact h

theorem boot_tracked (env : Env) (aspect : ℚ) :
    Tracked (initializeGame env (moduleState aspect)) := by
  obtain ⟨-, -, e3, -, -, -, -, -, -, -, -, e12, -⟩ :=
    initializeExplosionPool_spec env (initializeBulletPool (resetGameObjects (moduleState aspect)))
  obtain ⟨-, -, b3, -, -, -, -, -, -, -, -, b12, -⟩ :=
    initializeBulletPool_spec (resetGameObjects (moduleState aspect))
  have rb := resetGameObjects_bullets (moduleState aspect) List.nodup_nil
  have re := resetGameObjects_explosions (moduleState aspect) List.nodup_nil
  refine ⟨initializeGame_poolsOk env _, ?_, ?_⟩
  · intro x hx
    rw [initializeGame_unfold] at hx
    have hx' : ((initializeExplosionPool env
        (initializeBulletPool (resetGameObjects (moduleState aspect)))).bullets x).isActive
          = true := hx
    rw [e12, b3 x] at hx'
    by_cases hc : (resetGameObjects (moduleState aspect)).bulletCount ≤ x
        ∧ x < (resetGameObjects (moduleState aspect)).bulletCount + initialPoolSize
    · rw [if_pos hc] at hx'
      cases hx'
    · rw [if_neg hc, rb x] at hx'
      simp [evenEntries, moduleState, newBullet] at hx'
  · intro x hx
    rw [initializeGame_unfold] at hx
    have hx' : ((initializeExplosionPool env
        (initializeBulletPool (resetGameObjects (moduleState aspect)))).explosions x).isActive
          = true := hx
    rw [e3 x] at hx'
    by_cases hc : (initializeBulletPool (resetGameObjects (moduleState aspect))).explosionCount ≤ x
        ∧ x < (initializeBulletPool (resetGameObjects (moduleState aspect))).explosionCount
              + maxExplosions / 2
    · rw [if_pos hc] at hx'
      cases hx'
    · rw [if_neg hc, b12, re x] at hx'
      simp [evenEntries, moduleState] at hx'

theorem scriptReachable_tracked (env : Env) (g : Game) (h : ScriptReachable env g) :
    Tracked g := by
  induction h with
  | boot aspect => exact boot_tracked env aspect
  | frame inp g _ ih => exact animate_tracked env inp g ih
  | start g _ ih =>
    unfold clickStart
    split_ifs
    · exact tracked_of_views rfl rfl ih
    · exact ih
  | key k pressed g _ ih => exact tracked_of_views rfl rfl ih
  | resized aspect g _ ih => exact tracked_of_views rfl rfl ih

theorem getBulletFromPool_tracked (g : Game) (h : Tracked g) : Tracked (getBulletFromPool g).2 := by
  refine ⟨getBulletFromPool_poolsOk g h.1, getBulletFromPool_bulletsTracked g h.2.1,
    explosionsTracked_of_view ?_ h.2.2⟩
  rw [getBulletFromPool_frame]

theorem getExplosionFromPool_tracked (env : Env) (g : Game) (h : Tracked g) :
    Tracked (getExplosionFromPool env g).2 := by
  refine ⟨getExplosionFromPool_poolsOk env g h.1, bulletsTracked_of_view ?_ h.2.1,
    getExplosionFromPool_explosionsTracked env g h.2.2⟩
  rw [getExplosionFromPool_frame]

theorem returnBulletToPool_tracked (b : Nat) (g : Game) (h : Tracked g) (hb : b ∈ g.activeBullets) :
    Tracked (returnBulletToPool b g) :=
  ⟨returnBulletToPool_poolsOk b g h.1 hb, returnBulletToPool_bulletsTracked b g h.2.1,
   explosionsTracked_of_view rfl h.2.2⟩

theorem returnExplosionToPool_tracked (e : Nat) (g : Game) (h : Tracked g)
    (he : e ∈ g.activeExplosions) : Tracked (returnExplosionToPool e g) :=
  ⟨returnExplosionToPool_poolsOk e g h.1 he, bulletsTracked_of_view rfl h.2.1,
   returnExplosionToPool_explosionsTracked e g h.2.2⟩

theorem activeInRoster_of_tracked {g : Game} (h : Tracked g) :
    ActiveInRoster g ∧ PooledInactive g := by
  have hp := pooledInactive_of_poolsOk h.1
  refine ⟨⟨fun b hb => ⟨h.2.1 b hb, fun hm => ?_⟩, fun e he => ⟨h.2.2 e he, fun hm => ?_⟩⟩, hp⟩
  · rw [(hp.1 b hm).1] at hb
    cases hb
  · rw [(hp.2 e hm).1] at he
    cases he

theorem hitGame_scriptReachable : ScriptReachable exampleEnv hitGame :=
  ScriptReachable.frame _ _ (ScriptReachable.frame _ _
    (ScriptReachable.start _ (ScriptReachable.key _ _ _ (ScriptReachable.boot _))))

/-- C2, as the code has it (one direction of the equivalence).  In every state the script
reaches (`initializeGame` once at load, then frames and page events), in the state after
each step of a frame started there, and right after any acquire or release made in such a
state (a release being made for an entry of the roster): every bullet and every explosion
with `isActive` true is in its active roster and not in its pool, and every pooled one has
`isActive` false and is not in its roster.  The part on pooled objects holds as well in
the states reached through further calls of `initializeGame`. -/
theorem active_objects_in_roster (env : Env) (g : Game) (h : ScriptReachable env g) :
    (ActiveInRoster g ∧ PooledInactive g)
      ∧ (∀ (inp : FrameInput), ∀ s ∈ g :: frameStates env inp g,
          (ActiveInRoster s ∧ PooledInactive s)
            ∧ (ActiveInRoster (getBulletFromPool s).2 ∧ PooledInactive (getBulletFromPool s).2)
            ∧ (ActiveInRoster (getExplosionFromPool env s).2
                ∧ PooledInactive (getExplosionFromPool env s).2)
            ∧ (∀ b ∈ s.activeBullets,
                ActiveInRoster (returnBulletToPool b s) ∧ PooledInactive (returnBulletToPool b s))
            ∧ (∀ e ∈ s.activeExplosions,
                ActiveInRoster (returnExplosionToPool e s)
                  ∧ PooledInactive (returnExplosionToPool e s)))
      ∧ (∀ g' : Game, Reachable env g' →
          PooledInactive g' ∧ ∀ (inp : FrameInput), ∀ s ∈ frameStates env inp g',
            PooledInactive s) := by
  have hg := scriptReachable_tracked env g h
  refine ⟨activeInRoster_of_tracked hg, ?_, ?_⟩
  · intro inp s hs
    have hs' : Tracked s := by
      rcases List.mem_cons.mp hs with rfl | h1
      · exact hg
      · exact frameStates_tracked env inp g hg s h1
    exact ⟨activeInRoster_of_tracked hs',
      activeInRoster_of_tracked (getBulletFromPool_tracked s hs'),
      activeInRoster_of_tracked (getExplosionFromPool_tracked env s hs'),
      fun b hb => activeInRoster_of_tracked (returnBulletToPool_tracked b s hs' hb),
      fun e he => activeInRoster_of_tracked (returnExplosionToPool_tracked e s hs' he)⟩
  · intro g' hr
    have hp := reachable_poolsOk env g' hr
    exact ⟨pooledInactive_of_poolsOk hp,
      fun inp s hs => pooledInactive_of_poolsOk (frameStates_poolsOk env inp g' hp s hs)⟩

/-- The state `hitGame` is reached by the script (load, space bar, start, two frames): its
active bullet 49 is in the roster and not pooled, and all its pooled objects are inactive. -/
theorem active_objects_in_roster_witness :
    ScriptReachable exampleEnv hitGame
      ∧ (ActiveInRoster hitGame ∧ PooledInactive hitGame)
      ∧ (hitGame.bullets 49).isActive = true
      ∧ 49 ∈ hitGame.activeBullets ∧ 49 ∉ hitGame.bulletPool :=
  ⟨hitGame_scriptReachable,
   (active_objects_in_roster exampleEnv hitGame hitGame_scriptReachable).1,
   by decide!, by decide!, by decide!⟩

/-- The converse fails.  In the state `hitGame`, which the script reaches, bullet 48 has hit
an enemy in `checkCollisions`; right after the acquire of the next shot
(`getBulletFromPool`, which returns bullet 47) it is in `activeBullets` and not in
`bulletPool`, with `isActive` false. -/
theorem inactive_bullet_still_in_roster :
    ScriptReachable exampleEnv hitGame
      ∧ (getBulletFromPool hitGame).1 = some 47
      ∧ 48 ∈ (getBulletFromPool hitGame).2.activeBullets
      ∧ 48 ∉ (getBulletFromPool hitGame).2.bulletPool
      ∧ ((getBulletFromPool hitGame).2.bullets 48).isActive = false
      ∧ ¬ (((getBulletFromPool hitGame).2.bullets 48).isActive = true
            ↔ (48 ∈ (getBulletFromPool hitGame).2.activeBullets
                ∧ 48 ∉ (getBulletFromPool hitGame).2.bulletPool)) := by
  refine ⟨hitGame_scriptReachable, by decide!, by decide!, by decide!, by decide!, by decide!⟩

end SpaceShooter
